import Mathlib

/-!
# OSTree: object store, pull engine and static deltas

A shallow embedding of the parts of `libostree` that the specification talks
about, followed by theorems about them.  Source files embedded:

* `src/libostree/ostree-repo.c` (loose-object lookup, parent chain),
* `src/libostree/ostree-repo-pull.c` (the pull engine),
* `src/libostree/ostree-repo-static-delta-compilation.c` and
  `src/libostree/ostree-repo-static-delta-core.c` (static deltas).

Conventions.  C functions returning `gboolean` with a `GError **` become
functions returning `Except GError _` (or a pair of the mutated state and an
optional error when the C code mutates `pull_data` before failing).  `guint`
fields are natural numbers reduced modulo `2 ^ 32` at every update.  Hash
tables used as sets are lists with membership.
-/

namespace Ostree

/-! ## Basic types -/

/-- ASCII SHA256 checksum, as the C code passes it around (`const char *`). -/
abbrev Checksum := String

/-- Object kinds, `OstreeObjectType` (FILE = 1, DIR_TREE = 2, DIR_META = 3, COMMIT = 4). -/
inductive OstreeObjectType where
  | FILE
  | DIR_TREE
  | DIR_META
  | COMMIT
deriving DecidableEq, Repr

/-- Numeric value of an object type, as stored in a `guint8`. -/
def OstreeObjectType.toNat : OstreeObjectType → Nat
  | .FILE => 1
  | .DIR_TREE => 2
  | .DIR_META => 3
  | .COMMIT => 4

/-- Modelled from the spec: the macro `OSTREE_OBJECT_TYPE_IS_META` is declared in a
header that is not part of the sources; the spec says COMMIT, DIR_TREE and
DIR_META are metadata and FILE is content. -/
def OSTREE_OBJECT_TYPE_IS_META (t : OstreeObjectType) : Bool :=
  decide (2 ≤ t.toNat) && decide (t.toNat ≤ 4)

/-- Repository storage modes, `OstreeRepoMode`. -/
inductive OstreeRepoMode where
  | BARE
  | ARCHIVE_Z2
deriving DecidableEq, Repr

/-- Error codes of the `G_IO_ERROR` domain that the code distinguishes;
`ERRNO n` stands for the code `g_io_error_from_errno` gives to an errno
other than `ENOENT`. -/
inductive GIOErrorEnum where
  | FAILED
  | NOT_FOUND
  | NOT_SUPPORTED
  | CANCELLED
  | ERRNO (errno : Nat)
deriving DecidableEq, Repr

/-- One `GError` value: code and message. -/
structure GError where
  code : GIOErrorEnum
  message : String
deriving DecidableEq, Repr

deriving instance DecidableEq for Except

/-- The test `g_error_matches (e, G_IO_ERROR, G_IO_ERROR_NOT_FOUND)`. -/
def GError.is_not_found (e : GError) : Bool :=
  decide (e.code = GIOErrorEnum.NOT_FOUND)

/-- The error built by `ot_util_set_error_from_errno` for an errno other than `ENOENT`. -/
def ot_util_set_error_from_errno (errno : Nat) : GError :=
  { code := GIOErrorEnum.ERRNO errno, message := "errno" }

/-! ## Loose objects -/

/-- File name extension of a loose object. -/
inductive LooseExt where
  | commit
  | dirtree
  | dirmeta
  | file
  | filez
deriving DecidableEq, Repr

/-- Relative path of a loose object below `objects/`: the directory is the
first two characters of the checksum, the file name the other 62 followed by
the extension.  The pair (checksum, extension) determines the path. -/
structure LoosePath where
  checksum : Checksum
  ext : LooseExt
deriving DecidableEq, Repr

/-- Modelled from the spec: `_ostree_loose_path` is defined outside the sources;
the spec gives the address as `objects/C[0..2]/C[2..64].<ext>` with `<ext>`
`commit|dirtree|dirmeta` for metadata, `file` in bare mode and `filez` in
archive mode. -/
def _ostree_loose_path (checksum : Checksum) (objtype : OstreeObjectType)
    (mode : OstreeRepoMode) : LoosePath :=
  match objtype with
  | .COMMIT => { checksum := checksum, ext := LooseExt.commit }
  | .DIR_TREE => { checksum := checksum, ext := LooseExt.dirtree }
  | .DIR_META => { checksum := checksum, ext := LooseExt.dirmeta }
  | .FILE =>
    match mode with
    | .BARE => { checksum := checksum, ext := LooseExt.file }
    | .ARCHIVE_Z2 => { checksum := checksum, ext := LooseExt.filez }

/-- Decoded contents of an object file, limited to what the code reads:
children 6 and 7 of a commit, the two arrays of a directory tree, the bytes
of a content object, and the `ostree.gpgsigs` entry of a detached metadata
dictionary. -/
inductive GVariant where
  | commit (root_tree : Checksum) (root_meta : Checksum)
  | dirtree (files : List (String × Checksum)) (dirs : List (String × Checksum × Checksum))
  | dirmeta
  | content (bytes : List Nat)
  | detached_meta (gpgsigs : Option (List (List Nat)))
deriving DecidableEq, Repr

/-- Child 6 of a commit variant (root tree checksum); data of another shape
reads as the empty byte array. -/
def GVariant.commit_tree : GVariant → Checksum
  | .commit t _ => t
  | _ => ""

/-- Child 7 of a commit variant (root dirmeta checksum). -/
def GVariant.commit_meta : GVariant → Checksum
  | .commit _ m => m
  | _ => ""

/-- Child 0 of a directory tree variant: `(filename, checksum)` pairs. -/
def GVariant.tree_files : GVariant → List (String × Checksum)
  | .dirtree fs _ => fs
  | _ => []

/-- Child 1 of a directory tree variant: `(dirname, tree checksum, meta checksum)`. -/
def GVariant.tree_dirs : GVariant → List (String × Checksum × Checksum)
  | .dirtree _ ds => ds
  | _ => []

/-- One file holding an object: its bytes on disk and what they decode to. -/
structure ObjFile where
  bytes : List Nat
  data : GVariant
deriving DecidableEq, Repr

/-- What the file system answers for one path below `objects/`: no such file
(`ENOENT`), a file, or a failure with another errno. -/
inductive LooseFile where
  | noent
  | file (f : ObjFile)
  | err (errno : Nat)
deriving DecidableEq, Repr

/-- The fields of `OstreeRepo` used for object lookup: the storage mode, the
contents of the `objects/` directory, and the optional parent repository. -/
inductive OstreeRepo where
  | mk (mode : OstreeRepoMode) (objects_dir : List (LoosePath × LooseFile))
      (parent_repo : Option OstreeRepo)

/-- Field `self->mode`. -/
def OstreeRepo.mode : OstreeRepo → OstreeRepoMode
  | .mk m _ _ => m

/-- Field `self->objects_dir`. -/
def OstreeRepo.objects_dir : OstreeRepo → List (LoosePath × LooseFile)
  | .mk _ o _ => o

/-- Field `self->parent_repo`. -/
def OstreeRepo.parent_repo : OstreeRepo → Option OstreeRepo
  | .mk _ _ p => p

/-- Result of `fstatat`/`openat` on a path relative to `self->objects_dir_fd`. -/
def OstreeRepo.at_path (self : OstreeRepo) (p : LoosePath) : LooseFile :=
  match self.objects_dir.lookup p with
  | some f => f
  | none => LooseFile.noent

/-- The function of the same name in `ostree-repo.c`: stat the loose path; `ENOENT` means not
stored, another errno is an error.  Returns the loose path as well. -/
def _ostree_repo_has_loose_object (self : OstreeRepo) (checksum : Checksum)
    (objtype : OstreeObjectType) : Except GError Bool × LoosePath :=
  let loose_path_buf := _ostree_loose_path checksum objtype self.mode
  match self.at_path loose_path_buf with
  | .err errno => (.error (ot_util_set_error_from_errno errno), loose_path_buf)
  | .noent => (.ok false, loose_path_buf)
  | .file _ => (.ok true, loose_path_buf)

/-- The function of the same name in `ostree-repo.c`: the stored path, or none. -/
def _ostree_repo_find_object (self : OstreeRepo) (objtype : OstreeObjectType)
    (checksum : Checksum) : Except GError (Option LoosePath) :=
  match _ostree_repo_has_loose_object self checksum objtype with
  | (.error e, _) => .error e
  | (.ok has_object, loose_path) => if has_object then .ok (some loose_path) else .ok none

/-- The function of the same name in `ostree-repo.c`: look in the repository itself, then,
when the object is not there and a parent exists, in the parent. -/
def ostree_repo_has_object : OstreeRepo → OstreeObjectType → Checksum → Except GError Bool
  | .mk mode objects_dir none, objtype, checksum =>
    match _ostree_repo_find_object (.mk mode objects_dir none) objtype checksum with
    | .error e => .error e
    | .ok loose_path => .ok loose_path.isSome
  | .mk mode objects_dir (some parent), objtype, checksum =>
    match _ostree_repo_find_object (.mk mode objects_dir (some parent)) objtype checksum with
    | .error e => .error e
    | .ok loose_path =>
      if loose_path.isSome then .ok true
      else ostree_repo_has_object parent objtype checksum

/-- The repository followed by its parents, nearest first. -/
def OstreeRepo.chain : OstreeRepo → List OstreeRepo
  | .mk mode objects_dir none => [.mk mode objects_dir none]
  | .mk mode objects_dir (some parent) => (.mk mode objects_dir (some parent)) :: parent.chain

/-- The loose object file for `(checksum, objtype)` exists in this repository. -/
def OstreeRepo.has_loose_file (self : OstreeRepo) (objtype : OstreeObjectType)
    (checksum : Checksum) : Bool :=
  match self.at_path (_ostree_loose_path checksum objtype self.mode) with
  | .file _ => true
  | _ => false

/-- Stat of the loose object file in this repository fails with an errno other than `ENOENT`. -/
def OstreeRepo.stat_fails (self : OstreeRepo) (objtype : OstreeObjectType)
    (checksum : Checksum) : Bool :=
  match self.at_path (_ostree_loose_path checksum objtype self.mode) with
  | .err _ => true
  | _ => false

/-! ## Loading metadata -/

/-- Outputs of `load_metadata_internal`: `variant` is `*out_variant`, `stream`
the bytes behind `*out_stream`, `size` what was stored to `*out_size`; `none`
means the C code left the output `NULL` (or, for the size, untouched). -/
structure LoadedMetadata where
  variant : Option GVariant
  stream : Option (List Nat)
  size : Option Nat
deriving DecidableEq, Repr

/-- The function of the same name in `ostree-repo.c`.  `want_variant` and `want_stream` say
whether `out_variant` and `out_stream` are non-`NULL`; `size` is what the
function stores to `*out_size` when the caller passes one.  Failures of
`mmap` and `fstat` on the opened file are not modelled.  The initial
`g_return_val_if_fail (OSTREE_OBJECT_TYPE_IS_META (objtype))` guards a caller
error and is not modelled: every call in the sources passes a metadata type. -/
def load_metadata_internal : OstreeRepo → OstreeObjectType → Checksum → Bool → Bool → Bool →
    Except GError LoadedMetadata
  | .mk mode objects_dir parent_repo, objtype, sha256, error_if_not_found, want_variant,
      want_stream =>
    let self := OstreeRepo.mk mode objects_dir parent_repo
    match self.at_path (_ostree_loose_path sha256 objtype mode) with
    | .err errno => .error (ot_util_set_error_from_errno errno)
    | .file f =>
      if want_variant then
        .ok { variant := some f.data, stream := none, size := some f.bytes.length }
      else if want_stream then
        .ok { variant := none, stream := some f.bytes, size := some f.bytes.length }
      else .ok { variant := none, stream := none, size := none }
    | .noent =>
      match parent_repo with
      | some parent =>
        -- ostree_repo_load_variant (self->parent_repo, objtype, sha256, &ret_variant, error)
        match load_metadata_internal parent objtype sha256 true true false with
        | .error e => .error e
        | .ok r =>
          .ok { variant := if want_variant then r.variant else none, stream := none,
                size := none }
      | none =>
        if error_if_not_found then
          .error { code := GIOErrorEnum.NOT_FOUND,
                   message := "No such metadata object " ++ sha256 }
        else .ok { variant := none, stream := none, size := none }

/-- The function of the same name in `ostree-repo.c`. -/
def ostree_repo_load_variant (self : OstreeRepo) (objtype : OstreeObjectType)
    (sha256 : Checksum) : Except GError (Option GVariant) :=
  match load_metadata_internal self objtype sha256 true true false with
  | .error e => .error e
  | .ok r => .ok r.variant

/-! ## Pull engine state -/

/-- Phase of a pull, the anonymous enum in `OtPullData`. -/
inductive PullPhase where
  | FETCHING_REFS
  | FETCHING_OBJECTS
deriving DecidableEq, Repr

/-- The record `FetchObjectData`; `checksum` and `objtype` are the deserialized
`object` name.  The request URI is a function of these three fields. -/
structure FetchObjectData where
  checksum : Checksum
  objtype : OstreeObjectType
  is_detached_meta : Bool
deriving DecidableEq, Repr

/-- One call of `ostree_repo_write_metadata_async` or
`ostree_repo_write_content_async` that has not completed: the expected
checksum and type travel in `fetch_data`, `file` is what is being written. -/
structure WriteRequest where
  fetch_data : FetchObjectData
  file : ObjFile
deriving DecidableEq, Repr

/-- Increment of a `guint`. -/
def guint_inc (n : Nat) : Nat := (n + 1) % 2 ^ 32

/-- Decrement of a `guint`. -/
def guint_dec (n : Nat) : Nat := (n + (2 ^ 32 - 1)) % 2 ^ 32

/-- Insertion of a key into a `GHashTable` used as a set. -/
def ghash_insert {α : Type} [DecidableEq α] (x : α) (s : List α) : List α :=
  if x ∈ s then s else x :: s

/-- The record `OtPullData`, with the collaborators it drives made explicit:
`loop_quit_calls` counts the calls of `g_main_loop_quit (pull_data->loop)`,
`fetch_requests` lists every request handed to the fetcher (oldest first),
`fetches_in_flight` those that have not completed, the two write lists the
asynchronous writes that have not completed, and `detached_metadata` what
`ostree_repo_write_commit_detached_metadata` stored.  The `gint` counters are
not reduced: signed overflow is undefined in C. -/
structure OtPullData where
  repo : OstreeRepo
  transaction_resuming : Bool
  phase : PullPhase
  n_scanned_metadata : Nat
  fetching_sync_uri : Option String
  gpg_verify : Bool
  scanned_metadata : List (Checksum × OstreeObjectType)
  requested_metadata : List Checksum
  requested_content : List Checksum
  n_outstanding_metadata_fetches : Nat
  n_outstanding_metadata_write_requests : Nat
  n_outstanding_content_fetches : Nat
  n_outstanding_content_write_requests : Nat
  n_outstanding_deltapart_fetches : Nat
  n_outstanding_deltapart_write_requests : Nat
  n_requested_metadata : Nat
  n_requested_content : Nat
  n_fetched_deltaparts : Nat
  n_fetched_metadata : Nat
  n_fetched_content : Nat
  async_error : Option GError
  caught_error : Bool
  loop_quit_calls : Nat
  fetch_requests : List FetchObjectData
  fetches_in_flight : List FetchObjectData
  metadata_writes_in_flight : List WriteRequest
  content_writes_in_flight : List WriteRequest
  detached_metadata : List (Checksum × GVariant)

/-- The state `ostree_repo_pull` starts the object phase with: `pull_data_real = { 0, }`,
empty hash tables, the caller's `*error` unset. -/
def OtPullData.init (repo : OstreeRepo) (transaction_resuming gpg_verify : Bool) : OtPullData :=
  { repo := repo, transaction_resuming := transaction_resuming,
    phase := PullPhase.FETCHING_OBJECTS, n_scanned_metadata := 0, fetching_sync_uri := none,
    gpg_verify := gpg_verify, scanned_metadata := [], requested_metadata := [],
    requested_content := [], n_outstanding_metadata_fetches := 0,
    n_outstanding_metadata_write_requests := 0, n_outstanding_content_fetches := 0,
    n_outstanding_content_write_requests := 0, n_outstanding_deltapart_fetches := 0,
    n_outstanding_deltapart_write_requests := 0, n_requested_metadata := 0,
    n_requested_content := 0, n_fetched_deltaparts := 0, n_fetched_metadata := 0,
    n_fetched_content := 0, async_error := none, caught_error := false, loop_quit_calls := 0,
    fetch_requests := [], fetches_in_flight := [], metadata_writes_in_flight := [],
    content_writes_in_flight := [], detached_metadata := [] }

/-- GLib's `g_propagate_error (dest, src)` for a non-`NULL` `dest`: `src` is
stored when the slot is empty and freed (with a warning) otherwise. -/
def g_propagate_error (dest : Option GError) (src : GError) : Option GError :=
  match dest with
  | some e => some e
  | none => some src

/-- The function of the same name in `ostree-repo-pull.c`. -/
def throw_async_error (pull_data : OtPullData) (error : Option GError) : OtPullData :=
  match error with
  | none => pull_data
  | some e =>
    if !pull_data.caught_error then
      { pull_data with
        caught_error := true
        async_error := g_propagate_error pull_data.async_error e
        loop_quit_calls := pull_data.loop_quit_calls + 1 }
    else pull_data

/-- The local `current_idle` of `check_outstanding_requests_handle_error`. -/
def current_idle (pull_data : OtPullData) : Bool :=
  let current_fetch_idle :=
    decide (pull_data.n_outstanding_metadata_fetches = 0) &&
    decide (pull_data.n_outstanding_content_fetches = 0) &&
    decide (pull_data.n_outstanding_deltapart_fetches = 0)
  let current_write_idle :=
    decide (pull_data.n_outstanding_metadata_write_requests = 0) &&
    decide (pull_data.n_outstanding_content_write_requests = 0) &&
    decide (pull_data.n_outstanding_deltapart_write_requests = 0)
  current_fetch_idle && current_write_idle

/-- The function of the same name in `ostree-repo-pull.c`; idleness is computed before the
error is thrown, as in the C code. -/
def check_outstanding_requests_handle_error (pull_data : OtPullData) (error : Option GError) :
    OtPullData :=
  let idle := current_idle pull_data
  let pull_data := throw_async_error pull_data error
  match pull_data.phase with
  | .FETCHING_REFS =>
    if pull_data.fetching_sync_uri.isNone then
      { pull_data with loop_quit_calls := pull_data.loop_quit_calls + 1 }
    else pull_data
  | .FETCHING_OBJECTS =>
    if idle then { pull_data with loop_quit_calls := pull_data.loop_quit_calls + 1 }
    else pull_data

/-- The function of the same name in `ostree-repo-pull.c`: count the request and hand it to
the fetcher. -/
def enqueue_one_object_request (pull_data : OtPullData) (checksum : Checksum)
    (objtype : OstreeObjectType) (is_detached_meta : Bool) : OtPullData :=
  let fetch_data : FetchObjectData :=
    { checksum := checksum, objtype := objtype, is_detached_meta := is_detached_meta }
  let pull_data :=
    if OSTREE_OBJECT_TYPE_IS_META objtype then
      { pull_data with
        n_outstanding_metadata_fetches := guint_inc pull_data.n_outstanding_metadata_fetches
        n_requested_metadata := pull_data.n_requested_metadata + 1 }
    else
      { pull_data with
        n_outstanding_content_fetches := guint_inc pull_data.n_outstanding_content_fetches
        n_requested_content := pull_data.n_requested_content + 1 }
  { pull_data with
    fetch_requests := pull_data.fetch_requests ++ [fetch_data]
    fetches_in_flight := pull_data.fetches_in_flight ++ [fetch_data] }

/-! ## Scanning metadata -/

/-- What the pull engine takes from its surroundings: the constant
`OSTREE_MAX_RECURSION` (declared in a header outside the sources), the
filename check `ot_util_filename_validate` (none means valid), the outcome of
`ostree_repo_verify_commit` on the current repository and detached metadata,
and the checksum the store computes for a file it is asked to write. -/
structure PullEnv where
  OSTREE_MAX_RECURSION : Nat
  ot_util_filename_validate : String → Option GError
  ostree_repo_verify_commit : OstreeRepo → List (Checksum × GVariant) → Checksum → Option GError
  checksum_of : OstreeObjectType → ObjFile → Checksum

/-- Result of a scanning function: the mutated `pull_data` and the error of a
`FALSE` return (none for `TRUE`). -/
abbrev ScanResult := OtPullData × Option GError

/-- Type of `scan_one_metadata_object_c` once `pull_data` is threaded through:
checksum, type and recursion depth. -/
abbrev ScanFn := OtPullData → Checksum → OstreeObjectType → Nat → ScanResult

/-- The error of the recursion guard. -/
def recursion_error : GError :=
  { code := GIOErrorEnum.FAILED, message := "Exceeded maximum recursion" }

/-- First loop of `scan_dirtree_object`: the file children. -/
def scan_dirtree_files (env : PullEnv) : List (String × Checksum) → OtPullData → ScanResult
  | [], pull_data => (pull_data, none)
  | (filename, file_checksum) :: rest, pull_data =>
    match env.ot_util_filename_validate filename with
    | some e => (pull_data, some e)
    | none =>
      match ostree_repo_has_object pull_data.repo OstreeObjectType.FILE file_checksum with
      | .error e => (pull_data, some e)
      | .ok file_is_stored =>
        if !file_is_stored && !decide (file_checksum ∈ pull_data.requested_content) then
          scan_dirtree_files env rest
            (enqueue_one_object_request
              { pull_data with
                requested_content := ghash_insert file_checksum pull_data.requested_content }
              file_checksum OstreeObjectType.FILE false)
        else scan_dirtree_files env rest pull_data

/-- Second loop of `scan_dirtree_object`: the directory children; `recur` is
`scan_one_metadata_object_c`. -/
def scan_dirtree_dirs (env : PullEnv) (recur : ScanFn) (recursion_depth : Nat) :
    List (String × Checksum × Checksum) → OtPullData → ScanResult
  | [], pull_data => (pull_data, none)
  | (dirname, tree_csum, meta_csum) :: rest, pull_data =>
    match env.ot_util_filename_validate dirname with
    | some e => (pull_data, some e)
    | none =>
      match recur pull_data tree_csum OstreeObjectType.DIR_TREE (recursion_depth + 1) with
      | (pull_data, some e) => (pull_data, some e)
      | (pull_data, none) =>
        match recur pull_data meta_csum OstreeObjectType.DIR_META (recursion_depth + 1) with
        | (pull_data, some e) => (pull_data, some e)
        | (pull_data, none) => scan_dirtree_dirs env recur recursion_depth rest pull_data

/-- The function of the same name in `ostree-repo-pull.c`, with the recursive call passed
as `recur`.  A `NULL` variant reads as an empty tree. -/
def scan_dirtree_object (env : PullEnv) (recur : ScanFn) (pull_data : OtPullData)
    (checksum : Checksum) (recursion_depth : Nat) : ScanResult :=
  if recursion_depth > env.OSTREE_MAX_RECURSION then (pull_data, some recursion_error)
  else
    match ostree_repo_load_variant pull_data.repo OstreeObjectType.DIR_TREE checksum with
    | .error e => (pull_data, some e)
    | .ok tree =>
      match scan_dirtree_files env ((tree.map GVariant.tree_files).getD []) pull_data with
      | (pull_data, some e) => (pull_data, some e)
      | (pull_data, none) =>
        scan_dirtree_dirs env recur recursion_depth ((tree.map GVariant.tree_dirs).getD [])
          pull_data

/-- The function of the same name in `ostree-repo-pull.c`, with the recursive call passed
as `recur`.  The GPG check is compiled in with `HAVE_GPGME`; without it
`gpg_verify` is always false. -/
def scan_commit_object (env : PullEnv) (recur : ScanFn) (pull_data : OtPullData)
    (checksum : Checksum) (recursion_depth : Nat) : ScanResult :=
  if recursion_depth > env.OSTREE_MAX_RECURSION then (pull_data, some recursion_error)
  else
    match (if pull_data.gpg_verify then
        env.ostree_repo_verify_commit pull_data.repo pull_data.detached_metadata checksum
      else none) with
    | some e => (pull_data, some e)
    | none =>
      match ostree_repo_load_variant pull_data.repo OstreeObjectType.COMMIT checksum with
      | .error e => (pull_data, some e)
      | .ok commit =>
        match recur pull_data ((commit.map GVariant.commit_tree).getD "")
            OstreeObjectType.DIR_TREE (recursion_depth + 1) with
        | (pull_data, some e) => (pull_data, some e)
        | (pull_data, none) =>
          recur pull_data ((commit.map GVariant.commit_meta).getD "")
            OstreeObjectType.DIR_META (recursion_depth + 1)

/-- The block `if (pull_data->transaction_resuming || is_requested) switch (objtype) ...`
of `scan_one_metadata_object_c`, entered for a stored object.  The
`default: g_assert_not_reached ()` case is a caller error (every caller
passes a metadata type) and reads as `break`. -/
def scan_stored_object (env : PullEnv) (recur : ScanFn) (pull_data : OtPullData)
    (csum : Checksum) (objtype : OstreeObjectType) (recursion_depth : Nat)
    (is_requested : Bool) : ScanResult :=
  if pull_data.transaction_resuming || is_requested then
    match objtype with
    | .COMMIT => scan_commit_object env recur pull_data csum recursion_depth
    | .DIR_META => (pull_data, none)
    | .DIR_TREE => scan_dirtree_object env recur pull_data csum recursion_depth
    | .FILE => (pull_data, none)
  else (pull_data, none)

/-- Body of `scan_one_metadata_object_c`, with the calls that come back to it
(through `scan_commit_object` and `scan_dirtree_object`) passed as `recur`. -/
def scan_one_metadata_object_c_body (env : PullEnv) (recur : ScanFn) : ScanFn :=
  fun pull_data csum objtype recursion_depth =>
  if (csum, objtype) ∈ pull_data.scanned_metadata then (pull_data, none)
  else
    match ostree_repo_has_object pull_data.repo objtype csum with
    | .error e => (pull_data, some e)
    | .ok is_stored =>
      if !is_stored && !decide (csum ∈ pull_data.requested_metadata) then
        (enqueue_one_object_request
          { pull_data with
            requested_metadata := ghash_insert csum pull_data.requested_metadata }
          csum objtype (decide (objtype = OstreeObjectType.COMMIT)), none)
      else if is_stored then
        match scan_stored_object env recur pull_data csum objtype recursion_depth
            (decide (csum ∈ pull_data.requested_metadata)) with
        | (pull_data, some e) => (pull_data, some e)
        | (pull_data, none) =>
          ({ pull_data with
             scanned_metadata := ghash_insert (csum, objtype) pull_data.scanned_metadata
             n_scanned_metadata := pull_data.n_scanned_metadata + 1 }, none)
      else (pull_data, none)

/-- The recursion of `scan_one_metadata_object_c` unfolded `fuel + 1` times.
Nested calls are only made by `scan_commit_object` and `scan_dirtree_object`
after their guard `recursion_depth > OSTREE_MAX_RECURSION` has passed, with
`recursion_depth + 1`, so `OSTREE_MAX_RECURSION + 1 - recursion_depth`
unfoldings always suffice and the innermost `recur` is never called. -/
def scan_unfold (env : PullEnv) : Nat → ScanFn
  | 0 => scan_one_metadata_object_c_body env (fun pull_data _ _ _ => (pull_data, some recursion_error))
  | fuel + 1 => scan_one_metadata_object_c_body env (scan_unfold env fuel)

/-- The function of the same name in `ostree-repo-pull.c`. -/
def scan_one_metadata_object_c (env : PullEnv) : ScanFn :=
  fun pull_data csum objtype recursion_depth =>
  scan_unfold env (env.OSTREE_MAX_RECURSION + 1 - recursion_depth) pull_data csum objtype
    recursion_depth

/-- The function of the same name in `ostree-repo-pull.c`: the checksum is converted to bytes
and back, which is the identity on checksum strings. -/
def scan_one_metadata_object (env : PullEnv) : ScanFn :=
  fun pull_data csum objtype recursion_depth =>
  scan_one_metadata_object_c env pull_data csum objtype recursion_depth

/-! ## Completion callbacks -/

/-- Error set by `content_fetch_on_write_complete` on a checksum mismatch. -/
def corrupted_content_error (expected_checksum checksum : Checksum) : GError :=
  { code := GIOErrorEnum.FAILED,
    message := "Corrupted content object; checksum expected=\x27" ++ expected_checksum ++
      "\x27 actual=\x27" ++ checksum ++ "\x27" }

/-- Error set by `on_metadata_writed` on a checksum mismatch. -/
def corrupted_metadata_error (expected_checksum checksum : Checksum) : GError :=
  { code := GIOErrorEnum.FAILED,
    message := "Corrupted metadata object; checksum expected=\x27" ++ expected_checksum ++
      "\x27 actual=\x27" ++ checksum ++ "\x27" }

/-- The function of the same name in `ostree-repo-pull.c`.  `result` is what
`ostree_repo_write_content_finish` returns: an error or the checksum the
store computed.  The result is `none` when `g_assert (objtype == FILE)` fails. -/
def content_fetch_on_write_complete (pull_data : OtPullData) (fetch_data : FetchObjectData)
    (result : Except GError Checksum) : Option OtPullData :=
  let finish (pull_data : OtPullData) (local_error : Option GError) : OtPullData :=
    check_outstanding_requests_handle_error
      { pull_data with
        n_outstanding_content_write_requests :=
          guint_dec pull_data.n_outstanding_content_write_requests }
      local_error
  match result with
  | .error e => some (finish pull_data (some e))
  | .ok checksum =>
    if fetch_data.objtype ≠ OstreeObjectType.FILE then none
    else if checksum ≠ fetch_data.checksum then
      some (finish pull_data (some (corrupted_content_error fetch_data.checksum checksum)))
    else
      some (finish
        { pull_data with n_fetched_content := guint_inc pull_data.n_fetched_content } none)

/-- The function of the same name in `ostree-repo-pull.c`.  `result` is what
`ostree_repo_write_metadata_finish` returns.  The result is `none` when
`g_assert (OSTREE_OBJECT_TYPE_IS_META (objtype))` fails. -/
def on_metadata_writed (env : PullEnv) (pull_data : OtPullData) (fetch_data : FetchObjectData)
    (result : Except GError Checksum) : Option OtPullData :=
  let finish (r : ScanResult) : OtPullData :=
    check_outstanding_requests_handle_error
      { r.1 with
        n_outstanding_metadata_write_requests :=
          guint_dec r.1.n_outstanding_metadata_write_requests }
      r.2
  match result with
  | .error e => some (finish (pull_data, some e))
  | .ok checksum =>
    if !OSTREE_OBJECT_TYPE_IS_META fetch_data.objtype then none
    else if checksum ≠ fetch_data.checksum then
      some (finish (pull_data, some (corrupted_metadata_error fetch_data.checksum checksum)))
    else
      some (finish (scan_one_metadata_object_c env pull_data checksum fetch_data.objtype 0))

/-- The part of `meta_fetch_on_complete` before the label `out`: the mutated
state and `local_error`.  `fetched` is the result of
`ostree_fetcher_request_uri_with_partial_finish` (the downloaded file or an
error), `map_error` a failure of `ot_util_variant_map` on that file and
`write_error` a failure of `ostree_repo_write_commit_detached_metadata`. -/
def meta_fetch_on_complete_body (pull_data : OtPullData) (fetch_data : FetchObjectData)
    (fetched : Except GError ObjFile) (map_error write_error : Option GError) : ScanResult :=
  let checksum := fetch_data.checksum
  let objtype := fetch_data.objtype
  match fetched with
  | .error e =>
    if !e.is_not_found then (pull_data, some e)
    else if fetch_data.is_detached_meta then
      -- There isn't any detached metadata, just fetch the commit
      (enqueue_one_object_request pull_data checksum objtype false, none)
    else (pull_data, some e)
  | .ok temp =>
    if fetch_data.is_detached_meta then
      match map_error with
      | some e => (pull_data, some e)
      | none =>
        match write_error with
        | some e => (pull_data, some e)
        | none =>
          (enqueue_one_object_request
            { pull_data with
              detached_metadata := (checksum, temp.data) :: pull_data.detached_metadata }
            checksum objtype false, none)
    else
      match map_error with
      | some e => (pull_data, some e)
      | none =>
        ({ pull_data with
           metadata_writes_in_flight :=
             pull_data.metadata_writes_in_flight ++ [{ fetch_data := fetch_data, file := temp }]
           n_outstanding_metadata_write_requests :=
             guint_inc pull_data.n_outstanding_metadata_write_requests }, none)

/-- The function of the same name in `ostree-repo-pull.c`: the body, then the code at the
label `out`.  The result is `none` when
`g_assert (n_outstanding_metadata_fetches > 0)` fails. -/
def meta_fetch_on_complete (pull_data : OtPullData) (fetch_data : FetchObjectData)
    (fetched : Except GError ObjFile) (map_error write_error : Option GError) :
    Option OtPullData :=
  let r := meta_fetch_on_complete_body pull_data fetch_data fetched map_error write_error
  if r.1.n_outstanding_metadata_fetches > 0 then
    some (throw_async_error
      { r.1 with
        n_outstanding_metadata_fetches := guint_dec r.1.n_outstanding_metadata_fetches
        n_fetched_metadata := guint_inc r.1.n_fetched_metadata }
      r.2)
  else none

/-- The function of the same name in `ostree-repo-pull.c`.  `fetched` is the result of the
fetcher, `parse_error` a failure of `ostree_content_file_parse` and
`stream_error` a failure of `ostree_raw_file_to_content_stream`.  The result
is `none` when `g_assert (objtype == FILE)` fails. -/
def content_fetch_on_complete (pull_data : OtPullData) (fetch_data : FetchObjectData)
    (fetched : Except GError ObjFile) (parse_error stream_error : Option GError) :
    Option OtPullData :=
  let finish (pull_data : OtPullData) (local_error : Option GError) : OtPullData :=
    check_outstanding_requests_handle_error
      { pull_data with
        n_outstanding_content_fetches := guint_dec pull_data.n_outstanding_content_fetches }
      local_error
  match fetched with
  | .error e => some (finish pull_data (some e))
  | .ok temp =>
    if fetch_data.objtype ≠ OstreeObjectType.FILE then none
    else
      match parse_error with
      | some e => some (finish pull_data (some e))
      | none =>
        match stream_error with
        | some e => some (finish pull_data (some e))
        | none =>
          some (finish
            { pull_data with
              n_outstanding_content_write_requests :=
                guint_inc pull_data.n_outstanding_content_write_requests
              content_writes_in_flight :=
                pull_data.content_writes_in_flight ++ [{ fetch_data := fetch_data, file := temp }] }
            none)

/-! ## The object phase as a transition system -/

/-- The repository with one more file in its own `objects/` directory (the
`rename` that commits a loose object); the parent chain is never written. -/
def OstreeRepo.store (self : OstreeRepo) (p : LoosePath) (f : ObjFile) : OstreeRepo :=
  OstreeRepo.mk self.mode ((p, LooseFile.file f) :: self.objects_dir) self.parent_repo

/-- Error of a write whose computed checksum differs from the expected one. -/
def checksum_mismatch_error (expected_checksum checksum : Checksum) : GError :=
  { code := GIOErrorEnum.FAILED,
    message := "Corrupted object; checksum expected=\x27" ++ expected_checksum ++
      "\x27 actual=\x27" ++ checksum ++ "\x27" }

/-- Modelled from the spec: `ostree_repo_write_metadata_async`/`_finish` and
`ostree_repo_write_content_async`/`_finish` are defined outside the sources.
The spec: serialize, hash, write to `tmp/`, rename into place; if the expected
checksum is given and differs, fail with a checksum mismatch.  `io_error` is
a failure of the underlying I/O. -/
def ostree_repo_write_finish (env : PullEnv) (repo : OstreeRepo) (w : WriteRequest)
    (io_error : Option GError) : Except GError Checksum × OstreeRepo :=
  match io_error with
  | some e => (.error e, repo)
  | none =>
    let actual := env.checksum_of w.fetch_data.objtype w.file
    if actual ≠ w.fetch_data.checksum then
      (.error (checksum_mismatch_error w.fetch_data.checksum actual), repo)
    else
      (.ok actual, repo.store (_ostree_loose_path actual w.fetch_data.objtype repo.mode) w.file)

/-- What can happen during the object phase of `ostree_repo_pull`: the scan
of a requested commit started by `ostree_repo_pull` itself, the completion
of the fetch or write at a given position of the in-flight lists (with what
the fetcher and the helpers answer), and the idle source of
`run_mainloop_monitor_fetcher`. -/
inductive PullEvent where
  | scan_commit (commit : Checksum)
  | fetch_complete (idx : Nat) (fetched : Except GError ObjFile)
      (helper_error1 helper_error2 : Option GError)
  | metadata_written (idx : Nat) (io_error : Option GError)
  | content_written (idx : Nat) (io_error : Option GError)
  | idle_check

/-- One event applied to the pull state.  The result is `none` when the event
makes `ostree_repo_pull` leave the phase at once: a failed scan from
`ostree_repo_pull` (`goto out`) or a failed `g_assert`.  An event naming a
position that is not in flight does nothing.  A fetch completes in
`meta_fetch_on_complete` or `content_fetch_on_complete` as chosen by
`enqueue_one_object_request`. -/
def pull_step (env : PullEnv) (pull_data : OtPullData) : PullEvent → Option OtPullData
  | .scan_commit commit =>
    match scan_one_metadata_object env pull_data commit OstreeObjectType.COMMIT 0 with
    | (_, some _) => none
    | (pull_data, none) => some pull_data
  | .fetch_complete idx fetched helper_error1 helper_error2 =>
    match pull_data.fetches_in_flight.get? idx with
    | none => some pull_data
    | some fetch_data =>
      let pull_data :=
        { pull_data with fetches_in_flight := pull_data.fetches_in_flight.eraseIdx idx }
      if OSTREE_OBJECT_TYPE_IS_META fetch_data.objtype then
        meta_fetch_on_complete pull_data fetch_data fetched helper_error1 helper_error2
      else
        content_fetch_on_complete pull_data fetch_data fetched helper_error1 helper_error2
  | .metadata_written idx io_error =>
    match pull_data.metadata_writes_in_flight.get? idx with
    | none => some pull_data
    | some w =>
      let r := ostree_repo_write_finish env pull_data.repo w io_error
      on_metadata_writed env
        { pull_data with
          repo := r.2
          metadata_writes_in_flight := pull_data.metadata_writes_in_flight.eraseIdx idx }
        w.fetch_data r.1
  | .content_written idx io_error =>
    match pull_data.content_writes_in_flight.get? idx with
    | none => some pull_data
    | some w =>
      let r := ostree_repo_write_finish env pull_data.repo w io_error
      content_fetch_on_write_complete
        { pull_data with
          repo := r.2
          content_writes_in_flight := pull_data.content_writes_in_flight.eraseIdx idx }
        w.fetch_data r.1
  | .idle_check => some (check_outstanding_requests_handle_error pull_data none)

/-- A sequence of events applied in order. -/
def pull_run (env : PullEnv) : OtPullData → List PullEvent → Option OtPullData
  | pull_data, [] => some pull_data
  | pull_data, ev :: rest =>
    match pull_step env pull_data ev with
    | none => none
    | some pull_data => pull_run env pull_data rest

/-! ## Auxiliary notions used in the statements -/

/-- First non-null error of a sequence of `throw_async_error` arguments. -/
def first_error : List (Option GError) → Option GError
  | [] => none
  | none :: rest => first_error rest
  | some e :: _ => some e

/-- The six outstanding counters are all zero. -/
def all_counters_zero (pull_data : OtPullData) : Prop :=
  pull_data.n_outstanding_metadata_fetches = 0 ∧
  pull_data.n_outstanding_content_fetches = 0 ∧
  pull_data.n_outstanding_deltapart_fetches = 0 ∧
  pull_data.n_outstanding_metadata_write_requests = 0 ∧
  pull_data.n_outstanding_content_write_requests = 0 ∧
  pull_data.n_outstanding_deltapart_write_requests = 0

/-- The fields of `pull_data` that scanning never writes are equal in both states. -/
structure ScanFrame (a b : OtPullData) : Prop where
  repo : b.repo = a.repo
  transaction_resuming : b.transaction_resuming = a.transaction_resuming
  phase : b.phase = a.phase
  fetching_sync_uri : b.fetching_sync_uri = a.fetching_sync_uri
  gpg_verify : b.gpg_verify = a.gpg_verify
  n_outstanding_metadata_write_requests :
    b.n_outstanding_metadata_write_requests = a.n_outstanding_metadata_write_requests
  n_outstanding_content_write_requests :
    b.n_outstanding_content_write_requests = a.n_outstanding_content_write_requests
  n_outstanding_deltapart_fetches :
    b.n_outstanding_deltapart_fetches = a.n_outstanding_deltapart_fetches
  n_outstanding_deltapart_write_requests :
    b.n_outstanding_deltapart_write_requests = a.n_outstanding_deltapart_write_requests
  n_fetched_deltaparts : b.n_fetched_deltaparts = a.n_fetched_deltaparts
  n_fetched_metadata : b.n_fetched_metadata = a.n_fetched_metadata
  n_fetched_content : b.n_fetched_content = a.n_fetched_content
  async_error : b.async_error = a.async_error
  caught_error : b.caught_error = a.caught_error
  loop_quit_calls : b.loop_quit_calls = a.loop_quit_calls
  metadata_writes_in_flight : b.metadata_writes_in_flight = a.metadata_writes_in_flight
  content_writes_in_flight : b.content_writes_in_flight = a.content_writes_in_flight
  detached_metadata : b.detached_metadata = a.detached_metadata

/-- Every field of `pull_data` other than `async_error`, `caught_error` and
`loop_quit_calls` is equal in both states. -/
structure ErrorFrame (a b : OtPullData) : Prop where
  repo : b.repo = a.repo
  transaction_resuming : b.transaction_resuming = a.transaction_resuming
  phase : b.phase = a.phase
  n_scanned_metadata : b.n_scanned_metadata = a.n_scanned_metadata
  fetching_sync_uri : b.fetching_sync_uri = a.fetching_sync_uri
  gpg_verify : b.gpg_verify = a.gpg_verify
  scanned_metadata : b.scanned_metadata = a.scanned_metadata
  requested_metadata : b.requested_metadata = a.requested_metadata
  requested_content : b.requested_content = a.requested_content
  n_outstanding_metadata_fetches :
    b.n_outstanding_metadata_fetches = a.n_outstanding_metadata_fetches
  n_outstanding_metadata_write_requests :
    b.n_outstanding_metadata_write_requests = a.n_outstanding_metadata_write_requests
  n_outstanding_content_fetches :
    b.n_outstanding_content_fetches = a.n_outstanding_content_fetches
  n_outstanding_content_write_requests :
    b.n_outstanding_content_write_requests = a.n_outstanding_content_write_requests
  n_outstanding_deltapart_fetches :
    b.n_outstanding_deltapart_fetches = a.n_outstanding_deltapart_fetches
  n_outstanding_deltapart_write_requests :
    b.n_outstanding_deltapart_write_requests = a.n_outstanding_deltapart_write_requests
  n_requested_metadata : b.n_requested_metadata = a.n_requested_metadata
  n_requested_content : b.n_requested_content = a.n_requested_content
  n_fetched_deltaparts : b.n_fetched_deltaparts = a.n_fetched_deltaparts
  n_fetched_metadata : b.n_fetched_metadata = a.n_fetched_metadata
  n_fetched_content : b.n_fetched_content = a.n_fetched_content
  fetch_requests : b.fetch_requests = a.fetch_requests
  fetches_in_flight : b.fetches_in_flight = a.fetches_in_flight
  metadata_writes_in_flight : b.metadata_writes_in_flight = a.metadata_writes_in_flight
  content_writes_in_flight : b.content_writes_in_flight = a.content_writes_in_flight
  detached_metadata : b.detached_metadata = a.detached_metadata


/-- Every file entry of a directory tree passes the first loop of
`scan_dirtree_object`: its name is valid and the lookup of the file object
does not fail. -/
def scan_files_ok (env : PullEnv) (repo : OstreeRepo) (files : List (String × Checksum)) : Prop :=
  ∀ f ∈ files, env.ot_util_filename_validate f.1 = none ∧
    ∃ b, ostree_repo_has_object repo OstreeObjectType.FILE f.2 = .ok b

/-- A directory tree that scanning recurses into: stored, not yet scanned, and
either the transaction is resuming or the pull requested it. -/
def scan_recurses_into (pull_data : OtPullData) (csum : Checksum) : Prop :=
  (csum, OstreeObjectType.DIR_TREE) ∉ pull_data.scanned_metadata ∧
  ostree_repo_has_object pull_data.repo OstreeObjectType.DIR_TREE csum = .ok true ∧
  (pull_data.transaction_resuming = true ∨ csum ∈ pull_data.requested_metadata)

/-- Directory trees nested `n` levels below `csum`, as the scan of `csum`
started at `recursion_depth` in the state `pull_data` meets them.  Each tree
is recursed into in the state in which the scan reaches it, and the next tree
is any directory entry `(dirname, sub, meta_csum)` of it that the scan
reaches: the loop over the file entries and the scan of the directory entries
`pre` listed before it end without error, in the state `pd2`, and `dirname`
is a valid name.  The entries `post` listed after it do not matter. -/
def nested_trees (env : PullEnv) : Nat → OtPullData → Nat → Checksum → Prop
  | 0, pull_data, _, csum => scan_recurses_into pull_data csum
  | n + 1, pull_data, recursion_depth, csum =>
    scan_recurses_into pull_data csum ∧
    ∃ files pre dirname sub meta_csum post pd1 pd2,
      ostree_repo_load_variant pull_data.repo OstreeObjectType.DIR_TREE csum =
        .ok (some (GVariant.dirtree files (pre ++ (dirname, sub, meta_csum) :: post))) ∧
      scan_dirtree_files env files pull_data = (pd1, none) ∧
      scan_dirtree_dirs env (scan_one_metadata_object_c env) recursion_depth pre pd1 =
        (pd2, none) ∧
      env.ot_util_filename_validate dirname = none ∧
      nested_trees env n pd2 (recursion_depth + 1) sub

/-- A commit that scanning recurses into: stored, not yet scanned, and either
the transaction is resuming or the pull requested it. -/
def scan_recurses_into_commit (pull_data : OtPullData) (csum : Checksum) : Prop :=
  (csum, OstreeObjectType.COMMIT) ∉ pull_data.scanned_metadata ∧
  ostree_repo_has_object pull_data.repo OstreeObjectType.COMMIT csum = .ok true ∧
  (pull_data.transaction_resuming = true ∨ csum ∈ pull_data.requested_metadata)

/-- Objects nested `n` levels below the object `(csum, objtype)` that is scanned
at `recursion_depth` in the state `pull_data`, the object itself included.  For
a directory tree these are the trees of `nested_trees`.  For a commit they are
the commit, recursed into, and below it the trees nested under its root tree;
the scan of a commit reaches the root tree when the signature check, if
enabled, passes and the commit can be loaded.  Directory metadata and content
objects have nothing below them. -/
def nested_objects (env : PullEnv) :
    Nat → OtPullData → Nat → Checksum → OstreeObjectType → Prop
  | n, pull_data, recursion_depth, csum, .DIR_TREE =>
    nested_trees env n pull_data recursion_depth csum
  | 0, pull_data, _, csum, .COMMIT => scan_recurses_into_commit pull_data csum
  | n + 1, pull_data, recursion_depth, csum, .COMMIT =>
    scan_recurses_into_commit pull_data csum ∧
    (pull_data.gpg_verify = true →
      env.ostree_repo_verify_commit pull_data.repo pull_data.detached_metadata csum = none) ∧
    ∃ commit,
      ostree_repo_load_variant pull_data.repo OstreeObjectType.COMMIT csum = .ok commit ∧
      nested_trees env n pull_data (recursion_depth + 1)
        ((commit.map GVariant.commit_tree).getD "")
  | _, _, _, _, _ => False

/-- What scanning may change of the sets it consults: the repository and the
resuming flag stay, the scanned set and the two requested sets grow. -/
structure ScanGrow (a b : OtPullData) : Prop where
  repo : b.repo = a.repo
  transaction_resuming : b.transaction_resuming = a.transaction_resuming
  scanned : ∀ x ∈ a.scanned_metadata, x ∈ b.scanned_metadata
  requested_metadata : ∀ x ∈ a.requested_metadata, x ∈ b.requested_metadata
  requested_content : ∀ x ∈ a.requested_content, x ∈ b.requested_content

/-- A metadata object that `scan_one_metadata_object_c` leaves alone: it is in
the scanned set, or it is not stored and its checksum is in the requested set. -/
def scan_settled (pull_data : OtPullData) (x : Checksum × OstreeObjectType) : Prop :=
  x ∈ pull_data.scanned_metadata ∨
  (ostree_repo_has_object pull_data.repo x.2 x.1 = .ok false ∧
    x.1 ∈ pull_data.requested_metadata)

/-- Invariant of the request bookkeeping during a pull: every request made is
recorded in the requested set of its class, no request (checksum, type,
detached flag) was made twice, the requests in flight are distinct requests
that were made, while a detached-metadata request is in flight the request
for the object itself has not been made, and detached metadata is only
requested for commits. -/
structure RequestInv (pull_data : OtPullData) : Prop where
  meta_requested : ∀ r ∈ pull_data.fetch_requests,
    OSTREE_OBJECT_TYPE_IS_META r.objtype = true → r.checksum ∈ pull_data.requested_metadata
  content_requested : ∀ r ∈ pull_data.fetch_requests,
    OSTREE_OBJECT_TYPE_IS_META r.objtype = false → r.checksum ∈ pull_data.requested_content
  nodup : pull_data.fetch_requests.Nodup
  in_flight_sub : ∀ r ∈ pull_data.fetches_in_flight, r ∈ pull_data.fetch_requests
  in_flight_nodup : pull_data.fetches_in_flight.Nodup
  detached_pending : ∀ r ∈ pull_data.fetches_in_flight, r.is_detached_meta = true →
    ({ r with is_detached_meta := false } : FetchObjectData) ∉ pull_data.fetch_requests
  detached_commit : ∀ r ∈ pull_data.fetch_requests, r.is_detached_meta = true →
    r.objtype = OstreeObjectType.COMMIT

/-- A scanning function keeps the request invariant when called on a metadata type. -/
def ScanKeepsRequestInv (f : ScanFn) : Prop :=
  ∀ (pd : OtPullData) (c : Checksum) (k : OstreeObjectType) (d : Nat),
    OSTREE_OBJECT_TYPE_IS_META k = true → RequestInv pd → RequestInv (f pd c k d).1

/-- The calls of `enqueue_one_object_request` made for the object
`(checksum, objtype)`, in order. -/
def requests_for (pull_data : OtPullData) (checksum : Checksum) (objtype : OstreeObjectType) :
    List FetchObjectData :=
  pull_data.fetch_requests.filter (fun r => decide (r.checksum = checksum ∧ r.objtype = objtype))

/-! ## The end of `ostree_repo_pull`: waiting for the work and publishing refs -/

/-- The ref state of a repository: `refs` are the published ref files (name
to checksum, the name of a remote ref being `<remote>/<ref>`), `txn_refs` the
ref updates staged in the current transaction. -/
structure RepoRefs where
  refs : List (String × Checksum)
  txn_refs : List (String × Checksum)
deriving DecidableEq, Repr

/-- Modelled from the spec: `ostree_repo_transaction_set_ref` is defined outside the
sources.  The spec: during the transaction, staged ref updates accumulate in
`txn_refs`, a map from ref name to checksum. -/
def ostree_repo_transaction_set_ref (repo : RepoRefs) (remote ref checksum : String) :
    RepoRefs :=
  { repo with txn_refs := (remote ++ "/" ++ ref, checksum) :: repo.txn_refs }

/-- Modelled from the spec: `ostree_repo_commit_transaction` is defined outside the
sources.  The spec: it renames the staged refs into `refs/`; the transaction
commit is the single publication step and no partial ref updates are visible.
`io_error` is a failure of the commit, which publishes nothing. -/
def ostree_repo_commit_transaction (repo : RepoRefs) (io_error : Option GError) :
    Option GError × RepoRefs :=
  match io_error with
  | some e => (some e, repo)
  | none => (none, { refs := repo.txn_refs ++ repo.refs, txn_refs := [] })

/-- Calls that `ostree_repo_pull` makes on the repository after the main loop. -/
inductive PullCall where
  | resolve_rev (refspec : String)
  | transaction_set_ref (remote ref checksum : String)
  | commit_transaction
deriving DecidableEq, Repr

/-- Outcome of the end of `ostree_repo_pull`: the return value, the caller's
`*error`, the ref state of the repository and the calls made on it. -/
structure PullOutcome where
  ret : Bool
  error : Option GError
  repo : RepoRefs
  calls : List PullCall
deriving DecidableEq, Repr

/-- The loop of `ostree_repo_pull` over `requested_refs_to_fetch` that follows the
main loop: each ref whose current value differs from the fetched checksum is
staged.  `resolve_rev` is `ostree_repo_resolve_rev (repo, refspec, TRUE, ...)`,
defined outside the sources: an error, or the current value if there is one.
The result is the error of a failed `resolve_rev` (none when the loop
completes), the ref state and the calls made. -/
def pull_set_refs (resolve_rev : RepoRefs → String → Except GError (Option Checksum))
    (remote_name : String) :
    List (String × Checksum) → RepoRefs → List PullCall → Option GError × RepoRefs × List PullCall
  | [], repo, calls => (none, repo, calls)
  | (ref, checksum) :: rest, repo, calls =>
    let remote_ref := remote_name ++ "/" ++ ref
    let calls := calls ++ [PullCall.resolve_rev remote_ref]
    match resolve_rev repo remote_ref with
    | .error e => (some e, repo, calls)
    | .ok original_rev =>
      if original_rev = some checksum then
        pull_set_refs resolve_rev remote_name rest repo calls
      else
        pull_set_refs resolve_rev remote_name rest
          (ostree_repo_transaction_set_ref repo remote_name ref checksum)
          (calls ++ [PullCall.transaction_set_ref remote_name ref checksum])

/-- The end of `ostree_repo_pull`, from the comment `Now await work completion`:
`run_mainloop_monitor_fetcher` processes `events` and fails when an error was
caught; the four `g_assert_cmpint` follow; then the refs are staged and the
transaction is committed.  The result is `none` when an assertion fails. -/
def pull_finish (env : PullEnv)
    (resolve_rev : RepoRefs → String → Except GError (Option Checksum))
    (remote_name : String) (requested_refs_to_fetch : List (String × Checksum))
    (pull_data : OtPullData) (repo : RepoRefs) (events : List PullEvent)
    (commit_io_error : Option GError) : Option PullOutcome :=
  match pull_run env pull_data events with
  | none => none
  | some pull_data =>
    if pull_data.caught_error then
      some { ret := false, error := pull_data.async_error, repo := repo, calls := [] }
    else if pull_data.n_outstanding_metadata_fetches ≠ 0 ∨
        pull_data.n_outstanding_metadata_write_requests ≠ 0 ∨
        pull_data.n_outstanding_content_fetches ≠ 0 ∨
        pull_data.n_outstanding_content_write_requests ≠ 0 then none
    else
      match pull_set_refs resolve_rev remote_name requested_refs_to_fetch repo [] with
      | (some e, repo, calls) => some { ret := false, error := some e, repo := repo, calls := calls }
      | (none, repo, calls) =>
        match ostree_repo_commit_transaction repo commit_io_error with
        | (some e, repo) =>
          some { ret := false, error := some e, repo := repo,
                 calls := calls ++ [PullCall.commit_transaction] }
        | (none, repo) =>
          some { ret := true, error := none, repo := repo,
                 calls := calls ++ [PullCall.commit_transaction] }

/-- The call is a `transaction_set_ref`. -/
def PullCall.is_set_ref : PullCall → Bool
  | .transaction_set_ref _ _ _ => true
  | _ => false

/-! ## Reachability and the invariant behind closure after a pull -/

/-- Name of an object: checksum and type. -/
abbrev ObjectName := Checksum × OstreeObjectType

/-- `ostree_repo_has_object` reports the object as stored. -/
def object_stored (repo : OstreeRepo) (x : ObjectName) : Prop :=
  ostree_repo_has_object repo x.2 x.1 = .ok true

/-- The objects a loaded variant refers to, read the way scanning reads it:
root tree and root metadata of a commit; files, then (subtree, submeta)
pairs of a directory tree. -/
def variant_children (objtype : OstreeObjectType) (v : Option GVariant) : List ObjectName :=
  match objtype with
  | .COMMIT =>
    [((v.map GVariant.commit_tree).getD "", OstreeObjectType.DIR_TREE),
     ((v.map GVariant.commit_meta).getD "", OstreeObjectType.DIR_META)]
  | .DIR_TREE =>
    ((v.map GVariant.tree_files).getD []).map (fun f => (f.2, OstreeObjectType.FILE)) ++
    ((v.map GVariant.tree_dirs).getD []).flatMap
      (fun d => [(d.2.1, OstreeObjectType.DIR_TREE), (d.2.2, OstreeObjectType.DIR_META)])
  | _ => []

/-- The objects an object of the repository refers to (none when it cannot be loaded). -/
def object_children (repo : OstreeRepo) (x : ObjectName) : List ObjectName :=
  match ostree_repo_load_variant repo x.2 x.1 with
  | .ok v => variant_children x.2 v
  | .error _ => []

/-- The objects with a fetch or a write outstanding. -/
def pending_objects (pull_data : OtPullData) : List ObjectName :=
  pull_data.fetches_in_flight.map (fun r => (r.checksum, r.objtype)) ++
  (pull_data.metadata_writes_in_flight.map
      (fun w => (w.fetch_data.checksum, w.fetch_data.objtype)) ++
   pull_data.content_writes_in_flight.map
      (fun w => (w.fetch_data.checksum, w.fetch_data.objtype)))

/-- The requested set that guards objects of the given type. -/
def requested_for (pull_data : OtPullData) (objtype : OstreeObjectType) : List Checksum :=
  if OSTREE_OBJECT_TYPE_IS_META objtype then pull_data.requested_metadata
  else pull_data.requested_content

/-- The pull has taken care of the object: it is scanned, or a fetch or write
of it is outstanding, or it is a stored content object, or it is the object
whose scan is under way. -/
def accounted (root : Option ObjectName) (pull_data : OtPullData) (y : ObjectName) : Prop :=
  y ∈ pull_data.scanned_metadata ∨ y ∈ pending_objects pull_data ∨
  (y.2 = OstreeObjectType.FILE ∧ object_stored pull_data.repo y) ∨ some y = root

/-- Every reference to a metadata object uses the type that `kind_of` gives
to its checksum: no checksum is referred to as metadata of two types. -/
def kinds_agree (kind_of : Checksum → OstreeObjectType) (ys : List ObjectName) : Prop :=
  ∀ y ∈ ys, OSTREE_OBJECT_TYPE_IS_META y.2 = true → kind_of y.1 = y.2

/-- Invariant of the object phase while no error has been caught; `repo0` is
the repository at the start of the pull and `root` the object whose scan is
under way, if any. -/
structure PullInv (kind_of : Checksum → OstreeObjectType) (repo0 : OstreeRepo)
    (root : Option ObjectName) (pull_data : OtPullData) : Prop where
  store_mono : ∀ x, object_stored repo0 x →
    object_stored pull_data.repo x ∧ object_children pull_data.repo x = object_children repo0 x
  stored_origin : ∀ x, object_stored pull_data.repo x →
    object_stored repo0 x ∨ x.1 ∈ requested_for pull_data x.2
  pending_nodup : (pending_objects pull_data).Nodup
  pending_not_stored : ∀ x ∈ pending_objects pull_data,
    ostree_repo_has_object pull_data.repo x.2 x.1 = .ok false
  pending_requested : ∀ x ∈ pending_objects pull_data, x.1 ∈ requested_for pull_data x.2
  pending_kind : kinds_agree kind_of (pending_objects pull_data)
  requested_meta : ∀ c ∈ pull_data.requested_metadata,
    (c, kind_of c) ∈ pending_objects pull_data ∨ object_stored pull_data.repo (c, kind_of c)
  requested_content : ∀ c ∈ pull_data.requested_content,
    (c, OstreeObjectType.FILE) ∈ pending_objects pull_data ∨
      object_stored pull_data.repo (c, OstreeObjectType.FILE)
  children_kind : ∀ x, kinds_agree kind_of (object_children pull_data.repo x)
  writes_kind : ∀ w, w ∈ pull_data.metadata_writes_in_flight ∨
      w ∈ pull_data.content_writes_in_flight →
    kinds_agree kind_of (variant_children w.fetch_data.objtype (some w.file.data))
  scanned_ok : ∀ x ∈ pull_data.scanned_metadata,
    object_stored pull_data.repo x ∧
    ((pull_data.transaction_resuming = false ∧ object_stored repo0 x) ∨
      ∀ y ∈ object_children pull_data.repo x, accounted root pull_data y)

/-- Decision procedure for `kinds_agree`. -/
instance kinds_agree_decidable (kind_of : Checksum → OstreeObjectType) (ys : List ObjectName) :
    Decidable (kinds_agree kind_of ys) :=
  inferInstanceAs (Decidable (∀ y ∈ ys, OSTREE_OBJECT_TYPE_IS_META y.2 = true →
    kind_of y.1 = y.2))

/-- The outstanding counters of `pull_data` count (as `guint`s) the fetches and
writes in flight, and no more fetches and writes are in flight than requests
were made.  `running` is the number of metadata writes whose completion
callback is running: `on_metadata_writed` decrements its counter at the end. -/
structure CounterInv (running : Nat) (pull_data : OtPullData) : Prop where
  metadata_fetches : pull_data.n_outstanding_metadata_fetches =
    (pull_data.fetches_in_flight.countP (fun r => OSTREE_OBJECT_TYPE_IS_META r.objtype)) % 2 ^ 32
  content_fetches : pull_data.n_outstanding_content_fetches =
    (pull_data.fetches_in_flight.countP (fun r => !OSTREE_OBJECT_TYPE_IS_META r.objtype)) % 2 ^ 32
  metadata_writes : pull_data.n_outstanding_metadata_write_requests =
    (pull_data.metadata_writes_in_flight.length + running) % 2 ^ 32
  content_writes : pull_data.n_outstanding_content_write_requests =
    pull_data.content_writes_in_flight.length % 2 ^ 32
  bound : pull_data.fetches_in_flight.length + pull_data.metadata_writes_in_flight.length +
    running + pull_data.content_writes_in_flight.length ≤ pull_data.fetch_requests.length

/-- Values of the GVariant types the static-delta code builds and reads: a
byte `y`, a `t`, a byte array `ay`, an embedded object variant (the `to`
commit), tuples and arrays. -/
inductive DeltaVariant where
  | byte (b : Nat)
  | uint64 (n : Nat)
  | bytes (bs : List Nat)
  | object (v : Option GVariant)
  | tuple (children : List DeltaVariant)
  | array (children : List DeltaVariant)

/-- GLib's `g_variant_n_children` on a container; a byte array has one child
per byte.  The code only calls it on containers. -/
def g_variant_n_children : DeltaVariant → Nat
  | .bytes bs => bs.length
  | .tuple children => children.length
  | .array children => children.length
  | _ => 0

/-- GLib's `g_variant_get_child_value`; `none` when the value is not a
container or the index is out of range (a failed `g_return_val_if_fail`). -/
def g_variant_get_child_value : DeltaVariant → Nat → Option DeltaVariant
  | .bytes bs, i => (bs.get? i).map DeltaVariant.byte
  | .tuple children, i => children.get? i
  | .array children, i => children.get? i
  | _, _ => none

/-- One file of a delta part on disk: the variant `(y@ay)` of the compression
type and the compressed `(payload, operations)`. -/
structure DeltaPartFile where
  compression : Nat
  data : List Nat
deriving DecidableEq, Repr

/-- A static delta directory: the contents of the file `meta` (none when
the file is missing) and of the numbered part files. -/
structure StaticDeltaDir where
  meta : Option DeltaVariant
  parts : List DeltaPartFile

/-- What the static-delta code takes from its surroundings: constants of the
private header, and functions of other source files.  `g_hash_table_iter` is
the order in which GLib iterates over a table with the given keys. -/
structure DeltaEnv where
  OSTREE_STATIC_DELTA_OBJTYPE_CSUM_LEN : Nat
  OSTREE_STATIC_DELTA_OP_WRITE : Nat
  OSTREE_STATIC_DELTA_OP_CLOSE : Nat
  ostree_checksum_to_bytes : Checksum → List Nat
  ostree_checksum_from_bytes : List Nat → Checksum
  ostree_checksum_bytes_peek_validate : List Nat → Option GError
  ostree_validate_structureof_objtype : Nat → Except GError OstreeObjectType
  _ostree_write_varuint64 : Nat → List Nat
  ostree_content_stream_parse : ObjFile → Option GError
  ostree_raw_file_to_content_stream : ObjFile → Except GError (List Nat × Nat)
  ostree_repo_traverse_commit : OstreeRepo → Checksum → Except GError (List ObjectName)
  ostree_repo_read_commit : OstreeRepo → Checksum → Option GError
  ostree_diff_dirs : OstreeRepo → Checksum → Checksum → Option GError
  g_hash_table_iter : List ObjectName → List ObjectName
  lzma_compress : List Nat → List Nat → List Nat
  part_checksum : DeltaPartFile → List Nat
  g_variant_get_size : DeltaPartFile → Nat
  GUINT64_TO_BE : Nat → Nat
  _ostree_static_delta_part_validate : OstreeRepo → DeltaPartFile → Nat → Checksum → Option GError
  _ostree_static_delta_part_execute : OstreeRepo → List Nat → DeltaPartFile →
    Except GError OstreeRepo

/-- The error of `_ostree_static_delta_parse_checksum_array`. -/
def invalid_checksum_array_error (n : Nat) : GError :=
  { code := GIOErrorEnum.FAILED, message := "Invalid checksum array length " ++ toString n }

/-- The function of the same name in `ostree-repo-static-delta-core.c`: `n` is a `gsize`,
`n_checksums` a `guint`.  On success the result is the byte array and
`n_checksums`. -/
def _ostree_static_delta_parse_checksum_array (env : DeltaEnv) (array : List Nat) :
    Except GError (List Nat × Nat) :=
  let n := array.length
  let n_checksums := (n / env.OSTREE_STATIC_DELTA_OBJTYPE_CSUM_LEN) % 2 ^ 32
  if n = 0 ∨ n > (2 ^ 32 - 1) / env.OSTREE_STATIC_DELTA_OBJTYPE_CSUM_LEN ∨
      (n_checksums * env.OSTREE_STATIC_DELTA_OBJTYPE_CSUM_LEN) % 2 ^ 32 ≠ n then
    .error (invalid_checksum_array_error n)
  else .ok (array, n_checksums)

/-- The loop of `_ostree_repo_static_delta_part_have_all_objects`: `i` entries
remain, `checksums_data` points at the next one. -/
def part_have_all_objects_loop (env : DeltaEnv) (repo : OstreeRepo) :
    Nat → List Nat → Except GError Bool
  | 0, _ => .ok true
  | i + 1, checksums_data =>
    match env.ostree_validate_structureof_objtype (checksums_data.headD 0) with
    | .error e => .error e
    | .ok objtype =>
      let tmp_checksum := env.ostree_checksum_from_bytes ((checksums_data.drop 1).take 32)
      match ostree_repo_has_object repo objtype tmp_checksum with
      | .error e => .error e
      | .ok have_object =>
        if !have_object then .ok false
        else
          part_have_all_objects_loop env repo i
            (checksums_data.drop env.OSTREE_STATIC_DELTA_OBJTYPE_CSUM_LEN)

/-- The function of the same name in `ostree-repo-static-delta-core.c`. -/
def _ostree_repo_static_delta_part_have_all_objects (env : DeltaEnv) (repo : OstreeRepo)
    (checksum_array : List Nat) : Except GError Bool :=
  match _ostree_static_delta_parse_checksum_array env checksum_array with
  | .error e => .error e
  | .ok (checksums_data, n_checksums) =>
    part_have_all_objects_loop env repo n_checksums checksums_data

/-- The error of a part file that cannot be opened. -/
def part_not_found_error (i : Nat) : GError :=
  { code := GIOErrorEnum.NOT_FOUND, message := "Error opening file " ++ toString i }

/-- The error of a `meta` file that cannot be mapped. -/
def meta_not_found_error : GError :=
  { code := GIOErrorEnum.NOT_FOUND, message := "Error opening file meta" }

/-- GLib's `g_prefix_error` on a set error. -/
def g_prefix_error (e : GError) (pre : String) : GError :=
  { e with message := pre ++ e.message }

/-- The body of the loop of `ostree_repo_static_delta_execute_offline` for index `i`
on `header`.  `g_variant_get (header, "(@aytt@ay)", ...)` requires a value of
that type; on any other value GLib leaves the outputs unset and the `NULL`
`objects` is then dereferenced: the behaviour is undefined and the result is
`none`. -/
def execute_offline_part (env : DeltaEnv) (self : OstreeRepo) (dir : StaticDeltaDir)
    (skip_validation : Bool) (i : Nat) (header : DeltaVariant) :
    Option (Except GError OstreeRepo) :=
  match header with
  | .tuple [.bytes csum_v, .uint64 _, .uint64 _, .bytes objects] =>
    match _ostree_repo_static_delta_part_have_all_objects env self objects with
    | .error e => some (.error e)
    | .ok have_all =>
      if have_all then some (.ok self)
      else
        match env.ostree_checksum_bytes_peek_validate csum_v with
        | some e => some (.error e)
        | none =>
          match dir.parts.get? i with
          | none => some (.error (part_not_found_error i))
          | some part =>
            match (if skip_validation then none
                else env._ostree_static_delta_part_validate self part i
                  (env.ostree_checksum_from_bytes csum_v)) with
            | some e => some (.error e)
            | none =>
              match env._ostree_static_delta_part_execute self objects part with
              | .error e =>
                some (.error (g_prefix_error e ("executing delta part " ++ toString i ++ ": ")))
              | .ok repo => some (.ok repo)
  | _ => none

/-- The loop `for (i = 0; i < n; i++)` of `ostree_repo_static_delta_execute_offline`,
with `remaining = n - i` iterations to go. -/
def execute_offline_loop (env : DeltaEnv) (dir : StaticDeltaDir) (skip_validation : Bool)
    (headers : DeltaVariant) : Nat → Nat → OstreeRepo → Option (Except GError OstreeRepo)
  | 0, _, self => some (.ok self)
  | remaining + 1, i, self =>
    match g_variant_get_child_value headers i with
    | none => none
    | some header =>
      match execute_offline_part env self dir skip_validation i header with
      | none => none
      | some (.error e) => some (.error e)
      | some (.ok self) =>
        execute_offline_loop env dir skip_validation headers remaining (i + 1) self

/-- The function of the same name in `ostree-repo-static-delta-core.c`: the repository after
the delta is applied, or the error.  `n` is a `guint`.  The result is `none`
when the behaviour of the C code is undefined. -/
def ostree_repo_static_delta_execute_offline (env : DeltaEnv) (self : OstreeRepo)
    (dir : StaticDeltaDir) (skip_validation : Bool) : Option (Except GError OstreeRepo) :=
  match dir.meta with
  | none => some (.error meta_not_found_error)
  | some meta =>
    match g_variant_get_child_value meta 3 with
    | none => none
    | some headers =>
      let n := g_variant_n_children headers % 2 ^ 32
      execute_offline_loop env dir skip_validation headers n 0 self

/-! ## Static deltas: generation -/

/-- The record `OstreeStaticDeltaPartBuilder`; `objects` holds the deserialized names. -/
structure OstreeStaticDeltaPartBuilder where
  uncompressed_size : Nat
  objects : List ObjectName
  payload : List Nat
  operations : List Nat
deriving DecidableEq, Repr

/-- The record `OstreeStaticDeltaBuilder`.  The part `current_part` points at
is always the last element of `parts`. -/
structure OstreeStaticDeltaBuilder where
  parts : List OstreeStaticDeltaPartBuilder
  fallback_objects : List ObjectName
  loose_compressed_size : Nat
  max_usize_bytes : Nat
deriving DecidableEq, Repr

/-- The function of the same name in `ostree-repo-static-delta-compilation.c`; the new part is
the last element of `parts`. -/
def allocate_part (builder : OstreeStaticDeltaBuilder) : OstreeStaticDeltaBuilder :=
  { builder with
    parts := builder.parts ++
      [{ uncompressed_size := 0, objects := [], payload := [], operations := [] }] }

/-- The function of the same name in `ostree-repo-static-delta-compilation.c`: one type byte and
the checksum bytes per object. -/
def objtype_checksum_array_new (env : DeltaEnv) : List ObjectName → List Nat
  | [] => []
  | (checksum, objtype) :: rest =>
    (objtype.toNat % 256 :: env.ostree_checksum_to_bytes checksum) ++
      objtype_checksum_array_new env rest

/-- The error of `ostree_repo_load_file` for a missing object. -/
def file_not_found_error (checksum : Checksum) : GError :=
  { code := GIOErrorEnum.NOT_FOUND,
    message := "Couldn\x27t find file object \x27" ++ checksum ++ "\x27" }

/-- The function of the same name in `ostree-repo.c`, as far as the delta code uses it: the
loose file of the content object, looked up in the repository and then in its
parents.  In archive mode the file goes through `ostree_content_stream_parse`,
a function of another source file that is passed in. -/
def ostree_repo_load_file (ostree_content_stream_parse : ObjFile → Option GError) :
    OstreeRepo → Checksum → Except GError ObjFile
  | .mk mode objects_dir parent_repo, checksum =>
    let self := OstreeRepo.mk mode objects_dir parent_repo
    match self.at_path (_ostree_loose_path checksum OstreeObjectType.FILE mode) with
    | .err errno => .error (ot_util_set_error_from_errno errno)
    | .file f =>
      match (if mode = OstreeRepoMode.ARCHIVE_Z2 then ostree_content_stream_parse f
          else none) with
      | some e => .error e
      | none => .ok f
    | .noent =>
      match parent_repo with
      | some parent => ostree_repo_load_file ostree_content_stream_parse parent checksum
      | none => .error (file_not_found_error checksum)

/-- The function of the same name in `ostree-repo.c`: the bytes of the stream and the size.
The result is `.ok none` when the function returns `TRUE` with the stream
`NULL` and `size` never written (a metadata object found in a parent
repository). -/
def ostree_repo_load_object_stream (env : DeltaEnv) (self : OstreeRepo)
    (objtype : OstreeObjectType) (checksum : Checksum) :
    Except GError (Option (List Nat × Nat)) :=
  if OSTREE_OBJECT_TYPE_IS_META objtype then
    match load_metadata_internal self objtype checksum true false true with
    | .error e => .error e
    | .ok r =>
      match r.stream, r.size with
      | some stream, some size => .ok (some (stream, size))
      | _, _ => .ok none
  else
    match ostree_repo_load_file env.ostree_content_stream_parse self checksum with
    | .error e => .error e
    | .ok f =>
      match env.ostree_raw_file_to_content_stream f with
      | .error e => .error e
      | .ok r => .ok (some r)

/-- The error of `g_file_query_info` on a missing file. -/
def query_info_not_found_error (checksum : Checksum) : GError :=
  { code := GIOErrorEnum.NOT_FOUND, message := "Error when getting information for file " ++
      checksum }

/-- The function of the same name in `ostree-repo.c`: the size of the loose file in the
repository itself; the parent is not consulted. -/
def ostree_repo_query_object_storage_size (self : OstreeRepo) (objtype : OstreeObjectType)
    (sha256 : Checksum) : Except GError Nat :=
  match self.at_path (_ostree_loose_path sha256 objtype self.mode) with
  | .err errno => .error (ot_util_set_error_from_errno errno)
  | .noent => .error (query_info_not_found_error sha256)
  | .file f => .ok f.bytes.length

/-- The part with one more object: its name, the bytes read from its stream,
and its operations. -/
def part_add_object (env : DeltaEnv) (part : OstreeStaticDeltaPartBuilder)
    (checksum : Checksum) (objtype : OstreeObjectType) (stream : List Nat)
    (content_size : Nat) : OstreeStaticDeltaPartBuilder :=
  let object_payload_start := part.payload.length
  { uncompressed_size := (part.uncompressed_size + content_size) % 2 ^ 64
    objects := part.objects ++ [(checksum, objtype)]
    payload := part.payload ++ stream
    operations := part.operations ++
      (env._ostree_write_varuint64 content_size ++
       [env.OSTREE_STATIC_DELTA_OP_WRITE] ++
       env._ostree_write_varuint64 object_payload_start ++
       env._ostree_write_varuint64 content_size ++
       [env.OSTREE_STATIC_DELTA_OP_CLOSE]) }

/-- The function of the same name in `ostree-repo-static-delta-compilation.c`.  Read errors of
the stream are not modelled.  The result is `none` when the behaviour of the
C code is undefined: the size is read without having been written, or there
is no current part. -/
def process_one_object (env : DeltaEnv) (repo : OstreeRepo)
    (builder : OstreeStaticDeltaBuilder) (checksum : Checksum) (objtype : OstreeObjectType) :
    Option (Except GError OstreeStaticDeltaBuilder) :=
  match ostree_repo_load_object_stream env repo objtype checksum with
  | .error e => some (.error e)
  | .ok none => none
  | .ok (some (content_stream, content_size)) =>
    match builder.parts.getLast? with
    | none => none
    | some current_part =>
      let builder :=
        if current_part.objects.length > 0 ∧
            (current_part.payload.length + content_size) % 2 ^ 64 > builder.max_usize_bytes then
          allocate_part builder
        else builder
      match ostree_repo_query_object_storage_size repo objtype checksum with
      | .error e => some (.error e)
      | .ok compressed_size =>
        match builder.parts.getLast? with
        | none => none
        | some current_part =>
          some (.ok
            { builder with
              loose_compressed_size :=
                (builder.loose_compressed_size + compressed_size) % 2 ^ 64
              parts := builder.parts.dropLast ++
                [part_add_object env current_part checksum objtype content_stream
                  content_size] })

/-- A loop over objects that stops at the first failure. -/
def delta_fold {α β : Type} (f : β → α → Option (Except GError β)) :
    List α → β → Option (Except GError β)
  | [], b => some (.ok b)
  | a :: rest, b =>
    match f b a with
    | none => none
    | some (.error e) => some (.error e)
    | some (.ok b) => delta_fold f rest b

/-- The loop of `generate_delta_lowlatency` that scans for large objects: the
objects moved to the fallback list (in order) or the first error. -/
def scan_for_large_objects (env : DeltaEnv) (repo : OstreeRepo) (max_usize_bytes : Nat) :
    List ObjectName → Option (Except GError (List ObjectName))
  | [] => some (.ok [])
  | (checksum, objtype) :: rest =>
    match ostree_repo_load_object_stream env repo objtype checksum with
    | .error e => some (.error e)
    | .ok none => none
    | .ok (some (_, uncompressed_size)) =>
      match scan_for_large_objects env repo max_usize_bytes rest with
      | none => none
      | some (.error e) => some (.error e)
      | some (.ok fallback) =>
        if uncompressed_size > max_usize_bytes then some (.ok ((checksum, objtype) :: fallback))
        else some (.ok fallback)

/-- The keys of `new_reachable_metadata` when the packing starts: the metadata
objects reachable from `to` and not from `from`, without the `to` commit. -/
def new_reachable_metadata (to_checksum : Checksum)
    (from_reachable_objects to_reachable_objects : List ObjectName) : List ObjectName :=
  ((to_reachable_objects.filter (fun k =>
      !decide (k ∈ from_reachable_objects) && OSTREE_OBJECT_TYPE_IS_META k.2)).dedup).erase
    (to_checksum, OstreeObjectType.COMMIT)

/-- The keys of `new_reachable_content` before the scan for large objects. -/
def new_reachable_content (from_reachable_objects to_reachable_objects : List ObjectName) :
    List ObjectName :=
  (to_reachable_objects.filter (fun k =>
    !decide (k ∈ from_reachable_objects) && !OSTREE_OBJECT_TYPE_IS_META k.2)).dedup

/-- The function of the same name in `ostree-repo-static-delta-compilation.c`.  Hash tables are
the lists of their keys, iterated in the order `g_hash_table_iter` gives. -/
def generate_delta_lowlatency (env : DeltaEnv) (repo : OstreeRepo)
    (from_checksum to_checksum : Checksum) (builder : OstreeStaticDeltaBuilder) :
    Option (Except GError OstreeStaticDeltaBuilder) :=
  match env.ostree_repo_read_commit repo from_checksum with
  | some e => some (.error e)
  | none =>
    match env.ostree_repo_read_commit repo to_checksum with
    | some e => some (.error e)
    | none =>
      match env.ostree_diff_dirs repo from_checksum to_checksum with
      | some e => some (.error e)
      | none =>
        match env.ostree_repo_traverse_commit repo from_checksum with
        | .error e => some (.error e)
        | .ok from_reachable_objects =>
          match env.ostree_repo_traverse_commit repo to_checksum with
          | .error e => some (.error e)
          | .ok to_reachable_objects =>
            let metadata := new_reachable_metadata to_checksum from_reachable_objects
              to_reachable_objects
            let content := new_reachable_content from_reachable_objects to_reachable_objects
            match scan_for_large_objects env repo builder.max_usize_bytes
                (env.g_hash_table_iter content) with
            | none => none
            | some (.error e) => some (.error e)
            | some (.ok fallback) =>
              let builder :=
                { builder with fallback_objects := builder.fallback_objects ++ fallback }
              let content := content.filter (fun k => !decide (k ∈ fallback))
              let builder := allocate_part builder
              match delta_fold (fun b k => process_one_object env repo b k.1 k.2)
                  (env.g_hash_table_iter metadata) builder with
              | none => none
              | some (.error e) => some (.error e)
              | some (.ok builder) =>
                delta_fold (fun b k => process_one_object env repo b k.1 k.2)
                  (env.g_hash_table_iter content) builder

/-- One entry of the fallback array, `(y@aytt)`. -/
def fallback_header (env : DeltaEnv) (self : OstreeRepo) (checksum : Checksum)
    (objtype : OstreeObjectType) : Option (Except GError DeltaVariant) :=
  let entry (compressed_size uncompressed_size : Nat) : DeltaVariant :=
    .tuple [.byte (objtype.toNat % 256), .bytes (env.ostree_checksum_to_bytes checksum),
      .uint64 compressed_size, .uint64 uncompressed_size]
  if OSTREE_OBJECT_TYPE_IS_META objtype then
    match ostree_repo_load_object_stream env self objtype checksum with
    | .error e => some (.error e)
    | .ok none => none
    | .ok (some (_, uncompressed_size)) => some (.ok (entry uncompressed_size uncompressed_size))
  else
    match ostree_repo_query_object_storage_size self OstreeObjectType.FILE checksum with
    | .error e => some (.error e)
    | .ok compressed_size =>
      match ostree_repo_load_file env.ostree_content_stream_parse self checksum with
      | .error e => .some (.error e)
      | .ok f => some (.ok (entry compressed_size f.bytes.length))

/-- The function of the same name in `ostree-repo-static-delta-compilation.c`: the entries of
the fallback array. -/
def get_fallback_headers (env : DeltaEnv) (self : OstreeRepo) :
    List ObjectName → Option (Except GError (List DeltaVariant))
  | [] => some (.ok [])
  | (checksum, objtype) :: rest =>
    match fallback_header env self checksum objtype with
    | none => none
    | some (.error e) => some (.error e)
    | some (.ok h) =>
      match get_fallback_headers env self rest with
      | none => none
      | some (.error e) => some (.error e)
      | some (.ok hs) => some (.ok (h :: hs))

/-- The part file written for a part builder: compression type `x` and the
compressed `(payload, operations)`. -/
def delta_part_file (env : DeltaEnv) (part_builder : OstreeStaticDeltaPartBuilder) :
    DeltaPartFile :=
  { compression := 120, data := env.lzma_compress part_builder.payload part_builder.operations }

/-- The header `(@aytt@ay)` written for a part builder. -/
def delta_part_header (env : DeltaEnv) (part_builder : OstreeStaticDeltaPartBuilder) :
    DeltaVariant :=
  .tuple [.bytes (env.part_checksum (delta_part_file env part_builder)),
    .uint64 (env.g_variant_get_size (delta_part_file env part_builder)),
    .uint64 part_builder.uncompressed_size,
    .bytes (objtype_checksum_array_new env part_builder.objects)]

/-- The function of the same name in `ostree-repo-static-delta-compilation.c`: the delta directory
`deltas/<from>/<to>` it writes.  `max_usize` is the `max-usize` entry of
`params`, `metadata` the optional user metadata and `now` the current time.
Failures of the temporary files, of the renames and of the write of the
superblock are not modelled. -/
def ostree_repo_static_delta_generate (env : DeltaEnv) (self : OstreeRepo)
    (from_checksum to_checksum : Checksum) (metadata : Option DeltaVariant)
    (max_usize : Option Nat) (now : Nat) : Option (Except GError StaticDeltaDir) :=
  let builder : OstreeStaticDeltaBuilder :=
    { parts := [], fallback_objects := [], loose_compressed_size := 0,
      max_usize_bytes := ((max_usize.getD 32) % 2 ^ 32) * 1000 * 1000 % 2 ^ 64 }
  match ostree_repo_load_variant self OstreeObjectType.COMMIT to_checksum with
  | .error e => some (.error e)
  | .ok to_commit =>
    match generate_delta_lowlatency env self from_checksum to_checksum builder with
    | none => none
    | some (.error e) => some (.error e)
    | some (.ok builder) =>
      let part_headers := builder.parts.map (delta_part_header env)
      let metadata_source := metadata.getD (.tuple [.array [], .array []])
      match get_fallback_headers env self builder.fallback_objects with
      | none => none
      | some (.error e) => some (.error e)
      | some (.ok fallback_headers) =>
        some (.ok
          { meta := some (.tuple
              [metadata_source,
               .uint64 (env.GUINT64_TO_BE now),
               .bytes (env.ostree_checksum_to_bytes from_checksum),
               .bytes (env.ostree_checksum_to_bytes to_checksum),
               .object to_commit,
               .bytes [],
               .array part_headers,
               .array fallback_headers])
            parts := builder.parts.map (delta_part_file env) })

/-! ## Static deltas: what a delta names -/

/-- The object type with the given number. -/
def OstreeObjectType.of_byte : Nat → Option OstreeObjectType
  | 1 => some .FILE
  | 2 => some .DIR_TREE
  | 3 => some .DIR_META
  | 4 => some .COMMIT
  | _ => none

/-- The objects named by a packed array of (type byte, checksum bytes) entries
of `len` bytes each; `fuel` bounds the number of entries. -/
def checksum_array_names (env : DeltaEnv) (len : Nat) : Nat → List Nat → List ObjectName
  | 0, _ => []
  | fuel + 1, bs =>
    match bs with
    | [] => []
    | objtype :: rest =>
      match OstreeObjectType.of_byte objtype with
      | none => []
      | some k =>
        (env.ostree_checksum_from_bytes (rest.take (len - 1)), k) ::
          checksum_array_names env len fuel (rest.drop (len - 1))

/-- The objects named by the `objects` array of a part header. -/
def part_header_names (env : DeltaEnv) : DeltaVariant → List ObjectName
  | .tuple [.bytes _, .uint64 _, .uint64 _, .bytes objects] =>
    checksum_array_names env env.OSTREE_STATIC_DELTA_OBJTYPE_CSUM_LEN objects.length objects
  | _ => []

/-- The object named by an entry of the fallback array. -/
def fallback_header_names (env : DeltaEnv) : DeltaVariant → List ObjectName
  | .tuple [.byte objtype, .bytes csum, .uint64 _, .uint64 _] =>
    match OstreeObjectType.of_byte objtype with
    | none => []
    | some k => [(env.ostree_checksum_from_bytes csum, k)]
  | _ => []

/-- The children of the array at position `i` of a superblock. -/
def superblock_array (meta : Option DeltaVariant) (i : Nat) : List DeltaVariant :=
  match meta with
  | some (.tuple children) =>
    match children.get? i with
    | some (.array entries) => entries
    | _ => []
  | _ => []

/-- The objects named by the part headers of a superblock (its seventh field). -/
def superblock_part_names (env : DeltaEnv) (meta : Option DeltaVariant) : List ObjectName :=
  (superblock_array meta 6).flatMap (part_header_names env)

/-- The objects named by the fallback array of a superblock (its eighth field). -/
def superblock_fallback_names (env : DeltaEnv) (meta : Option DeltaVariant) :
    List ObjectName :=
  (superblock_array meta 7).flatMap (fallback_header_names env)

/-- The commit variant embedded in a superblock (its fifth field). -/
def superblock_commit (meta : Option DeltaVariant) : Option GVariant :=
  match meta with
  | some (.tuple children) =>
    match children.get? 4 with
    | some (.object v) => v
    | _ => none
  | _ => none


/-- The objects packed into the parts of a builder, in order. -/
def builder_objects (builder : OstreeStaticDeltaBuilder) : List ObjectName :=
  builder.parts.flatMap (fun p => p.objects)

/-- The delta directory of a successful generation (an empty directory otherwise). -/
def generated_delta (r : Option (Except GError StaticDeltaDir)) : StaticDeltaDir :=
  match r with
  | some (.ok delta) => delta
  | _ => { meta := none, parts := [] }

/-- The generation succeeded. -/
def generation_succeeded (r : Option (Except GError StaticDeltaDir)) : Bool :=
  match r with
  | some (.ok _) => true
  | _ => false


/-! ## Listing loose objects -/

/-- What `openat (objects_dir_fd, xx, O_DIRECTORY)` followed by `fdopendir` and
`readdir` answers for a two-character directory name: no such directory, a
failure of `openat` with another errno, a failure of `fdopendir`, or the
entries. -/
inductive ObjectSubdir where
  | noent
  | openat_err (errno : Nat)
  | fdopendir_err (errno : Nat)
  | entries (names : List String)
deriving DecidableEq, Repr

/-- C's `strrchr (name, 46)`: the position of the last dot of the name. -/
def strrchr_dot (name : List Char) : Option Nat :=
  let i := name.reverse.indexOf (Char.ofNat 46)
  if i < name.length then some (name.length - 1 - i) else none

/-- The chain of `strcmp (dot, ...)` in `list_loose_objects_at`. -/
def loose_objtype_of_suffix (dot : String) : Option OstreeObjectType :=
  if dot = ".file" then some OstreeObjectType.FILE
  else if dot = ".dirtree" then some OstreeObjectType.DIR_TREE
  else if dot = ".dirmeta" then some OstreeObjectType.DIR_META
  else if dot = ".commit" then some OstreeObjectType.COMMIT
  else none

/-- The loop of `list_loose_objects_at` over the directory entries.  `xx` is the
parameter the C code calls the directory's two-character name; the table is
the list of its keys. -/
def list_loose_objects_entries (xx : String) :
    List String → List ObjectName → List ObjectName
  | [], inout_objects => inout_objects
  | name :: rest, inout_objects =>
    if name = "." ∨ name = ".." then list_loose_objects_entries xx rest inout_objects
    else
      match strrchr_dot name.toList with
      | none => list_loose_objects_entries xx rest inout_objects
      | some dot =>
        match loose_objtype_of_suffix (String.mk (name.toList.drop dot)) with
        | none => list_loose_objects_entries xx rest inout_objects
        | some objtype =>
          if dot = 62 then
            list_loose_objects_entries xx rest
              (ghash_insert
                (String.mk (xx.toList.take 2 ++ name.toList.take 62), objtype) inout_objects)
          else list_loose_objects_entries xx rest inout_objects

/-- The function of the same name in `ostree-repo.c`; `dir` is what the directory behind
`dfd` answers.  The parameter `self` is not used by the C code. -/
def list_loose_objects_at (inout_objects : List ObjectName) (xx : String)
    (dir : ObjectSubdir) : Except GError (List ObjectName) :=
  match dir with
  | .fdopendir_err errno => .error (ot_util_set_error_from_errno errno)
  | .entries names => .ok (list_loose_objects_entries xx names inout_objects)
  | _ => .ok inout_objects

/-- The table `hexchars` of `list_loose_objects`. -/
def hexchars : List Char := "0123456789abcdef".toList

/-- The loop `for (c = ...; c < 255; c++)` of `list_loose_objects`, with
`remaining = 255 - c` iterations to go. -/
def list_loose_objects_loop (objects_dir_fd : String → ObjectSubdir) :
    Nat → Nat → List ObjectName → Except GError (List ObjectName)
  | 0, _, inout_objects => .ok inout_objects
  | remaining + 1, c, inout_objects =>
    let buf := String.mk [hexchars.getD (c / 16) (Char.ofNat 0),
      hexchars.getD (c % 16) (Char.ofNat 0)]
    match objects_dir_fd buf with
    | .noent => list_loose_objects_loop objects_dir_fd remaining (c + 1) inout_objects
    | .openat_err errno => .error (ot_util_set_error_from_errno errno)
    | dir =>
      match list_loose_objects_at inout_objects buf dir with
      | .error e => .error e
      | .ok inout_objects =>
        list_loose_objects_loop objects_dir_fd remaining (c + 1) inout_objects

/-- The function of the same name in `ostree-repo.c`, on the directory `objects/` given by
what each of its subdirectories answers. -/
def list_loose_objects (objects_dir_fd : String → ObjectSubdir)
    (inout_objects : List ObjectName) : Except GError (List ObjectName) :=
  list_loose_objects_loop objects_dir_fd 255 0 inout_objects

/-- File name suffix of a loose object. -/
def LooseExt.suffix : LooseExt → String
  | .commit => ".commit"
  | .dirtree => ".dirtree"
  | .dirmeta => ".dirmeta"
  | .file => ".file"
  | .filez => ".filez"

/-- The directory `objects/xx` of a repository as `readdir` shows it: one entry
per loose file whose checksum starts with `xx`, named by the rest of the
checksum and the suffix. -/
def OstreeRepo.open_subdir (self : OstreeRepo) (xx : String) : ObjectSubdir :=
  let names :=
    ((self.objects_dir.filter (fun e =>
        decide (String.mk (e.1.checksum.toList.take 2) = xx) &&
        decide (self.at_path e.1 ≠ LooseFile.noent))).map
      (fun e => String.mk (e.1.checksum.toList.drop 2) ++ e.1.ext.suffix)).dedup
  if names = [] then ObjectSubdir.noent else ObjectSubdir.entries ("." :: ".." :: names)

/-- The flags of `ostree_repo_list_objects`, one field per bit. -/
structure OstreeRepoListObjectsFlags where
  loose : Bool
  packed : Bool
  all : Bool
deriving DecidableEq, Repr

/-- The function of the same name in `ostree-repo.c`: the keys of the table it returns. -/
def ostree_repo_list_objects (self : OstreeRepo) (flags : OstreeRepoListObjectsFlags) :
    Except GError (List ObjectName) :=
  let flags : OstreeRepoListObjectsFlags :=
    if flags.all then { flags with loose := true, packed := true } else flags
  if flags.loose then
    match list_loose_objects self.open_subdir [] with
    | .error e => .error e
    | .ok ret_objects =>
      match self.parent_repo with
      | some parent => list_loose_objects parent.open_subdir ret_objects
      | none => .ok ret_objects
  else .ok []

/-- The function of the same name in `ostree-repo.c`. -/
def ostree_repo_load_variant_if_exists (self : OstreeRepo) (objtype : OstreeObjectType)
    (sha256 : Checksum) : Except GError (Option GVariant) :=
  match load_metadata_internal self objtype sha256 false true false with
  | .error e => .error e
  | .ok r => .ok r.variant


/-! ## Repository configuration: create and open -/

/-- The function of the same name in `ostree-repo.c`.  The `default:` case of the switch is
not reachable for a value of the enumeration. -/
def ostree_repo_mode_to_string (mode : OstreeRepoMode) : Except GError String :=
  match mode with
  | .BARE => .ok "bare"
  | .ARCHIVE_Z2 => .ok "archive-z2"

/-- The function of the same name in `ostree-repo.c`. -/
def ostree_repo_mode_from_string (mode : String) : Except GError OstreeRepoMode :=
  if mode = "bare" then .ok OstreeRepoMode.BARE
  else if mode = "archive-z2" then .ok OstreeRepoMode.ARCHIVE_Z2
  else
    .error { code := GIOErrorEnum.FAILED,
             message := "Invalid mode \x27" ++ mode ++ "\x27 in repository configuration" }

/-- The macro `DEFAULT_CONFIG_CONTENTS`. -/
def DEFAULT_CONFIG_CONTENTS : String := "[core]\nrepo_version=1\n"

/-- The key-file functions `ostree_repo_open` calls.  A loaded `GKeyFile` is
represented by the text it was loaded from; `key_file_parse_error` is the
failure of `g_key_file_load_from_file` on that text, the other three are
GLib's `g_key_file_get_value` and the helpers of `otutil`. -/
structure ConfigEnv where
  key_file_parse_error : String → Option GError
  g_key_file_get_value : String → String → String → Except GError String
  ot_keyfile_get_boolean_with_default : String → String → String → Bool → Except GError Bool
  ot_keyfile_get_value_with_default :
    String → String → String → Option String → Except GError (Option String)

/-- What `ostree_repo_open` finds on disk at a repository path: whether
`objects` is a directory, the text of `config` (or the error of reading it),
the failures of opening `objects`, `tmp` and of ensuring and opening
`uncompressed-objects-cache`, and what is at the path that `core.parent`
names. -/
inductive RepoDir where
  | mk (objects_is_dir : Bool) (config_file : Except GError String)
      (objects_dir_fd tmp_dir_fd uncompressed_objects_dir : Option GError)
      (parent_dir : Option RepoDir)

/-- The path of `self->repodir` and the fields of `OstreeRepo` that
`ostree_repo_open` writes. -/
inductive OstreeRepoSelf where
  | mk (repodir : String) (inited : Bool) (config : Option String) (mode : OstreeRepoMode)
      (parent_repo : Option OstreeRepoSelf) (enable_uncompressed_cache : Bool)

/-- Field `self->repodir`, as a path. -/
def OstreeRepoSelf.repodir : OstreeRepoSelf → String
  | .mk p _ _ _ _ _ => p

/-- Field `self->inited`. -/
def OstreeRepoSelf.inited : OstreeRepoSelf → Bool
  | .mk _ i _ _ _ _ => i

/-- Field `self->mode`. -/
def OstreeRepoSelf.mode : OstreeRepoSelf → OstreeRepoMode
  | .mk _ _ _ m _ _ => m

/-- Field `self->config`. -/
def OstreeRepoSelf.config : OstreeRepoSelf → Option String
  | .mk _ _ c _ _ _ => c

/-- The path of `self->objects_dir`, the child `objects` of the repository directory. -/
def OstreeRepoSelf.objects_dir : OstreeRepoSelf → String
  | .mk p _ _ _ _ _ => p ++ "/objects"

/-- A repository object as `ostree_repo_new` returns it for a path. -/
def ostree_repo_new (path : String) : OstreeRepoSelf :=
  OstreeRepoSelf.mk path false none OstreeRepoMode.BARE none false

/-- The error of `ostree_repo_open` for a missing `objects` directory. -/
def objects_dir_not_found_error (objects_dir : String) : GError :=
  { code := GIOErrorEnum.NOT_FOUND,
    message := "Couldn\x27t find objects directory \x27" ++ objects_dir ++ "\x27" }

/-- The error of `ostree_repo_open` for another repository version. -/
def invalid_version_error (version : String) : GError :=
  { code := GIOErrorEnum.FAILED,
    message := "Invalid repository version \x27" ++ version ++ "\x27" }

/-- The error of `ostree_repo_open` for the boolean key `core.archive`. -/
def archive_not_supported_error : GError :=
  { code := GIOErrorEnum.NOT_SUPPORTED,
    message := "This version of OSTree no longer supports \"archive\" repositories; " ++
      "use archive-z2 instead" }

/-- The body of `ostree_repo_open` in `ostree-repo.c`, given the result
`parent_open path` of the recursive `ostree_repo_open` on
`ostree_repo_new (path)` for the directory at the path `core.parent` names
(`parent_open` is `none` when nothing is at that path): the repository object
after a successful open, or the error.  The result is `none` when the mode
string is `NULL` (the helper returned no value for a key with a default).  On
failure the partly written object is not returned.  The initial
`g_return_val_if_fail (error == NULL || *error == NULL, FALSE)` guards a
caller error and is not modelled. -/
def ostree_repo_open_body (env : ConfigEnv) (objects_is_dir : Bool)
    (config_file : Except GError String)
    (objects_dir_fd tmp_dir_fd uncompressed_objects_dir : Option GError)
    (parent_open : Option (String → Option (Except GError OstreeRepoSelf)))
    (self : OstreeRepoSelf) : Option (Except GError OstreeRepoSelf) :=
  if self.inited then some (.ok self)
  else if !objects_is_dir then
    some (.error (objects_dir_not_found_error self.objects_dir))
  else
    match config_file with
    | .error e => some (.error (g_prefix_error e "Couldn\x27t parse config file: "))
    | .ok config =>
      match env.key_file_parse_error config with
      | some e => some (.error (g_prefix_error e "Couldn\x27t parse config file: "))
      | none =>
        match env.g_key_file_get_value config "core" "repo_version" with
        | .error e => some (.error e)
        | .ok version =>
          if version ≠ "1" then some (.error (invalid_version_error version))
          else
            match env.ot_keyfile_get_boolean_with_default config "core" "archive" false with
            | .error e => some (.error e)
            | .ok is_archive =>
              if is_archive then some (.error archive_not_supported_error)
              else
                match env.ot_keyfile_get_value_with_default config "core" "mode"
                    (some "bare") with
                | .error e => some (.error e)
                | .ok none => none
                | .ok (some mode) =>
                  match ostree_repo_mode_from_string mode with
                  | .error e => some (.error e)
                  | .ok self_mode =>
                    match env.ot_keyfile_get_value_with_default config "core" "parent"
                        none with
                    | .error e => some (.error e)
                    | .ok parent_repo_path =>
                      let parent : Option (Except GError (Option OstreeRepoSelf)) :=
                        if parent_repo_path.isSome ∧ parent_repo_path ≠ some "" then
                          match parent_open with
                          | none =>
                            some (.error (objects_dir_not_found_error
                              (ostree_repo_new (parent_repo_path.getD "")).objects_dir))
                          | some open_parent =>
                            match open_parent (parent_repo_path.getD "") with
                            | none => none
                            | some (.error e) => some (.error e)
                            | some (.ok p) => some (.ok (some p))
                        else some (.ok none)
                      match parent with
                      | none => none
                      | some (.error e) =>
                        some (.error (g_prefix_error e
                          ("While checking parent repository \x27" ++
                            parent_repo_path.getD "" ++ "\x27: ")))
                      | some (.ok parent_repo) =>
                        match env.ot_keyfile_get_boolean_with_default config "core"
                            "enable-uncompressed-cache" true with
                        | .error e => some (.error e)
                        | .ok enable_uncompressed_cache =>
                          match objects_dir_fd with
                          | some e => some (.error e)
                          | none =>
                            match tmp_dir_fd with
                            | some e => some (.error e)
                            | none =>
                              match (if self_mode = OstreeRepoMode.ARCHIVE_Z2 then
                                  uncompressed_objects_dir else none) with
                              | some e => some (.error e)
                              | none =>
                                some (.ok (OstreeRepoSelf.mk self.repodir true (some config)
                                  self_mode parent_repo enable_uncompressed_cache))

/-- The function of the same name in `ostree-repo.c`: the body, with the recursive call on
the parent repository. -/
def ostree_repo_open (env : ConfigEnv) :
    RepoDir → OstreeRepoSelf → Option (Except GError OstreeRepoSelf)
  | .mk objects_is_dir config_file objects_dir_fd tmp_dir_fd uncompressed_objects_dir
      parent_dir, self =>
    match parent_dir with
    | none =>
      ostree_repo_open_body env objects_is_dir config_file objects_dir_fd tmp_dir_fd
        uncompressed_objects_dir none self
    | some dir =>
      ostree_repo_open_body env objects_is_dir config_file objects_dir_fd tmp_dir_fd
        uncompressed_objects_dir
        (some (fun path => ostree_repo_open env dir (ostree_repo_new path))) self

/-- Outcomes of the file operations of `ostree_repo_create`, in the order of the
calls, and of the directories `ostree_repo_open` opens afterwards. -/
structure CreateIO where
  ensure_directory : Option GError
  replace_contents : Option GError
  make_objects_dir : Option GError
  make_tmp_dir : Option GError
  make_remote_cache_dir : Option GError
  make_refs : Option GError
  make_refs_heads : Option GError
  make_refs_remotes : Option GError
  objects_dir_fd : Option GError
  tmp_dir_fd : Option GError
  uncompressed_objects_dir : Option GError

/-- The first error of a sequence of operations. -/
def first_failure : List (Option GError) → Option GError
  | [] => none
  | some e :: _ => some e
  | none :: rest => first_failure rest

/-- The text `ostree_repo_create` writes to `config`. -/
def create_config_data (mode_str : String) : String :=
  DEFAULT_CONFIG_CONTENTS ++ "mode=" ++ mode_str ++ "\n"

/-- The function of the same name in `ostree-repo.c`. -/
def ostree_repo_create (env : ConfigEnv) (io : CreateIO) (self : OstreeRepoSelf)
    (mode : OstreeRepoMode) : Option (Except GError OstreeRepoSelf) :=
  match ostree_repo_mode_to_string mode with
  | .error e => some (.error e)
  | .ok mode_str =>
    match first_failure [io.ensure_directory, io.replace_contents, io.make_objects_dir,
        io.make_tmp_dir, io.make_remote_cache_dir, io.make_refs, io.make_refs_heads,
        io.make_refs_remotes] with
    | some e => some (.error e)
    | none =>
      ostree_repo_open env
        (RepoDir.mk true (.ok (create_config_data mode_str)) io.objects_dir_fd io.tmp_dir_fd
          io.uncompressed_objects_dir none)
        self


/-! ## Static deltas: the size of a part -/

/-- What the packing loop of `generate_delta_lowlatency` keeps true of a part:
its payload is within `max_usize_bytes` or it holds a single metadata object;
a part without objects has no payload; and the payload length is below
`2 ^ 63`, so that the 64-bit sum of the size check does not wrap. -/
def PartBound (max_usize_bytes : Nat) (part : OstreeStaticDeltaPartBuilder) : Prop :=
  (part.payload.length ≤ max_usize_bytes ∨
    ∃ checksum objtype, part.objects = [(checksum, objtype)] ∧
      OSTREE_OBJECT_TYPE_IS_META objtype = true) ∧
  (part.objects = [] → part.payload = []) ∧
  part.payload.length < 2 ^ 63

/-- The stream and the size `ostree_repo_load_object_stream` returned agree: the
stream has `size` bytes, and `size` is below `2 ^ 63`. -/
def stream_size_agrees (r : Except GError (Option (List Nat × Nat))) : Bool :=
  match r with
  | .ok (some (stream, size)) => decide (stream.length = size) && decide (size < 2 ^ 63)
  | _ => true

/-- The builder `ostree_repo_static_delta_generate` hands to
`generate_delta_lowlatency` for the `max-usize` entry of `params`. -/
def static_delta_builder_new (max_usize : Option Nat) : OstreeStaticDeltaBuilder :=
  { parts := [], fallback_objects := [], loose_compressed_size := 0,
    max_usize_bytes := ((max_usize.getD 32) % 2 ^ 32) * 1000 * 1000 % 2 ^ 64 }


/-! ## The synchronous fetch helper -/

/-- The function of the same name in `ostree-repo-pull.c`: the idle source that
`run_mainloop_monitor_fetcher` attaches before it runs the main loop. -/
def idle_check_outstanding_requests (pull_data : OtPullData) : OtPullData :=
  check_outstanding_requests_handle_error pull_data none

/-- The part of `fetch_uri_contents_membuf_sync` before the main loop runs: the URI
is stored in `fetching_sync_uri` and the request is handed to the fetcher. -/
def fetch_uri_contents_membuf_sync_begin (pull_data : OtPullData) (uri : String) :
    OtPullData :=
  { pull_data with fetching_sync_uri := some uri }

/-- The function of the same name in `ostree-repo-pull.c`: the completion of the
synchronous request stores an error in `*async_error` (an error already there
stays), clears `fetching_sync_uri` and stops the main loop; the second
component is `result_stream`. -/
def fetch_uri_sync_on_complete (pull_data : OtPullData) (result : Except GError (List Nat)) :
    OtPullData × Option (List Nat) :=
  ({ pull_data with
      async_error :=
        match result, pull_data.async_error with
        | .error e, none => some e
        | _, old => old
      fetching_sync_uri := none
      loop_quit_calls := pull_data.loop_quit_calls + 1 },
    match result with
    | .ok stream => some stream
    | .error _ => none)

/-! ## GPG verification -/

/-- What `_ostree_repo_gpg_verify_file_with_metadata` takes from its surroundings:
whether the build has `HAVE_GPGME`, the failures of creating the verifier and
of adding the keyring directory and the extra keyring, the failures of
creating and writing the temporary signature file of iteration `i`, and the
verifier's check of a signature against the file at `path` with the keyrings
given: an error, or the value of `had_valid_signature` after the call. -/
structure GpgEnv where
  HAVE_GPGME : Bool
  _ostree_gpg_verifier_new : Option GError
  _ostree_gpg_verifier_add_keyring_dir : String → Option GError
  _ostree_gpg_verifier_add_keyring : String → Option GError
  gs_file_open_in_tmpdir : Nat → Option GError
  g_file_replace_contents : Nat → List Nat → Option GError
  _ostree_gpg_verifier_check_signature :
    Option String → Option String → String → List Nat → Except GError Bool

/-- The call `g_variant_lookup_value (metadata, "ostree.gpgsigs", G_VARIANT_TYPE ("aay"))`. -/
def g_variant_lookup_gpgsigs : GVariant → Option (List (List Nat))
  | .detached_meta gpgsigs => gpgsigs
  | _ => none

/-- The value of a `gsize` stored to a `gint`. -/
def gint_of_gsize (n : Nat) : Int :=
  if n % 2 ^ 32 < 2 ^ 31 then ((n % 2 ^ 32 : Nat) : Int)
  else ((n % 2 ^ 32 : Nat) : Int) - 2 ^ 32

/-- The error for metadata without signatures. -/
def no_signatures_found_error : GError :=
  { code := GIOErrorEnum.NOT_FOUND,
    message := "GPG verification enabled, but no signatures found " ++
      "(use gpg-verify=false in remote config to disable)" }

/-- The error for signatures of which none is valid. -/
def none_in_trusted_keyring_error : GError :=
  { code := GIOErrorEnum.FAILED,
    message := "GPG signatures found, but none are in trusted keyring" }

/-- The error of a build without `HAVE_GPGME`. -/
def compiled_without_gpg_error : GError :=
  { code := GIOErrorEnum.NOT_SUPPORTED,
    message := "This version of ostree was compiled without GPG support" }

/-- The loop of `_ostree_repo_gpg_verify_file_with_metadata` over the signatures,
from iteration `i` on: an error, or `had_valid_signataure` when the loop ends. -/
def gpg_check_signatures (env : GpgEnv) (path : String)
    (keyringdir extra_keyring : Option String) : Nat → List (List Nat) → Except GError Bool
  | _, [] => .ok false
  | i, signature_variant :: rest =>
    match env.gs_file_open_in_tmpdir i with
    | some e => .error e
    | none =>
      match env.g_file_replace_contents i signature_variant with
      | some e => .error e
      | none =>
        match env._ostree_gpg_verifier_check_signature keyringdir extra_keyring path
            signature_variant with
        | .error e => .error e
        | .ok had_valid_signataure =>
          if had_valid_signataure then .ok true
          else gpg_check_signatures env path keyringdir extra_keyring (i + 1) rest

/-- The function of the same name in `ostree-repo.c`. -/
def _ostree_repo_gpg_verify_file_with_metadata (env : GpgEnv) (path : String)
    (metadata : Option GVariant) (keyringdir extra_keyring : Option String) :
    Except GError Unit :=
  if !env.HAVE_GPGME then .error compiled_without_gpg_error
  else
    match env._ostree_gpg_verifier_new with
    | some e => .error e
    | none =>
      match keyringdir.bind env._ostree_gpg_verifier_add_keyring_dir with
      | some e => .error e
      | none =>
        match extra_keyring.bind env._ostree_gpg_verifier_add_keyring with
        | some e => .error e
        | none =>
          match metadata.bind g_variant_lookup_gpgsigs with
          | none => .error no_signatures_found_error
          | some signaturedata =>
            let n := gint_of_gsize signaturedata.length
            match gpg_check_signatures env path keyringdir extra_keyring 0
                (signaturedata.take n.toNat) with
            | .error e => .error e
            | .ok had_valid_signataure =>
              if !had_valid_signataure then .error none_in_trusted_keyring_error
              else .ok ()


/-! ## fsck -/

/-- The function of the same name in `ostree-repo.c`: unlink the loose path of the object in
the repository itself. -/
def ostree_repo_delete_object : OstreeRepo → OstreeObjectType → Checksum →
    Except GError OstreeRepo
  | .mk mode objects_dir parent_repo, objtype, sha256 =>
    let objpath := _ostree_loose_path sha256 objtype mode
    match (OstreeRepo.mk mode objects_dir parent_repo).at_path objpath with
    | .noent =>
      .error { code := GIOErrorEnum.NOT_FOUND, message := "No such file or directory" }
    | .err errno => .error (ot_util_set_error_from_errno errno)
    | .file _ =>
      .ok (OstreeRepo.mk mode (objects_dir.filter (fun e => decide (e.1 ≠ objpath)))
        parent_repo)

/-- What `load_and_fsck_one_object` hands to `ostree_checksum_file_from_input`: the
variant of a metadata object, or the stream, file info and extended attributes
of a content object. -/
inductive FsckInput where
  | metadata (v : GVariant)
  | file (f : ObjFile)
deriving DecidableEq, Repr

/-- What the fsck builtin takes from its surroundings: the iteration order of a
hash table, the traversal of a commit into the set of reachable objects, the
structure validators, the parser of archived content, the checksum of an
object (as `ostree_checksum_from_bytes` prints it) and the names of the object
types. -/
structure FsckEnv where
  g_hash_table_iter : List ObjectName → List ObjectName
  ostree_repo_traverse_commit_union :
    OstreeRepo → Checksum → List ObjectName → Except GError (List ObjectName)
  ostree_validate_structureof_commit : GVariant → Option GError
  ostree_validate_structureof_dirtree : GVariant → Option GError
  ostree_validate_structureof_dirmeta : GVariant → Option GError
  ostree_validate_structureof_file_mode : ObjFile → Option GError
  ostree_content_stream_parse : ObjFile → Option GError
  ostree_checksum_file_from_input : FsckInput → OstreeObjectType → Except GError Checksum
  ostree_object_type_to_string : OstreeObjectType → String

/-- The `gboolean` a function of the fsck builtin returns, with `*error` when it
is `FALSE`: `none` when the function leaves `*error` unset. -/
inductive FsckReturn where
  | TRUE
  | FALSE (error : Option GError)
deriving DecidableEq, Repr

/-- The first half of `load_and_fsck_one_object`: the object is loaded and its
structure validated.  The result is `.ok none` when the object is missing
(`missing = TRUE`), `.error none` when the function returns `FALSE` after
`g_prefix_error` on an `*error` that was never set, and `none` when
`ostree_repo_load_variant` returns `TRUE` without a variant. -/
def load_fsck_input (env : FsckEnv) (repo : OstreeRepo) (checksum : Checksum)
    (objtype : OstreeObjectType) : Option (Except (Option GError) (Option FsckInput)) :=
  if OSTREE_OBJECT_TYPE_IS_META objtype then
    match ostree_repo_load_variant repo objtype checksum with
    | .error temp_error =>
      if temp_error.is_not_found then some (.ok none)
      else some (.error none)
    | .ok none => none
    | .ok (some metadata) =>
      let invalid : Option GError :=
        match objtype with
        | .COMMIT =>
          (env.ostree_validate_structureof_commit metadata).map (fun e =>
            g_prefix_error e ("While validating commit metadata \x27" ++ checksum ++ "\x27: "))
        | .DIR_TREE =>
          (env.ostree_validate_structureof_dirtree metadata).map (fun e =>
            g_prefix_error e ("While validating directory tree \x27" ++ checksum ++ "\x27: "))
        | .DIR_META =>
          (env.ostree_validate_structureof_dirmeta metadata).map (fun e =>
            g_prefix_error e
              ("While validating directory metadata \x27" ++ checksum ++ "\x27: "))
        | .FILE => none
      match invalid with
      | some e => some (.error (some e))
      | none => some (.ok (some (.metadata metadata)))
  else
    match ostree_repo_load_file env.ostree_content_stream_parse repo checksum with
    | .error temp_error =>
      if temp_error.is_not_found then some (.ok none)
      else
        some (.error (some (g_prefix_error temp_error
          ("Loading file object " ++ checksum ++ ": "))))
    | .ok f =>
      match env.ostree_validate_structureof_file_mode f with
      | some e =>
        some (.error (some (g_prefix_error e
          ("While validating file \x27" ++ checksum ++ "\x27: "))))
      | none => some (.ok (some (.file f)))

/-- The error of `load_and_fsck_one_object` for an object whose checksum differs. -/
def corrupted_object_error (env : FsckEnv) (checksum : Checksum) (objtype : OstreeObjectType)
    (tmp_checksum : Checksum) : GError :=
  { code := GIOErrorEnum.FAILED,
    message := "corrupted object " ++ checksum ++ "." ++
      env.ostree_object_type_to_string objtype ++ "; actual checksum: " ++ tmp_checksum }

/-- The function of the same name in `ot-builtin-fsck.c`: the return value, the repository
afterwards, and `*out_found_corruption`.  A failure of
`ostree_repo_delete_object` is ignored, as in the C code. -/
def load_and_fsck_one_object (env : FsckEnv) (opt_delete : Bool) (repo : OstreeRepo)
    (checksum : Checksum) (objtype : OstreeObjectType) (found_corruption : Bool) :
    Option (FsckReturn × OstreeRepo × Bool) :=
  match load_fsck_input env repo checksum objtype with
  | none => none
  | some (.error e) => some (.FALSE e, repo, found_corruption)
  | some (.ok none) => some (.TRUE, repo, true)
  | some (.ok (some input)) =>
    match env.ostree_checksum_file_from_input input objtype with
    | .error e => some (.FALSE (some e), repo, found_corruption)
    | .ok tmp_checksum =>
      if checksum ≠ tmp_checksum then
        if opt_delete then
          match ostree_repo_delete_object repo objtype checksum with
          | .ok deleted => some (.TRUE, deleted, true)
          | .error _ => some (.TRUE, repo, true)
        else
          some (.FALSE (some (corrupted_object_error env checksum objtype tmp_checksum)),
            repo, found_corruption)
      else some (.TRUE, repo, found_corruption)

/-- The first loop of `fsck_reachable_objects_from_commits`: the union of what the
commits reach, or the first error.  The result is `none` when
`g_assert (objtype == OSTREE_OBJECT_TYPE_COMMIT)` fails. -/
def fsck_traverse_commits (env : FsckEnv) (repo : OstreeRepo) :
    List ObjectName → List ObjectName → Option (Except GError (List ObjectName))
  | [], reachable_objects => some (.ok reachable_objects)
  | (checksum, objtype) :: rest, reachable_objects =>
    if objtype ≠ OstreeObjectType.COMMIT then none
    else
      match env.ostree_repo_traverse_commit_union repo checksum reachable_objects with
      | .error e => some (.error e)
      | .ok reachable_objects => fsck_traverse_commits env repo rest reachable_objects

/-- The second loop of `fsck_reachable_objects_from_commits`, which stops at the
first object for which `load_and_fsck_one_object` returns `FALSE`. -/
def fsck_objects_loop (env : FsckEnv) (opt_delete : Bool) :
    List ObjectName → OstreeRepo → Bool → Option (FsckReturn × OstreeRepo × Bool)
  | [], repo, found_corruption => some (.TRUE, repo, found_corruption)
  | (checksum, objtype) :: rest, repo, found_corruption =>
    match load_and_fsck_one_object env opt_delete repo checksum objtype found_corruption with
    | none => none
    | some (.FALSE e, repo, found_corruption) => some (.FALSE e, repo, found_corruption)
    | some (.TRUE, repo, found_corruption) =>
      fsck_objects_loop env opt_delete rest repo found_corruption

/-- The function of the same name in `ot-builtin-fsck.c`; the progress output is left out. -/
def fsck_reachable_objects_from_commits (env : FsckEnv) (opt_delete : Bool)
    (repo : OstreeRepo) (commits : List ObjectName) (found_corruption : Bool) :
    Option (FsckReturn × OstreeRepo × Bool) :=
  match fsck_traverse_commits env repo (env.g_hash_table_iter commits) [] with
  | none => none
  | some (.error e) => some (.FALSE (some e), repo, found_corruption)
  | some (.ok reachable_objects) =>
    fsck_objects_loop env opt_delete (env.g_hash_table_iter reachable_objects) repo
      found_corruption

/-- The keys of the table `commits` of `ostree_builtin_fsck`: the commit objects of
the listing. -/
def fsck_commits (env : FsckEnv) (objects : List ObjectName) : List ObjectName :=
  (env.g_hash_table_iter objects).filter (fun k => decide (k.2 = OstreeObjectType.COMMIT))

/-- The error of `ostree_builtin_fsck` after a run that found corruption. -/
def repository_corruption_error : GError :=
  { code := GIOErrorEnum.FAILED, message := "Repository corruption encountered" }

/-- The function of the same name in `ot-builtin-fsck.c`, after the options have been parsed:
the return value and the repository afterwards.  `opt_delete` is the option
`--delete`. -/
def ostree_builtin_fsck (env : FsckEnv) (opt_delete : Bool) (repo : OstreeRepo) :
    Option (FsckReturn × OstreeRepo) :=
  match ostree_repo_list_objects repo { loose := false, packed := false, all := true } with
  | .error e => some (.FALSE (some e), repo)
  | .ok objects =>
    match fsck_reachable_objects_from_commits env opt_delete repo (fsck_commits env objects)
        false with
    | none => none
    | some (.FALSE e, repo, _) => some (.FALSE e, repo)
    | some (.TRUE, repo, found_corruption) =>
      if found_corruption then some (.FALSE (some repository_corruption_error), repo)
      else some (.TRUE, repo)

/-- The loose file of the object is in the repository itself, the object loads
and validates, and its checksum is computed as something else than its name. -/
def fsck_object_corrupted (env : FsckEnv) (repo : OstreeRepo) (x : ObjectName) : Bool :=
  (match repo.at_path (_ostree_loose_path x.1 x.2 repo.mode) with
    | .file _ => true
    | _ => false) &&
  (match load_fsck_input env repo x.1 x.2 with
    | some (.ok (some input)) =>
      match env.ostree_checksum_file_from_input input x.2 with
      | .ok tmp_checksum => decide (x.1 ≠ tmp_checksum)
      | .error _ => false
    | _ => false)

/-- The checksum computed for the object, when it loads and validates. -/
def fsck_actual_checksum (env : FsckEnv) (repo : OstreeRepo) (x : ObjectName) : Checksum :=
  match load_fsck_input env repo x.1 x.2 with
  | some (.ok (some input)) =>
    match env.ostree_checksum_file_from_input input x.2 with
    | .ok tmp_checksum => tmp_checksum
    | .error _ => ""
  | _ => ""

/-- The object loads and validates, and its checksum is computed as its name. -/
def fsck_object_intact (env : FsckEnv) (repo : OstreeRepo) (x : ObjectName) : Bool :=
  match load_fsck_input env repo x.1 x.2 with
  | some (.ok (some input)) =>
    match env.ostree_checksum_file_from_input input x.2 with
    | .ok tmp_checksum => decide (x.1 = tmp_checksum)
    | .error _ => false
  | _ => false


/-! ## Static deltas: reading a superblock -/

/-- The bytes of a byte-array variant. -/
def DeltaVariant.as_bytes : DeltaVariant → Option (List Nat)
  | .bytes bs => some bs
  | _ => none

/-- The value `ostree_repo_static_delta_execute_offline` takes for `headers`:
`g_variant_get_child_value (meta, 3)`. -/
def execute_offline_headers (dir : StaticDeltaDir) : Option DeltaVariant :=
  dir.meta.bind (fun meta => g_variant_get_child_value meta 3)

/-- The `objects` byte array of a part header `(@aytt@ay)`. -/
def part_header_objects : DeltaVariant → Option (List Nat)
  | .tuple [.bytes _, .uint64 _, .uint64 _, .bytes objects] => some objects
  | _ => none


/-! ## The object phase of `ostree_repo_pull`: one static delta lookup per ref -/

/-- Calls that the loop over `requested_refs_to_fetch` in the object phase makes:
`ostree_repo_resolve_rev (repo, refspec, TRUE, ...)` and
`request_static_delta_superblock_sync (from_revision, to_revision)`. -/
inductive ObjectPhaseCall where
  | resolve_rev (refspec : String)
  | request_static_delta_superblock (from_revision to_revision : Checksum)
deriving DecidableEq, Repr

/-- The loop of `ostree_repo_pull` over `requested_refs_to_fetch` that follows
`pull_data->phase = OSTREE_PULL_PHASE_FETCHING_OBJECTS`: the pull state, the
error of a failure, and the calls made.  `resolve_rev` is
`ostree_repo_resolve_rev` on the destination repository, defined outside the
sources; `request_static_delta_superblock_sync` and
`process_one_static_delta` are passed in. -/
def pull_requested_refs (env : PullEnv)
    (resolve_rev : String → Except GError (Option Checksum))
    (request_static_delta_superblock_sync :
      OtPullData → Checksum → Checksum → OtPullData × Except GError (Option DeltaVariant))
    (process_one_static_delta :
      OtPullData → Checksum → Checksum → DeltaVariant → ScanResult) :
    List (String × Checksum) → OtPullData → List ObjectPhaseCall →
      ScanResult × List ObjectPhaseCall
  | [], pull_data, calls => ((pull_data, none), calls)
  | (ref, to_revision) :: rest, pull_data, calls =>
    let calls := calls ++ [ObjectPhaseCall.resolve_rev ref]
    match resolve_rev ref with
    | .error e => ((pull_data, some e), calls)
    | .ok none =>
      match scan_one_metadata_object env pull_data to_revision OstreeObjectType.COMMIT 0 with
      | (pull_data, some e) => ((pull_data, some e), calls)
      | (pull_data, none) =>
        pull_requested_refs env resolve_rev request_static_delta_superblock_sync
          process_one_static_delta rest pull_data calls
    | .ok (some from_revision) =>
      let calls :=
        calls ++ [ObjectPhaseCall.request_static_delta_superblock from_revision to_revision]
      match request_static_delta_superblock_sync pull_data from_revision to_revision with
      | (pull_data, .error e) => ((pull_data, some e), calls)
      | (pull_data, .ok none) =>
        match scan_one_metadata_object env pull_data to_revision OstreeObjectType.COMMIT 0 with
        | (pull_data, some e) => ((pull_data, some e), calls)
        | (pull_data, none) =>
          pull_requested_refs env resolve_rev request_static_delta_superblock_sync
            process_one_static_delta rest pull_data calls
      | (pull_data, .ok (some delta_superblock)) =>
        match process_one_static_delta pull_data from_revision to_revision
            delta_superblock with
        | (pull_data, some e) => ((pull_data, some e), calls)
        | (pull_data, none) =>
          pull_requested_refs env resolve_rev request_static_delta_superblock_sync
            process_one_static_delta rest pull_data calls


/-! ## Static deltas: the operations of a part -/

/-- The bytes `process_one_object` appends to `operations` for an object of
`content_size` bytes whose payload starts at `object_payload_start`: the
content size, the `WRITE` opcode with offset and size, the `CLOSE` opcode. -/
def object_operations (env : DeltaEnv) (object_payload_start content_size : Nat) : List Nat :=
  env._ostree_write_varuint64 content_size ++
    [env.OSTREE_STATIC_DELTA_OP_WRITE] ++
    env._ostree_write_varuint64 object_payload_start ++
    env._ostree_write_varuint64 content_size ++
    [env.OSTREE_STATIC_DELTA_OP_CLOSE]

/-- The encoding of one `WRITE` op followed by one `CLOSE` op, in the words of the
format: the `WRITE` opcode, the offset and the size as varuint64, the `CLOSE`
opcode. -/
def write_close_ops_spec (env : DeltaEnv) (offset size : Nat) : List Nat :=
  [env.OSTREE_STATIC_DELTA_OP_WRITE] ++ env._ostree_write_varuint64 offset ++
    env._ostree_write_varuint64 size ++ [env.OSTREE_STATIC_DELTA_OP_CLOSE]

/-- Each offset of a list of `(offset, size)` records is `start` plus the sum
of the sizes before it. -/
def offsets_consecutive : Nat → List (Nat × Nat) → Prop
  | _, [] => True
  | start, (offset, size) :: rest =>
    offset = start ∧ offsets_consecutive (start + size) rest

/-- The `(offset, size)` records `recs`, one per object of the part in order,
are what the part's operations encode; the offsets are consecutive from 0;
and `uncompressed_size` and the payload length are the sum of the sizes. -/
structure PartRecords (env : DeltaEnv) (part : OstreeStaticDeltaPartBuilder)
    (recs : List (Nat × Nat)) : Prop where
  count : recs.length = part.objects.length
  operations : part.operations = recs.flatMap (fun r => object_operations env r.1 r.2)
  offsets : offsets_consecutive 0 recs
  uncompressed_size : part.uncompressed_size = (recs.map Prod.snd).sum
  payload : part.payload.length = (recs.map Prod.snd).sum


/-! ## Static deltas: large objects -/

/-- The test of the scan for large objects in `generate_delta_lowlatency`: the
uncompressed size that `ostree_repo_load_object_stream` reports for the
object is greater than `max_usize_bytes`. -/
def object_is_large (env : DeltaEnv) (repo : OstreeRepo) (max_usize_bytes : Nat)
    (x : ObjectName) : Bool :=
  match ostree_repo_load_object_stream env repo x.2 x.1 with
  | .ok (some (_, uncompressed_size)) => decide (uncompressed_size > max_usize_bytes)
  | _ => false


/-! ## Scanning metadata: the case analysis and the unfolding -/

/-- The case analysis on `scan_one_metadata_object_c (csum, kind)` in the words
of the specification: (1) an object in `scanned_metadata` changes nothing;
(2) an object that is not stored and not yet requested is added to
`requested_metadata` and requested once, with the detached metadata first for
a commit; (3) a stored object is recursed into when the transaction is
resumed or the object was requested, and is then marked as scanned and
counted; (4) otherwise nothing changes. -/
def scan_one_metadata_object_c_cases (env : PullEnv) : ScanFn :=
  fun pull_data csum kind recursion_depth =>
  let stored := decide (ostree_repo_has_object pull_data.repo kind csum = .ok true)
  let requested := decide (csum ∈ pull_data.requested_metadata)
  if (csum, kind) ∈ pull_data.scanned_metadata then (pull_data, none)
  else if !stored && !requested then
    (enqueue_one_object_request
      { pull_data with requested_metadata := csum :: pull_data.requested_metadata }
      csum kind (decide (kind = OstreeObjectType.COMMIT)), none)
  else if stored then
    let recursed : ScanResult :=
      if pull_data.transaction_resuming || requested then
        match kind with
        | .COMMIT =>
          scan_commit_object env (scan_one_metadata_object_c env) pull_data csum recursion_depth
        | .DIR_TREE =>
          scan_dirtree_object env (scan_one_metadata_object_c env) pull_data csum recursion_depth
        | _ => (pull_data, none)
      else (pull_data, none)
    match recursed with
    | (pull_data, some e) => (pull_data, some e)
    | (pull_data, none) =>
      ({ pull_data with
         scanned_metadata := ghash_insert (csum, kind) pull_data.scanned_metadata
         n_scanned_metadata := pull_data.n_scanned_metadata + 1 }, none)
  else (pull_data, none)

/-- The body of `scan_one_metadata_object_c` unfolded `fuel` times over an
arbitrary function `bottom`, which stands for the calls below the last
unfolding. -/
def scan_iterate (env : PullEnv) (bottom : ScanFn) : Nat → ScanFn
  | 0 => bottom
  | fuel + 1 => scan_one_metadata_object_c_body env (scan_iterate env bottom fuel)


/-! ## Sample data -/

/-- Checksum of a sample commit. -/
def sample_commit_csum : Checksum :=
  "c0ffee0000000000000000000000000000000000000000000000000000000001"

/-- Checksum of a sample directory tree. -/
def sample_tree_csum : Checksum :=
  "d1d1d10000000000000000000000000000000000000000000000000000000002"

/-- Checksum of a sample directory metadata object. -/
def sample_meta_csum : Checksum :=
  "e2e2e20000000000000000000000000000000000000000000000000000000003"

/-- Checksum of a sample content object. -/
def sample_file_csum : Checksum :=
  "f3f3f30000000000000000000000000000000000000000000000000000000004"

/-- A sample commit object pointing at the sample tree and metadata. -/
def sample_commit_file : ObjFile :=
  { bytes := [1, 2, 3], data := GVariant.commit sample_tree_csum sample_meta_csum }

/-- A bare repository holding only the sample commit. -/
def sample_parent_repo : OstreeRepo :=
  OstreeRepo.mk OstreeRepoMode.BARE
    [({ checksum := sample_commit_csum, ext := LooseExt.commit }, LooseFile.file sample_commit_file)]
    none

/-- An empty archive repository whose parent is `sample_parent_repo`. -/
def sample_child_repo : OstreeRepo :=
  OstreeRepo.mk OstreeRepoMode.ARCHIVE_Z2 [] (some sample_parent_repo)

/-- A sample environment: recursion limit 256, file names rejected when
empty, `.`, `..` or containing a slash, every commit signature accepted, and
a checksum function that names the sample objects. -/
def sample_env : PullEnv :=
  { OSTREE_MAX_RECURSION := 256
    ot_util_filename_validate := fun name =>
      if name = "" ∨ name = "." ∨ name = ".." ∨ name.any (fun c => decide (c.toNat = 47)) then
        some { code := GIOErrorEnum.FAILED, message := "Invalid filename" }
      else none
    ostree_repo_verify_commit := fun _ _ _ => none
    checksum_of := fun objtype f =>
      match objtype, f.data with
      | .COMMIT, .commit _ _ => sample_commit_csum
      | .DIR_TREE, .dirtree _ _ => sample_tree_csum
      | .DIR_META, .dirmeta => sample_meta_csum
      | .FILE, .content _ => sample_file_csum
      | _, _ => "" }

/-- A state of the object phase with one metadata write outstanding. -/
def sample_writing_state : OtPullData :=
  { OtPullData.init sample_child_repo false false with
    requested_metadata := [sample_tree_csum]
    n_outstanding_metadata_write_requests := 1
    n_outstanding_content_write_requests := 1 }

/-- A state of the object phase with one metadata fetch outstanding, that of
the detached metadata of the sample commit. -/
def sample_fetching_state : OtPullData :=
  { OtPullData.init (OstreeRepo.mk OstreeRepoMode.ARCHIVE_Z2 [] none) false false with
    requested_metadata := [sample_commit_csum]
    n_outstanding_metadata_fetches := 1
    n_requested_metadata := 1
    fetch_requests :=
      [{ checksum := sample_commit_csum, objtype := OstreeObjectType.COMMIT,
         is_detached_meta := true }] }

/-- The error a fetch ends with when the remote has no such file. -/
def sample_not_found : GError :=
  { code := GIOErrorEnum.NOT_FOUND, message := "Server returned status 404: Not Found" }

/-- Checksum of a second sample directory tree. -/
def sample_tree_b_csum : Checksum :=
  "b4b4b40000000000000000000000000000000000000000000000000000000005"

/-- The sample directory metadata object. -/
def sample_meta_file : ObjFile :=
  { bytes := [7], data := GVariant.dirmeta }

/-- A directory tree whose only entry is a directory holding itself. -/
def self_tree_file : ObjFile :=
  { bytes := [4],
    data := GVariant.dirtree [] [("self", sample_tree_csum, sample_meta_csum)] }

/-- A repository that stores the self-containing tree, in the state in which a
pull resumes a transaction. -/
def self_tree_state : OtPullData :=
  OtPullData.init
    (OstreeRepo.mk OstreeRepoMode.ARCHIVE_Z2
      [({ checksum := sample_tree_csum, ext := LooseExt.dirtree }, LooseFile.file self_tree_file)]
      none)
    true false

/-- A directory tree with a file, a directory that is another tree, and a
second directory holding the tree itself. -/
def self_later_tree_file : ObjFile :=
  { bytes := [8],
    data := GVariant.dirtree [("file", sample_file_csum)]
      [("sub", sample_tree_b_csum, sample_meta_csum),
       ("self", sample_tree_csum, sample_meta_csum)] }

/-- A resumed pull into a repository that stores the sample commit and, as
its root tree, the tree of `self_later_tree_file`, and nothing else. -/
def self_later_tree_state : OtPullData :=
  OtPullData.init
    (OstreeRepo.mk OstreeRepoMode.ARCHIVE_Z2
      [({ checksum := sample_commit_csum, ext := LooseExt.commit },
        LooseFile.file sample_commit_file),
       ({ checksum := sample_tree_csum, ext := LooseExt.dirtree },
        LooseFile.file self_later_tree_file)]
      none)
    true false

/-- Tree A of a cyclic remote graph: its only entry is the directory B. -/
def cyclic_tree_a_file : ObjFile :=
  { bytes := [5],
    data := GVariant.dirtree [] [("sub", sample_tree_b_csum, sample_meta_csum)] }

/-- Tree B of a cyclic remote graph: its only entry is the directory A. -/
def cyclic_tree_b_file : ObjFile :=
  { bytes := [6],
    data := GVariant.dirtree [] [("sub", sample_tree_csum, sample_meta_csum)] }

/-- Environment of the cyclic pull: as `sample_env`, with the checksums under
which the remote serves the two trees. -/
def cyclic_env : PullEnv :=
  { sample_env with
    checksum_of := fun objtype f =>
      if f = cyclic_tree_a_file then sample_tree_csum
      else if f = cyclic_tree_b_file then sample_tree_b_csum
      else sample_env.checksum_of objtype f }

/-- A pull of the sample commit, whose root tree A contains B and B contains A,
into an empty repository: the commit has no detached metadata, then the
commit, tree A, the directory metadata and tree B are fetched and written
one after the other. -/
def cyclic_pull_events : List PullEvent :=
  [ PullEvent.scan_commit sample_commit_csum,
    PullEvent.fetch_complete 0 (.error sample_not_found) none none,
    PullEvent.fetch_complete 0 (.ok sample_commit_file) none none,
    PullEvent.metadata_written 0 none,
    PullEvent.fetch_complete 0 (.ok cyclic_tree_a_file) none none,
    PullEvent.metadata_written 0 none,
    PullEvent.fetch_complete 0 (.ok sample_meta_file) none none,
    PullEvent.metadata_written 0 none,
    PullEvent.fetch_complete 0 (.ok cyclic_tree_b_file) none none,
    PullEvent.metadata_written 0 none,
    PullEvent.idle_check ]

/-- The empty archive repository the sample pulls write to. -/
def empty_repo : OstreeRepo := OstreeRepo.mk OstreeRepoMode.ARCHIVE_Z2 [] none

/-- What a test observes of a pull state: error flag, error slot, the four
counters `ostree_repo_pull` asserts on, the scanned set, the requests made and
the number of `g_main_loop_quit` calls. -/
structure PullObservation where
  caught_error : Bool
  async_error : Option GError
  n_outstanding_metadata_fetches : Nat
  n_outstanding_metadata_write_requests : Nat
  n_outstanding_content_fetches : Nat
  n_outstanding_content_write_requests : Nat
  scanned_metadata : List (Checksum × OstreeObjectType)
  fetch_requests : List FetchObjectData
  loop_quit_calls : Nat
deriving DecidableEq, Repr

/-- The observation of a state. -/
def OtPullData.observe (pull_data : OtPullData) : PullObservation :=
  { caught_error := pull_data.caught_error
    async_error := pull_data.async_error
    n_outstanding_metadata_fetches := pull_data.n_outstanding_metadata_fetches
    n_outstanding_metadata_write_requests := pull_data.n_outstanding_metadata_write_requests
    n_outstanding_content_fetches := pull_data.n_outstanding_content_fetches
    n_outstanding_content_write_requests := pull_data.n_outstanding_content_write_requests
    scanned_metadata := pull_data.scanned_metadata
    fetch_requests := pull_data.fetch_requests
    loop_quit_calls := pull_data.loop_quit_calls }

/-- A `resolve_rev` that reads the published ref files: the current value of a
ref is the one published under its name, if any. -/
def sample_resolve_rev (repo : RepoRefs) (refspec : String) : Except GError (Option Checksum) :=
  .ok (repo.refs.lookup refspec)

/-- The error of a commit that could not write to the repository. -/
def sample_io_error : GError :=
  { code := GIOErrorEnum.ERRNO 28, message := "No space left on device" }

/-- The state in which the cyclic sample pull into the empty repository ends. -/
def cyclic_pull_final : OtPullData :=
  (pull_run cyclic_env (OtPullData.init empty_repo false false) cyclic_pull_events).getD
    (OtPullData.init empty_repo false false)

/-- Checksum of a second sample commit. -/
def sample_commit_b_csum : Checksum :=
  "a5a5a50000000000000000000000000000000000000000000000000000000006"

/-- Checksum of a second sample content object. -/
def sample_file_b_csum : Checksum :=
  "9696960000000000000000000000000000000000000000000000000000000007"

/-- The root tree of the first sample commit: one file. -/
def delta_tree_a_file : ObjFile :=
  { bytes := [10, 11], data := GVariant.dirtree [("hello", sample_file_csum)] [] }

/-- The root tree of the second sample commit: the same file name with new content. -/
def delta_tree_b_file : ObjFile :=
  { bytes := [12, 13], data := GVariant.dirtree [("hello", sample_file_b_csum)] [] }

/-- The second sample commit, pointing at the second tree and the shared metadata. -/
def sample_commit_b_file : ObjFile :=
  { bytes := [14, 15, 16], data := GVariant.commit sample_tree_b_csum sample_meta_csum }

/-- A bare repository with the first sample commit and everything it reaches. -/
def delta_repo_b : OstreeRepo :=
  OstreeRepo.mk OstreeRepoMode.BARE
    [({ checksum := sample_commit_csum, ext := LooseExt.commit },
        LooseFile.file sample_commit_file),
     ({ checksum := sample_tree_csum, ext := LooseExt.dirtree },
        LooseFile.file delta_tree_a_file),
     ({ checksum := sample_meta_csum, ext := LooseExt.dirmeta },
        LooseFile.file sample_meta_file),
     ({ checksum := sample_file_csum, ext := LooseExt.file },
        LooseFile.file { bytes := [118, 49], data := GVariant.content [118, 49] })]
    none

/-- A bare repository with both sample commits and everything they reach. -/
def delta_repo_a : OstreeRepo :=
  OstreeRepo.mk OstreeRepoMode.BARE
    ([({ checksum := sample_commit_b_csum, ext := LooseExt.commit },
        LooseFile.file sample_commit_b_file),
      ({ checksum := sample_tree_b_csum, ext := LooseExt.dirtree },
        LooseFile.file delta_tree_b_file),
      ({ checksum := sample_file_b_csum, ext := LooseExt.file },
        LooseFile.file { bytes := [118, 50], data := GVariant.content [118, 50] })] ++
      delta_repo_b.objects_dir)
    none

/-- Value of a lower-case hexadecimal digit. -/
def hex_value (c : Char) : Nat :=
  if 97 ≤ c.toNat then c.toNat - 87 else c.toNat - 48

/-- The bytes written as pairs of hexadecimal digits. -/
def hex_decode : List Char → List Nat
  | a :: b :: rest => (hex_value a * 16 + hex_value b) :: hex_decode rest
  | _ => []

/-- The lower-case hexadecimal digit of a value below 16. -/
def hex_digit (n : Nat) : Char :=
  if n < 10 then Char.ofNat (48 + n) else Char.ofNat (87 + n)

/-- The bytes as a string of hexadecimal digits. -/
def hex_encode (bs : List Nat) : String :=
  String.mk (bs.flatMap (fun b => [hex_digit (b / 16), hex_digit (b % 16)]))

/-- LEB128 encoding of a number, least significant group first. -/
def sample_varuint64 : Nat → Nat → List Nat
  | 0, n => [n % 128]
  | fuel + 1, n =>
    if n < 128 then [n] else (n % 128 + 128) :: sample_varuint64 fuel (n / 128)

/-- The objects reachable from the first sample commit. -/
def sample_from_reachable : List ObjectName :=
  [(sample_commit_csum, OstreeObjectType.COMMIT), (sample_tree_csum, OstreeObjectType.DIR_TREE),
   (sample_meta_csum, OstreeObjectType.DIR_META), (sample_file_csum, OstreeObjectType.FILE)]

/-- The objects reachable from the second sample commit. -/
def sample_to_reachable : List ObjectName :=
  [(sample_commit_b_csum, OstreeObjectType.COMMIT),
   (sample_tree_b_csum, OstreeObjectType.DIR_TREE),
   (sample_meta_csum, OstreeObjectType.DIR_META), (sample_file_b_csum, OstreeObjectType.FILE)]

/-- A sample environment of the delta code: entries of 33 bytes, checksums as
32 bytes of hexadecimal, hash tables iterated in reverse, identity
compression, and a part executor that writes nothing. -/
def sample_delta_env : DeltaEnv :=
  { OSTREE_STATIC_DELTA_OBJTYPE_CSUM_LEN := 33
    OSTREE_STATIC_DELTA_OP_WRITE := 1
    OSTREE_STATIC_DELTA_OP_CLOSE := 3
    ostree_checksum_to_bytes := fun c => hex_decode c.toList
    ostree_checksum_from_bytes := hex_encode
    ostree_checksum_bytes_peek_validate := fun bs =>
      if bs.length = 32 then none
      else some { code := GIOErrorEnum.FAILED, message := "Invalid checksum" }
    ostree_validate_structureof_objtype := fun n =>
      match OstreeObjectType.of_byte n with
      | some k => .ok k
      | none => .error { code := GIOErrorEnum.FAILED, message := "Invalid object type" }
    _ostree_write_varuint64 := sample_varuint64 9
    ostree_content_stream_parse := fun _ => none
    ostree_raw_file_to_content_stream := fun f => .ok (f.bytes, f.bytes.length)
    ostree_repo_traverse_commit := fun _ c =>
      if c = sample_commit_csum then .ok sample_from_reachable
      else if c = sample_commit_b_csum then .ok sample_to_reachable
      else .error { code := GIOErrorEnum.NOT_FOUND, message := "No such commit" }
    ostree_repo_read_commit := fun _ _ => none
    ostree_diff_dirs := fun _ _ _ => none
    g_hash_table_iter := List.reverse
    lzma_compress := fun payload operations => payload ++ operations
    part_checksum := fun _ => List.replicate 32 0
    g_variant_get_size := fun part => 1 + part.data.length
    GUINT64_TO_BE := fun n => n
    _ostree_static_delta_part_validate := fun _ _ _ _ => none
    _ostree_static_delta_part_execute := fun repo _ _ => .ok repo }

/-- The delta from the first to the second sample commit, generated in
`delta_repo_a` with `max-usize` 0: every content object is a fallback object. -/
def sample_delta : StaticDeltaDir :=
  generated_delta
    (ostree_repo_static_delta_generate sample_delta_env delta_repo_a sample_commit_csum
      sample_commit_b_csum none (some 0) 0)


/-- Checksum of a commit whose loose file lives in `objects/ff`. -/
def sample_ff_csum : Checksum :=
  "ff00000000000000000000000000000000000000000000000000000000000008"

/-- Checksum of a commit whose loose file lives in `objects/fe`. -/
def sample_fe_csum : Checksum :=
  "fe00000000000000000000000000000000000000000000000000000000000009"

/-- A bare repository with one commit in `objects/fe` and one in `objects/ff`. -/
def listing_repo : OstreeRepo :=
  OstreeRepo.mk OstreeRepoMode.BARE
    [({ checksum := sample_fe_csum, ext := LooseExt.commit }, LooseFile.file sample_commit_file),
     ({ checksum := sample_ff_csum, ext := LooseExt.commit }, LooseFile.file sample_commit_file)]
    none

/-- An archive repository that stores the sample commit and the sample content object. -/
def archive_content_repo : OstreeRepo :=
  OstreeRepo.mk OstreeRepoMode.ARCHIVE_Z2
    [({ checksum := sample_commit_csum, ext := LooseExt.commit },
        LooseFile.file sample_commit_file),
     ({ checksum := sample_file_csum, ext := LooseExt.filez },
        LooseFile.file { bytes := [118, 49], data := GVariant.content [118, 49] })]
    none

/-- The flags `OSTREE_REPO_LIST_OBJECTS_LOOSE`. -/
def list_objects_loose : OstreeRepoListObjectsFlags :=
  { loose := true, packed := false, all := false }


/-- Entries `(group, key, value)` of the lines of a key file, read in the group `group`. -/
def sample_key_file_entries (group : Option String) :
    List (List Char) → List (String × String × String)
  | [] => []
  | line :: rest =>
    if line.head? = some '[' ∧ line.getLast? = some ']' then
      sample_key_file_entries (some (String.mk (line.drop 1).dropLast)) rest
    else
      match group with
      | some g =>
        if '=' ∈ line then
          (g, String.mk (line.takeWhile (fun c => c ≠ '=')),
            String.mk ((line.dropWhile (fun c => c ≠ '=')).drop 1)) ::
            sample_key_file_entries group rest
        else sample_key_file_entries group rest
      | none => sample_key_file_entries group rest

/-- The value of `key` in `group` of a key file text, if present. -/
def sample_key_file_lookup (text group key : String) : Option String :=
  ((sample_key_file_entries none (text.toList.splitOn '\n')).find?
    (fun e => e.1 = group ∧ e.2.1 = key)).map (fun e => e.2.2)

/-- A key-file reader over the text of the file. -/
def sample_config_env : ConfigEnv where
  key_file_parse_error := fun _ => none
  g_key_file_get_value := fun text group key =>
    match sample_key_file_lookup text group key with
    | some v => .ok v
    | none =>
      .error { code := GIOErrorEnum.FAILED,
               message := "Key file does not have key \x27" ++ key ++ "\x27" }
  ot_keyfile_get_boolean_with_default := fun text group key default_value =>
    match sample_key_file_lookup text group key with
    | none => .ok default_value
    | some v =>
      if v = "true" then .ok true
      else if v = "false" then .ok false
      else .error { code := GIOErrorEnum.FAILED, message := "Value cannot be interpreted" }
  ot_keyfile_get_value_with_default := fun text group key default_value =>
    match sample_key_file_lookup text group key with
    | none => .ok default_value
    | some v => .ok (some v)

/-- File operations that all succeed. -/
def sample_create_io : CreateIO :=
  { ensure_directory := none, replace_contents := none, make_objects_dir := none,
    make_tmp_dir := none, make_remote_cache_dir := none, make_refs := none,
    make_refs_heads := none, make_refs_remotes := none, objects_dir_fd := none,
    tmp_dir_fd := none, uncompressed_objects_dir := none }

/-- A repository directory with the given `config` text. -/
def sample_repo_dir (config : String) : RepoDir :=
  RepoDir.mk true (.ok config) none none none none

/-- A configuration that selects the mode `archive`. -/
def archive_mode_config : String := "[core]\nrepo_version=1\nmode=archive\n"

/-- A configuration with the boolean key `archive`. -/
def archive_key_config : String := "[core]\nrepo_version=1\narchive=true\n"

/-- A configuration of repository version 2. -/
def version_two_config : String := "[core]\nrepo_version=2\nmode=bare\n"

/-- The generic error of `ostree_repo_mode_from_string` for `archive`. -/
def invalid_mode_archive_error : GError :=
  { code := GIOErrorEnum.FAILED,
    message := "Invalid mode \x27archive\x27 in repository configuration" }


/-- The builder `generate_delta_lowlatency` returns for the sample delta with
`max-usize` 0. -/
def sample_delta_builder : Option (Except GError OstreeStaticDeltaBuilder) :=
  generate_delta_lowlatency sample_delta_env delta_repo_a sample_commit_csum
    sample_commit_b_csum (static_delta_builder_new (some 0))

/-- The sample delta generated with the default `max-usize`. -/
def sample_delta_default : StaticDeltaDir :=
  generated_delta
    (ostree_repo_static_delta_generate sample_delta_env delta_repo_a sample_commit_csum
      sample_commit_b_csum none none 0)


/-- The state in which `request_static_delta_superblock_sync` waits for the
superblock of the first ref: the object phase has begun, nothing has been
requested, and the synchronous fetch is in flight. -/
def sync_fetch_in_objects_phase : OtPullData :=
  fetch_uri_contents_membuf_sync_begin (OtPullData.init empty_repo false false)
    "deltas/from-to/meta"

/-- A verifier for which exactly the signature `[7]` is valid; nothing fails. -/
def sample_gpg_env : GpgEnv :=
  { HAVE_GPGME := true
    _ostree_gpg_verifier_new := none
    _ostree_gpg_verifier_add_keyring_dir := fun _ => none
    _ostree_gpg_verifier_add_keyring := fun _ => none
    gs_file_open_in_tmpdir := fun _ => none
    g_file_replace_contents := fun _ _ => none
    _ostree_gpg_verifier_check_signature := fun _ _ _ sig => .ok (decide (sig = [7])) }


/-- The flag `OSTREE_REPO_LIST_OBJECTS_ALL`. -/
def list_objects_all : OstreeRepoListObjectsFlags :=
  { loose := false, packed := false, all := true }

/-- A checksum function for the sample objects: the intact sample objects hash
to their names, everything else to a string of zeros. -/
def sample_fsck_checksum (input : FsckInput) : Checksum :=
  match input with
  | .metadata v =>
    if v = sample_commit_file.data then sample_commit_csum
    else if v = delta_tree_a_file.data then sample_tree_csum
    else if v = sample_meta_file.data then sample_meta_csum
    else "0000000000000000000000000000000000000000000000000000000000000000"
  | .file f =>
    if f.bytes = [118, 49] then sample_file_csum
    else "0000000000000000000000000000000000000000000000000000000000000000"

/-- A sample environment of the fsck builtin: hash tables iterated in reverse,
the first sample commit reaching its four objects, validators that accept. -/
def sample_fsck_env : FsckEnv :=
  { g_hash_table_iter := List.reverse
    ostree_repo_traverse_commit_union := fun _ c reachable =>
      if c = sample_commit_csum then
        .ok (reachable ++ sample_from_reachable.filter (fun k => !decide (k ∈ reachable)))
      else .error { code := GIOErrorEnum.NOT_FOUND, message := "No such commit" }
    ostree_validate_structureof_commit := fun _ => none
    ostree_validate_structureof_dirtree := fun _ => none
    ostree_validate_structureof_dirmeta := fun _ => none
    ostree_validate_structureof_file_mode := fun _ => none
    ostree_content_stream_parse := fun _ => none
    ostree_checksum_file_from_input := fun input _ => .ok (sample_fsck_checksum input)
    ostree_object_type_to_string := fun k =>
      match k with
      | .FILE => "file"
      | .DIR_TREE => "dirtree"
      | .DIR_META => "dirmeta"
      | .COMMIT => "commit" }

/-- The first sample commit and what it reaches, with one byte of the content
object overwritten. -/
def fsck_corrupt_repo : OstreeRepo :=
  OstreeRepo.mk OstreeRepoMode.BARE
    [({ checksum := sample_commit_csum, ext := LooseExt.commit },
        LooseFile.file sample_commit_file),
     ({ checksum := sample_tree_csum, ext := LooseExt.dirtree },
        LooseFile.file delta_tree_a_file),
     ({ checksum := sample_meta_csum, ext := LooseExt.dirmeta },
        LooseFile.file sample_meta_file),
     ({ checksum := sample_file_csum, ext := LooseExt.file },
        LooseFile.file { bytes := [118, 48], data := GVariant.content [118, 48] })]
    none

/-- The listing of `fsck_corrupt_repo`. -/
def fsck_corrupt_repo_objects : List ObjectName :=
  match ostree_repo_list_objects fsck_corrupt_repo list_objects_all with
  | .ok objects => objects
  | .error _ => []

/-- The intact first sample commit and what it reaches, and a content object
that no commit reaches, whose bytes do not hash to its name. -/
def fsck_unreachable_corrupt_repo : OstreeRepo :=
  OstreeRepo.mk OstreeRepoMode.BARE
    (({ checksum := sample_file_b_csum, ext := LooseExt.file },
        LooseFile.file { bytes := [0], data := GVariant.content [0] }) ::
      delta_repo_b.objects_dir)
    none


/-- The delta from the first sample commit to itself: no object is new. -/
def sample_delta_same : StaticDeltaDir :=
  generated_delta
    (ostree_repo_static_delta_generate sample_delta_env delta_repo_a sample_commit_csum
      sample_commit_csum none none 0)

/-- A repository in which the loose file of the sample commit cannot be opened
(`EACCES`). -/
def fsck_eacces_commit_repo : OstreeRepo :=
  OstreeRepo.mk OstreeRepoMode.BARE
    [({ checksum := sample_commit_csum, ext := LooseExt.commit }, LooseFile.err 13)] none

/-- A repository in which the loose file of the sample content object cannot be
opened (`EACCES`). -/
def fsck_eacces_file_repo : OstreeRepo :=
  OstreeRepo.mk OstreeRepoMode.BARE
    [({ checksum := sample_file_csum, ext := LooseExt.file }, LooseFile.err 13)] none


/-- Refs of a destination repository with a local branch `master` at the first
sample commit and the remote-tracking ref `origin/master` at the commit
`fe...09`. -/
def sample_two_masters : RepoRefs :=
  { refs := [("master", sample_commit_csum), ("origin/master", sample_fe_csum)],
    txn_refs := [] }

/-- The calls of the object phase for the ref `master` of the remote `origin`,
fetched as the second sample commit, when the remote has no static delta. -/
def sample_object_phase_calls : List ObjectPhaseCall :=
  (pull_requested_refs cyclic_env (sample_resolve_rev sample_two_masters)
    (fun pull_data _ _ => (pull_data, .ok none)) (fun pull_data _ _ _ => (pull_data, none))
    [("master", sample_commit_b_csum)] (OtPullData.init empty_repo false false) []).2


/-- The first packing step of the sample delta: the new tree is placed in the
part allocated at the start. -/
def sample_first_step_builder : OstreeStaticDeltaBuilder :=
  match process_one_object sample_delta_env delta_repo_a
      (allocate_part (static_delta_builder_new none)) sample_tree_b_csum
      OstreeObjectType.DIR_TREE with
  | some (.ok b) => b
  | _ => static_delta_builder_new none

/-- The builder `generate_delta_lowlatency` returns for the sample delta with the
default `max-usize`. -/
def sample_delta_default_builder : OstreeStaticDeltaBuilder :=
  match generate_delta_lowlatency sample_delta_env delta_repo_a sample_commit_csum
      sample_commit_b_csum (static_delta_builder_new none) with
  | some (.ok b) => b
  | _ => static_delta_builder_new none


/-- The first part of `sample_delta_default_builder`. -/
def sample_delta_default_part : OstreeStaticDeltaPartBuilder :=
  sample_delta_default_builder.parts.headD (OstreeStaticDeltaPartBuilder.mk 0 [] [] [])

/-- The builder `generate_delta_lowlatency` returns for the sample commits from
an empty builder with a bound of 0 bytes. -/
def sample_delta_zero_builder : OstreeStaticDeltaBuilder :=
  match generate_delta_lowlatency sample_delta_env delta_repo_a sample_commit_csum
      sample_commit_b_csum
      { parts := [], fallback_objects := [], loose_compressed_size := 0,
        max_usize_bytes := 0 } with
  | some (.ok b) => b
  | _ => static_delta_builder_new none


/-! # Theorems -/

/-! ## Object lookup through the parent chain -/

@[simp]
theorem OstreeRepo.mode_mk (m : OstreeRepoMode) (o : List (LoosePath × LooseFile))
    (p : Option OstreeRepo) : (OstreeRepo.mk m o p).mode = m := rfl

@[simp]
theorem OstreeRepo.objects_dir_mk (m : OstreeRepoMode) (o : List (LoosePath × LooseFile))
    (p : Option OstreeRepo) : (OstreeRepo.mk m o p).objects_dir = o := rfl

@[simp]
theorem OstreeRepo.parent_repo_mk (m : OstreeRepoMode) (o : List (LoosePath × LooseFile))
    (p : Option OstreeRepo) : (OstreeRepo.mk m o p).parent_repo = p := rfl

theorem has_object_characterisation : ∀ (self : OstreeRepo) (objtype : OstreeObjectType)
    (checksum : Checksum),
    (∀ r ∈ self.chain, r.stat_fails objtype checksum = false) →
    ostree_repo_has_object self objtype checksum =
      .ok (self.chain.any (fun r => r.has_loose_file objtype checksum))
  | .mk mode objects_dir none, objtype, checksum, h => by
    have h0 := h (.mk mode objects_dir none) (by simp [OstreeRepo.chain])
    simp only [OstreeRepo.stat_fails, OstreeRepo.mode_mk] at h0
    simp only [ostree_repo_has_object, _ostree_repo_find_object, _ostree_repo_has_loose_object,
      OstreeRepo.chain, OstreeRepo.has_loose_file, OstreeRepo.mode_mk, List.any_cons,
      List.any_nil, Bool.or_false]
    cases hp : (OstreeRepo.mk mode objects_dir none).at_path
      (_ostree_loose_path checksum objtype mode) <;> simp_all
  | .mk mode objects_dir (some parent), objtype, checksum, h => by
    have h0 := h (.mk mode objects_dir (some parent)) (by simp [OstreeRepo.chain])
    have ih := has_object_characterisation parent objtype checksum
      (fun r hr => h r (by simp [OstreeRepo.chain, hr]))
    simp only [OstreeRepo.stat_fails, OstreeRepo.mode_mk] at h0
    simp only [ostree_repo_has_object, _ostree_repo_find_object, _ostree_repo_has_loose_object,
      OstreeRepo.chain, OstreeRepo.mode_mk, List.any_cons]
    rw [ih]
    cases hp : (OstreeRepo.mk mode objects_dir (some parent)).at_path
      (_ostree_loose_path checksum objtype mode) <;>
      simp_all [OstreeRepo.has_loose_file]

/-- C10: for a repository whose parent chain is finite and in which no stat of the
loose path fails with an errno other than ENOENT, ostree_repo_has_object reports
true exactly when the loose object file exists in the repository itself or in a
repository of its parent chain, and reports false, without error, when it exists
in none of them. -/
theorem ostree_repo_has_object_iff_in_chain (self : OstreeRepo) (objtype : OstreeObjectType)
    (checksum : Checksum)
    (hstat : ∀ r ∈ self.chain, r.stat_fails objtype checksum = false) :
    (ostree_repo_has_object self objtype checksum = .ok true ↔
      ∃ r ∈ self.chain, r.has_loose_file objtype checksum = true) ∧
    ((∀ r ∈ self.chain, r.has_loose_file objtype checksum = false) →
      ostree_repo_has_object self objtype checksum = .ok false) := by
  rw [has_object_characterisation self objtype checksum hstat]
  constructor
  · constructor
    · intro h
      have h1 : (self.chain.any fun r => r.has_loose_file objtype checksum) = true := by
        injection h
      simpa [List.any_eq_true] using h1
    · intro h
      have h1 : (self.chain.any fun r => r.has_loose_file objtype checksum) = true := by
        simpa [List.any_eq_true] using h
      rw [h1]
  · intro h
    have h1 : (self.chain.any fun r => r.has_loose_file objtype checksum) = false := by
      simpa [List.any_eq_false] using h
    rw [h1]

/-- Witness for C10: the sample commit is absent from the child repository and
present in its parent. -/
theorem ostree_repo_has_object_iff_in_chain_witness :
    (∀ r ∈ sample_child_repo.chain,
      r.stat_fails OstreeObjectType.COMMIT sample_commit_csum = false) ∧
    ((ostree_repo_has_object sample_child_repo OstreeObjectType.COMMIT sample_commit_csum =
        .ok true ↔
      ∃ r ∈ sample_child_repo.chain,
        r.has_loose_file OstreeObjectType.COMMIT sample_commit_csum = true) ∧
    ((∀ r ∈ sample_child_repo.chain,
        r.has_loose_file OstreeObjectType.COMMIT sample_commit_csum = false) →
      ostree_repo_has_object sample_child_repo OstreeObjectType.COMMIT sample_commit_csum =
        .ok false)) :=
  ⟨by decide,
   ostree_repo_has_object_iff_in_chain sample_child_repo OstreeObjectType.COMMIT
     sample_commit_csum (by decide)⟩

/-! ## The error slot -/

theorem throw_async_error_caught (pull_data : OtPullData) (error : Option GError)
    (h : pull_data.caught_error = true) : throw_async_error pull_data error = pull_data := by
  cases error <;> simp [throw_async_error, h]

theorem throw_async_error_fold_caught (errors : List (Option GError)) :
    ∀ pull_data : OtPullData, pull_data.caught_error = true →
      errors.foldl throw_async_error pull_data = pull_data := by
  induction errors with
  | nil => intro pull_data _; rfl
  | cons e rest ih =>
    intro pull_data h
    rw [List.foldl_cons, throw_async_error_caught pull_data e h]
    exact ih pull_data h

theorem throw_async_error_fold (errors : List (Option GError)) :
    ∀ pull_data : OtPullData, pull_data.caught_error = false → pull_data.async_error = none →
      (errors.foldl throw_async_error pull_data).async_error = first_error errors ∧
      (errors.foldl throw_async_error pull_data).caught_error = (first_error errors).isSome := by
  induction errors with
  | nil => intro pull_data hc hs; simp [first_error, hc, hs]
  | cons e rest ih =>
    intro pull_data hc hs
    cases e with
    | none => simpa [throw_async_error, first_error] using ih pull_data hc hs
    | some err =>
      rw [List.foldl_cons, throw_async_error_fold_caught rest _
        (by simp [throw_async_error, hc])]
      simp [throw_async_error, hc, hs, first_error, g_propagate_error]

/-- C5: starting a pull with an empty error slot and caught_error false, after any
sequence of throw_async_error calls the slot holds the first non-null error that
was passed and caught_error says whether there was one; once an error has been
caught every further call, whatever its argument, leaves the whole state
unchanged; and a call with a null error changes nothing. -/
theorem throw_async_error_first_error_wins (pull_data : OtPullData)
    (errors : List (Option GError))
    (hc : pull_data.caught_error = false) (hs : pull_data.async_error = none) :
    (errors.foldl throw_async_error pull_data).async_error = first_error errors ∧
    (errors.foldl throw_async_error pull_data).caught_error = (first_error errors).isSome ∧
    (∀ later : Option GError, (first_error errors).isSome = true →
      throw_async_error (errors.foldl throw_async_error pull_data) later =
        errors.foldl throw_async_error pull_data) ∧
    (∀ s : OtPullData, throw_async_error s none = s) := by
  obtain ⟨h1, h2⟩ := throw_async_error_fold errors pull_data hc hs
  refine ⟨h1, h2, ?_, fun s => rfl⟩
  intro later hsome
  exact throw_async_error_caught _ later (by rw [h2, hsome])

/-- Witness for C5: a null error, then a NOT_FOUND error, then a FAILED error. -/
theorem throw_async_error_first_error_wins_witness :
    let pull_data := OtPullData.init sample_child_repo false false
    let e1 : GError := { code := GIOErrorEnum.NOT_FOUND, message := "first" }
    let e2 : GError := { code := GIOErrorEnum.FAILED, message := "second" }
    pull_data.caught_error = false ∧ pull_data.async_error = none ∧
    ([none, some e1, some e2].foldl throw_async_error pull_data).async_error = some e1 ∧
    ([none, some e1, some e2].foldl throw_async_error pull_data).caught_error = true :=
  ⟨rfl, rfl,
   (throw_async_error_first_error_wins (OtPullData.init sample_child_repo false false)
     [none, some { code := GIOErrorEnum.NOT_FOUND, message := "first" },
      some { code := GIOErrorEnum.FAILED, message := "second" }] rfl rfl).1,
   (throw_async_error_first_error_wins (OtPullData.init sample_child_repo false false)
     [none, some { code := GIOErrorEnum.NOT_FOUND, message := "first" },
      some { code := GIOErrorEnum.FAILED, message := "second" }] rfl rfl).2.1⟩

/-! ## The idle check -/

theorem current_idle_iff (pull_data : OtPullData) :
    current_idle pull_data = true ↔ all_counters_zero pull_data := by
  simp [current_idle, all_counters_zero, and_assoc]

/-- C6: called with no error in phase FETCHING_OBJECTS,
check_outstanding_requests_handle_error calls g_main_loop_quit (once) if and only
if all six outstanding counters are zero, and otherwise leaves the state as it was. -/
theorem check_outstanding_requests_quits_iff_idle (pull_data : OtPullData)
    (hphase : pull_data.phase = PullPhase.FETCHING_OBJECTS) :
    ((check_outstanding_requests_handle_error pull_data none).loop_quit_calls =
        pull_data.loop_quit_calls + 1 ↔ all_counters_zero pull_data) ∧
    (¬ all_counters_zero pull_data →
      check_outstanding_requests_handle_error pull_data none = pull_data) := by
  by_cases h : current_idle pull_data = true
  · have hz := (current_idle_iff pull_data).1 h
    simp [check_outstanding_requests_handle_error, throw_async_error, hphase, h, hz]
  · have hz : ¬ all_counters_zero pull_data := fun hz => h ((current_idle_iff pull_data).2 hz)
    simp [check_outstanding_requests_handle_error, throw_async_error, hphase, h, hz]

/-- Witness for C6: the initial state of the object phase is idle. -/
theorem check_outstanding_requests_quits_iff_idle_witness :
    (OtPullData.init sample_child_repo false false).phase = PullPhase.FETCHING_OBJECTS ∧
    ((check_outstanding_requests_handle_error (OtPullData.init sample_child_repo false false)
        none).loop_quit_calls =
        (OtPullData.init sample_child_repo false false).loop_quit_calls + 1 ↔
      all_counters_zero (OtPullData.init sample_child_repo false false)) :=
  ⟨rfl,
   (check_outstanding_requests_quits_iff_idle (OtPullData.init sample_child_repo false false)
     rfl).1⟩

/-! ## Fields that scanning leaves alone -/

theorem ScanFrame.frame_refl (a : OtPullData) : ScanFrame a a := by
  constructor <;> rfl

theorem ScanFrame.frame_trans {a b c : OtPullData} (h1 : ScanFrame a b) (h2 : ScanFrame b c) :
    ScanFrame a c := by
  cases h1; cases h2; constructor <;> simp_all

theorem enqueue_one_object_request_frame (pull_data : OtPullData) (checksum : Checksum)
    (objtype : OstreeObjectType) (is_detached_meta : Bool) :
    ScanFrame pull_data (enqueue_one_object_request pull_data checksum objtype is_detached_meta) := by
  unfold enqueue_one_object_request
  split <;> constructor <;> rfl

theorem scan_dirtree_files_frame (env : PullEnv) (files : List (String × Checksum)) :
    ∀ pull_data : OtPullData, ScanFrame pull_data (scan_dirtree_files env files pull_data).1 := by
  induction files with
  | nil => intro pull_data; exact ScanFrame.frame_refl _
  | cons f rest ih =>
    intro pull_data
    obtain ⟨filename, file_checksum⟩ := f
    simp only [scan_dirtree_files]
    split
    · exact ScanFrame.frame_refl _
    · split
      · exact ScanFrame.frame_refl _
      · split
        · refine ScanFrame.frame_trans ?_ (ih _)
          refine ScanFrame.frame_trans ?_ (enqueue_one_object_request_frame _ _ _ _)
          constructor <;> rfl
        · exact ih _

theorem scan_dirtree_dirs_frame (env : PullEnv) (recur : ScanFn)
    (hrec : ∀ pd c k d, ScanFrame pd (recur pd c k d).1) (recursion_depth : Nat)
    (dirs : List (String × Checksum × Checksum)) :
    ∀ pull_data : OtPullData,
      ScanFrame pull_data (scan_dirtree_dirs env recur recursion_depth dirs pull_data).1 := by
  induction dirs with
  | nil => intro pull_data; exact ScanFrame.frame_refl _
  | cons d rest ih =>
    intro pull_data
    obtain ⟨dirname, tree_csum, meta_csum⟩ := d
    simp only [scan_dirtree_dirs]
    split
    · exact ScanFrame.frame_refl _
    · have h1 := hrec pull_data tree_csum OstreeObjectType.DIR_TREE (recursion_depth + 1)
      split
      · rename_i heq
        rw [heq] at h1
        exact h1
      · rename_i pd1 heq
        rw [heq] at h1
        have h2 := hrec pd1 meta_csum OstreeObjectType.DIR_META (recursion_depth + 1)
        split
        · rename_i heq2
          rw [heq2] at h2
          exact ScanFrame.frame_trans h1 h2
        · rename_i pd2 heq2
          rw [heq2] at h2
          exact ScanFrame.frame_trans h1 (ScanFrame.frame_trans h2 (ih pd2))

theorem scan_dirtree_object_frame (env : PullEnv) (recur : ScanFn)
    (hrec : ∀ pd c k d, ScanFrame pd (recur pd c k d).1) (pull_data : OtPullData)
    (checksum : Checksum) (recursion_depth : Nat) :
    ScanFrame pull_data (scan_dirtree_object env recur pull_data checksum recursion_depth).1 := by
  unfold scan_dirtree_object
  split
  · exact ScanFrame.frame_refl _
  · split
    · exact ScanFrame.frame_refl _
    · rename_i tree _
      have h1 := scan_dirtree_files_frame env ((tree.map GVariant.tree_files).getD []) pull_data
      split
      · rename_i heq
        rw [heq] at h1
        exact h1
      · rename_i pd1 heq
        rw [heq] at h1
        exact ScanFrame.frame_trans h1 (scan_dirtree_dirs_frame env recur hrec _ _ pd1)

theorem scan_commit_object_frame (env : PullEnv) (recur : ScanFn)
    (hrec : ∀ pd c k d, ScanFrame pd (recur pd c k d).1) (pull_data : OtPullData)
    (checksum : Checksum) (recursion_depth : Nat) :
    ScanFrame pull_data (scan_commit_object env recur pull_data checksum recursion_depth).1 := by
  unfold scan_commit_object
  split
  · exact ScanFrame.frame_refl _
  · split
    · exact ScanFrame.frame_refl _
    · split
      · exact ScanFrame.frame_refl _
      · rename_i commit _
        have h1 := hrec pull_data ((commit.map GVariant.commit_tree).getD "")
          OstreeObjectType.DIR_TREE (recursion_depth + 1)
        split
        · rename_i heq
          rw [heq] at h1
          exact h1
        · rename_i pd1 heq
          rw [heq] at h1
          exact ScanFrame.frame_trans h1 (hrec pd1 _ _ _)

theorem scan_stored_object_frame (env : PullEnv) (recur : ScanFn)
    (hrec : ∀ pd c k d, ScanFrame pd (recur pd c k d).1) (pull_data : OtPullData)
    (csum : Checksum) (objtype : OstreeObjectType) (recursion_depth : Nat) (is_requested : Bool) :
    ScanFrame pull_data
      (scan_stored_object env recur pull_data csum objtype recursion_depth is_requested).1 := by
  unfold scan_stored_object
  split
  · cases objtype
    · exact ScanFrame.frame_refl _
    · exact scan_dirtree_object_frame env recur hrec _ _ _
    · exact ScanFrame.frame_refl _
    · exact scan_commit_object_frame env recur hrec _ _ _
  · exact ScanFrame.frame_refl _

theorem scan_one_metadata_object_c_body_frame (env : PullEnv) (recur : ScanFn)
    (hrec : ∀ pd c k d, ScanFrame pd (recur pd c k d).1) (pull_data : OtPullData)
    (csum : Checksum) (objtype : OstreeObjectType) (recursion_depth : Nat) :
    ScanFrame pull_data
      (scan_one_metadata_object_c_body env recur pull_data csum objtype recursion_depth).1 := by
  unfold scan_one_metadata_object_c_body
  split
  · exact ScanFrame.frame_refl _
  · split
    · exact ScanFrame.frame_refl _
    · split
      · refine ScanFrame.frame_trans ?_ (enqueue_one_object_request_frame _ _ _ _)
        constructor <;> rfl
      · split
        · have hr := scan_stored_object_frame env recur hrec pull_data csum objtype
            recursion_depth (decide (csum ∈ pull_data.requested_metadata))
          split
          · rename_i heq
            rw [heq] at hr
            exact hr
          · rename_i pd1 heq
            rw [heq] at hr
            refine ScanFrame.frame_trans hr ?_
            constructor <;> rfl
        · exact ScanFrame.frame_refl _

theorem scan_unfold_frame (env : PullEnv) (fuel : Nat) :
    ∀ pd c k d, ScanFrame pd (scan_unfold env fuel pd c k d).1 := by
  induction fuel with
  | zero =>
    intro pd c k d
    exact scan_one_metadata_object_c_body_frame env _ (fun pd _ _ _ => ScanFrame.frame_refl pd) pd c k d
  | succ n ih =>
    intro pd c k d
    exact scan_one_metadata_object_c_body_frame env _ ih pd c k d

theorem scan_one_metadata_object_c_frame (env : PullEnv) (pull_data : OtPullData)
    (csum : Checksum) (objtype : OstreeObjectType) (recursion_depth : Nat) :
    ScanFrame pull_data
      (scan_one_metadata_object_c env pull_data csum objtype recursion_depth).1 :=
  scan_unfold_frame env _ pull_data csum objtype recursion_depth

/-! ## Write-completion callbacks -/

theorem throw_async_error_frame (pull_data : OtPullData) (error : Option GError) :
    ErrorFrame pull_data (throw_async_error pull_data error) := by
  unfold throw_async_error
  split
  · constructor <;> rfl
  · split <;> constructor <;> rfl

theorem check_outstanding_requests_frame (pull_data : OtPullData) (error : Option GError) :
    ErrorFrame pull_data (check_outstanding_requests_handle_error pull_data error) := by
  have h := throw_async_error_frame pull_data error
  unfold check_outstanding_requests_handle_error
  simp only
  cases h
  split <;> split <;> constructor <;> simp_all

theorem throw_async_error_some_caught (pull_data : OtPullData) (e : GError) :
    (throw_async_error pull_data (some e)).caught_error = true := by
  unfold throw_async_error
  cases h : pull_data.caught_error <;> simp [h]

theorem throw_async_error_some_first (pull_data : OtPullData) (e : GError)
    (hc : pull_data.caught_error = false) (hs : pull_data.async_error = none) :
    (throw_async_error pull_data (some e)).async_error = some e := by
  simp [throw_async_error, hc, hs, g_propagate_error]

theorem check_outstanding_requests_caught (pull_data : OtPullData) (error : Option GError) :
    (check_outstanding_requests_handle_error pull_data error).caught_error =
      (throw_async_error pull_data error).caught_error := by
  unfold check_outstanding_requests_handle_error
  simp only
  split <;> split <;> rfl

theorem check_outstanding_requests_async_error (pull_data : OtPullData)
    (error : Option GError) :
    (check_outstanding_requests_handle_error pull_data error).async_error =
      (throw_async_error pull_data error).async_error := by
  unfold check_outstanding_requests_handle_error
  simp only
  split <;> split <;> rfl

theorem guint_dec_succ (n : Nat) (h0 : 0 < n) (h1 : n < 2 ^ 32) : guint_dec n + 1 = n := by
  unfold guint_dec
  omega

theorem guint_dec_inc (n : Nat) (h1 : n + 1 < 2 ^ 32) : guint_dec (guint_inc n) = n := by
  unfold guint_dec guint_inc
  omega

theorem content_fetch_on_write_complete_counter (pull_data pd : OtPullData)
    (fetch_data : FetchObjectData) (result : Except GError Checksum)
    (h : content_fetch_on_write_complete pull_data fetch_data result = some pd) :
    pd.n_outstanding_content_write_requests =
      guint_dec pull_data.n_outstanding_content_write_requests := by
  unfold content_fetch_on_write_complete at h
  simp only at h
  split at h
  · injection h with h
    rw [← h, (check_outstanding_requests_frame _ _).n_outstanding_content_write_requests]
  · split at h
    · exact absurd h (by simp)
    · split at h <;> injection h with h <;>
        rw [← h, (check_outstanding_requests_frame _ _).n_outstanding_content_write_requests]

theorem on_metadata_writed_counter (env : PullEnv) (pull_data pd : OtPullData)
    (fetch_data : FetchObjectData) (result : Except GError Checksum)
    (h : on_metadata_writed env pull_data fetch_data result = some pd) :
    pd.n_outstanding_metadata_write_requests =
      guint_dec pull_data.n_outstanding_metadata_write_requests := by
  unfold on_metadata_writed at h
  simp only at h
  split at h
  · injection h with h
    rw [← h, (check_outstanding_requests_frame _ _).n_outstanding_metadata_write_requests]
  · split at h
    · exact absurd h (by simp)
    · split at h <;> injection h with h <;>
        rw [← h, (check_outstanding_requests_frame _ _).n_outstanding_metadata_write_requests]
      simp only
      rw [(scan_one_metadata_object_c_frame env _ _ _ _).n_outstanding_metadata_write_requests]

/-- C2: in both write-completion callbacks of the pull, when the checksum computed
by the store differs from the checksum the object was requested under, the
callback throws the error Corrupted content object (for
content_fetch_on_write_complete) or Corrupted metadata object (for
on_metadata_writed): the resulting state is exactly the state with the
outstanding-write counter decremented handed to
check_outstanding_requests_handle_error with that error, so caught_error is set,
n_fetched_content is not incremented and nothing is scanned (the scanned and
requested sets and the list of fetch requests are unchanged).  In every outcome
in which the callback returns (write failure, mismatch, success) the matching
outstanding-write counter is the old one decremented by one as a guint. -/
theorem write_complete_checksum_mismatch (env : PullEnv) (pull_data : OtPullData)
    (fetch_data : FetchObjectData) (checksum : Checksum)
    (hne : checksum ≠ fetch_data.checksum) :
    (fetch_data.objtype = OstreeObjectType.FILE →
      ∃ pd, content_fetch_on_write_complete pull_data fetch_data (.ok checksum) = some pd ∧
        pd = check_outstanding_requests_handle_error
          { pull_data with
            n_outstanding_content_write_requests :=
              guint_dec pull_data.n_outstanding_content_write_requests }
          (some (corrupted_content_error fetch_data.checksum checksum)) ∧
        pd.caught_error = true ∧
        (pull_data.caught_error = false → pull_data.async_error = none →
          pd.async_error = some (corrupted_content_error fetch_data.checksum checksum)) ∧
        pd.n_fetched_content = pull_data.n_fetched_content) ∧
    (OSTREE_OBJECT_TYPE_IS_META fetch_data.objtype = true →
      ∃ pd, on_metadata_writed env pull_data fetch_data (.ok checksum) = some pd ∧
        pd = check_outstanding_requests_handle_error
          { pull_data with
            n_outstanding_metadata_write_requests :=
              guint_dec pull_data.n_outstanding_metadata_write_requests }
          (some (corrupted_metadata_error fetch_data.checksum checksum)) ∧
        pd.caught_error = true ∧
        (pull_data.caught_error = false → pull_data.async_error = none →
          pd.async_error = some (corrupted_metadata_error fetch_data.checksum checksum)) ∧
        pd.scanned_metadata = pull_data.scanned_metadata ∧
        pd.n_scanned_metadata = pull_data.n_scanned_metadata ∧
        pd.requested_metadata = pull_data.requested_metadata ∧
        pd.requested_content = pull_data.requested_content ∧
        pd.fetch_requests = pull_data.fetch_requests) ∧
    (∀ (result : Except GError Checksum) (pd : OtPullData),
      content_fetch_on_write_complete pull_data fetch_data result = some pd →
      pd.n_outstanding_content_write_requests =
        guint_dec pull_data.n_outstanding_content_write_requests) ∧
    (∀ (result : Except GError Checksum) (pd : OtPullData),
      on_metadata_writed env pull_data fetch_data result = some pd →
      pd.n_outstanding_metadata_write_requests =
        guint_dec pull_data.n_outstanding_metadata_write_requests) ∧
    (∀ n : Nat, 0 < n → n < 2 ^ 32 → guint_dec n + 1 = n) := by
  refine ⟨?_, ?_, ?_, ?_, guint_dec_succ⟩
  · intro hfile
    refine ⟨_, ?_, rfl, ?_, ?_, ?_⟩
    · simp [content_fetch_on_write_complete, hfile, hne]
    · rw [check_outstanding_requests_caught]
      exact throw_async_error_some_caught _ _
    · intro hc hs
      rw [check_outstanding_requests_async_error]
      exact throw_async_error_some_first _ _ hc hs
    · rw [(check_outstanding_requests_frame _ _).n_fetched_content]
  · intro hmeta
    refine ⟨_, ?_, rfl, ?_, ?_, ?_, ?_, ?_, ?_, ?_⟩
    · simp [on_metadata_writed, hmeta, hne]
    · rw [check_outstanding_requests_caught]
      exact throw_async_error_some_caught _ _
    · intro hc hs
      rw [check_outstanding_requests_async_error]
      exact throw_async_error_some_first _ _ hc hs
    · rw [(check_outstanding_requests_frame _ _).scanned_metadata]
    · rw [(check_outstanding_requests_frame _ _).n_scanned_metadata]
    · rw [(check_outstanding_requests_frame _ _).requested_metadata]
    · rw [(check_outstanding_requests_frame _ _).requested_content]
    · rw [(check_outstanding_requests_frame _ _).fetch_requests]
  · intro result pd h
    exact content_fetch_on_write_complete_counter pull_data pd fetch_data result h
  · intro result pd h
    exact on_metadata_writed_counter env pull_data pd fetch_data result h

/-- Witness for C2: the write of the sample tree completes with the checksum of
another object. -/
theorem write_complete_checksum_mismatch_witness :
    sample_file_csum ≠ sample_tree_csum ∧
    ∃ pd, on_metadata_writed sample_env sample_writing_state
        { checksum := sample_tree_csum, objtype := OstreeObjectType.DIR_TREE,
          is_detached_meta := false } (.ok sample_file_csum) = some pd ∧
      pd.caught_error = true ∧
      pd.async_error = some (corrupted_metadata_error sample_tree_csum sample_file_csum) ∧
      pd.scanned_metadata = [] := by
  refine ⟨by decide, ?_⟩
  obtain ⟨pd, h1, _, h3, h4, h5, _⟩ :=
    (write_complete_checksum_mismatch sample_env sample_writing_state
      { checksum := sample_tree_csum, objtype := OstreeObjectType.DIR_TREE,
        is_detached_meta := false } sample_file_csum (by decide)).2.1 rfl
  exact ⟨pd, h1, h3, h4 rfl rfl, h5⟩

/-! ## Metadata fetch completion -/

/-- C8: in meta_fetch_on_complete, when the fetch ended with NOT_FOUND for a
metadata request: if the request was for detached metadata, the error slot and
caught_error are left as they were, exactly one request for the same object with
is_detached_meta false is handed to the fetcher, and n_outstanding_metadata_fetches
is the same after the callback as before it (the counter being below its maximum);
if the request was for the object itself, the NOT_FOUND error is thrown with
throw_async_error, so caught_error is set and, when no error had been caught
before, the slot holds that error, and no request is made. -/
theorem meta_fetch_on_complete_not_found (pull_data : OtPullData) (fetch_data : FetchObjectData)
    (e : GError) (map_error write_error : Option GError)
    (hnf : e.is_not_found = true)
    (hmeta : OSTREE_OBJECT_TYPE_IS_META fetch_data.objtype = true) :
    (fetch_data.is_detached_meta = true →
      pull_data.n_outstanding_metadata_fetches + 1 < 2 ^ 32 →
      ∃ pd, meta_fetch_on_complete pull_data fetch_data (.error e) map_error write_error =
          some pd ∧
        pd.async_error = pull_data.async_error ∧
        pd.caught_error = pull_data.caught_error ∧
        pd.fetch_requests = pull_data.fetch_requests ++
          [{ checksum := fetch_data.checksum, objtype := fetch_data.objtype,
             is_detached_meta := false }] ∧
        pd.fetches_in_flight = pull_data.fetches_in_flight ++
          [{ checksum := fetch_data.checksum, objtype := fetch_data.objtype,
             is_detached_meta := false }] ∧
        pd.n_outstanding_metadata_fetches = pull_data.n_outstanding_metadata_fetches) ∧
    (fetch_data.is_detached_meta = false →
      0 < pull_data.n_outstanding_metadata_fetches →
      ∃ pd, meta_fetch_on_complete pull_data fetch_data (.error e) map_error write_error =
          some pd ∧
        pd = throw_async_error
          { pull_data with
            n_outstanding_metadata_fetches := guint_dec pull_data.n_outstanding_metadata_fetches
            n_fetched_metadata := guint_inc pull_data.n_fetched_metadata }
          (some e) ∧
        pd.caught_error = true ∧
        (pull_data.caught_error = false → pull_data.async_error = none →
          pd.async_error = some e) ∧
        pd.fetch_requests = pull_data.fetch_requests ∧
        pd.fetches_in_flight = pull_data.fetches_in_flight) := by
  constructor
  · intro hd hlt
    have hinc : guint_inc pull_data.n_outstanding_metadata_fetches =
        pull_data.n_outstanding_metadata_fetches + 1 := by
      unfold guint_inc; omega
    have hdec : guint_dec (pull_data.n_outstanding_metadata_fetches + 1) =
        pull_data.n_outstanding_metadata_fetches := by
      unfold guint_dec; omega
    have hq : (enqueue_one_object_request pull_data fetch_data.checksum fetch_data.objtype
        false).n_outstanding_metadata_fetches =
        pull_data.n_outstanding_metadata_fetches + 1 := by
      simp [enqueue_one_object_request, hmeta, hinc]
    refine ⟨throw_async_error
      { enqueue_one_object_request pull_data fetch_data.checksum fetch_data.objtype false with
        n_outstanding_metadata_fetches := guint_dec
          (enqueue_one_object_request pull_data fetch_data.checksum fetch_data.objtype
            false).n_outstanding_metadata_fetches
        n_fetched_metadata := guint_inc
          (enqueue_one_object_request pull_data fetch_data.checksum fetch_data.objtype
            false).n_fetched_metadata } none, ?_, ?_, ?_, ?_, ?_, ?_⟩
    · simp [meta_fetch_on_complete, meta_fetch_on_complete_body, hnf, hd, hq]
    · simp [throw_async_error, enqueue_one_object_request, hmeta]
    · simp [throw_async_error, enqueue_one_object_request, hmeta]
    · simp [throw_async_error, enqueue_one_object_request, hmeta]
    · simp [throw_async_error, enqueue_one_object_request, hmeta]
    · simp only [throw_async_error, hq, hdec]
  · intro hd hpos
    refine ⟨_, ?_, rfl, ?_, ?_, ?_, ?_⟩
    · simp [meta_fetch_on_complete, meta_fetch_on_complete_body, hnf, hd, hpos]
    · exact throw_async_error_some_caught _ _
    · intro hc hs
      exact throw_async_error_some_first _ _ hc hs
    · rw [(throw_async_error_frame _ _).fetch_requests]
    · rw [(throw_async_error_frame _ _).fetches_in_flight]

/-- Witness for C8: the detached metadata of the sample commit is not on the remote. -/
theorem meta_fetch_on_complete_not_found_witness :
    sample_not_found.is_not_found = true ∧
    OSTREE_OBJECT_TYPE_IS_META OstreeObjectType.COMMIT = true ∧
    ∃ pd, meta_fetch_on_complete sample_fetching_state
        { checksum := sample_commit_csum, objtype := OstreeObjectType.COMMIT,
          is_detached_meta := true } (.error sample_not_found) none none = some pd ∧
      pd.caught_error = false ∧
      pd.fetches_in_flight =
        [{ checksum := sample_commit_csum, objtype := OstreeObjectType.COMMIT,
           is_detached_meta := false }] ∧
      pd.n_outstanding_metadata_fetches = 1 := by
  refine ⟨rfl, rfl, ?_⟩
  obtain ⟨pd, h1, _, h3, _, h5, h6⟩ :=
    (meta_fetch_on_complete_not_found sample_fetching_state
      { checksum := sample_commit_csum, objtype := OstreeObjectType.COMMIT,
        is_detached_meta := true } sample_not_found none none rfl rfl).1 rfl (by decide)
  exact ⟨pd, h1, h3, h5, h6⟩

/-! ## The recursion of scanning -/

theorem scan_dirtree_dirs_congr (env : PullEnv) (r1 r2 : ScanFn) (recursion_depth : Nat)
    (h : ∀ pd c k, r1 pd c k (recursion_depth + 1) = r2 pd c k (recursion_depth + 1))
    (dirs : List (String × Checksum × Checksum)) :
    ∀ pull_data : OtPullData,
      scan_dirtree_dirs env r1 recursion_depth dirs pull_data =
        scan_dirtree_dirs env r2 recursion_depth dirs pull_data := by
  induction dirs with
  | nil => intro pull_data; rfl
  | cons d rest ih =>
    intro pull_data
    obtain ⟨dirname, tree_csum, meta_csum⟩ := d
    simp only [scan_dirtree_dirs, h, ih]

theorem scan_dirtree_object_congr (env : PullEnv) (r1 r2 : ScanFn) (recursion_depth : Nat)
    (h : recursion_depth ≤ env.OSTREE_MAX_RECURSION →
      ∀ pd c k, r1 pd c k (recursion_depth + 1) = r2 pd c k (recursion_depth + 1))
    (pull_data : OtPullData) (checksum : Checksum) :
    scan_dirtree_object env r1 pull_data checksum recursion_depth =
      scan_dirtree_object env r2 pull_data checksum recursion_depth := by
  unfold scan_dirtree_object
  by_cases hd : recursion_depth > env.OSTREE_MAX_RECURSION
  · simp [hd]
  · simp only [hd, if_false]
    have h' := h (by omega)
    simp only [scan_dirtree_dirs_congr env r1 r2 recursion_depth h']

theorem scan_commit_object_congr (env : PullEnv) (r1 r2 : ScanFn) (recursion_depth : Nat)
    (h : recursion_depth ≤ env.OSTREE_MAX_RECURSION →
      ∀ pd c k, r1 pd c k (recursion_depth + 1) = r2 pd c k (recursion_depth + 1))
    (pull_data : OtPullData) (checksum : Checksum) :
    scan_commit_object env r1 pull_data checksum recursion_depth =
      scan_commit_object env r2 pull_data checksum recursion_depth := by
  unfold scan_commit_object
  by_cases hd : recursion_depth > env.OSTREE_MAX_RECURSION
  · simp [hd]
  · simp only [hd, if_false]
    have h' := h (by omega)
    simp only [h']

theorem scan_one_metadata_object_c_body_congr (env : PullEnv) (r1 r2 : ScanFn)
    (recursion_depth : Nat)
    (h : recursion_depth ≤ env.OSTREE_MAX_RECURSION →
      ∀ pd c k, r1 pd c k (recursion_depth + 1) = r2 pd c k (recursion_depth + 1))
    (pull_data : OtPullData) (csum : Checksum) (objtype : OstreeObjectType) :
    scan_one_metadata_object_c_body env r1 pull_data csum objtype recursion_depth =
      scan_one_metadata_object_c_body env r2 pull_data csum objtype recursion_depth := by
  unfold scan_one_metadata_object_c_body scan_stored_object
  simp only [scan_commit_object_congr env r1 r2 recursion_depth h,
    scan_dirtree_object_congr env r1 r2 recursion_depth h]

/-- The recursion equation of `scan_one_metadata_object_c`: the function is its
body applied to itself, at every recursion depth. -/
theorem scan_one_metadata_object_c_eq (env : PullEnv) (pull_data : OtPullData)
    (csum : Checksum) (objtype : OstreeObjectType) (recursion_depth : Nat) :
    scan_one_metadata_object_c env pull_data csum objtype recursion_depth =
      scan_one_metadata_object_c_body env (scan_one_metadata_object_c env) pull_data csum
        objtype recursion_depth := by
  unfold scan_one_metadata_object_c
  cases hf : env.OSTREE_MAX_RECURSION + 1 - recursion_depth with
  | zero =>
    simp only [scan_unfold]
    apply scan_one_metadata_object_c_body_congr
    intro hle
    omega
  | succ n =>
    simp only [scan_unfold]
    apply scan_one_metadata_object_c_body_congr
    intro hle pd c k
    have : env.OSTREE_MAX_RECURSION + 1 - (recursion_depth + 1) = n := by omega
    simp only [this]

theorem enqueue_one_object_request_meta_sets (pull_data : OtPullData) (checksum : Checksum)
    (objtype : OstreeObjectType) (is_detached_meta : Bool) :
    (enqueue_one_object_request pull_data checksum objtype is_detached_meta).scanned_metadata =
      pull_data.scanned_metadata ∧
    (enqueue_one_object_request pull_data checksum objtype is_detached_meta).requested_metadata =
      pull_data.requested_metadata ∧
    (enqueue_one_object_request pull_data checksum objtype is_detached_meta).requested_content =
      pull_data.requested_content := by
  unfold enqueue_one_object_request
  split <;> exact ⟨rfl, rfl, rfl⟩

theorem scan_dirtree_files_meta_sets (env : PullEnv) (files : List (String × Checksum)) :
    ∀ pull_data : OtPullData,
      (scan_dirtree_files env files pull_data).1.scanned_metadata = pull_data.scanned_metadata ∧
      (scan_dirtree_files env files pull_data).1.requested_metadata =
        pull_data.requested_metadata := by
  induction files with
  | nil => intro pull_data; exact ⟨rfl, rfl⟩
  | cons f rest ih =>
    intro pull_data
    obtain ⟨filename, file_checksum⟩ := f
    simp only [scan_dirtree_files]
    split
    · exact ⟨rfl, rfl⟩
    · split
      · exact ⟨rfl, rfl⟩
      · split
        · obtain ⟨h1, h2⟩ := ih (enqueue_one_object_request
            { pull_data with
              requested_content := ghash_insert file_checksum pull_data.requested_content }
            file_checksum OstreeObjectType.FILE false)
          obtain ⟨e1, e2, _⟩ := enqueue_one_object_request_meta_sets
            { pull_data with
              requested_content := ghash_insert file_checksum pull_data.requested_content }
            file_checksum OstreeObjectType.FILE false
          exact ⟨h1.trans e1, h2.trans e2⟩
        · exact ih pull_data

theorem scan_dirtree_files_ok (env : PullEnv) (files : List (String × Checksum)) :
    ∀ pull_data : OtPullData, scan_files_ok env pull_data.repo files →
      (scan_dirtree_files env files pull_data).2 = none := by
  induction files with
  | nil => intro pull_data _; rfl
  | cons f rest ih =>
    intro pull_data hok
    obtain ⟨filename, file_checksum⟩ := f
    obtain ⟨hv, b, hb⟩ := hok (filename, file_checksum) (List.mem_cons_self _ _)
    have hrest : scan_files_ok env pull_data.repo rest :=
      fun g hg => hok g (List.mem_cons_of_mem _ hg)
    simp only at hv hb
    simp only [scan_dirtree_files, hv, hb]
    split
    · apply ih
      rw [(enqueue_one_object_request_frame _ _ _ _).repo]
      exact hrest
    · exact ih pull_data hrest

theorem scan_recurses_into_congr (a b : OtPullData) (csum : Checksum)
    (h1 : b.repo = a.repo) (h2 : b.scanned_metadata = a.scanned_metadata)
    (h3 : b.requested_metadata = a.requested_metadata)
    (h4 : b.transaction_resuming = a.transaction_resuming)
    (h : scan_recurses_into a csum) : scan_recurses_into b csum := by
  unfold scan_recurses_into at *
  rw [h1, h2, h3, h4]
  exact h

theorem scan_dirtree_dirs_append (env : PullEnv) (recur : ScanFn) (recursion_depth : Nat)
    (rest : List (String × Checksum × Checksum)) :
    ∀ (pre : List (String × Checksum × Checksum)) (pd1 pd2 : OtPullData),
      scan_dirtree_dirs env recur recursion_depth pre pd1 = (pd2, none) →
      scan_dirtree_dirs env recur recursion_depth (pre ++ rest) pd1 =
        scan_dirtree_dirs env recur recursion_depth rest pd2 := by
  intro pre
  induction pre with
  | nil =>
    intro pd1 pd2 h
    simp only [scan_dirtree_dirs] at h
    injection h with h _
    subst h
    rfl
  | cons dd pre ih =>
    intro pd1 pd2 h
    obtain ⟨dirname, tree_csum, meta_csum⟩ := dd
    simp only [List.cons_append, scan_dirtree_dirs] at h ⊢
    split at h
    · exact absurd (congrArg Prod.snd h) (by simp)
    · split at h
      · exact absurd (congrArg Prod.snd h) (by simp)
      · split at h
        · exact absurd (congrArg Prod.snd h) (by simp)
        · exact ih _ _ h

theorem scan_nested_trees_fails (env : PullEnv) :
    ∀ (n : Nat) (pull_data : OtPullData) (csum : Checksum) (recursion_depth : Nat),
      nested_trees env n pull_data recursion_depth csum →
      env.OSTREE_MAX_RECURSION < recursion_depth + n →
      (scan_one_metadata_object_c env pull_data csum OstreeObjectType.DIR_TREE
        recursion_depth).2 = some recursion_error := by
  intro n
  induction n with
  | zero =>
    intro pull_data csum d h hd
    obtain ⟨hns, hst, hreq⟩ := h
    have hreq2 : (pull_data.transaction_resuming ||
        decide (csum ∈ pull_data.requested_metadata)) = true := by
      rcases hreq with h | h <;> simp [h]
    have hd2 : d > env.OSTREE_MAX_RECURSION := by omega
    rw [scan_one_metadata_object_c_eq]
    simp [scan_one_metadata_object_c_body, hns, hst, scan_stored_object, hreq2,
      scan_dirtree_object, hd2]
  | succ n ih =>
    intro pull_data csum d h hd
    obtain ⟨⟨hns, hst, hreq⟩, files, pre, dirname, sub, meta_csum, post, pd1, pd2, hl, hf, hp,
      hv, hn⟩ := h
    have hreq2 : (pull_data.transaction_resuming ||
        decide (csum ∈ pull_data.requested_metadata)) = true := by
      rcases hreq with h | h <;> simp [h]
    rw [scan_one_metadata_object_c_eq]
    by_cases hd2 : d > env.OSTREE_MAX_RECURSION
    · simp [scan_one_metadata_object_c_body, hns, hst, scan_stored_object, hreq2,
        scan_dirtree_object, hd2]
    · have hsub := ih pd2 sub (d + 1) hn (by omega)
      have happ := scan_dirtree_dirs_append env (scan_one_metadata_object_c env) d
        ((dirname, sub, meta_csum) :: post) pre pd1 pd2 hp
      cases hres2 : scan_one_metadata_object_c env pd2 sub OstreeObjectType.DIR_TREE (d + 1) with
      | mk pd3 err3 =>
        rw [hres2] at hsub
        simp only at hsub
        subst hsub
        simp [scan_one_metadata_object_c_body, hns, hst, scan_stored_object, hreq2,
          scan_dirtree_object, hd2, hl, GVariant.tree_files, GVariant.tree_dirs, hf, happ,
          scan_dirtree_dirs, hv, hres2]

/-! ## Scanning only adds to the sets it consults -/

theorem mem_ghash_insert {α : Type} [DecidableEq α] (x y : α) (s : List α) :
    y ∈ ghash_insert x s ↔ y = x ∨ y ∈ s := by
  unfold ghash_insert
  split
  · constructor
    · intro h; exact Or.inr h
    · intro h
      rcases h with h | h
      · subst h; assumption
      · exact h
  · simp

theorem ScanGrow.grow_refl (a : OtPullData) : ScanGrow a a :=
  ⟨rfl, rfl, fun _ h => h, fun _ h => h, fun _ h => h⟩

theorem ScanGrow.grow_trans {a b c : OtPullData} (h1 : ScanGrow a b) (h2 : ScanGrow b c) :
    ScanGrow a c :=
  ⟨h2.repo.trans h1.repo, h2.transaction_resuming.trans h1.transaction_resuming,
   fun x hx => h2.scanned x (h1.scanned x hx),
   fun x hx => h2.requested_metadata x (h1.requested_metadata x hx),
   fun x hx => h2.requested_content x (h1.requested_content x hx)⟩

theorem mem_ghash_insert_of_mem {α : Type} [DecidableEq α] (x y : α) (s : List α)
    (h : y ∈ s) : y ∈ ghash_insert x s := by
  unfold ghash_insert
  split
  · exact h
  · exact List.mem_cons_of_mem _ h

theorem mem_ghash_insert_self {α : Type} [DecidableEq α] (x : α) (s : List α) :
    x ∈ ghash_insert x s := by
  unfold ghash_insert
  split
  · assumption
  · exact List.mem_cons_self _ _

theorem enqueue_one_object_request_grow (pull_data : OtPullData) (checksum : Checksum)
    (objtype : OstreeObjectType) (is_detached_meta : Bool) :
    ScanGrow pull_data
      (enqueue_one_object_request pull_data checksum objtype is_detached_meta) := by
  obtain ⟨e1, e2, e3⟩ :=
    enqueue_one_object_request_meta_sets pull_data checksum objtype is_detached_meta
  have hf := enqueue_one_object_request_frame pull_data checksum objtype is_detached_meta
  refine ⟨hf.repo, hf.transaction_resuming, ?_, ?_, ?_⟩
  · intro x hx; rw [e1]; exact hx
  · intro x hx; rw [e2]; exact hx
  · intro x hx; rw [e3]; exact hx

theorem scan_dirtree_files_grow (env : PullEnv) (files : List (String × Checksum)) :
    ∀ pull_data : OtPullData, ScanGrow pull_data (scan_dirtree_files env files pull_data).1 := by
  induction files with
  | nil => intro pull_data; exact ScanGrow.grow_refl _
  | cons f rest ih =>
    intro pull_data
    obtain ⟨filename, file_checksum⟩ := f
    simp only [scan_dirtree_files]
    split
    · exact ScanGrow.grow_refl _
    · split
      · exact ScanGrow.grow_refl _
      · split
        · refine ScanGrow.grow_trans ?_ (ih _)
          refine ScanGrow.grow_trans ?_ (enqueue_one_object_request_grow _ _ _ _)
          exact ⟨rfl, rfl, fun _ h => h, fun _ h => h,
            fun x hx => mem_ghash_insert_of_mem _ _ _ hx⟩
        · exact ih pull_data

theorem scan_dirtree_dirs_grow (env : PullEnv) (recur : ScanFn)
    (hrec : ∀ pd c k d, ScanGrow pd (recur pd c k d).1) (recursion_depth : Nat)
    (dirs : List (String × Checksum × Checksum)) :
    ∀ pd : OtPullData, ScanGrow pd (scan_dirtree_dirs env recur recursion_depth dirs pd).1 := by
  induction dirs with
  | nil => intro pd; exact ScanGrow.grow_refl _
  | cons dd rest ih =>
    intro pd
    obtain ⟨dirname, tree_csum, meta_csum⟩ := dd
    simp only [scan_dirtree_dirs]
    split
    · exact ScanGrow.grow_refl _
    · have a1 := hrec pd tree_csum OstreeObjectType.DIR_TREE (recursion_depth + 1)
      split
      · rename_i heq
        rw [heq] at a1
        exact a1
      · rename_i pd1 heq
        rw [heq] at a1
        have b1 := hrec pd1 meta_csum OstreeObjectType.DIR_META (recursion_depth + 1)
        split
        · rename_i heq2
          rw [heq2] at b1
          exact ScanGrow.grow_trans a1 b1
        · rename_i pd2 heq2
          rw [heq2] at b1
          exact ScanGrow.grow_trans a1 (ScanGrow.grow_trans b1 (ih pd2))

theorem scan_stored_object_grow (env : PullEnv) (recur : ScanFn)
    (hrec : ∀ pd c k d, ScanGrow pd (recur pd c k d).1) (pd : OtPullData) (csum : Checksum)
    (objtype : OstreeObjectType) (recursion_depth : Nat) (is_requested : Bool) :
    ScanGrow pd
      (scan_stored_object env recur pd csum objtype recursion_depth is_requested).1 := by
  unfold scan_stored_object
  split
  · cases objtype with
    | FILE => exact ScanGrow.grow_refl _
    | DIR_META => exact ScanGrow.grow_refl _
    | DIR_TREE =>
      simp only
      unfold scan_dirtree_object
      split
      · exact ScanGrow.grow_refl _
      · split
        · exact ScanGrow.grow_refl _
        · rename_i tree _
          have a1 := scan_dirtree_files_grow env ((tree.map GVariant.tree_files).getD []) pd
          split
          · rename_i heq
            rw [heq] at a1
            exact a1
          · rename_i pd1 heq
            rw [heq] at a1
            exact ScanGrow.grow_trans a1 (scan_dirtree_dirs_grow env recur hrec _ _ pd1)
    | COMMIT =>
      simp only
      unfold scan_commit_object
      split
      · exact ScanGrow.grow_refl _
      · split
        · exact ScanGrow.grow_refl _
        · split
          · exact ScanGrow.grow_refl _
          · rename_i commit _
            have a1 := hrec pd ((commit.map GVariant.commit_tree).getD "")
              OstreeObjectType.DIR_TREE (recursion_depth + 1)
            split
            · rename_i heq
              rw [heq] at a1
              exact a1
            · rename_i pd1 heq
              rw [heq] at a1
              exact ScanGrow.grow_trans a1 (hrec pd1 _ _ _)
  · exact ScanGrow.grow_refl _

theorem scan_one_metadata_object_c_body_grow (env : PullEnv) (recur : ScanFn)
    (hrec : ∀ pd c k d, ScanGrow pd (recur pd c k d).1) :
    ∀ pd c k d, ScanGrow pd (scan_one_metadata_object_c_body env recur pd c k d).1 := by
  intro pd c k d
  unfold scan_one_metadata_object_c_body
  split
  · exact ScanGrow.grow_refl _
  · split
    · exact ScanGrow.grow_refl _
    · split
      · refine ScanGrow.grow_trans ?_ (enqueue_one_object_request_grow _ _ _ _)
        exact ⟨rfl, rfl, fun _ h => h, fun x hx => mem_ghash_insert_of_mem _ _ _ hx,
          fun _ h => h⟩
      · split
        · have a1 := scan_stored_object_grow env recur hrec pd c k d
            (decide (c ∈ pd.requested_metadata))
          split
          · rename_i heq
            rw [heq] at a1
            exact a1
          · rename_i pd1 heq
            rw [heq] at a1
            refine ScanGrow.grow_trans a1 ?_
            exact ⟨rfl, rfl, fun x hx => mem_ghash_insert_of_mem _ _ _ hx, fun _ h => h,
              fun _ h => h⟩
        · exact ScanGrow.grow_refl _

theorem scan_one_metadata_object_c_grow (env : PullEnv) (pd : OtPullData) (c : Checksum)
    (k : OstreeObjectType) (d : Nat) :
    ScanGrow pd (scan_one_metadata_object_c env pd c k d).1 := by
  have key : ∀ fuel pd c k d, ScanGrow pd (scan_unfold env fuel pd c k d).1 := by
    intro fuel
    induction fuel with
    | zero =>
      exact scan_one_metadata_object_c_body_grow env _ (fun pd _ _ _ => ScanGrow.grow_refl pd)
    | succ n ih => exact scan_one_metadata_object_c_body_grow env _ ih
  exact key _ pd c k d

/-! ## Objects that a second scan leaves alone -/

theorem scan_settled_mono {a b : OtPullData} (h : ScanGrow a b)
    (x : Checksum × OstreeObjectType) (hx : scan_settled a x) : scan_settled b x := by
  rcases hx with hx | ⟨h1, h2⟩
  · exact Or.inl (h.scanned x hx)
  · exact Or.inr ⟨by rw [h.repo]; exact h1, h.requested_metadata _ h2⟩

theorem scan_settled_unchanged (env : PullEnv) (pd : OtPullData) (c : Checksum)
    (k : OstreeObjectType) (d : Nat) (h : scan_settled pd (c, k)) :
    scan_one_metadata_object_c env pd c k d = (pd, none) := by
  rw [scan_one_metadata_object_c_eq]
  unfold scan_one_metadata_object_c_body
  by_cases hs : (c, k) ∈ pd.scanned_metadata
  · simp only [hs, if_true]
  · rcases h with h | ⟨h1, h2⟩
    · exact absurd h hs
    · simp only at h1 h2
      simp [hs, h1, h2]

theorem scan_success_settled (env : PullEnv) (pd pd2 : OtPullData) (c : Checksum)
    (k : OstreeObjectType) (d : Nat)
    (h : scan_one_metadata_object_c env pd c k d = (pd2, none)) : scan_settled pd2 (c, k) := by
  rw [scan_one_metadata_object_c_eq] at h
  unfold scan_one_metadata_object_c_body at h
  split at h
  · rename_i hs
    injection h with h _
    subst h
    exact Or.inl hs
  · split at h
    · exact absurd (congrArg Prod.snd h) (by simp)
    · rename_i is_stored hst
      split at h
      · rename_i hcond
        injection h with h _
        subst h
        have hns : is_stored = false := by
          cases is_stored with
          | false => rfl
          | true => simp at hcond
        subst hns
        right
        refine ⟨?_, ?_⟩
        · rw [(enqueue_one_object_request_frame _ _ _ _).repo]
          exact hst
        · rw [(enqueue_one_object_request_meta_sets _ _ _ _).2.1]
          exact mem_ghash_insert_self _ _
      · rename_i hcond
        split at h
        · split at h
          · exact absurd (congrArg Prod.snd h) (by simp)
          · injection h with h _
            subst h
            exact Or.inl (mem_ghash_insert_self _ _)
        · rename_i hns
          injection h with h _
          subst h
          have hns2 : is_stored = false := by
            cases is_stored with
            | false => rfl
            | true => exact absurd rfl hns
          subst hns2
          right
          refine ⟨hst, ?_⟩
          by_contra hreq
          simp [hreq] at hcond

theorem scan_dirtree_dirs_settled (env : PullEnv) (recursion_depth : Nat) :
    ∀ (pre : List (String × Checksum × Checksum)) (pd1 pd2 : OtPullData),
      scan_dirtree_dirs env (scan_one_metadata_object_c env) recursion_depth pre pd1 =
        (pd2, none) →
      ∀ e ∈ pre, env.ot_util_filename_validate e.1 = none ∧
        scan_settled pd2 (e.2.1, OstreeObjectType.DIR_TREE) ∧
        scan_settled pd2 (e.2.2, OstreeObjectType.DIR_META) := by
  intro pre
  induction pre with
  | nil => intro pd1 pd2 _ e he; cases he
  | cons dd pre ih =>
    intro pd1 pd2 h e he
    obtain ⟨dirname, tree_csum, meta_csum⟩ := dd
    simp only [scan_dirtree_dirs] at h
    split at h
    · exact absurd (congrArg Prod.snd h) (by simp)
    · rename_i hv
      split at h
      · exact absurd (congrArg Prod.snd h) (by simp)
      · rename_i pdA heqA
        split at h
        · exact absurd (congrArg Prod.snd h) (by simp)
        · rename_i pdB heqB
          rcases List.mem_cons.1 he with he | he
          · subst he
            have sA := scan_success_settled env pd1 pdA tree_csum OstreeObjectType.DIR_TREE _ heqA
            have sB := scan_success_settled env pdA pdB meta_csum OstreeObjectType.DIR_META _ heqB
            have gB : ScanGrow pdA pdB := by
              have := scan_one_metadata_object_c_grow env pdA meta_csum
                OstreeObjectType.DIR_META (recursion_depth + 1)
              rw [heqB] at this
              exact this
            have gR : ScanGrow pdB pd2 := by
              have := scan_dirtree_dirs_grow env (scan_one_metadata_object_c env)
                (scan_one_metadata_object_c_grow env) recursion_depth pre pdB
              rw [h] at this
              exact this
            exact ⟨hv, scan_settled_mono (ScanGrow.grow_trans gB gR) _ sA,
              scan_settled_mono gR _ sB⟩
          · exact ih pdB pd2 h e he

theorem scan_dirtree_dirs_unchanged (env : PullEnv) (recursion_depth : Nat)
    (pd : OtPullData) :
    ∀ (pre : List (String × Checksum × Checksum)),
      (∀ e ∈ pre, env.ot_util_filename_validate e.1 = none ∧
        scan_settled pd (e.2.1, OstreeObjectType.DIR_TREE) ∧
        scan_settled pd (e.2.2, OstreeObjectType.DIR_META)) →
      scan_dirtree_dirs env (scan_one_metadata_object_c env) recursion_depth pre pd =
        (pd, none) := by
  intro pre
  induction pre with
  | nil => intro _; rfl
  | cons dd pre ih =>
    intro h
    obtain ⟨dirname, tree_csum, meta_csum⟩ := dd
    obtain ⟨hv, s1, s2⟩ := h (dirname, tree_csum, meta_csum) (List.mem_cons_self _ _)
    simp only at hv s1 s2
    simp only [scan_dirtree_dirs, hv, scan_settled_unchanged env pd _ _ _ s1,
      scan_settled_unchanged env pd _ _ _ s2]
    exact ih (fun e he => h e (List.mem_cons_of_mem _ he))

/-- The file entries of a tree that the first loop of `scan_dirtree_object`
leaves alone: valid names, each file stored or already requested. -/
theorem scan_dirtree_files_settled (env : PullEnv) :
    ∀ (files : List (String × Checksum)) (pd pd1 : OtPullData),
      scan_dirtree_files env files pd = (pd1, none) →
      ∀ f ∈ files, env.ot_util_filename_validate f.1 = none ∧
        ∃ b, ostree_repo_has_object pd1.repo OstreeObjectType.FILE f.2 = .ok b ∧
          (b = false → f.2 ∈ pd1.requested_content) := by
  intro files
  induction files with
  | nil => intro pd pd1 _ f hf; cases hf
  | cons g rest ih =>
    intro pd pd1 h f hf
    obtain ⟨filename, file_checksum⟩ := g
    simp only [scan_dirtree_files] at h
    split at h
    · exact absurd (congrArg Prod.snd h) (by simp)
    · rename_i hv
      split at h
      · exact absurd (congrArg Prod.snd h) (by simp)
      · rename_i file_is_stored hst
        rcases List.mem_cons.1 hf with hf | hf
        · subst hf
          refine ⟨hv, file_is_stored, ?_, ?_⟩
          · split at h
            · have g1 := scan_dirtree_files_grow env rest (enqueue_one_object_request
                { pd with
                  requested_content := ghash_insert file_checksum pd.requested_content }
                file_checksum OstreeObjectType.FILE false)
              rw [h] at g1
              rw [g1.repo, (enqueue_one_object_request_frame _ _ _ _).repo]
              exact hst
            · have g1 := scan_dirtree_files_grow env rest pd
              rw [h] at g1
              rw [g1.repo]
              exact hst
          · intro hb
            subst hb
            split at h
            · have g1 := scan_dirtree_files_grow env rest (enqueue_one_object_request
                { pd with
                  requested_content := ghash_insert file_checksum pd.requested_content }
                file_checksum OstreeObjectType.FILE false)
              rw [h] at g1
              apply g1.requested_content
              rw [(enqueue_one_object_request_meta_sets _ _ _ _).2.2]
              exact mem_ghash_insert_self _ _
            · rename_i hcond
              have g1 := scan_dirtree_files_grow env rest pd
              rw [h] at g1
              apply g1.requested_content
              by_contra hreq
              simp [hreq] at hcond
        · split at h
          · exact ih _ pd1 h f hf
          · exact ih _ pd1 h f hf

theorem scan_dirtree_files_unchanged (env : PullEnv) (pd : OtPullData) :
    ∀ (files : List (String × Checksum)),
      (∀ f ∈ files, env.ot_util_filename_validate f.1 = none ∧
        ∃ b, ostree_repo_has_object pd.repo OstreeObjectType.FILE f.2 = .ok b ∧
          (b = false → f.2 ∈ pd.requested_content)) →
      scan_dirtree_files env files pd = (pd, none) := by
  intro files
  induction files with
  | nil => intro _; rfl
  | cons g rest ih =>
    intro h
    obtain ⟨filename, file_checksum⟩ := g
    obtain ⟨hv, b, hb, hreq⟩ := h (filename, file_checksum) (List.mem_cons_self _ _)
    simp only at hv hb hreq
    simp only [scan_dirtree_files, hv, hb]
    have hcond : (!b && !decide (file_checksum ∈ pd.requested_content)) = false := by
      cases b with
      | true => rfl
      | false => simp [hreq rfl]
    simp only [hcond, Bool.false_eq_true, if_false]
    exact ih (fun f hf => h f (List.mem_cons_of_mem _ hf))

/-! ## A stored tree that lists itself -/

theorem scan_recurses_into_grow {a b : OtPullData} (csum : Checksum) (h : ScanGrow a b)
    (hs : (csum, OstreeObjectType.DIR_TREE) ∉ b.scanned_metadata)
    (hr : scan_recurses_into a csum) : scan_recurses_into b csum := by
  obtain ⟨_, h2, h3⟩ := hr
  refine ⟨hs, by rw [h.repo]; exact h2, ?_⟩
  rcases h3 with h3 | h3
  · exact Or.inl (by rw [h.transaction_resuming]; exact h3)
  · exact Or.inr (h.requested_metadata _ h3)

theorem scan_dirtree_files_recurses (env : PullEnv) (files : List (String × Checksum))
    (pd : OtPullData) (csum : Checksum) (hr : scan_recurses_into pd csum) :
    scan_recurses_into (scan_dirtree_files env files pd).1 csum := by
  have hfr := scan_dirtree_files_frame env files pd
  have hfs := scan_dirtree_files_meta_sets env files pd
  exact scan_recurses_into_congr pd _ csum hfr.repo hfs.1 hfs.2 hfr.transaction_resuming hr

theorem scan_dirtree_dirs_self (env : PullEnv) (recur : ScanFn) (repo0 : OstreeRepo)
    (tree : Checksum)
    (hrec : ∀ pd c k d pd2, pd.repo = repo0 ∧ scan_recurses_into pd tree →
      recur pd c k d = (pd2, none) →
      (pd2.repo = repo0 ∧ scan_recurses_into pd2 tree) ∧
        (c, k) ≠ (tree, OstreeObjectType.DIR_TREE))
    (recursion_depth : Nat) :
    ∀ (dirs : List (String × Checksum × Checksum)) (pd pd2 : OtPullData),
      pd.repo = repo0 ∧ scan_recurses_into pd tree →
      scan_dirtree_dirs env recur recursion_depth dirs pd = (pd2, none) →
      (pd2.repo = repo0 ∧ scan_recurses_into pd2 tree) ∧ ∀ e ∈ dirs, e.2.1 ≠ tree := by
  intro dirs
  induction dirs with
  | nil =>
    intro pd pd2 hr h
    simp only [scan_dirtree_dirs] at h
    injection h with h _
    subst h
    exact ⟨hr, fun e he => by cases he⟩
  | cons dd rest ih =>
    intro pd pd2 hr h
    obtain ⟨dirname, tree_csum, meta_csum⟩ := dd
    simp only [scan_dirtree_dirs] at h
    split at h
    · exact absurd (congrArg Prod.snd h) (by simp)
    · split at h
      · exact absurd (congrArg Prod.snd h) (by simp)
      · rename_i pdA heqA
        split at h
        · exact absurd (congrArg Prod.snd h) (by simp)
        · rename_i pdB heqB
          obtain ⟨rA, nA⟩ := hrec pd tree_csum OstreeObjectType.DIR_TREE _ pdA hr heqA
          obtain ⟨rB, _⟩ := hrec pdA meta_csum OstreeObjectType.DIR_META _ pdB rA heqB
          obtain ⟨r2, n2⟩ := ih pdB pd2 rB h
          refine ⟨r2, ?_⟩
          intro e he
          rcases List.mem_cons.1 he with he | he
          · subst he
            intro heq
            simp only at heq
            exact nA (by rw [heq])
          · exact n2 e he

theorem scan_stored_object_self (env : PullEnv) (recur : ScanFn) (repo0 : OstreeRepo)
    (tree : Checksum)
    (hrec : ∀ pd c k d pd2, pd.repo = repo0 ∧ scan_recurses_into pd tree →
      recur pd c k d = (pd2, none) →
      (pd2.repo = repo0 ∧ scan_recurses_into pd2 tree) ∧
        (c, k) ≠ (tree, OstreeObjectType.DIR_TREE))
    (hself : ∃ files dirs, ostree_repo_load_variant repo0 OstreeObjectType.DIR_TREE tree =
      .ok (some (GVariant.dirtree files dirs)) ∧ ∃ e ∈ dirs, e.2.1 = tree)
    (pd pd2 : OtPullData) (c : Checksum) (k : OstreeObjectType) (d : Nat)
    (hr : pd.repo = repo0 ∧ scan_recurses_into pd tree)
    (h : scan_stored_object env recur pd c k d (decide (c ∈ pd.requested_metadata)) =
      (pd2, none)) :
    (pd2.repo = repo0 ∧ scan_recurses_into pd2 tree) ∧
      (c, k) ≠ (tree, OstreeObjectType.DIR_TREE) := by
  unfold scan_stored_object at h
  split at h
  · rename_i hcond
    cases k with
    | FILE =>
      simp only at h
      injection h with h _
      subst h
      exact ⟨hr, by simp⟩
    | DIR_META =>
      simp only at h
      injection h with h _
      subst h
      exact ⟨hr, by simp⟩
    | DIR_TREE =>
      simp only at h
      unfold scan_dirtree_object at h
      split at h
      · exact absurd (congrArg Prod.snd h) (by simp)
      · split at h
        · exact absurd (congrArg Prod.snd h) (by simp)
        · rename_i t hload
          have rF := scan_dirtree_files_recurses env ((t.map GVariant.tree_files).getD []) pd
            tree hr.2
          have fF := scan_dirtree_files_frame env ((t.map GVariant.tree_files).getD []) pd
          split at h
          · exact absurd (congrArg Prod.snd h) (by simp)
          · rename_i pd1 heq
            rw [heq] at rF fF
            obtain ⟨r2, n2⟩ := scan_dirtree_dirs_self env recur repo0 tree hrec d _ pd1 pd2
              ⟨fF.repo.trans hr.1, rF⟩ h
            refine ⟨r2, ?_⟩
            intro hck
            injection hck with hc _
            subst hc
            obtain ⟨files, dirs, hl, e, he, hee⟩ := hself
            rw [hr.1, hl] at hload
            injection hload with hload
            subst hload
            exact n2 e (by simpa [GVariant.tree_dirs] using he) hee
    | COMMIT =>
      simp only at h
      unfold scan_commit_object at h
      split at h
      · exact absurd (congrArg Prod.snd h) (by simp)
      · split at h
        · exact absurd (congrArg Prod.snd h) (by simp)
        · split at h
          · exact absurd (congrArg Prod.snd h) (by simp)
          · split at h
            · exact absurd (congrArg Prod.snd h) (by simp)
            · rename_i pd1 heq
              obtain ⟨rA, _⟩ := hrec pd _ OstreeObjectType.DIR_TREE _ pd1 hr heq
              obtain ⟨rB, _⟩ := hrec pd1 _ OstreeObjectType.DIR_META _ pd2 rA h
              exact ⟨rB, by simp⟩
  · rename_i hcond
    injection h with h _
    subst h
    refine ⟨hr, ?_⟩
    intro hck
    injection hck with hc _
    subst hc
    obtain ⟨_, _, h3⟩ := hr.2
    rcases h3 with h3 | h3 <;> simp [h3] at hcond

theorem scan_one_metadata_object_c_body_self (env : PullEnv) (recur : ScanFn)
    (repo0 : OstreeRepo) (tree : Checksum)
    (hgrow : ∀ pd c k d, ScanGrow pd (recur pd c k d).1)
    (hrec : ∀ pd c k d pd2, pd.repo = repo0 ∧ scan_recurses_into pd tree →
      recur pd c k d = (pd2, none) →
      (pd2.repo = repo0 ∧ scan_recurses_into pd2 tree) ∧
        (c, k) ≠ (tree, OstreeObjectType.DIR_TREE))
    (hself : ∃ files dirs, ostree_repo_load_variant repo0 OstreeObjectType.DIR_TREE tree =
      .ok (some (GVariant.dirtree files dirs)) ∧ ∃ e ∈ dirs, e.2.1 = tree)
    (pd pd2 : OtPullData) (c : Checksum) (k : OstreeObjectType) (d : Nat)
    (hr : pd.repo = repo0 ∧ scan_recurses_into pd tree)
    (h : scan_one_metadata_object_c_body env recur pd c k d = (pd2, none)) :
    (pd2.repo = repo0 ∧ scan_recurses_into pd2 tree) ∧
      (c, k) ≠ (tree, OstreeObjectType.DIR_TREE) := by
  have hgrow2 := scan_one_metadata_object_c_body_grow env recur hgrow pd c k d
  rw [h] at hgrow2
  simp only at hgrow2
  have hrepo : pd2.repo = repo0 := hgrow2.repo.trans hr.1
  unfold scan_one_metadata_object_c_body at h
  split at h
  · rename_i hs
    injection h with h _
    subst h
    refine ⟨hr, ?_⟩
    intro hck
    rw [hck] at hs
    exact hr.2.1 hs
  · split at h
    · exact absurd (congrArg Prod.snd h) (by simp)
    · rename_i is_stored hst
      split at h
      · rename_i hcond
        injection h with h _
        have hns : is_stored = false := by
          cases is_stored with
          | false => rfl
          | true => simp at hcond
        subst hns
        refine ⟨⟨hrepo, scan_recurses_into_grow tree hgrow2 ?_ hr.2⟩, ?_⟩
        · rw [← h, (enqueue_one_object_request_meta_sets _ _ _ _).1]
          exact hr.2.1
        · intro hck
          injection hck with hc hk
          subst hc
          subst hk
          rw [hr.2.2.1] at hst
          exact absurd hst (by simp)
      · split at h
        · split at h
          · exact absurd (congrArg Prod.snd h) (by simp)
          · rename_i pd1 heq
            obtain ⟨r1, n1⟩ := scan_stored_object_self env recur repo0 tree hrec hself pd pd1
              c k d hr heq
            injection h with h _
            refine ⟨⟨hrepo, scan_recurses_into_grow tree hgrow2 ?_ hr.2⟩, n1⟩
            rw [← h]
            simp only
            intro hmem
            rcases (mem_ghash_insert (c, k) (tree, OstreeObjectType.DIR_TREE)
              pd1.scanned_metadata).1 hmem with hm | hm
            · exact n1 hm.symm
            · exact r1.2.1 hm
        · rename_i hns
          injection h with h _
          subst h
          refine ⟨hr, ?_⟩
          intro hck
          injection hck with hc hk
          subst hc
          subst hk
          rw [hr.2.2.1] at hst
          injection hst with hst
          exact hns hst.symm

/-- A stored tree that lists itself and is recursed into stays unscanned
through every scan that succeeds, and no scan of it succeeds. -/
theorem scan_one_metadata_object_c_self (env : PullEnv) (tree : Checksum)
    (pd pd2 : OtPullData) (c : Checksum) (k : OstreeObjectType) (d : Nat)
    (hr : scan_recurses_into pd tree)
    (hself : ∃ files dirs, ostree_repo_load_variant pd.repo OstreeObjectType.DIR_TREE tree =
      .ok (some (GVariant.dirtree files dirs)) ∧ ∃ e ∈ dirs, e.2.1 = tree)
    (h : scan_one_metadata_object_c env pd c k d = (pd2, none)) :
    scan_recurses_into pd2 tree ∧ (c, k) ≠ (tree, OstreeObjectType.DIR_TREE) := by
  have hgrow : ∀ fuel pd c k d, ScanGrow pd (scan_unfold env fuel pd c k d).1 := by
    intro fuel
    induction fuel with
    | zero =>
      exact scan_one_metadata_object_c_body_grow env _ (fun pd _ _ _ => ScanGrow.grow_refl pd)
    | succ n ih => exact scan_one_metadata_object_c_body_grow env _ ih
  have key : ∀ fuel p c k d p2, p.repo = pd.repo ∧ scan_recurses_into p tree →
      scan_unfold env fuel p c k d = (p2, none) →
      (p2.repo = pd.repo ∧ scan_recurses_into p2 tree) ∧
        (c, k) ≠ (tree, OstreeObjectType.DIR_TREE) := by
    intro fuel
    induction fuel with
    | zero =>
      intro p c k d p2 hr2 h2
      exact scan_one_metadata_object_c_body_self env _ pd.repo tree
        (fun p _ _ _ => ScanGrow.grow_refl p)
        (fun p c k d p2 _ h => absurd (congrArg Prod.snd h) (by simp)) hself p p2 c k d hr2 h2
    | succ n ih =>
      intro p c k d p2 hr2 h2
      exact scan_one_metadata_object_c_body_self env _ pd.repo tree (hgrow n) ih hself
        p p2 c k d hr2 h2
  obtain ⟨r, n⟩ := key _ pd c k d pd2 ⟨rfl, hr⟩ h
  exact ⟨r.2, n⟩

/-- A stored tree that lists itself under a directory entry the scan reaches
is nested to every depth: on the way down the file entries and the entries
before it are left alone by every further scan, and the tree is still
recursed into when the scan reaches the entry again. -/
theorem self_containing_tree_nested (env : PullEnv) (pull_data pd1 pd2 : OtPullData)
    (csum : Checksum) (recursion_depth : Nat) (files : List (String × Checksum))
    (pre post : List (String × Checksum × Checksum)) (dirname : String) (meta_csum : Checksum)
    (hr : scan_recurses_into pull_data csum)
    (hl : ostree_repo_load_variant pull_data.repo OstreeObjectType.DIR_TREE csum =
      .ok (some (GVariant.dirtree files (pre ++ (dirname, csum, meta_csum) :: post))))
    (hf : scan_dirtree_files env files pull_data = (pd1, none))
    (hp : scan_dirtree_dirs env (scan_one_metadata_object_c env) recursion_depth pre pd1 =
      (pd2, none))
    (hv : env.ot_util_filename_validate dirname = none) :
    ∀ n, nested_trees env n pull_data recursion_depth csum := by
  have hself : ∃ fs dirs, ostree_repo_load_variant pull_data.repo OstreeObjectType.DIR_TREE
      csum = .ok (some (GVariant.dirtree fs dirs)) ∧ ∃ e ∈ dirs, e.2.1 = csum :=
    ⟨files, _, hl, (dirname, csum, meta_csum), by simp, rfl⟩
  have g1 : ScanGrow pull_data pd1 := by
    have := scan_dirtree_files_grow env files pull_data
    rw [hf] at this
    exact this
  have g2 : ScanGrow pd1 pd2 := by
    have := scan_dirtree_dirs_grow env (scan_one_metadata_object_c env)
      (scan_one_metadata_object_c_grow env) recursion_depth pre pd1
    rw [hp] at this
    exact this
  have r1 : scan_recurses_into pd1 csum := by
    have := scan_dirtree_files_recurses env files pull_data csum hr
    rw [hf] at this
    exact this
  have r2 : scan_recurses_into pd2 csum := by
    have := scan_dirtree_dirs_self env (scan_one_metadata_object_c env) pull_data.repo csum
      (fun p c k d p2 hp2 h2 => by
        obtain ⟨a, b⟩ := scan_one_metadata_object_c_self env csum p p2 c k d hp2.2
          (by rw [hp2.1]; exact hself) h2
        have g := scan_one_metadata_object_c_grow env p c k d
        rw [h2] at g
        exact ⟨⟨g.repo.trans hp2.1, a⟩, b⟩)
      recursion_depth pre pd1 pd2 ⟨g1.repo, r1⟩ hp
    exact this.1.2
  have hl2 : ostree_repo_load_variant pd2.repo OstreeObjectType.DIR_TREE csum =
      .ok (some (GVariant.dirtree files (pre ++ (dirname, csum, meta_csum) :: post))) := by
    rw [g2.repo, g1.repo]
    exact hl
  have hf2 : scan_dirtree_files env files pd2 = (pd2, none) := by
    apply scan_dirtree_files_unchanged
    intro f hmem
    obtain ⟨v, b, hb, hreq⟩ := scan_dirtree_files_settled env files pull_data pd1 hf f hmem
    exact ⟨v, b, by rw [g2.repo]; exact hb, fun h => g2.requested_content _ (hreq h)⟩
  have hp2 : ∀ d, scan_dirtree_dirs env (scan_one_metadata_object_c env) d pre pd2 =
      (pd2, none) := by
    intro d
    apply scan_dirtree_dirs_unchanged
    exact scan_dirtree_dirs_settled env recursion_depth pre pd1 pd2 hp
  have stable : ∀ n d, nested_trees env n pd2 d csum := by
    intro n
    induction n with
    | zero => intro d; exact r2
    | succ n ih =>
      intro d
      exact ⟨r2, files, pre, dirname, csum, meta_csum, post, pd2, pd2, hl2, hf2, hp2 d, hv,
        ih (d + 1)⟩
  intro n
  cases n with
  | zero => exact hr
  | succ n =>
    exact ⟨hr, files, pre, dirname, csum, meta_csum, post, pd1, pd2, hl, hf, hp, hv,
      stable n (recursion_depth + 1)⟩

theorem on_metadata_writed_ok (env : PullEnv) (pull_data : OtPullData)
    (fetch_data : FetchObjectData)
    (hmeta : OSTREE_OBJECT_TYPE_IS_META fetch_data.objtype = true) :
    on_metadata_writed env pull_data fetch_data (.ok fetch_data.checksum) =
      some (check_outstanding_requests_handle_error
        { (scan_one_metadata_object_c env pull_data fetch_data.checksum fetch_data.objtype 0).1
          with
          n_outstanding_metadata_write_requests := guint_dec
            (scan_one_metadata_object_c env pull_data fetch_data.checksum fetch_data.objtype
              0).1.n_outstanding_metadata_write_requests }
        (scan_one_metadata_object_c env pull_data fetch_data.checksum fetch_data.objtype 0).2) := by
  simp [on_metadata_writed, hmeta]

theorem nested_objects_dir_tree (env : PullEnv) (n : Nat) (pull_data : OtPullData)
    (recursion_depth : Nat) (csum : Checksum) :
    nested_objects env n pull_data recursion_depth csum OstreeObjectType.DIR_TREE =
      nested_trees env n pull_data recursion_depth csum := by
  cases n <;> rfl

theorem scan_nested_objects_fails (env : PullEnv) (n : Nat) (pull_data : OtPullData)
    (csum : Checksum) (objtype : OstreeObjectType) (recursion_depth : Nat)
    (h : nested_objects env n pull_data recursion_depth csum objtype)
    (hd : env.OSTREE_MAX_RECURSION < recursion_depth + n) :
    (scan_one_metadata_object_c env pull_data csum objtype recursion_depth).2 =
      some recursion_error := by
  cases objtype with
  | DIR_TREE =>
    rw [nested_objects_dir_tree] at h
    exact scan_nested_trees_fails env n pull_data csum recursion_depth h hd
  | FILE => cases n <;> exact h.elim
  | DIR_META => cases n <;> exact h.elim
  | COMMIT =>
    cases n with
    | zero =>
      obtain ⟨hns, hst, hreq⟩ := h
      have hreq2 : (pull_data.transaction_resuming ||
          decide (csum ∈ pull_data.requested_metadata)) = true := by
        rcases hreq with h | h <;> simp [h]
      have hd2 : recursion_depth > env.OSTREE_MAX_RECURSION := by omega
      rw [scan_one_metadata_object_c_eq]
      simp [scan_one_metadata_object_c_body, hns, hst, scan_stored_object, hreq2,
        scan_commit_object, hd2]
    | succ n =>
      obtain ⟨⟨hns, hst, hreq⟩, hgpg, commit, hl, hn⟩ := h
      have hreq2 : (pull_data.transaction_resuming ||
          decide (csum ∈ pull_data.requested_metadata)) = true := by
        rcases hreq with h | h <;> simp [h]
      rw [scan_one_metadata_object_c_eq]
      by_cases hd2 : recursion_depth > env.OSTREE_MAX_RECURSION
      · simp [scan_one_metadata_object_c_body, hns, hst, scan_stored_object, hreq2,
          scan_commit_object, hd2]
      · have hsub := scan_nested_trees_fails env n pull_data
          ((commit.map GVariant.commit_tree).getD "") (recursion_depth + 1) hn (by omega)
        have hverify : (if pull_data.gpg_verify then
            env.ostree_repo_verify_commit pull_data.repo pull_data.detached_metadata csum
            else none) = none := by
          cases hg : pull_data.gpg_verify with
          | false => rfl
          | true => simpa using hgpg hg
        cases hres : scan_one_metadata_object_c env pull_data
            ((commit.map GVariant.commit_tree).getD "") OstreeObjectType.DIR_TREE
            (recursion_depth + 1) with
        | mk pd3 err3 =>
          rw [hres] at hsub
          simp only at hsub
          subst hsub
          simp [scan_one_metadata_object_c_body, hns, hst, scan_stored_object, hreq2,
            scan_commit_object, hd2, hverify, hl, hres]

/-! ## The converse: a failure at the recursion guard comes from a nesting -/

theorem scan_dirtree_files_error (env : PullEnv) :
    ∀ (files : List (String × Checksum)) (pd : OtPullData) (e : GError),
      (scan_dirtree_files env files pd).2 = some e →
      (∃ name, env.ot_util_filename_validate name = some e) ∨
      (∃ c, ostree_repo_has_object pd.repo OstreeObjectType.FILE c = .error e) := by
  intro files
  induction files with
  | nil =>
    intro pd e h
    simp [scan_dirtree_files] at h
  | cons f rest ih =>
    intro pd e h
    obtain ⟨filename, fc⟩ := f
    simp only [scan_dirtree_files] at h
    split at h
    · rename_i e2 hv
      simp only [Option.some.injEq] at h
      subst h
      exact Or.inl ⟨filename, hv⟩
    · split at h
      · rename_i e2 hh
        simp only [Option.some.injEq] at h
        subst h
        exact Or.inr ⟨fc, hh⟩
      · split at h
        · rcases ih _ e h with h2 | ⟨c, h2⟩
          · exact Or.inl h2
          · right
            refine ⟨c, ?_⟩
            rw [(enqueue_one_object_request_frame _ _ _ _).repo] at h2
            exact h2
        · exact ih pd e h

theorem scan_dir_meta_error (env : PullEnv) (pd : OtPullData) (c : Checksum) (d : Nat)
    (e : GError)
    (h : (scan_one_metadata_object_c env pd c OstreeObjectType.DIR_META d).2 = some e) :
    ostree_repo_has_object pd.repo OstreeObjectType.DIR_META c = .error e := by
  rw [scan_one_metadata_object_c_eq] at h
  unfold scan_one_metadata_object_c_body at h
  split at h
  · simp at h
  · split at h
    · rename_i e2 hh
      simp only [Option.some.injEq] at h
      subst h
      exact hh
    · split at h
      · simp at h
      · split at h
        · unfold scan_stored_object at h
          split at h
          · rename_i heq
            split at heq
            · simp at heq
            · simp at heq
          · simp at h
        · simp at h

theorem scan_dirtree_dirs_recursion_error (env : PullEnv)
    (hval : ∀ name, env.ot_util_filename_validate name ≠ some recursion_error)
    (recursion_depth : Nat) :
    ∀ (dirs : List (String × Checksum × Checksum)) (pd1 : OtPullData),
      (∀ c, ostree_repo_has_object pd1.repo OstreeObjectType.DIR_META c ≠
        .error recursion_error) →
      (scan_dirtree_dirs env (scan_one_metadata_object_c env) recursion_depth dirs pd1).2 =
        some recursion_error →
      ∃ pre dirname sub meta_csum post pd2,
        dirs = pre ++ (dirname, sub, meta_csum) :: post ∧
        scan_dirtree_dirs env (scan_one_metadata_object_c env) recursion_depth pre pd1 =
          (pd2, none) ∧
        env.ot_util_filename_validate dirname = none ∧
        (scan_one_metadata_object_c env pd2 sub OstreeObjectType.DIR_TREE
          (recursion_depth + 1)).2 = some recursion_error := by
  intro dirs
  induction dirs with
  | nil =>
    intro pd1 _ h
    simp [scan_dirtree_dirs] at h
  | cons dd rest ih =>
    intro pd1 hm h
    obtain ⟨dirname, tree_csum, meta_csum⟩ := dd
    simp only [scan_dirtree_dirs] at h
    split at h
    · rename_i e hv
      simp only [Option.some.injEq] at h
      subst h
      exact absurd hv (hval dirname)
    · rename_i hv
      split at h
      · rename_i pdA e heqA
        simp only [Option.some.injEq] at h
        subst h
        exact ⟨[], dirname, tree_csum, meta_csum, rest, pd1, rfl, rfl, hv, by rw [heqA]⟩
      · rename_i pdA heqA
        have gA : ScanGrow pd1 pdA := by
          have := scan_one_metadata_object_c_grow env pd1 tree_csum OstreeObjectType.DIR_TREE
            (recursion_depth + 1)
          rw [heqA] at this
          exact this
        split at h
        · rename_i pdB e heqB
          simp only [Option.some.injEq] at h
          subst h
          have hB := scan_dir_meta_error env pdA meta_csum (recursion_depth + 1)
            recursion_error (by rw [heqB])
          rw [gA.repo] at hB
          exact absurd hB (hm meta_csum)
        · rename_i pdB heqB
          have gB : ScanGrow pdA pdB := by
            have := scan_one_metadata_object_c_grow env pdA meta_csum
              OstreeObjectType.DIR_META (recursion_depth + 1)
            rw [heqB] at this
            exact this
          obtain ⟨pre, dn, sub, mc, post, pd2, hdirs, hp, hv2, hsub⟩ := ih pdB
            (by rw [gB.repo, gA.repo]; exact hm) h
          refine ⟨(dirname, tree_csum, meta_csum) :: pre, dn, sub, mc, post, pd2, ?_, ?_, hv2,
            hsub⟩
          · rw [hdirs]
            rfl
          · simp only [scan_dirtree_dirs, hv, heqA, heqB]
            exact hp

theorem scan_dir_tree_recursion_error_step (env : PullEnv)
    (hval : ∀ name, env.ot_util_filename_validate name ≠ some recursion_error)
    (pd : OtPullData) (c : Checksum) (d : Nat)
    (hhas : ∀ k x, ostree_repo_has_object pd.repo k x ≠ .error recursion_error)
    (hload : ∀ k x, ostree_repo_load_variant pd.repo k x ≠ .error recursion_error)
    (hrec : d ≤ env.OSTREE_MAX_RECURSION → ∀ (pd2 : OtPullData) (sub : Checksum),
      pd2.repo = pd.repo →
      (scan_one_metadata_object_c env pd2 sub OstreeObjectType.DIR_TREE (d + 1)).2 =
        some recursion_error →
      ∃ n, nested_trees env n pd2 (d + 1) sub ∧ env.OSTREE_MAX_RECURSION < d + 1 + n)
    (h : (scan_one_metadata_object_c env pd c OstreeObjectType.DIR_TREE d).2 =
      some recursion_error) :
    ∃ n, nested_trees env n pd d c ∧ env.OSTREE_MAX_RECURSION < d + n := by
  rw [scan_one_metadata_object_c_eq] at h
  unfold scan_one_metadata_object_c_body at h
  split at h
  · simp at h
  · rename_i hns
    split at h
    · rename_i e hh
      simp only [Option.some.injEq] at h
      subst h
      exact absurd hh (hhas _ _)
    · rename_i is_stored hst
      split at h
      · simp at h
      · split at h
        · rename_i hstored
          split at h
          · rename_i pdx e heq
            simp only [Option.some.injEq] at h
            subst h
            unfold scan_stored_object at heq
            split at heq
            · rename_i hcond
              simp only at heq
              have hinto : scan_recurses_into pd c :=
                ⟨hns, by rw [hst, hstored], by simpa using hcond⟩
              unfold scan_dirtree_object at heq
              split at heq
              · rename_i hd
                exact ⟨0, hinto, by omega⟩
              · rename_i hd
                split at heq
                · rename_i e hl
                  have he : e = recursion_error := by
                    have := congrArg Prod.snd heq
                    simpa using this
                  subst he
                  exact absurd hl (hload _ _)
                · rename_i tree hl
                  split at heq
                  · rename_i pdf e hfe
                    have he : e = recursion_error := by
                      have := congrArg Prod.snd heq
                      simpa using this
                    subst he
                    rcases scan_dirtree_files_error env _ pd recursion_error
                      (by rw [hfe]) with ⟨name, hn⟩ | ⟨x, hx⟩
                    · exact absurd hn (hval name)
                    · exact absurd hx (hhas _ _)
                  · rename_i pd1 hf
                    have g1 : ScanGrow pd pd1 := by
                      have := scan_dirtree_files_grow env
                        ((tree.map GVariant.tree_files).getD []) pd
                      rw [hf] at this
                      exact this
                    obtain ⟨pre, dirname, sub, meta_csum, post, pd2, hdirs, hp, hv, hsub⟩ :=
                      scan_dirtree_dirs_recursion_error env hval d _ pd1
                        (by rw [g1.repo]; exact fun x => hhas _ x) (by rw [heq])
                    have g2 : ScanGrow pd1 pd2 := by
                      have := scan_dirtree_dirs_grow env (scan_one_metadata_object_c env)
                        (scan_one_metadata_object_c_grow env) d pre pd1
                      rw [hp] at this
                      exact this
                    obtain ⟨n, hn, hdeep⟩ := hrec (by omega) pd2 sub
                      (g2.repo.trans g1.repo) hsub
                    cases tree with
                    | none => simp at hdirs
                    | some v =>
                      cases v with
                      | dirtree fs ds =>
                        simp only [Option.map_some', Option.getD_some,
                          GVariant.tree_dirs] at hdirs
                        simp only [Option.map_some', Option.getD_some,
                          GVariant.tree_files] at hf
                        subst hdirs
                        exact ⟨n + 1, ⟨hinto, fs, pre, dirname, sub, meta_csum, post, pd1, pd2,
                          hl, hf, hp, hv, hn⟩, by omega⟩
                      | commit _ _ => simp [GVariant.tree_dirs] at hdirs
                      | dirmeta => simp [GVariant.tree_dirs] at hdirs
                      | content _ => simp [GVariant.tree_dirs] at hdirs
                      | detached_meta _ => simp [GVariant.tree_dirs] at hdirs
            · simp at heq
          · simp at h
        · simp at h

theorem recursion_error_gives_nested_trees (env : PullEnv) (repo0 : OstreeRepo)
    (hval : ∀ name, env.ot_util_filename_validate name ≠ some recursion_error)
    (hhas : ∀ k x, ostree_repo_has_object repo0 k x ≠ .error recursion_error)
    (hload : ∀ k x, ostree_repo_load_variant repo0 k x ≠ .error recursion_error) :
    ∀ (m d : Nat) (pd : OtPullData) (c : Checksum),
      env.OSTREE_MAX_RECURSION + 1 - d ≤ m → pd.repo = repo0 →
      (scan_one_metadata_object_c env pd c OstreeObjectType.DIR_TREE d).2 =
        some recursion_error →
      ∃ n, nested_trees env n pd d c ∧ env.OSTREE_MAX_RECURSION < d + n := by
  intro m
  induction m with
  | zero =>
    intro d pd c hm hrepo h
    exact scan_dir_tree_recursion_error_step env hval pd c d (by rw [hrepo]; exact hhas)
      (by rw [hrepo]; exact hload) (fun hle => by omega) h
  | succ m ih =>
    intro d pd c hm hrepo h
    exact scan_dir_tree_recursion_error_step env hval pd c d (by rw [hrepo]; exact hhas)
      (by rw [hrepo]; exact hload)
      (fun _ pd2 sub h2 hs => ih (d + 1) pd2 sub (by omega) (h2.trans hrepo) hs) h

/-- The converse of the claim on the recursion guard: when no other check
returns the error of the guard (the filename check, the signature check, the
lookups and the loads), a scan of a commit or a directory tree that fails with
it recursed into objects nested as deep as the guard requires. -/
theorem recursion_error_gives_nested_objects (env : PullEnv) (pd : OtPullData)
    (c : Checksum) (k : OstreeObjectType) (d : Nat)
    (hval : ∀ name, env.ot_util_filename_validate name ≠ some recursion_error)
    (hverify : ∀ repo dm x, env.ostree_repo_verify_commit repo dm x ≠ some recursion_error)
    (hhas : ∀ k x, ostree_repo_has_object pd.repo k x ≠ .error recursion_error)
    (hload : ∀ k x, ostree_repo_load_variant pd.repo k x ≠ .error recursion_error)
    (h : (scan_one_metadata_object_c env pd c k d).2 = some recursion_error) :
    ∃ n, nested_objects env n pd d c k ∧ env.OSTREE_MAX_RECURSION < d + n := by
  cases k with
  | DIR_TREE =>
    obtain ⟨n, hn, hd⟩ := recursion_error_gives_nested_trees env pd.repo hval hhas hload
      (env.OSTREE_MAX_RECURSION + 1 - d) d pd c (Nat.le_refl _) rfl h
    exact ⟨n, by rw [nested_objects_dir_tree]; exact hn, hd⟩
  | DIR_META =>
    exact absurd (scan_dir_meta_error env pd c d recursion_error h) (hhas _ _)
  | FILE =>
    rw [scan_one_metadata_object_c_eq] at h
    unfold scan_one_metadata_object_c_body at h
    split at h
    · simp at h
    · split at h
      · rename_i e hh
        simp only [Option.some.injEq] at h
        subst h
        exact absurd hh (hhas _ _)
      · split at h
        · simp at h
        · split at h
          · unfold scan_stored_object at h
            split at h
            · rename_i heq
              split at heq
              · simp at heq
              · simp at heq
            · simp at h
          · simp at h
  | COMMIT =>
    rw [scan_one_metadata_object_c_eq] at h
    unfold scan_one_metadata_object_c_body at h
    split at h
    · simp at h
    · rename_i hns
      split at h
      · rename_i e hh
        simp only [Option.some.injEq] at h
        subst h
        exact absurd hh (hhas _ _)
      · rename_i is_stored hst
        split at h
        · simp at h
        · split at h
          · rename_i hstored
            split at h
            · rename_i pdx e heq
              simp only [Option.some.injEq] at h
              subst h
              unfold scan_stored_object at heq
              split at heq
              · rename_i hcond
                simp only at heq
                have hinto : scan_recurses_into_commit pd c :=
                  ⟨hns, by rw [hst, hstored], by simpa using hcond⟩
                unfold scan_commit_object at heq
                split at heq
                · rename_i hd
                  exact ⟨0, hinto, by omega⟩
                · rename_i hd
                  split at heq
                  · rename_i e hve
                    have he : e = recursion_error := by
                      have := congrArg Prod.snd heq
                      simpa using this
                    subst he
                    split at hve
                    · exact absurd hve (hverify _ _ _)
                    · simp at hve
                  · rename_i hve
                    split at heq
                    · rename_i e hl
                      have he : e = recursion_error := by
                        have := congrArg Prod.snd heq
                        simpa using this
                      subst he
                      exact absurd hl (hload _ _)
                    · rename_i commit hl
                      split at heq
                      · rename_i pdA e heqA
                        have he : e = recursion_error := by
                          have := congrArg Prod.snd heq
                          simpa using this
                        subst he
                        obtain ⟨n, hn, hdeep⟩ := recursion_error_gives_nested_trees env pd.repo
                          hval hhas hload (env.OSTREE_MAX_RECURSION + 1 - (d + 1)) (d + 1) pd
                          ((commit.map GVariant.commit_tree).getD "") (Nat.le_refl _) rfl
                          (by rw [heqA])
                        refine ⟨n + 1, ⟨hinto, ?_, commit, hl, hn⟩, by omega⟩
                        intro hg
                        rw [hg] at hve
                        simpa using hve
                      · rename_i pdA heqA
                        have gA : ScanGrow pd pdA := by
                          have := scan_one_metadata_object_c_grow env pd
                            ((commit.map GVariant.commit_tree).getD "")
                            OstreeObjectType.DIR_TREE (d + 1)
                          rw [heqA] at this
                          exact this
                        have hB := scan_dir_meta_error env pdA
                          ((commit.map GVariant.commit_meta).getD "") (d + 1) recursion_error
                          (by rw [heq])
                        rw [gA.repo] at hB
                        exact absurd hB (hhas _ _)
              · simp at heq
            · simp at h
          · simp at h

/-- C9 (amended): a call of scan_one_metadata_object_c on a commit or a directory
tree fails with the error Exceeded maximum recursion when the scanned object
and n levels of objects nested below it are all recursed into by the scan
(each is stored, not yet scanned, and requested by this pull or met while a
transaction is resumed, in the state in which the scan reaches it) and the
recursion depth of the call plus n exceeds OSTREE_MAX_RECURSION.
Below a commit the nesting goes through its root tree, which the scan reaches
when the signature check, if enabled, passes and the commit can be loaded;
below a tree it may go through any directory entry that the scan reaches, that
is, the file entries and the directory entries listed before it are scanned
without error (by self_containing_tree_nested a stored tree that contains
itself through such an entry is nested to every level).  Entered at depth 0
from the metadata write-complete callback, that error is thrown as the error
of the pull; entered at depth 0 from ostree_repo_pull for a commit, the pull
leaves the object phase at once. -/
theorem scan_fails_on_deeply_nested_stored_trees (env : PullEnv) (pull_data : OtPullData)
    (csum : Checksum) (objtype : OstreeObjectType) (n recursion_depth : Nat)
    (hnested : nested_objects env n pull_data recursion_depth csum objtype)
    (hdeep : env.OSTREE_MAX_RECURSION < recursion_depth + n) :
    (scan_one_metadata_object_c env pull_data csum objtype recursion_depth).2 =
      some recursion_error ∧
    (recursion_depth = 0 →
      ∃ pd, on_metadata_writed env pull_data
          { checksum := csum, objtype := objtype, is_detached_meta := false }
          (.ok csum) = some pd ∧
        pd.caught_error = true ∧
        (pull_data.caught_error = false → pull_data.async_error = none →
          pd.async_error = some recursion_error)) ∧
    (recursion_depth = 0 → objtype = OstreeObjectType.COMMIT →
      pull_step env pull_data (PullEvent.scan_commit csum) = none) := by
  have h := scan_nested_objects_fails env n pull_data csum objtype recursion_depth hnested hdeep
  have hmeta : OSTREE_OBJECT_TYPE_IS_META objtype = true := by
    cases objtype with
    | FILE => cases n <;> exact hnested.elim
    | DIR_META => rfl
    | DIR_TREE => rfl
    | COMMIT => rfl
  refine ⟨h, ?_, ?_⟩
  · intro h0
    subst h0
    have hfr := scan_one_metadata_object_c_frame env pull_data csum objtype 0
    refine ⟨_, on_metadata_writed_ok env pull_data
      { checksum := csum, objtype := objtype, is_detached_meta := false } hmeta,
      ?_, ?_⟩
    · rw [check_outstanding_requests_caught, h]
      exact throw_async_error_some_caught _ _
    · intro hc hs
      rw [check_outstanding_requests_async_error, h]
      exact throw_async_error_some_first _ _ (by simpa [hfr.caught_error] using hc)
        (by simpa [hfr.async_error] using hs)
  · intro h0 hk
    subst h0
    subst hk
    simp only [pull_step, scan_one_metadata_object]
    split
    · rfl
    · rename_i heq
      rw [heq] at h
      exact absurd h (by simp)

/-- Witness for C9: a stored commit whose root tree contains itself through
its second directory entry, scanned while a transaction is resumed; the file
and the first directory of the tree are not stored and are requested on the
way. -/
theorem scan_fails_on_deeply_nested_stored_trees_witness :
    nested_objects sample_env 257 self_later_tree_state 0 sample_commit_csum
      OstreeObjectType.COMMIT ∧
    sample_env.OSTREE_MAX_RECURSION < 0 + 257 ∧
    (scan_one_metadata_object_c sample_env self_later_tree_state sample_commit_csum
      OstreeObjectType.COMMIT 0).2 = some recursion_error ∧
    pull_step sample_env self_later_tree_state (PullEvent.scan_commit sample_commit_csum) =
      none :=
  have ht : nested_trees sample_env 256 self_later_tree_state 1 sample_tree_csum :=
    self_containing_tree_nested sample_env self_later_tree_state
      (scan_dirtree_files sample_env [("file", sample_file_csum)] self_later_tree_state).1
      (scan_dirtree_dirs sample_env (scan_one_metadata_object_c sample_env) 1
        [("sub", sample_tree_b_csum, sample_meta_csum)]
        (scan_dirtree_files sample_env [("file", sample_file_csum)]
          self_later_tree_state).1).1
      sample_tree_csum 1 [("file", sample_file_csum)]
      [("sub", sample_tree_b_csum, sample_meta_csum)] [] "self" sample_meta_csum
      ⟨by decide!, by decide!, Or.inl rfl⟩ (by decide!)
      (Prod.ext rfl (by decide!)) (Prod.ext rfl (by decide!)) (by decide!) 256
  have hn : nested_objects sample_env 257 self_later_tree_state 0 sample_commit_csum
      OstreeObjectType.COMMIT :=
    ⟨⟨by decide!, by decide!, Or.inl rfl⟩, fun h => absurd h (by decide),
     some sample_commit_file.data, by decide!, ht⟩
  have h := scan_fails_on_deeply_nested_stored_trees sample_env self_later_tree_state
    sample_commit_csum OstreeObjectType.COMMIT 257 0 hn (by decide)
  ⟨hn, by decide, h.1, h.2.2 rfl rfl⟩

/-- Counterexample to C9 as stated: the remote serves a commit whose root tree A
contains the directory B and B contains A, so the DIR_TREE graph is cyclic.
Pulled into an empty repository, every object is fetched, written and scanned
from the write-complete callback at depth 0; the pull ends idle with both trees
stored and scanned, no error caught and the error slot empty. -/
theorem cyclic_pull_completes_without_recursion_error :
    (pull_run cyclic_env (OtPullData.init empty_repo false false) cyclic_pull_events).map
        OtPullData.observe =
      some
        { caught_error := false, async_error := none, n_outstanding_metadata_fetches := 0,
          n_outstanding_metadata_write_requests := 0, n_outstanding_content_fetches := 0,
          n_outstanding_content_write_requests := 0,
          scanned_metadata :=
            [(sample_tree_b_csum, OstreeObjectType.DIR_TREE),
             (sample_meta_csum, OstreeObjectType.DIR_META),
             (sample_tree_csum, OstreeObjectType.DIR_TREE),
             (sample_commit_csum, OstreeObjectType.COMMIT)],
          fetch_requests :=
            [{ checksum := sample_commit_csum, objtype := OstreeObjectType.COMMIT,
               is_detached_meta := true },
             { checksum := sample_commit_csum, objtype := OstreeObjectType.COMMIT,
               is_detached_meta := false },
             { checksum := sample_tree_csum, objtype := OstreeObjectType.DIR_TREE,
               is_detached_meta := false },
             { checksum := sample_meta_csum, objtype := OstreeObjectType.DIR_META,
               is_detached_meta := false },
             { checksum := sample_tree_b_csum, objtype := OstreeObjectType.DIR_TREE,
               is_detached_meta := false }],
          loop_quit_calls := 2 } ∧
    (pull_run cyclic_env (OtPullData.init empty_repo false false) cyclic_pull_events).map
        (fun s =>
          ((ostree_repo_load_variant s.repo OstreeObjectType.DIR_TREE sample_tree_csum).toOption,
           (ostree_repo_load_variant s.repo OstreeObjectType.DIR_TREE
             sample_tree_b_csum).toOption)) =
      some (some (some (GVariant.dirtree [] [("sub", sample_tree_b_csum, sample_meta_csum)])),
            some (some (GVariant.dirtree [] [("sub", sample_tree_csum, sample_meta_csum)]))) := by
  constructor <;> decide!

/-! ## At most one request per object and detached flag -/

theorem RequestInv.of_eq {a b : OtPullData} (h : RequestInv a)
    (h1 : b.fetch_requests = a.fetch_requests) (h2 : b.fetches_in_flight = a.fetches_in_flight)
    (h3 : b.requested_metadata = a.requested_metadata)
    (h4 : b.requested_content = a.requested_content) : RequestInv b := by
  obtain ⟨i1, i2, i3, i4, i5, i6, i7⟩ := h
  constructor
  · rw [h1, h3]; exact i1
  · rw [h1, h4]; exact i2
  · rw [h1]; exact i3
  · rw [h1, h2]; exact i4
  · rw [h2]; exact i5
  · rw [h1, h2]; exact i6
  · rw [h1]; exact i7

theorem enqueue_one_object_request_lists (pull_data : OtPullData) (checksum : Checksum)
    (objtype : OstreeObjectType) (is_detached_meta : Bool) :
    (enqueue_one_object_request pull_data checksum objtype is_detached_meta).fetch_requests =
      pull_data.fetch_requests ++
        [{ checksum := checksum, objtype := objtype, is_detached_meta := is_detached_meta }] ∧
    (enqueue_one_object_request pull_data checksum objtype is_detached_meta).fetches_in_flight =
      pull_data.fetches_in_flight ++
        [{ checksum := checksum, objtype := objtype, is_detached_meta := is_detached_meta }] := by
  unfold enqueue_one_object_request
  split <;> exact ⟨rfl, rfl⟩

/-- Adding a request that was not made before keeps the invariant, provided its
checksum is in the requested set of its class and, when the new request is
for the object itself, no detached request for the same object is in flight. -/
theorem RequestInv.request_enqueue {pull_data : OtPullData} (h : RequestInv pull_data)
    (checksum : Checksum) (objtype : OstreeObjectType) (is_detached_meta : Bool)
    (hm : OSTREE_OBJECT_TYPE_IS_META objtype = true → checksum ∈ pull_data.requested_metadata)
    (hc : OSTREE_OBJECT_TYPE_IS_META objtype = false → checksum ∈ pull_data.requested_content)
    (hnew : ({ checksum := checksum, objtype := objtype, is_detached_meta := is_detached_meta } :
      FetchObjectData) ∉ pull_data.fetch_requests)
    (hnew2 : is_detached_meta = true →
      ({ checksum := checksum, objtype := objtype, is_detached_meta := false } :
        FetchObjectData) ∉ pull_data.fetch_requests)
    (hflight : is_detached_meta = false →
      ({ checksum := checksum, objtype := objtype, is_detached_meta := true } :
        FetchObjectData) ∉ pull_data.fetches_in_flight)
    (hdc : is_detached_meta = true → objtype = OstreeObjectType.COMMIT) :
    RequestInv (enqueue_one_object_request pull_data checksum objtype is_detached_meta) := by
  obtain ⟨e1, e2⟩ := enqueue_one_object_request_lists pull_data checksum objtype is_detached_meta
  obtain ⟨_, s2, s3⟩ := enqueue_one_object_request_meta_sets pull_data checksum objtype
    is_detached_meta
  obtain ⟨i1, i2, i3, i4, i5, i6, i7⟩ := h
  constructor
  · intro r hr hmeta
    rw [e1, List.mem_append, List.mem_singleton] at hr
    rw [s2]
    rcases hr with hr | hr
    · exact i1 r hr hmeta
    · subst hr; exact hm hmeta
  · intro r hr hmeta
    rw [e1, List.mem_append, List.mem_singleton] at hr
    rw [s3]
    rcases hr with hr | hr
    · exact i2 r hr hmeta
    · subst hr; exact hc hmeta
  · rw [e1]
    refine List.Nodup.append i3 (List.nodup_singleton _) ?_
    intro r hr hr'
    rw [List.mem_singleton] at hr'
    subst hr'
    exact hnew hr
  · intro r hr
    rw [e2, List.mem_append, List.mem_singleton] at hr
    rw [e1, List.mem_append, List.mem_singleton]
    rcases hr with hr | hr
    · exact Or.inl (i4 r hr)
    · exact Or.inr hr
  · rw [e2]
    refine List.Nodup.append i5 (List.nodup_singleton _) ?_
    intro r hr hr'
    rw [List.mem_singleton] at hr'
    subst hr'
    exact hnew (i4 _ hr)
  · intro r hr hd
    rw [e2, List.mem_append, List.mem_singleton] at hr
    rw [e1, List.mem_append, List.mem_singleton]
    rcases hr with hr | hr
    · intro hmem
      rcases hmem with hmem | hmem
      · exact i6 r hr hd hmem
      · have hdf : is_detached_meta = false := by
          have := congrArg FetchObjectData.is_detached_meta hmem
          simpa using this.symm
        apply hflight hdf
        have hrc := congrArg FetchObjectData.checksum hmem
        have hrk := congrArg FetchObjectData.objtype hmem
        simp only at hrc hrk
        have : r = { checksum := checksum, objtype := objtype, is_detached_meta := true } := by
          cases r
          simp_all
        rw [← this]
        exact hr
    · subst hr
      simp only at hd
      subst hd
      intro hmem
      rcases hmem with hmem | hmem
      · exact hnew2 rfl hmem
      · simp at hmem
  · intro r hr hd
    rw [e1, List.mem_append, List.mem_singleton] at hr
    rcases hr with hr | hr
    · exact i7 r hr hd
    · subst hr
      exact hdc hd

theorem is_meta_false_iff (k : OstreeObjectType) :
    OSTREE_OBJECT_TYPE_IS_META k = false ↔ k = OstreeObjectType.FILE := by
  cases k <;> simp [OSTREE_OBJECT_TYPE_IS_META, OstreeObjectType.toNat]

/-- The request made by scanning for an object whose checksum is not yet in the
requested set of its class keeps the invariant. -/
theorem RequestInv.enqueue_fresh {pull_data : OtPullData} (h : RequestInv pull_data)
    (checksum : Checksum) (objtype : OstreeObjectType) (is_detached_meta : Bool)
    (hm : OSTREE_OBJECT_TYPE_IS_META objtype = true →
      checksum ∉ pull_data.requested_metadata)
    (hc : OSTREE_OBJECT_TYPE_IS_META objtype = false →
      checksum ∉ pull_data.requested_content)
    (hdc : is_detached_meta = true → objtype = OstreeObjectType.COMMIT) :
    RequestInv (enqueue_one_object_request
      { pull_data with
        requested_metadata :=
          if OSTREE_OBJECT_TYPE_IS_META objtype then
            ghash_insert checksum pull_data.requested_metadata
          else pull_data.requested_metadata
        requested_content :=
          if OSTREE_OBJECT_TYPE_IS_META objtype then pull_data.requested_content
          else ghash_insert checksum pull_data.requested_content }
      checksum objtype is_detached_meta) := by
  have hfresh : ∀ d, ({ checksum := checksum, objtype := objtype, is_detached_meta := d } :
      FetchObjectData) ∉ pull_data.fetch_requests := by
    intro d hmem
    cases hk : OSTREE_OBJECT_TYPE_IS_META objtype with
    | true => exact hm hk (h.meta_requested _ hmem hk)
    | false => exact hc hk (h.content_requested _ hmem hk)
  have hbase : RequestInv
      { pull_data with
        requested_metadata :=
          if OSTREE_OBJECT_TYPE_IS_META objtype then
            ghash_insert checksum pull_data.requested_metadata
          else pull_data.requested_metadata
        requested_content :=
          if OSTREE_OBJECT_TYPE_IS_META objtype then pull_data.requested_content
          else ghash_insert checksum pull_data.requested_content } := by
    obtain ⟨i1, i2, i3, i4, i5, i6, i7⟩ := h
    constructor
    · intro r hr hmeta
      have := i1 r hr hmeta
      simp only
      split
      · exact (mem_ghash_insert _ _ _).2 (Or.inr this)
      · exact this
    · intro r hr hmeta
      have := i2 r hr hmeta
      simp only
      split
      · exact this
      · exact (mem_ghash_insert _ _ _).2 (Or.inr this)
    · exact i3
    · exact i4
    · exact i5
    · exact i6
    · exact i7
  apply RequestInv.request_enqueue hbase
  · intro hk
    simp only [hk, if_true]
    exact (mem_ghash_insert _ _ _).2 (Or.inl rfl)
  · intro hk
    simp only [hk]
    exact (mem_ghash_insert _ _ _).2 (Or.inl rfl)
  · exact hfresh _
  · intro _; exact hfresh _
  · intro _ hmem
    exact hfresh _ (h.in_flight_sub _ hmem)
  · exact hdc

theorem scan_dirtree_files_request_inv (env : PullEnv) (files : List (String × Checksum)) :
    ∀ pull_data : OtPullData, RequestInv pull_data →
      RequestInv (scan_dirtree_files env files pull_data).1 := by
  induction files with
  | nil => intro pull_data h; exact h
  | cons f rest ih =>
    intro pull_data h
    obtain ⟨filename, file_checksum⟩ := f
    simp only [scan_dirtree_files]
    split
    · exact h
    · split
      · exact h
      · split
        · rename_i hcond
          apply ih
          have hnot : file_checksum ∉ pull_data.requested_content := by
            simp only [Bool.and_eq_true, Bool.not_eq_true', decide_eq_false_iff_not] at hcond
            exact hcond.2
          have := RequestInv.enqueue_fresh h file_checksum OstreeObjectType.FILE false
            (by intro hk; simp [OSTREE_OBJECT_TYPE_IS_META, OstreeObjectType.toNat] at hk)
            (fun _ => hnot) (by intro hk; exact absurd hk (by decide))
          simpa [OSTREE_OBJECT_TYPE_IS_META, OstreeObjectType.toNat] using this
        · exact ih pull_data h

theorem scan_dirtree_dirs_request_inv (env : PullEnv) (recur : ScanFn)
    (hrec : ScanKeepsRequestInv recur) (recursion_depth : Nat)
    (dirs : List (String × Checksum × Checksum)) :
    ∀ pull_data : OtPullData, RequestInv pull_data →
      RequestInv (scan_dirtree_dirs env recur recursion_depth dirs pull_data).1 := by
  induction dirs with
  | nil => intro pull_data h; exact h
  | cons d rest ih =>
    intro pull_data h
    obtain ⟨dirname, tree_csum, meta_csum⟩ := d
    simp only [scan_dirtree_dirs]
    split
    · exact h
    · have h1 := hrec pull_data tree_csum OstreeObjectType.DIR_TREE (recursion_depth + 1) rfl h
      split
      · rename_i heq
        rw [heq] at h1
        exact h1
      · rename_i pd1 heq
        rw [heq] at h1
        have h2 := hrec pd1 meta_csum OstreeObjectType.DIR_META (recursion_depth + 1) rfl h1
        split
        · rename_i heq2
          rw [heq2] at h2
          exact h2
        · rename_i pd2 heq2
          rw [heq2] at h2
          exact ih pd2 h2

theorem scan_dirtree_object_request_inv (env : PullEnv) (recur : ScanFn)
    (hrec : ScanKeepsRequestInv recur) (pull_data : OtPullData) (checksum : Checksum)
    (recursion_depth : Nat) (h : RequestInv pull_data) :
    RequestInv (scan_dirtree_object env recur pull_data checksum recursion_depth).1 := by
  unfold scan_dirtree_object
  split
  · exact h
  · split
    · exact h
    · rename_i tree _
      have h1 := scan_dirtree_files_request_inv env ((tree.map GVariant.tree_files).getD [])
        pull_data h
      split
      · rename_i heq
        rw [heq] at h1
        exact h1
      · rename_i pd1 heq
        rw [heq] at h1
        exact scan_dirtree_dirs_request_inv env recur hrec _ _ pd1 h1

theorem scan_commit_object_request_inv (env : PullEnv) (recur : ScanFn)
    (hrec : ScanKeepsRequestInv recur) (pull_data : OtPullData) (checksum : Checksum)
    (recursion_depth : Nat) (h : RequestInv pull_data) :
    RequestInv (scan_commit_object env recur pull_data checksum recursion_depth).1 := by
  unfold scan_commit_object
  split
  · exact h
  · split
    · exact h
    · split
      · exact h
      · rename_i commit _
        have h1 := hrec pull_data ((commit.map GVariant.commit_tree).getD "")
          OstreeObjectType.DIR_TREE (recursion_depth + 1) rfl h
        split
        · rename_i heq
          rw [heq] at h1
          exact h1
        · rename_i pd1 heq
          rw [heq] at h1
          exact hrec pd1 _ OstreeObjectType.DIR_META _ rfl h1

theorem scan_stored_object_request_inv (env : PullEnv) (recur : ScanFn)
    (hrec : ScanKeepsRequestInv recur) (pull_data : OtPullData) (csum : Checksum)
    (objtype : OstreeObjectType) (recursion_depth : Nat) (is_requested : Bool)
    (h : RequestInv pull_data) :
    RequestInv
      (scan_stored_object env recur pull_data csum objtype recursion_depth is_requested).1 := by
  unfold scan_stored_object
  split
  · cases objtype
    · exact h
    · exact scan_dirtree_object_request_inv env recur hrec _ _ _ h
    · exact h
    · exact scan_commit_object_request_inv env recur hrec _ _ _ h
  · exact h

theorem scan_one_metadata_object_c_body_request_inv (env : PullEnv) (recur : ScanFn)
    (hrec : ScanKeepsRequestInv recur) :
    ScanKeepsRequestInv (scan_one_metadata_object_c_body env recur) := by
  intro pull_data csum objtype recursion_depth hmeta h
  unfold scan_one_metadata_object_c_body
  split
  · exact h
  · split
    · exact h
    · split
      · rename_i hcond
        have hnot : csum ∉ pull_data.requested_metadata := by
          simp only [Bool.and_eq_true, Bool.not_eq_true', decide_eq_false_iff_not] at hcond
          exact hcond.2
        have := RequestInv.enqueue_fresh h csum objtype
          (decide (objtype = OstreeObjectType.COMMIT)) (fun _ => hnot)
          (by intro hk; rw [hmeta] at hk; exact absurd hk (by decide))
          (by intro hk; simpa using hk)
        simpa [hmeta] using this
      · split
        · have hr := scan_stored_object_request_inv env recur hrec pull_data csum objtype
            recursion_depth (decide (csum ∈ pull_data.requested_metadata)) h
          split
          · rename_i heq
            rw [heq] at hr
            exact hr
          · rename_i pd1 heq
            rw [heq] at hr
            exact RequestInv.of_eq hr rfl rfl rfl rfl
        · exact h

theorem scan_unfold_request_inv (env : PullEnv) (fuel : Nat) :
    ScanKeepsRequestInv (scan_unfold env fuel) := by
  induction fuel with
  | zero =>
    exact scan_one_metadata_object_c_body_request_inv env _ (fun pd _ _ _ _ h => h)
  | succ n ih =>
    exact scan_one_metadata_object_c_body_request_inv env _ ih

theorem scan_one_metadata_object_c_request_inv (env : PullEnv) :
    ScanKeepsRequestInv (scan_one_metadata_object_c env) := by
  intro pd c k d hk h
  exact scan_unfold_request_inv env _ pd c k d hk h

theorem not_mem_eraseIdx_of_nodup {α : Type} :
    ∀ (l : List α) (i : Nat) (x : α), l.Nodup → l.get? i = some x → x ∉ l.eraseIdx i := by
  intro l
  induction l with
  | nil => intro i x _ h; simp at h
  | cons a t ih =>
    intro i x hnd h
    rw [List.nodup_cons] at hnd
    cases i with
    | zero =>
      simp only [List.get?_cons_zero, Option.some.injEq] at h
      subst h
      simpa using hnd.1
    | succ j =>
      simp only [List.get?_cons_succ] at h
      simp only [List.eraseIdx_cons_succ, List.mem_cons, not_or]
      refine ⟨?_, ih j x hnd.2 h⟩
      intro hxa
      subst hxa
      exact hnd.1 (List.get?_mem h)

/-- Completing a fetch (removing it from the in-flight list) keeps the invariant. -/
theorem RequestInv.erase_in_flight {pull_data : OtPullData} (h : RequestInv pull_data)
    (idx : Nat) :
    RequestInv
      { pull_data with fetches_in_flight := pull_data.fetches_in_flight.eraseIdx idx } := by
  obtain ⟨i1, i2, i3, i4, i5, i6, i7⟩ := h
  constructor
  · exact i1
  · exact i2
  · exact i3
  · intro r hr
    exact i4 r (List.mem_of_mem_eraseIdx hr)
  · exact List.Nodup.sublist (List.eraseIdx_sublist _ _) i5
  · intro r hr hd
    exact i6 r (List.mem_of_mem_eraseIdx hr) hd
  · exact i7

theorem meta_fetch_on_complete_request_inv (pull_data pd : OtPullData) (idx : Nat)
    (fetch_data : FetchObjectData) (fetched : Except GError ObjFile)
    (map_error write_error : Option GError) (h : RequestInv pull_data)
    (hidx : pull_data.fetches_in_flight.get? idx = some fetch_data)
    (hmeta : OSTREE_OBJECT_TYPE_IS_META fetch_data.objtype = true)
    (hres : meta_fetch_on_complete
      { pull_data with fetches_in_flight := pull_data.fetches_in_flight.eraseIdx idx }
      fetch_data fetched map_error write_error = some pd) :
    RequestInv pd := by
  have herase := RequestInv.erase_in_flight h idx
  have hmem : fetch_data ∈ pull_data.fetches_in_flight := List.get?_mem hidx
  have hreenq : ∀ (p : OtPullData),
      p.fetch_requests = pull_data.fetch_requests →
      p.fetches_in_flight = pull_data.fetches_in_flight.eraseIdx idx →
      p.requested_metadata = pull_data.requested_metadata →
      p.requested_content = pull_data.requested_content →
      fetch_data.is_detached_meta = true →
      RequestInv (enqueue_one_object_request p fetch_data.checksum fetch_data.objtype false) := by
    intro p e1 e2 e3 e4 hd
    have hp : RequestInv p := RequestInv.of_eq herase e1 e2 e3 e4
    have hfd : fetch_data = ⟨fetch_data.checksum, fetch_data.objtype, true⟩ := by
      cases fetch_data
      simp_all
    apply RequestInv.request_enqueue hp
    · intro _
      rw [e3]
      exact h.meta_requested _ (h.in_flight_sub _ hmem) hmeta
    · intro hk
      rw [hmeta] at hk
      exact absurd hk (by decide)
    · rw [e1]
      exact h.detached_pending _ hmem hd
    · intro hk
      exact absurd hk (by decide)
    · intro _
      rw [e2, ← hfd]
      exact not_mem_eraseIdx_of_nodup _ _ _ h.in_flight_nodup hidx
    · intro hk
      exact absurd hk (by decide)
  have hbody : RequestInv (meta_fetch_on_complete_body
      { pull_data with fetches_in_flight := pull_data.fetches_in_flight.eraseIdx idx }
      fetch_data fetched map_error write_error).1 := by
    unfold meta_fetch_on_complete_body
    simp only
    split
    · split
      · exact herase
      · split
        · rename_i hd
          exact hreenq _ rfl rfl rfl rfl hd
        · exact herase
    · split
      · rename_i hd
        split
        · exact herase
        · split
          · exact herase
          · exact hreenq _ rfl rfl rfl rfl hd
      · split
        · exact herase
        · exact RequestInv.of_eq herase rfl rfl rfl rfl
  unfold meta_fetch_on_complete at hres
  simp only at hres
  split at hres
  · injection hres with hres
    subst hres
    exact RequestInv.of_eq (RequestInv.of_eq hbody rfl rfl rfl rfl)
      (throw_async_error_frame _ _).fetch_requests
      (throw_async_error_frame _ _).fetches_in_flight
      (throw_async_error_frame _ _).requested_metadata
      (throw_async_error_frame _ _).requested_content
  · exact absurd hres (by simp)

theorem content_fetch_on_complete_request_inv (pull_data pd : OtPullData)
    (fetch_data : FetchObjectData) (fetched : Except GError ObjFile)
    (parse_error stream_error : Option GError) (h : RequestInv pull_data)
    (hres : content_fetch_on_complete pull_data fetch_data fetched parse_error stream_error =
      some pd) : RequestInv pd := by
  have key : ∀ (p : OtPullData) (e : Option GError),
      p.fetch_requests = pull_data.fetch_requests →
      p.fetches_in_flight = pull_data.fetches_in_flight →
      p.requested_metadata = pull_data.requested_metadata →
      p.requested_content = pull_data.requested_content →
      RequestInv (check_outstanding_requests_handle_error p e) := by
    intro p e e1 e2 e3 e4
    exact RequestInv.of_eq (RequestInv.of_eq h e1 e2 e3 e4)
      (check_outstanding_requests_frame _ _).fetch_requests
      (check_outstanding_requests_frame _ _).fetches_in_flight
      (check_outstanding_requests_frame _ _).requested_metadata
      (check_outstanding_requests_frame _ _).requested_content
  unfold content_fetch_on_complete at hres
  simp only at hres
  split at hres
  · injection hres with hres
    subst hres
    exact key _ _ rfl rfl rfl rfl
  · split at hres
    · exact absurd hres (by simp)
    · split at hres
      · injection hres with hres
        subst hres
        exact key _ _ rfl rfl rfl rfl
      · split at hres <;> injection hres with hres <;> subst hres <;>
          exact key _ _ rfl rfl rfl rfl

theorem content_fetch_on_write_complete_request_inv (pull_data pd : OtPullData)
    (fetch_data : FetchObjectData) (result : Except GError Checksum) (h : RequestInv pull_data)
    (hres : content_fetch_on_write_complete pull_data fetch_data result = some pd) :
    RequestInv pd := by
  have key : ∀ (p : OtPullData) (e : Option GError),
      p.fetch_requests = pull_data.fetch_requests →
      p.fetches_in_flight = pull_data.fetches_in_flight →
      p.requested_metadata = pull_data.requested_metadata →
      p.requested_content = pull_data.requested_content →
      RequestInv (check_outstanding_requests_handle_error p e) := by
    intro p e e1 e2 e3 e4
    exact RequestInv.of_eq (RequestInv.of_eq h e1 e2 e3 e4)
      (check_outstanding_requests_frame _ _).fetch_requests
      (check_outstanding_requests_frame _ _).fetches_in_flight
      (check_outstanding_requests_frame _ _).requested_metadata
      (check_outstanding_requests_frame _ _).requested_content
  unfold content_fetch_on_write_complete at hres
  simp only at hres
  split at hres
  · injection hres with hres
    subst hres
    exact key _ _ rfl rfl rfl rfl
  · split at hres
    · exact absurd hres (by simp)
    · split at hres <;> injection hres with hres <;> subst hres <;>
        exact key _ _ rfl rfl rfl rfl

theorem on_metadata_writed_request_inv (env : PullEnv) (pull_data pd : OtPullData)
    (fetch_data : FetchObjectData) (result : Except GError Checksum) (h : RequestInv pull_data)
    (hres : on_metadata_writed env pull_data fetch_data result = some pd) :
    RequestInv pd := by
  have key : ∀ (p : OtPullData) (e : Option GError) (n : Nat), RequestInv p →
      RequestInv (check_outstanding_requests_handle_error
        { p with n_outstanding_metadata_write_requests := n } e) := by
    intro p e n hp
    exact RequestInv.of_eq (RequestInv.of_eq hp rfl rfl rfl rfl)
      (check_outstanding_requests_frame _ _).fetch_requests
      (check_outstanding_requests_frame _ _).fetches_in_flight
      (check_outstanding_requests_frame _ _).requested_metadata
      (check_outstanding_requests_frame _ _).requested_content
  unfold on_metadata_writed at hres
  simp only at hres
  split at hres
  · injection hres with hres
    subst hres
    exact key _ _ _ h
  · split at hres
    · exact absurd hres (by simp)
    · rename_i hmeta
      simp only [Bool.not_eq_true, Bool.not_eq_false] at hmeta
      split at hres <;> injection hres with hres <;> subst hres
      · exact key _ _ _ h
      · exact key _ _ _
          (scan_one_metadata_object_c_request_inv env _ _ _ _ (by simpa using hmeta) h)

theorem pull_step_request_inv (env : PullEnv) (pull_data pd : OtPullData) (ev : PullEvent)
    (h : RequestInv pull_data) (hres : pull_step env pull_data ev = some pd) :
    RequestInv pd := by
  cases ev with
  | scan_commit commit =>
    simp only [pull_step, scan_one_metadata_object] at hres
    have hs := scan_one_metadata_object_c_request_inv env pull_data commit
      OstreeObjectType.COMMIT 0 rfl h
    split at hres
    · exact absurd hres (by simp)
    · rename_i pd1 heq
      rw [heq] at hs
      injection hres with hres
      subst hres
      exact hs
  | fetch_complete idx fetched e1 e2 =>
    simp only [pull_step] at hres
    split at hres
    · injection hres with hres
      subst hres
      exact h
    · rename_i fetch_data hidx
      split at hres
      · rename_i hmeta
        exact meta_fetch_on_complete_request_inv pull_data pd idx fetch_data fetched e1 e2 h
          hidx hmeta hres
      · refine content_fetch_on_complete_request_inv _ pd fetch_data fetched e1 e2 ?_ hres
        exact RequestInv.erase_in_flight h idx
  | metadata_written idx io_error =>
    simp only [pull_step] at hres
    split at hres
    · injection hres with hres
      subst hres
      exact h
    · refine on_metadata_writed_request_inv env _ pd _ _ ?_ hres
      exact RequestInv.of_eq h rfl rfl rfl rfl
  | content_written idx io_error =>
    simp only [pull_step] at hres
    split at hres
    · injection hres with hres
      subst hres
      exact h
    · refine content_fetch_on_write_complete_request_inv _ pd _ _ ?_ hres
      exact RequestInv.of_eq h rfl rfl rfl rfl
  | idle_check =>
    simp only [pull_step] at hres
    injection hres with hres
    subst hres
    exact RequestInv.of_eq h
      (check_outstanding_requests_frame _ _).fetch_requests
      (check_outstanding_requests_frame _ _).fetches_in_flight
      (check_outstanding_requests_frame _ _).requested_metadata
      (check_outstanding_requests_frame _ _).requested_content

theorem pull_run_request_inv (env : PullEnv) (events : List PullEvent) :
    ∀ (pull_data pd : OtPullData), RequestInv pull_data →
      pull_run env pull_data events = some pd → RequestInv pd := by
  induction events with
  | nil =>
    intro pull_data pd h hres
    simp only [pull_run] at hres
    injection hres with hres
    subst hres
    exact h
  | cons ev rest ih =>
    intro pull_data pd h hres
    simp only [pull_run] at hres
    split at hres
    · exact absurd hres (by simp)
    · rename_i pd1 heq
      exact ih pd1 pd (pull_step_request_inv env pull_data pd1 ev h heq) hres

theorem RequestInv.request_init (repo : OstreeRepo) (transaction_resuming gpg_verify : Bool) :
    RequestInv (OtPullData.init repo transaction_resuming gpg_verify) := by
  constructor <;> simp [OtPullData.init]

theorem requests_for_length_le (pull_data : OtPullData) (h : RequestInv pull_data)
    (checksum : Checksum) (objtype : OstreeObjectType) :
    (requests_for pull_data checksum objtype).length ≤
      if objtype = OstreeObjectType.COMMIT then 2 else 1 := by
  have hnd : (requests_for pull_data checksum objtype).Nodup :=
    List.Nodup.filter _ h.nodup
  have hmem : ∀ r ∈ requests_for pull_data checksum objtype,
      r ∈ pull_data.fetch_requests ∧ r.checksum = checksum ∧ r.objtype = objtype := by
    intro r hr
    simpa [requests_for, List.mem_filter] using hr
  by_cases hk : objtype = OstreeObjectType.COMMIT
  · simp only [hk, if_true]
    have hsub : requests_for pull_data checksum objtype ⊆
        [⟨checksum, objtype, false⟩, ⟨checksum, objtype, true⟩] := by
      intro r hr
      obtain ⟨_, h2, h3⟩ := hmem r hr
      cases r with
      | mk c k d =>
        simp only at h2 h3
        subst h2 h3
        cases d <;> simp
    have hle := (List.subperm_of_subset hnd hsub).length_le
    rw [hk] at hle
    simpa using hle
  · simp only [hk, if_false]
    have hsub : requests_for pull_data checksum objtype ⊆ [⟨checksum, objtype, false⟩] := by
      intro r hr
      obtain ⟨h1, h2, h3⟩ := hmem r hr
      have hd : r.is_detached_meta = false := by
        cases hd : r.is_detached_meta with
        | false => rfl
        | true => exact absurd (h3 ▸ h.detached_commit r h1 hd) hk
      cases r with
      | mk c k d =>
        simp only at h2 h3 hd
        subst h2 h3 hd
        simp
    have hle := (List.subperm_of_subset hnd hsub).length_le
    simpa using hle

/-- C4 (amended): over any sequence of scans and fetch and write completions
within one pull started from the initial state, no request (checksum, kind,
is_detached_meta) is handed to enqueue_one_object_request twice; hence for every
FILE, DIR_TREE and DIR_META object at most one fetch request is enqueued, and
for every COMMIT object at most two, one for its detached metadata and one for
the commit object itself. -/
theorem fetch_requests_at_most_once (env : PullEnv) (repo : OstreeRepo)
    (transaction_resuming gpg_verify : Bool) (events : List PullEvent) (pd : OtPullData)
    (hrun : pull_run env (OtPullData.init repo transaction_resuming gpg_verify) events =
      some pd) :
    pd.fetch_requests.Nodup ∧
    (∀ (checksum : Checksum) (objtype : OstreeObjectType),
      (requests_for pd checksum objtype).length ≤
        if objtype = OstreeObjectType.COMMIT then 2 else 1) ∧
    (∀ r ∈ pd.fetch_requests, r.is_detached_meta = true →
      r.objtype = OstreeObjectType.COMMIT) := by
  have h := pull_run_request_inv env events _ pd
    (RequestInv.request_init repo transaction_resuming gpg_verify) hrun
  exact ⟨h.nodup, fun c k => requests_for_length_le pd h c k, h.detached_commit⟩

/-- Witness for C4: the cyclic sample pull. -/
theorem fetch_requests_at_most_once_witness :
    ∃ pd, pull_run cyclic_env (OtPullData.init empty_repo false false) cyclic_pull_events =
        some pd ∧
      pd.fetch_requests.Nodup ∧
      (requests_for pd sample_tree_csum OstreeObjectType.DIR_TREE).length ≤ 1 := by
  cases hrun : pull_run cyclic_env (OtPullData.init empty_repo false false)
      cyclic_pull_events with
  | none =>
    have hc : (pull_run cyclic_env (OtPullData.init empty_repo false false)
        cyclic_pull_events).isSome = true := by decide!
    rw [hrun] at hc
    exact absurd hc (by decide)
  | some pd =>
    have h := fetch_requests_at_most_once cyclic_env empty_repo false false
      cyclic_pull_events pd hrun
    exact ⟨pd, rfl, h.1, h.2.1 sample_tree_csum OstreeObjectType.DIR_TREE⟩

/-- Counterexample to C4 as stated: a commit is scanned in an empty repository
and the fetch of its detached metadata ends with NOT_FOUND;
enqueue_one_object_request has then been called twice for the same COMMIT
object, first with is_detached_meta true and then with is_detached_meta false. -/
theorem commit_is_enqueued_twice :
    (pull_run sample_env (OtPullData.init empty_repo false false)
        [PullEvent.scan_commit sample_commit_csum,
         PullEvent.fetch_complete 0 (.error sample_not_found) none none]).map
        (fun s => requests_for s sample_commit_csum OstreeObjectType.COMMIT) =
      some
        [{ checksum := sample_commit_csum, objtype := OstreeObjectType.COMMIT,
           is_detached_meta := true },
         { checksum := sample_commit_csum, objtype := OstreeObjectType.COMMIT,
           is_detached_meta := false }] := by
  decide!

/-! ## Refs are published by the transaction commit only -/

theorem pull_set_refs_published (resolve_rev : RepoRefs → String → Except GError (Option Checksum))
    (remote_name : String) (requested : List (String × Checksum)) :
    ∀ (repo : RepoRefs) (calls : List PullCall),
      (pull_set_refs resolve_rev remote_name requested repo calls).2.1.refs = repo.refs := by
  induction requested with
  | nil => intro repo calls; rfl
  | cons r rest ih =>
    intro repo calls
    obtain ⟨ref, checksum⟩ := r
    simp only [pull_set_refs]
    split
    · rfl
    · split
      · exact ih _ _
      · rw [ih]
        rfl

/-- C7: whenever the end of ostree_repo_pull (main loop, staging of the refs,
transaction commit) returns failure, the published refs of the repository are
those it had before; ostree_repo_transaction_set_ref is called only after the
main loop has ended with no error caught and the four outstanding counters at
zero; staging a ref does not change the published refs, so the published refs
change only in a run that calls ostree_repo_commit_transaction and returns
success. -/
theorem pull_failure_publishes_no_ref (env : PullEnv)
    (resolve_rev : RepoRefs → String → Except GError (Option Checksum))
    (remote_name : String) (requested_refs_to_fetch : List (String × Checksum))
    (pull_data : OtPullData) (repo : RepoRefs) (events : List PullEvent)
    (commit_io_error : Option GError) (out : PullOutcome)
    (h : pull_finish env resolve_rev remote_name requested_refs_to_fetch pull_data repo events
      commit_io_error = some out) :
    (out.ret = false → out.repo.refs = repo.refs) ∧
    (out.calls ≠ [] →
      ∃ pd, pull_run env pull_data events = some pd ∧ pd.caught_error = false ∧
        pd.n_outstanding_metadata_fetches = 0 ∧ pd.n_outstanding_metadata_write_requests = 0 ∧
        pd.n_outstanding_content_fetches = 0 ∧ pd.n_outstanding_content_write_requests = 0) ∧
    (∀ (r : RepoRefs) (remote ref checksum : String),
      (ostree_repo_transaction_set_ref r remote ref checksum).refs = r.refs) ∧
    (out.repo.refs ≠ repo.refs →
      out.ret = true ∧ PullCall.commit_transaction ∈ out.calls) := by
  have hset := pull_set_refs_published resolve_rev remote_name requested_refs_to_fetch repo []
  unfold pull_finish at h
  split at h
  · exact absurd h (by simp)
  · rename_i pd hrun
    split at h
    · injection h with h
      subst h
      simp
      intro r remote ref checksum
      rfl
    · rename_i hcaught
      split at h
      · exact absurd h (by simp)
      · rename_i hzero
        simp only [not_or, not_not] at hzero
        have hdrained : ∃ pd', pull_run env pull_data events = some pd' ∧
            pd'.caught_error = false ∧
            pd'.n_outstanding_metadata_fetches = 0 ∧
            pd'.n_outstanding_metadata_write_requests = 0 ∧
            pd'.n_outstanding_content_fetches = 0 ∧
            pd'.n_outstanding_content_write_requests = 0 :=
          ⟨pd, hrun, by simpa using hcaught, hzero.1, hzero.2.1, hzero.2.2.1, hzero.2.2.2⟩
        split at h
        · rename_i e repo1 calls heq
          rw [heq] at hset
          injection h with h
          subst h
          exact ⟨fun _ => hset, fun _ => hdrained, fun _ _ _ _ => rfl,
            fun hne => absurd hset hne⟩
        · rename_i repo1 calls heq
          rw [heq] at hset
          simp only at hset
          unfold ostree_repo_commit_transaction at h
          cases commit_io_error with
          | some e =>
            simp only at h
            injection h with h
            subst h
            exact ⟨fun _ => hset, fun _ => hdrained, fun _ _ _ _ => rfl,
              fun hne => absurd hset hne⟩
          | none =>
            simp only at h
            injection h with h
            subst h
            refine ⟨fun hret => absurd hret (by simp), fun _ => hdrained, fun _ _ _ _ => rfl,
              fun _ => ⟨rfl, by simp⟩⟩

/-- Witness for C7: the cyclic sample pull of the ref master of the remote origin
ends with a commit of the transaction that fails; both refs stay unpublished. -/
theorem pull_failure_publishes_no_ref_witness :
    pull_finish cyclic_env sample_resolve_rev "origin" [("master", sample_commit_csum)]
        (OtPullData.init empty_repo false false) { refs := [], txn_refs := [] }
        cyclic_pull_events (some sample_io_error) =
      some { ret := false, error := some sample_io_error,
             repo := { refs := [], txn_refs := [("origin/master", sample_commit_csum)] },
             calls := [PullCall.resolve_rev "origin/master",
                       PullCall.transaction_set_ref "origin" "master" sample_commit_csum,
                       PullCall.commit_transaction] } ∧
    (({ refs := [], txn_refs := [("origin/master", sample_commit_csum)] } : RepoRefs).refs =
      ({ refs := [], txn_refs := [] } : RepoRefs).refs) :=
  ⟨by decide!,
   (pull_failure_publishes_no_ref cyclic_env sample_resolve_rev "origin"
     [("master", sample_commit_csum)] (OtPullData.init empty_repo false false)
     { refs := [], txn_refs := [] } cyclic_pull_events (some sample_io_error)
     { ret := false, error := some sample_io_error,
       repo := { refs := [], txn_refs := [("origin/master", sample_commit_csum)] },
       calls := [PullCall.resolve_rev "origin/master",
                 PullCall.transaction_set_ref "origin" "master" sample_commit_csum,
                 PullCall.commit_transaction] }
     (by decide!)).1 rfl⟩

/-! ## Lookup and load after a write -/

theorem ostree_repo_has_object_unfold (self : OstreeRepo) (objtype : OstreeObjectType)
    (checksum : Checksum) :
    ostree_repo_has_object self objtype checksum =
      match self.at_path (_ostree_loose_path checksum objtype self.mode) with
      | .err errno => .error (ot_util_set_error_from_errno errno)
      | .file _ => .ok true
      | .noent =>
        match self.parent_repo with
        | none => .ok false
        | some parent => ostree_repo_has_object parent objtype checksum := by
  obtain ⟨mode, objects_dir, parent⟩ := self
  cases parent with
  | none =>
    simp only [ostree_repo_has_object, _ostree_repo_find_object, _ostree_repo_has_loose_object,
      OstreeRepo.mode_mk, OstreeRepo.parent_repo_mk]
    cases (OstreeRepo.mk mode objects_dir none).at_path
      (_ostree_loose_path checksum objtype mode) <;> simp
  | some parent =>
    simp only [ostree_repo_has_object, _ostree_repo_find_object, _ostree_repo_has_loose_object,
      OstreeRepo.mode_mk, OstreeRepo.parent_repo_mk]
    cases (OstreeRepo.mk mode objects_dir (some parent)).at_path
      (_ostree_loose_path checksum objtype mode) <;> simp

theorem ostree_repo_load_variant_unfold (self : OstreeRepo) (objtype : OstreeObjectType)
    (sha256 : Checksum) :
    ostree_repo_load_variant self objtype sha256 =
      match self.at_path (_ostree_loose_path sha256 objtype self.mode) with
      | .err errno => .error (ot_util_set_error_from_errno errno)
      | .file f => .ok (some f.data)
      | .noent =>
        match self.parent_repo with
        | none =>
          .error { code := GIOErrorEnum.NOT_FOUND,
                   message := "No such metadata object " ++ sha256 }
        | some parent => ostree_repo_load_variant parent objtype sha256 := by
  obtain ⟨mode, objects_dir, parent⟩ := self
  unfold ostree_repo_load_variant
  rw [load_metadata_internal.eq_def]
  simp only [OstreeRepo.mode_mk, OstreeRepo.parent_repo_mk]
  cases (OstreeRepo.mk mode objects_dir parent).at_path
    (_ostree_loose_path sha256 objtype mode) with
  | err errno => rfl
  | file f => simp
  | noent =>
    cases parent with
    | none => simp
    | some parent =>
      simp only
      cases load_metadata_internal parent objtype sha256 true true false <;> simp

theorem _ostree_loose_path_injective (c1 c2 : Checksum) (k1 k2 : OstreeObjectType)
    (mode : OstreeRepoMode)
    (h : _ostree_loose_path c1 k1 mode = _ostree_loose_path c2 k2 mode) : c1 = c2 ∧ k1 = k2 := by
  cases k1 <;> cases k2 <;> cases mode <;> simp_all [_ostree_loose_path]

@[simp]
theorem OstreeRepo.store_mode (self : OstreeRepo) (p : LoosePath) (f : ObjFile) :
    (self.store p f).mode = self.mode := rfl

@[simp]
theorem OstreeRepo.store_parent_repo (self : OstreeRepo) (p : LoosePath) (f : ObjFile) :
    (self.store p f).parent_repo = self.parent_repo := rfl

theorem OstreeRepo.store_at_path (self : OstreeRepo) (p q : LoosePath) (f : ObjFile) :
    (self.store p f).at_path q = if q = p then LooseFile.file f else self.at_path q := by
  unfold OstreeRepo.at_path OstreeRepo.store
  simp only [OstreeRepo.objects_dir_mk, List.lookup_cons]
  by_cases h : q = p
  · subst h
    simp
  · have : (q == p) = false := by simpa using h
    simp [this, h]

theorem has_object_store_self (self : OstreeRepo) (c : Checksum) (k : OstreeObjectType)
    (f : ObjFile) :
    ostree_repo_has_object (self.store (_ostree_loose_path c k self.mode) f) k c = .ok true := by
  rw [ostree_repo_has_object_unfold]
  simp [OstreeRepo.store_at_path]

theorem has_object_store_other (self : OstreeRepo) (c c' : Checksum) (k k' : OstreeObjectType)
    (f : ObjFile) (hne : (c', k') ≠ (c, k)) :
    ostree_repo_has_object (self.store (_ostree_loose_path c k self.mode) f) k' c' =
      ostree_repo_has_object self k' c' := by
  rw [ostree_repo_has_object_unfold, ostree_repo_has_object_unfold self]
  have hp : _ostree_loose_path c' k' self.mode ≠ _ostree_loose_path c k self.mode := by
    intro h
    obtain ⟨h1, h2⟩ := _ostree_loose_path_injective _ _ _ _ _ h
    exact hne (by rw [h1, h2])
  simp [OstreeRepo.store_at_path, hp]

theorem load_variant_store_self (self : OstreeRepo) (c : Checksum) (k : OstreeObjectType)
    (f : ObjFile) :
    ostree_repo_load_variant (self.store (_ostree_loose_path c k self.mode) f) k c =
      .ok (some f.data) := by
  rw [ostree_repo_load_variant_unfold]
  simp [OstreeRepo.store_at_path]

theorem load_variant_store_other (self : OstreeRepo) (c c' : Checksum) (k k' : OstreeObjectType)
    (f : ObjFile) (hne : (c', k') ≠ (c, k)) :
    ostree_repo_load_variant (self.store (_ostree_loose_path c k self.mode) f) k' c' =
      ostree_repo_load_variant self k' c' := by
  rw [ostree_repo_load_variant_unfold, ostree_repo_load_variant_unfold self]
  have hp : _ostree_loose_path c' k' self.mode ≠ _ostree_loose_path c k self.mode := by
    intro h
    obtain ⟨h1, h2⟩ := _ostree_loose_path_injective _ _ _ _ _ h
    exact hne (by rw [h1, h2])
  simp [OstreeRepo.store_at_path, hp]

/-! ## Closure after a pull: the invariant is kept by scanning -/

/-- Storing an outstanding object keeps the invariant: `pd2` is the state with
the object written to the repository and taken off the outstanding lists.  A
metadata object becomes the object whose scan is under way. -/
theorem PullInv.store {kind_of : Checksum → OstreeObjectType} {repo0 : OstreeRepo}
    {pd : OtPullData} (h : PullInv kind_of repo0 none pd) (pd2 : OtPullData)
    (x : ObjectName) (file : ObjFile) (root : Option ObjectName)
    (hroot : root = some x ∨ x.2 = OstreeObjectType.FILE)
    (hrepo : pd2.repo = pd.repo.store (_ostree_loose_path x.1 x.2 pd.repo.mode) file)
    (hres : pd2.transaction_resuming = pd.transaction_resuming)
    (hsc : pd2.scanned_metadata = pd.scanned_metadata)
    (hrm : pd2.requested_metadata = pd.requested_metadata)
    (hrc : pd2.requested_content = pd.requested_content)
    (hperm : (pending_objects pd).Perm (x :: pending_objects pd2))
    (hw : ∀ w, (w ∈ pd2.metadata_writes_in_flight ∨ w ∈ pd2.content_writes_in_flight) →
      (w ∈ pd.metadata_writes_in_flight ∨ w ∈ pd.content_writes_in_flight))
    (hfile : kinds_agree kind_of (variant_children x.2 (some file.data))) :
    PullInv kind_of repo0 root pd2 ∧ ∀ y, accounted none pd y → accounted root pd2 y := by
  have hreq : ∀ k, requested_for pd2 k = requested_for pd k := by
    intro k
    unfold requested_for
    rw [hrm, hrc]
  have hxp : x ∈ pending_objects pd := hperm.mem_iff.2 (List.mem_cons_self _ _)
  have hxns := h.pending_not_stored x hxp
  have hnd : (x :: pending_objects pd2).Nodup := hperm.nodup_iff.1 h.pending_nodup
  rw [List.nodup_cons] at hnd
  have hmem : ∀ y, y ∈ pending_objects pd ↔ y = x ∨ y ∈ pending_objects pd2 := by
    intro y
    rw [hperm.mem_iff, List.mem_cons]
  have hself : object_stored pd2.repo x := by
    unfold object_stored
    rw [hrepo]
    exact has_object_store_self _ _ _ _
  have hoh : ∀ y : ObjectName, y ≠ x →
      ostree_repo_has_object pd2.repo y.2 y.1 = ostree_repo_has_object pd.repo y.2 y.1 := by
    intro y hy
    rw [hrepo]
    exact has_object_store_other _ _ _ _ _ _ hy
  have hoc : ∀ y : ObjectName, y ≠ x → object_children pd2.repo y = object_children pd.repo y := by
    intro y hy
    unfold object_children
    rw [hrepo, load_variant_store_other _ _ _ _ _ _ hy]
  have hne : ∀ y, object_stored pd.repo y → y ≠ x := by
    intro y hy hyx
    subst hyx
    unfold object_stored at hy
    rw [hxns] at hy
    exact absurd hy (by simp)
  have hst : ∀ y, object_stored pd.repo y → object_stored pd2.repo y := by
    intro y hy
    unfold object_stored
    rw [hoh y (hne y hy)]
    exact hy
  have hacc : ∀ y, accounted none pd y → accounted root pd2 y := by
    intro y hy
    rcases hy with hy | hy | hy | hy
    · exact Or.inl (by rw [hsc]; exact hy)
    · rcases (hmem y).1 hy with h1 | h1
      · subst h1
        rcases hroot with hr | hr
        · exact Or.inr (Or.inr (Or.inr hr.symm))
        · exact Or.inr (Or.inr (Or.inl ⟨hr, hself⟩))
      · exact Or.inr (Or.inl h1)
    · exact Or.inr (Or.inr (Or.inl ⟨hy.1, hst y hy.2⟩))
    · exact absurd hy (by simp)
  refine ⟨?_, hacc⟩
  constructor
  · intro y hy
    obtain ⟨h1, h2⟩ := h.store_mono y hy
    exact ⟨hst y h1, by rw [hoc y (hne y h1)]; exact h2⟩
  · intro y hy
    rw [hreq]
    by_cases hyx : y = x
    · subst hyx
      exact Or.inr (h.pending_requested y hxp)
    · unfold object_stored at hy
      rw [hoh y hyx] at hy
      exact h.stored_origin y hy
  · exact hnd.2
  · intro y hy
    have hyx : y ≠ x := fun e => hnd.1 (e ▸ hy)
    rw [hoh y hyx]
    exact h.pending_not_stored y ((hmem y).2 (Or.inr hy))
  · intro y hy
    rw [hreq]
    exact h.pending_requested y ((hmem y).2 (Or.inr hy))
  · intro y hy
    exact h.pending_kind y ((hmem y).2 (Or.inr hy))
  · intro c hc
    rw [hrm] at hc
    rcases h.requested_meta c hc with h1 | h1
    · rcases (hmem _).1 h1 with h2 | h2
      · rw [h2]
        exact Or.inr hself
      · exact Or.inl h2
    · exact Or.inr (hst _ h1)
  · intro c hc
    rw [hrc] at hc
    rcases h.requested_content c hc with h1 | h1
    · rcases (hmem _).1 h1 with h2 | h2
      · rw [h2]
        exact Or.inr hself
      · exact Or.inl h2
    · exact Or.inr (hst _ h1)
  · intro y
    by_cases hyx : y = x
    · subst hyx
      have : object_children pd2.repo y = variant_children y.2 (some file.data) := by
        unfold object_children
        rw [hrepo, load_variant_store_self]
      rw [this]
      exact hfile
    · rw [hoc y hyx]
      exact h.children_kind y
  · intro w hw2
    exact h.writes_kind w (hw w hw2)
  · intro y hy
    rw [hsc] at hy
    obtain ⟨h1, h2⟩ := h.scanned_ok y hy
    rw [hres]
    refine ⟨hst y h1, ?_⟩
    rcases h2 with h2 | h2
    · exact Or.inl h2
    · right
      intro z hz
      rw [hoc y (hne y h1)] at hz
      exact hacc z (h2 z hz)

/-! ## The outstanding counters count the fetches and writes in flight -/

/-- When the counters are zero and fewer than `2 ^ 32` requests were made,
nothing is outstanding. -/
theorem CounterInv.idle {pd : OtPullData} (hc : CounterInv 0 pd)
    (hb : pd.fetch_requests.length < 2 ^ 32)
    (h1 : pd.n_outstanding_metadata_fetches = 0)
    (h2 : pd.n_outstanding_metadata_write_requests = 0)
    (h3 : pd.n_outstanding_content_fetches = 0)
    (h4 : pd.n_outstanding_content_write_requests = 0) : pending_objects pd = [] := by
  obtain ⟨i1, i2, i3, i4, i5⟩ := hc
  have hl1 := List.countP_le_length (fun r : FetchObjectData =>
    OSTREE_OBJECT_TYPE_IS_META r.objtype) (l := pd.fetches_in_flight)
  have hsum := List.length_eq_countP_add_countP (fun r : FetchObjectData =>
    OSTREE_OBJECT_TYPE_IS_META r.objtype) (l := pd.fetches_in_flight)
  have hneg : List.countP (fun r : FetchObjectData =>
      decide ¬(OSTREE_OBJECT_TYPE_IS_META r.objtype) = true) pd.fetches_in_flight =
      List.countP (fun r : FetchObjectData =>
        !OSTREE_OBJECT_TYPE_IS_META r.objtype) pd.fetches_in_flight := by
    congr 1
    funext r
    cases OSTREE_OBJECT_TYPE_IS_META r.objtype <;> rfl
  rw [hneg] at hsum
  rw [h1] at i1
  rw [h2] at i3
  rw [h3] at i2
  rw [h4] at i4
  have e1 : pd.fetches_in_flight.length = 0 := by omega
  have e2 : pd.metadata_writes_in_flight.length = 0 := by omega
  have e3 : pd.content_writes_in_flight.length = 0 := by omega
  unfold pending_objects
  rw [List.length_eq_zero.1 e1, List.length_eq_zero.1 e2, List.length_eq_zero.1 e3]
  rfl

theorem builder_objects_allocate_part (builder : OstreeStaticDeltaBuilder) :
    builder_objects (allocate_part builder) = builder_objects builder := by
  simp [builder_objects, allocate_part]

theorem flatMap_objects_dropLast (parts : List OstreeStaticDeltaPartBuilder)
    (last part : OstreeStaticDeltaPartBuilder) (x : ObjectName)
    (h : parts.getLast? = some last) (hp : part.objects = last.objects ++ [x]) :
    (parts.dropLast ++ [part]).flatMap (fun p => p.objects) =
      parts.flatMap (fun p => p.objects) ++ [x] := by
  have hl : parts.dropLast ++ [last] = parts := List.dropLast_append_getLast? last h
  conv_rhs => rw [← hl]
  simp [List.flatMap_append, hp]

theorem process_one_object_objects (env : DeltaEnv) (repo : OstreeRepo)
    (builder b : OstreeStaticDeltaBuilder) (checksum : Checksum) (objtype : OstreeObjectType)
    (h : process_one_object env repo builder checksum objtype = some (.ok b)) :
    builder_objects b = builder_objects builder ++ [(checksum, objtype)] ∧
    b.fallback_objects = builder.fallback_objects := by
  unfold process_one_object at h
  split at h
  · exact absurd h (by simp)
  · exact absurd h (by simp)
  · split at h
    · exact absurd h (by simp)
    · rename_i current_part hlast
      simp only at h
      split at h
      · exact absurd h (by simp)
      · split at h
        · exact absurd h (by simp)
        · rename_i current_part2 hlast2
          simp only [Option.some.injEq, Except.ok.injEq] at h
          subst h
          refine ⟨?_, ?_⟩
          · unfold builder_objects
            simp only
            rw [flatMap_objects_dropLast _ current_part2 _ (checksum, objtype) hlast2 rfl]
            split
            · exact congrArg (fun l => l ++ [(checksum, objtype)])
                (builder_objects_allocate_part builder)
            · rfl
          · split <;> rfl

theorem delta_fold_objects (env : DeltaEnv) (repo : OstreeRepo) (keys : List ObjectName) :
    ∀ (builder b : OstreeStaticDeltaBuilder),
      delta_fold (fun b k => process_one_object env repo b k.1 k.2) keys builder =
        some (.ok b) →
      builder_objects b = builder_objects builder ++ keys ∧
      b.fallback_objects = builder.fallback_objects := by
  induction keys with
  | nil =>
    intro builder b h
    simp only [delta_fold, Option.some.injEq, Except.ok.injEq] at h
    subst h
    simp
  | cons k rest ih =>
    intro builder b h
    simp only [delta_fold] at h
    split at h
    · exact absurd h (by simp)
    · exact absurd h (by simp)
    · rename_i b1 h1
      obtain ⟨p1, p2⟩ := process_one_object_objects env repo builder b1 k.1 k.2 h1
      obtain ⟨q1, q2⟩ := ih b1 b h
      rw [q1, p1, q2, p2]
      simp

theorem scan_for_large_objects_sub (env : DeltaEnv) (repo : OstreeRepo) (max_usize_bytes : Nat)
    (keys : List ObjectName) :
    ∀ fallback, scan_for_large_objects env repo max_usize_bytes keys = some (.ok fallback) →
      ∀ x ∈ fallback, x ∈ keys := by
  induction keys with
  | nil =>
    intro fallback h
    simp only [scan_for_large_objects, Option.some.injEq, Except.ok.injEq] at h
    subst h
    simp
  | cons k rest ih =>
    intro fallback h
    obtain ⟨checksum, objtype⟩ := k
    simp only [scan_for_large_objects] at h
    split at h
    · exact absurd h (by simp)
    · exact absurd h (by simp)
    · split at h
      · exact absurd h (by simp)
      · exact absurd h (by simp)
      · rename_i fb hfb
        split at h
        · simp only [Option.some.injEq, Except.ok.injEq] at h
          subst h
          intro x hx
          rcases List.mem_cons.1 hx with hx | hx
          · exact List.mem_cons.2 (Or.inl hx)
          · exact List.mem_cons_of_mem _ (ih fb hfb x hx)
        · simp only [Option.some.injEq, Except.ok.injEq] at h
          subst h
          intro x hx
          exact List.mem_cons_of_mem _ (ih fb hfb x hx)

/-- A successful `generate_delta_lowlatency` on an empty builder packs or lists
as fallback every object reachable from `to` and not from `from`, except the
`to` commit, and nothing that is not reachable from `to`. -/
theorem generate_delta_lowlatency_covers (env : DeltaEnv) (repo : OstreeRepo)
    (from_checksum to_checksum : Checksum) (max_usize_bytes : Nat)
    (b : OstreeStaticDeltaBuilder) (from_reachable to_reachable : List ObjectName)
    (hiter : ∀ l, (env.g_hash_table_iter l).Perm l)
    (hfrom : env.ostree_repo_traverse_commit repo from_checksum = .ok from_reachable)
    (hto : env.ostree_repo_traverse_commit repo to_checksum = .ok to_reachable)
    (h : generate_delta_lowlatency env repo from_checksum to_checksum
      { parts := [], fallback_objects := [], loose_compressed_size := 0,
        max_usize_bytes := max_usize_bytes } = some (.ok b)) :
    (∀ x ∈ to_reachable, x ∈ from_reachable ∨ x = (to_checksum, OstreeObjectType.COMMIT) ∨
      x ∈ b.fallback_objects ∨ x ∈ builder_objects b) ∧
    (∀ x ∈ b.fallback_objects, x ∈ to_reachable) ∧
    (∀ x ∈ builder_objects b, x ∈ to_reachable) := by
  unfold generate_delta_lowlatency at h
  rw [hfrom, hto] at h
  simp only at h
  split at h
  · exact absurd h (by simp)
  · split at h
    · exact absurd h (by simp)
    · split at h
      · exact absurd h (by simp)
      · split at h
        · exact absurd h (by simp)
        · exact absurd h (by simp)
        · rename_i fallback hscan
          have hfb := scan_for_large_objects_sub env repo _ _ fallback hscan
          split at h
          · exact absurd h (by simp)
          · exact absurd h (by simp)
          · rename_i b1 hfold1
            obtain ⟨p1, p2⟩ := delta_fold_objects env repo _ _ _ hfold1
            obtain ⟨q1, q2⟩ := delta_fold_objects env repo _ _ _ h
            rw [builder_objects_allocate_part] at p1
            have hobjs : builder_objects b =
                env.g_hash_table_iter
                  (new_reachable_metadata to_checksum from_reachable to_reachable) ++
                env.g_hash_table_iter
                  ((new_reachable_content from_reachable to_reachable).filter
                    (fun k => !decide (k ∈ fallback))) := by
              rw [q1, p1]
              simp [builder_objects]
            have hfall : b.fallback_objects = fallback := by
              rw [q2, p2]
              simp [allocate_part]
            have hmeta_sub : ∀ x ∈ new_reachable_metadata to_checksum from_reachable
                to_reachable, x ∈ to_reachable := by
              intro x hx
              unfold new_reachable_metadata at hx
              have := List.mem_of_mem_erase hx
              rw [List.mem_dedup] at this
              exact (List.mem_filter.1 this).1
            have hcont_sub : ∀ x ∈ new_reachable_content from_reachable to_reachable,
                x ∈ to_reachable := by
              intro x hx
              unfold new_reachable_content at hx
              rw [List.mem_dedup] at hx
              exact (List.mem_filter.1 hx).1
            refine ⟨?_, ?_, ?_⟩
            · intro x hx
              by_cases hxf : x ∈ from_reachable
              · exact Or.inl hxf
              · right
                by_cases hxc : x = (to_checksum, OstreeObjectType.COMMIT)
                · exact Or.inl hxc
                · right
                  rw [hfall, hobjs]
                  cases hm : OSTREE_OBJECT_TYPE_IS_META x.2 with
                  | true =>
                    right
                    refine List.mem_append.2 (Or.inl ((hiter _).mem_iff.2 ?_))
                    unfold new_reachable_metadata
                    refine (List.mem_erase_of_ne hxc).2 (List.mem_dedup.2 ?_)
                    exact List.mem_filter.2 ⟨hx, by simp [hxf, hm]⟩
                  | false =>
                    have hxn : x ∈ new_reachable_content from_reachable to_reachable := by
                      unfold new_reachable_content
                      exact List.mem_dedup.2 (List.mem_filter.2 ⟨hx, by simp [hxf, hm]⟩)
                    by_cases hxfb : x ∈ fallback
                    · exact Or.inl hxfb
                    · right
                      refine List.mem_append.2 (Or.inr ((hiter _).mem_iff.2 ?_))
                      exact List.mem_filter.2 ⟨hxn, by simp [hxfb]⟩
            · intro x hx
              rw [hfall] at hx
              exact hcont_sub x ((hiter _).mem_iff.1 (hfb x hx))
            · intro x hx
              rw [hobjs] at hx
              rcases List.mem_append.1 hx with hx | hx
              · exact hmeta_sub x ((hiter _).mem_iff.1 hx)
              · exact hcont_sub x (List.mem_filter.1 ((hiter _).mem_iff.1 hx)).1

theorem of_byte_toNat (k : OstreeObjectType) :
    OstreeObjectType.of_byte (k.toNat % 256) = some k := by
  cases k <;> rfl

theorem objtype_checksum_array_new_length (env : DeltaEnv) (objs : List ObjectName) :
    objs.length ≤ (objtype_checksum_array_new env objs).length := by
  induction objs with
  | nil => simp [objtype_checksum_array_new]
  | cons x rest ih =>
    obtain ⟨c, k⟩ := x
    simp only [objtype_checksum_array_new, List.cons_append, List.length_cons,
      List.length_append]
    omega

/-- Reading back the packed array written for a list of objects gives the
objects, when the checksum bytes have the entry length and convert back. -/
theorem checksum_array_names_new (env : DeltaEnv) (objs : List ObjectName) :
    ∀ fuel, objs.length ≤ fuel →
      (∀ x ∈ objs,
        (env.ostree_checksum_to_bytes x.1).length + 1 =
          env.OSTREE_STATIC_DELTA_OBJTYPE_CSUM_LEN ∧
        env.ostree_checksum_from_bytes (env.ostree_checksum_to_bytes x.1) = x.1) →
      checksum_array_names env env.OSTREE_STATIC_DELTA_OBJTYPE_CSUM_LEN fuel
        (objtype_checksum_array_new env objs) = objs := by
  induction objs with
  | nil =>
    intro fuel _ _
    cases fuel <;> simp [checksum_array_names, objtype_checksum_array_new]
  | cons x rest ih =>
    intro fuel hfuel hc
    obtain ⟨c, k⟩ := x
    cases fuel with
    | zero => simp at hfuel
    | succ f =>
      obtain ⟨hlen, hinv⟩ := hc (c, k) (List.mem_cons_self _ _)
      simp only at hlen hinv
      have hl : (env.ostree_checksum_to_bytes c).length =
          env.OSTREE_STATIC_DELTA_OBJTYPE_CSUM_LEN - 1 := by omega
      simp only [objtype_checksum_array_new, List.cons_append, checksum_array_names,
        of_byte_toNat]
      rw [List.take_left' hl, List.drop_left' hl, hinv,
        ih f (by simpa using hfuel) (fun y hy => hc y (List.mem_cons_of_mem _ hy))]

theorem part_header_names_header (env : DeltaEnv) (p : OstreeStaticDeltaPartBuilder)
    (hc : ∀ x ∈ p.objects,
      (env.ostree_checksum_to_bytes x.1).length + 1 =
        env.OSTREE_STATIC_DELTA_OBJTYPE_CSUM_LEN ∧
      env.ostree_checksum_from_bytes (env.ostree_checksum_to_bytes x.1) = x.1) :
    part_header_names env (delta_part_header env p) = p.objects := by
  simp only [delta_part_header, part_header_names]
  exact checksum_array_names_new env p.objects _
    (objtype_checksum_array_new_length env p.objects) hc

theorem part_headers_names (env : DeltaEnv) (parts : List OstreeStaticDeltaPartBuilder)
    (hc : ∀ p ∈ parts, ∀ x ∈ p.objects,
      (env.ostree_checksum_to_bytes x.1).length + 1 =
        env.OSTREE_STATIC_DELTA_OBJTYPE_CSUM_LEN ∧
      env.ostree_checksum_from_bytes (env.ostree_checksum_to_bytes x.1) = x.1) :
    (parts.map (delta_part_header env)).flatMap (part_header_names env) =
      parts.flatMap (fun p => p.objects) := by
  induction parts with
  | nil => rfl
  | cons p rest ih =>
    simp only [List.map_cons, List.flatMap_cons]
    rw [part_header_names_header env p (hc p (List.mem_cons_self _ _)),
      ih (fun q hq => hc q (List.mem_cons_of_mem _ hq))]

theorem get_fallback_headers_names (env : DeltaEnv) (self : OstreeRepo)
    (objs : List ObjectName) :
    ∀ hs, get_fallback_headers env self objs = some (.ok hs) →
      (∀ x ∈ objs, env.ostree_checksum_from_bytes (env.ostree_checksum_to_bytes x.1) = x.1) →
      hs.flatMap (fallback_header_names env) = objs := by
  induction objs with
  | nil =>
    intro hs h _
    simp only [get_fallback_headers, Option.some.injEq, Except.ok.injEq] at h
    subst h
    rfl
  | cons x rest ih =>
    intro hs h hc
    obtain ⟨c, k⟩ := x
    simp only [get_fallback_headers] at h
    split at h
    · exact absurd h (by simp)
    · exact absurd h (by simp)
    · rename_i hd hhd
      split at h
      · exact absurd h (by simp)
      · exact absurd h (by simp)
      · rename_i hs2 hhs2
        simp only [Option.some.injEq, Except.ok.injEq] at h
        subst h
        have hinv := hc (c, k) (List.mem_cons_self _ _)
        simp only at hinv
        have hname : fallback_header_names env hd = [(c, k)] := by
          unfold fallback_header at hhd
          simp only at hhd
          split at hhd
          · split at hhd
            · exact absurd hhd (by simp)
            · exact absurd hhd (by simp)
            · simp only [Option.some.injEq, Except.ok.injEq] at hhd
              subst hhd
              simp [fallback_header_names, of_byte_toNat, hinv]
          · split at hhd
            · exact absurd hhd (by simp)
            · split at hhd
              · exact absurd hhd (by simp)
              · simp only [Option.some.injEq, Except.ok.injEq] at hhd
                subst hhd
                simp [fallback_header_names, of_byte_toNat, hinv]
        simp only [List.flatMap_cons, hname]
        rw [ih hs2 hhs2 (fun y hy => hc y (List.mem_cons_of_mem _ hy))]
        rfl

theorem generation_succeeded_eq (r : Option (Except GError StaticDeltaDir))
    (h : generation_succeeded r = true) : r = some (.ok (generated_delta r)) := by
  unfold generation_succeeded at h
  split at h
  · rfl
  · exact absurd h (by simp)

/-- What a generated delta names: for commits from and to of a repository A, the
delta written by ostree_repo_static_delta_generate(from, to) names every object
of traverse_commit(to) that is not in traverse_commit(from): such an object is
the to COMMIT object, whose variant is the fifth field of the superblock, or is
named in the fallback array (content objects larger than max-usize), or is
named in the objects array of a part header.  The statement holds for every
iteration order of the hash tables and needs the checksum bytes to have the
entry length and to convert back to the checksum. -/
theorem static_delta_carries_new_objects (env : DeltaEnv) (repo_a : OstreeRepo)
    (from_checksum to_checksum : Checksum) (metadata : Option DeltaVariant)
    (max_usize : Option Nat) (now : Nat) (delta : StaticDeltaDir)
    (from_reachable to_reachable : List ObjectName) (y : ObjectName)
    (hgen : ostree_repo_static_delta_generate env repo_a from_checksum to_checksum metadata
      max_usize now = some (.ok delta))
    (hfrom : env.ostree_repo_traverse_commit repo_a from_checksum = .ok from_reachable)
    (hto : env.ostree_repo_traverse_commit repo_a to_checksum = .ok to_reachable)
    (hiter : ∀ l, (env.g_hash_table_iter l).Perm l)
    (hbytes : ∀ x ∈ to_reachable,
      (env.ostree_checksum_to_bytes x.1).length + 1 =
        env.OSTREE_STATIC_DELTA_OBJTYPE_CSUM_LEN ∧
      env.ostree_checksum_from_bytes (env.ostree_checksum_to_bytes x.1) = x.1)
    (hy : y ∈ to_reachable) :
    (y ∈ from_reachable ∨ y = (to_checksum, OstreeObjectType.COMMIT) ∨
      y ∈ superblock_fallback_names env delta.meta ∨
      y ∈ superblock_part_names env delta.meta) ∧
    ostree_repo_load_variant repo_a OstreeObjectType.COMMIT to_checksum =
      .ok (superblock_commit delta.meta) := by
  unfold ostree_repo_static_delta_generate at hgen
  simp only at hgen
  split at hgen
  · exact absurd hgen (by simp)
  · rename_i to_commit hload
    split at hgen
    · exact absurd hgen (by simp)
    · exact absurd hgen (by simp)
    · rename_i builder hlow
      split at hgen
      · exact absurd hgen (by simp)
      · exact absurd hgen (by simp)
      · rename_i fallback_headers hfall
        simp only [Option.some.injEq, Except.ok.injEq] at hgen
        subst hgen
        obtain ⟨c1, c2, c3⟩ := generate_delta_lowlatency_covers env repo_a from_checksum
          to_checksum _ builder from_reachable to_reachable hiter hfrom hto hlow
        have hparts : superblock_part_names env
            (some (DeltaVariant.tuple
              [metadata.getD (.tuple [.array [], .array []]),
               .uint64 (env.GUINT64_TO_BE now),
               .bytes (env.ostree_checksum_to_bytes from_checksum),
               .bytes (env.ostree_checksum_to_bytes to_checksum),
               .object to_commit,
               .bytes [],
               .array (builder.parts.map (delta_part_header env)),
               .array fallback_headers])) = builder_objects builder := by
          simp only [superblock_part_names, superblock_array, List.get?_cons_succ,
            List.get?_cons_zero]
          apply part_headers_names
          intro p hp x hx
          exact hbytes x (c3 x (List.mem_flatMap.2 ⟨p, hp, hx⟩))
        have hfalls : superblock_fallback_names env
            (some (DeltaVariant.tuple
              [metadata.getD (.tuple [.array [], .array []]),
               .uint64 (env.GUINT64_TO_BE now),
               .bytes (env.ostree_checksum_to_bytes from_checksum),
               .bytes (env.ostree_checksum_to_bytes to_checksum),
               .object to_commit,
               .bytes [],
               .array (builder.parts.map (delta_part_header env)),
               .array fallback_headers])) = builder.fallback_objects := by
          simp only [superblock_fallback_names, superblock_array, List.get?_cons_succ,
            List.get?_cons_zero]
          exact get_fallback_headers_names env repo_a _ _ hfall
            (fun x hx => (hbytes x (c2 x hx)).2)
        have hcover := c1 y hy
        simp only
        rw [hparts, hfalls]
        refine ⟨hcover, ?_⟩
        rw [hload]
        rfl

/-- The delta between the two sample commits, generated with max-usize 0, names
the new content object in its fallback array. -/
theorem static_delta_carries_new_objects_witness :
    (sample_file_b_csum, OstreeObjectType.FILE) ∈ sample_from_reachable ∨
      (sample_file_b_csum, OstreeObjectType.FILE) =
        (sample_commit_b_csum, OstreeObjectType.COMMIT) ∨
      (sample_file_b_csum, OstreeObjectType.FILE) ∈
        superblock_fallback_names sample_delta_env sample_delta.meta ∨
      (sample_file_b_csum, OstreeObjectType.FILE) ∈
        superblock_part_names sample_delta_env sample_delta.meta :=
  (static_delta_carries_new_objects sample_delta_env delta_repo_a
    sample_commit_csum sample_commit_b_csum none (some 0) 0 sample_delta sample_from_reachable
    sample_to_reachable (sample_file_b_csum, OstreeObjectType.FILE)
    (generation_succeeded_eq _ (by decide!)) (by decide!) (by decide!)
    (fun l => List.reverse_perm l) (by decide!) (by decide!)).1

/-- C3 (evaluation): repository A stores two commits and everything they reach,
repository B stores the first commit and everything it reaches.  The delta
from the first to the second commit, generated in A with the default
max-usize, has no fallback object: its part headers name the new tree and the
new content object, and the superblock embeds the new commit.  Applied to B,
`ostree_repo_static_delta_execute_offline` takes field 3 of the superblock
(the 32 bytes of the `to` checksum) for the part headers and does not
complete, with or without validation; B stores none of the new commit, the
new tree and the new content object. -/
theorem static_delta_round_trip_fails :
    generation_succeeded
      (ostree_repo_static_delta_generate sample_delta_env delta_repo_a sample_commit_csum
        sample_commit_b_csum none none 0) = true ∧
    sample_to_reachable.all
      (fun x => decide (ostree_repo_has_object delta_repo_a x.2 x.1 = .ok true)) = true ∧
    sample_from_reachable.all
      (fun x => decide (ostree_repo_has_object delta_repo_b x.2 x.1 = .ok true)) = true ∧
    superblock_fallback_names sample_delta_env sample_delta_default.meta = [] ∧
    superblock_part_names sample_delta_env sample_delta_default.meta =
      [(sample_tree_b_csum, OstreeObjectType.DIR_TREE),
       (sample_file_b_csum, OstreeObjectType.FILE)] ∧
    superblock_commit sample_delta_default.meta = some sample_commit_b_file.data ∧
    (ostree_repo_static_delta_execute_offline sample_delta_env delta_repo_b
      sample_delta_default true).isSome = false ∧
    (ostree_repo_static_delta_execute_offline sample_delta_env delta_repo_b
      sample_delta_default false).isSome = false ∧
    ostree_repo_has_object delta_repo_b OstreeObjectType.COMMIT sample_commit_b_csum =
      .ok false ∧
    ostree_repo_has_object delta_repo_b OstreeObjectType.DIR_TREE sample_tree_b_csum =
      .ok false ∧
    ostree_repo_has_object delta_repo_b OstreeObjectType.FILE sample_file_b_csum =
      .ok false := by
  refine ⟨?_, ?_, ?_, ?_, ?_, ?_, ?_, ?_, ?_, ?_, ?_⟩ <;> decide!

/-! ## Listing and loading objects: evaluations -/

/-- C11: the loop of list_loose_objects stops before directory ff.  In a repository
with one commit in objects/fe and one in objects/ff, both reported as stored by
ostree_repo_has_object, ostree_repo_list_objects with the LOOSE flag yields the
first and not the second. -/
theorem list_objects_misses_directory_ff :
    ostree_repo_has_object listing_repo OstreeObjectType.COMMIT sample_ff_csum = .ok true ∧
    ostree_repo_has_object listing_repo OstreeObjectType.COMMIT sample_fe_csum = .ok true ∧
    listing_repo.open_subdir "ff" =
      ObjectSubdir.entries
        [".", "..", "00000000000000000000000000000000000000000000000000000000000008.commit"] ∧
    ostree_repo_list_objects listing_repo list_objects_loose =
      .ok [(sample_fe_csum, OstreeObjectType.COMMIT)] := by
  refine ⟨?_, ?_, ?_, ?_⟩ <;> decide!

/-- C12: list_loose_objects_at recognises the suffix .file only.  In an archive
repository that stores a commit and a content object (as .filez, the name
_ostree_loose_path gives it in that mode), ostree_repo_list_objects yields the
commit and not the content object. -/
theorem list_objects_misses_archive_content :
    ostree_repo_has_object archive_content_repo OstreeObjectType.FILE sample_file_csum =
      .ok true ∧
    archive_content_repo.open_subdir "f3" =
      ObjectSubdir.entries
        [".", "..", "f3f30000000000000000000000000000000000000000000000000000000004.filez"] ∧
    ostree_repo_list_objects archive_content_repo list_objects_loose =
      .ok [(sample_commit_csum, OstreeObjectType.COMMIT)] ∧
    loose_objtype_of_suffix ".filez" = none ∧
    loose_objtype_of_suffix ".file" = some OstreeObjectType.FILE := by
  refine ⟨?_, ?_, ?_, ?_, ?_⟩ <;> decide!

/-- C13: for a commit stored in the parent repository only, ostree_repo_load_object_stream
returns success with the stream left NULL and the size never written, while
the same call on the parent itself gives the three bytes of the object and
the size 3. -/
theorem load_object_stream_from_parent_has_no_stream :
    ostree_repo_has_object sample_child_repo OstreeObjectType.COMMIT sample_commit_csum =
      .ok true ∧
    ostree_repo_load_object_stream sample_delta_env sample_child_repo OstreeObjectType.COMMIT
      sample_commit_csum = .ok none ∧
    ostree_repo_load_object_stream sample_delta_env sample_parent_repo OstreeObjectType.COMMIT
      sample_commit_csum = .ok (some ([1, 2, 3], 3)) := by
  refine ⟨?_, ?_, ?_⟩ <;> decide!

/-- C14: for a metadata object stored neither in the repository nor in its parent,
ostree_repo_load_variant_if_exists fails with NOT_FOUND when the repository has
a parent, and returns success with a NULL variant when it has none;
ostree_repo_load_variant fails with NOT_FOUND in both. -/
theorem load_variant_if_exists_fails_with_parent :
    ostree_repo_load_variant_if_exists sample_child_repo OstreeObjectType.DIR_TREE
      sample_tree_csum =
      .error { code := GIOErrorEnum.NOT_FOUND,
               message := "No such metadata object " ++ sample_tree_csum } ∧
    ostree_repo_load_variant_if_exists sample_parent_repo OstreeObjectType.DIR_TREE
      sample_tree_csum = .ok none ∧
    ostree_repo_load_variant sample_child_repo OstreeObjectType.DIR_TREE sample_tree_csum =
      .error { code := GIOErrorEnum.NOT_FOUND,
               message := "No such metadata object " ++ sample_tree_csum } ∧
    ostree_repo_load_variant sample_parent_repo OstreeObjectType.DIR_TREE sample_tree_csum =
      .error { code := GIOErrorEnum.NOT_FOUND,
               message := "No such metadata object " ++ sample_tree_csum } := by
  refine ⟨?_, ?_, ?_, ?_⟩ <;> decide!

/-! ## Repository configuration -/

theorem ostree_repo_mode_from_string_iff (s : String) (m : OstreeRepoMode) :
    ostree_repo_mode_from_string s = .ok m ↔ ostree_repo_mode_to_string m = .ok s := by
  unfold ostree_repo_mode_from_string ostree_repo_mode_to_string
  cases m
  · by_cases h1 : s = "bare"
    · subst h1; simp
    · by_cases h2 : s = "archive-z2"
      · subst h2; simp
      · simp [h1, h2, eq_comm]
  · by_cases h1 : s = "bare"
    · subst h1; simp
    · by_cases h2 : s = "archive-z2"
      · subst h2; simp
      · simp [h1, h2, eq_comm]

theorem ostree_repo_mode_from_string_accepts (s : String) :
    (∃ m, ostree_repo_mode_from_string s = .ok m) ↔ s = "bare" ∨ s = "archive-z2" := by
  unfold ostree_repo_mode_from_string
  by_cases h1 : s = "bare"
  · simp [h1]
  · by_cases h2 : s = "archive-z2"
    · simp [h2]
    · simp [h1, h2]

theorem ostree_repo_open_eq (env : ConfigEnv) (objects_is_dir : Bool)
    (config_file : Except GError String)
    (objects_dir_fd tmp_dir_fd uncompressed_objects_dir : Option GError)
    (parent_dir : Option RepoDir) (self : OstreeRepoSelf) :
    ostree_repo_open env (RepoDir.mk objects_is_dir config_file objects_dir_fd tmp_dir_fd
        uncompressed_objects_dir parent_dir) self =
      ostree_repo_open_body env objects_is_dir config_file objects_dir_fd tmp_dir_fd
        uncompressed_objects_dir
        (parent_dir.map (fun dir path => ostree_repo_open env dir (ostree_repo_new path)))
        self := by
  cases parent_dir <;> rw [ostree_repo_open] <;> rfl

theorem ostree_repo_open_created (env : ConfigEnv) (io : CreateIO) (self : OstreeRepoSelf)
    (mode : OstreeRepoMode) (mode_str : String) (cache : Bool)
    (hstr : ostree_repo_mode_to_string mode = .ok mode_str)
    (hself : self.inited = false)
    (hparse : env.key_file_parse_error (create_config_data mode_str) = none)
    (hversion : env.g_key_file_get_value (create_config_data mode_str) "core" "repo_version"
      = .ok "1")
    (harchive : env.ot_keyfile_get_boolean_with_default (create_config_data mode_str) "core"
      "archive" false = .ok false)
    (hmode : env.ot_keyfile_get_value_with_default (create_config_data mode_str) "core" "mode"
      (some "bare") = .ok (some mode_str))
    (hparent : env.ot_keyfile_get_value_with_default (create_config_data mode_str) "core"
      "parent" none = .ok none)
    (hcache : env.ot_keyfile_get_boolean_with_default (create_config_data mode_str) "core"
      "enable-uncompressed-cache" true = .ok cache)
    (hfd : io.objects_dir_fd = none) (htmp : io.tmp_dir_fd = none)
    (hunc : io.uncompressed_objects_dir = none) :
    ostree_repo_open env
      (RepoDir.mk true (.ok (create_config_data mode_str)) io.objects_dir_fd io.tmp_dir_fd
        io.uncompressed_objects_dir none) self
      = some (.ok (OstreeRepoSelf.mk self.repodir true (some (create_config_data mode_str))
          mode none cache)) := by
  have hfrom : ostree_repo_mode_from_string mode_str = .ok mode :=
    (ostree_repo_mode_from_string_iff mode_str mode).2 hstr
  rw [ostree_repo_open_eq]
  unfold ostree_repo_open_body
  simp [hself, hparse, hversion, harchive, hmode, hfrom, hparent, hcache, hfd, htmp, hunc]

/-- C15: `ostree_repo_mode_from_string` is the exact inverse of
`ostree_repo_mode_to_string`: it returns the mode `m` for the string `s` if and
only if `ostree_repo_mode_to_string m` returns `s`; it accepts exactly `bare`
and `archive-z2` and rejects `archive`; and when the file operations of
`ostree_repo_create` succeed and the key-file functions return what the written
text holds, creating with `mode` on a repository object that is not yet opened
succeeds and leaves the object opened with that same mode, read from the
written configuration. -/
theorem mode_from_string_inverts_mode_to_string (env : ConfigEnv) (io : CreateIO)
    (self : OstreeRepoSelf) (s : String) (m mode : OstreeRepoMode) (mode_str : String)
    (cache : Bool)
    (hstr : ostree_repo_mode_to_string mode = .ok mode_str)
    (hself : self.inited = false)
    (hio : first_failure [io.ensure_directory, io.replace_contents, io.make_objects_dir,
      io.make_tmp_dir, io.make_remote_cache_dir, io.make_refs, io.make_refs_heads,
      io.make_refs_remotes] = none)
    (hparse : env.key_file_parse_error (create_config_data mode_str) = none)
    (hversion : env.g_key_file_get_value (create_config_data mode_str) "core" "repo_version"
      = .ok "1")
    (harchive : env.ot_keyfile_get_boolean_with_default (create_config_data mode_str) "core"
      "archive" false = .ok false)
    (hmode : env.ot_keyfile_get_value_with_default (create_config_data mode_str) "core" "mode"
      (some "bare") = .ok (some mode_str))
    (hparent : env.ot_keyfile_get_value_with_default (create_config_data mode_str) "core"
      "parent" none = .ok none)
    (hcache : env.ot_keyfile_get_boolean_with_default (create_config_data mode_str) "core"
      "enable-uncompressed-cache" true = .ok cache)
    (hfd : io.objects_dir_fd = none) (htmp : io.tmp_dir_fd = none)
    (hunc : io.uncompressed_objects_dir = none) :
    (ostree_repo_mode_from_string s = .ok m ↔ ostree_repo_mode_to_string m = .ok s) ∧
    ((∃ m2, ostree_repo_mode_from_string s = .ok m2) ↔ s = "bare" ∨ s = "archive-z2") ∧
    ostree_repo_mode_from_string "archive" = .error invalid_mode_archive_error ∧
    ∃ opened, ostree_repo_create env io self mode = some (.ok opened) ∧
      opened.mode = mode ∧ opened.inited = true ∧
      opened.config = some (create_config_data mode_str) := by
  refine ⟨ostree_repo_mode_from_string_iff s m, ostree_repo_mode_from_string_accepts s,
    by decide, ?_⟩
  refine ⟨OstreeRepoSelf.mk self.repodir true (some (create_config_data mode_str)) mode none
    cache,
    ?_, rfl, rfl, rfl⟩
  unfold ostree_repo_create
  rw [hstr]
  simp only [hio]
  exact ostree_repo_open_created env io self mode mode_str cache hstr hself hparse hversion
    harchive hmode hparent hcache hfd htmp hunc

/-- Witness for C15: creating an `archive-z2` repository with a key-file reader
over the written text. -/
theorem mode_from_string_inverts_mode_to_string_witness :
    (ostree_repo_mode_from_string "archive-z2" = .ok OstreeRepoMode.ARCHIVE_Z2 ↔
      ostree_repo_mode_to_string OstreeRepoMode.ARCHIVE_Z2 = .ok "archive-z2") ∧
    ((∃ m2, ostree_repo_mode_from_string "archive-z2" = .ok m2) ↔
      "archive-z2" = "bare" ∨ "archive-z2" = "archive-z2") ∧
    ostree_repo_mode_from_string "archive" = .error invalid_mode_archive_error ∧
    ∃ opened, ostree_repo_create sample_config_env sample_create_io
        (ostree_repo_new "repo")
        OstreeRepoMode.ARCHIVE_Z2 = some (.ok opened) ∧
      opened.mode = OstreeRepoMode.ARCHIVE_Z2 ∧ opened.inited = true ∧
      opened.config = some (create_config_data "archive-z2") :=
  mode_from_string_inverts_mode_to_string sample_config_env sample_create_io
    (ostree_repo_new "repo")
    "archive-z2" OstreeRepoMode.ARCHIVE_Z2 OstreeRepoMode.ARCHIVE_Z2 "archive-z2" true
    rfl rfl rfl rfl (by decide!) (by decide!) (by decide!) (by decide!) (by decide!)
    rfl rfl rfl

theorem ostree_repo_open_body_not_inited (env : ConfigEnv) (objects_is_dir : Bool)
    (config_file : Except GError String)
    (objects_dir_fd tmp_dir_fd uncompressed_objects_dir : Option GError)
    (parent_open : Option (String → Option (Except GError OstreeRepoSelf)))
    (self : OstreeRepoSelf) (config : String)
    (hself : self.inited = false) (hdir : objects_is_dir = true)
    (hconfig : config_file = .ok config) (hparse : env.key_file_parse_error config = none) :
    ostree_repo_open_body env objects_is_dir config_file objects_dir_fd tmp_dir_fd
        uncompressed_objects_dir parent_open self =
      match env.g_key_file_get_value config "core" "repo_version" with
      | .error e => some (.error e)
      | .ok version =>
        if version ≠ "1" then some (.error (invalid_version_error version))
        else
          match env.ot_keyfile_get_boolean_with_default config "core" "archive" false with
          | .error e => some (.error e)
          | .ok is_archive =>
            if is_archive then some (.error archive_not_supported_error)
            else
              match env.ot_keyfile_get_value_with_default config "core" "mode"
                  (some "bare") with
              | .error e => some (.error e)
              | .ok none => none
              | .ok (some mode) =>
                match ostree_repo_mode_from_string mode with
                | .error e => some (.error e)
                | .ok _ =>
                  ostree_repo_open_body env objects_is_dir config_file objects_dir_fd
                    tmp_dir_fd uncompressed_objects_dir parent_open self := by
  subst hdir hconfig
  unfold ostree_repo_open_body
  simp only [hself, hparse]
  simp only [Bool.false_eq_true, if_false, Bool.not_true]
  cases hv : env.g_key_file_get_value config "core" "repo_version" with
  | error e => rfl
  | ok version =>
    dsimp only
    by_cases h1 : version = "1"
    · simp only [h1, ne_eq, not_true_eq_false, if_false]
      cases ha : env.ot_keyfile_get_boolean_with_default config "core" "archive" false with
      | error e => rfl
      | ok is_archive =>
        dsimp only
        cases is_archive
        · simp only [Bool.false_eq_true, if_false]
          cases hm : env.ot_keyfile_get_value_with_default config "core" "mode"
              (some "bare") with
          | error e => rfl
          | ok mode =>
            cases mode with
            | none => rfl
            | some mode =>
              dsimp only
              cases hf : ostree_repo_mode_from_string mode with
              | error e => rfl
              | ok self_mode => rfl
        · rfl
    · simp only [ne_eq, h1, not_false_eq_true, if_true]

/-- C16 (amended): on a repository object that is not yet opened,
`ostree_repo_open` fails whenever the configuration cannot be read with a
`core.repo_version` that is exactly `1`; with version `1` it fails with the
dedicated not-supported error when the boolean key `core.archive` is true, and
with the generic invalid-mode error of `ostree_repo_mode_from_string` when
`core.archive` is false and `core.mode` is `archive`. -/
theorem ostree_repo_open_rejects_version_and_archive_key (env : ConfigEnv)
    (objects_is_dir : Bool) (config_file : Except GError String)
    (objects_dir_fd tmp_dir_fd uncompressed_objects_dir : Option GError)
    (parent_dir : Option RepoDir) (self : OstreeRepoSelf)
    (hself : self.inited = false) :
    ((∀ config, config_file = .ok config →
        env.g_key_file_get_value config "core" "repo_version" ≠ .ok "1") →
      ∃ e, ostree_repo_open env (RepoDir.mk objects_is_dir config_file objects_dir_fd
        tmp_dir_fd uncompressed_objects_dir parent_dir) self = some (.error e)) ∧
    (∀ config, objects_is_dir = true → config_file = .ok config →
      env.key_file_parse_error config = none →
      env.g_key_file_get_value config "core" "repo_version" = .ok "1" →
      env.ot_keyfile_get_boolean_with_default config "core" "archive" false = .ok true →
      ostree_repo_open env (RepoDir.mk objects_is_dir config_file objects_dir_fd
        tmp_dir_fd uncompressed_objects_dir parent_dir) self
        = some (.error archive_not_supported_error)) ∧
    (∀ config, objects_is_dir = true → config_file = .ok config →
      env.key_file_parse_error config = none →
      env.g_key_file_get_value config "core" "repo_version" = .ok "1" →
      env.ot_keyfile_get_boolean_with_default config "core" "archive" false = .ok false →
      env.ot_keyfile_get_value_with_default config "core" "mode" (some "bare")
        = .ok (some "archive") →
      ostree_repo_open env (RepoDir.mk objects_is_dir config_file objects_dir_fd
        tmp_dir_fd uncompressed_objects_dir parent_dir) self
        = some (.error invalid_mode_archive_error)) := by
  refine ⟨?_, ?_, ?_⟩
  · intro hver
    cases hd : objects_is_dir with
    | false =>
      refine ⟨objects_dir_not_found_error self.objects_dir, ?_⟩
      rw [ostree_repo_open_eq]; unfold ostree_repo_open_body; simp [hself]
    | true =>
      cases hc : config_file with
      | error e =>
        refine ⟨g_prefix_error e "Couldn\x27t parse config file: ", ?_⟩
        rw [ostree_repo_open_eq]; unfold ostree_repo_open_body; simp [hself]
      | ok config =>
        cases hp : env.key_file_parse_error config with
        | some e =>
          refine ⟨g_prefix_error e "Couldn\x27t parse config file: ", ?_⟩
          rw [ostree_repo_open_eq]; unfold ostree_repo_open_body; simp [hself, hp]
        | none =>
          rw [ostree_repo_open_eq, ostree_repo_open_body_not_inited env true (.ok config)
            objects_dir_fd tmp_dir_fd uncompressed_objects_dir _ self config hself rfl rfl hp]
          have hne := hver config hc
          cases hv : env.g_key_file_get_value config "core" "repo_version" with
          | error e => exact ⟨e, rfl⟩
          | ok version =>
            have h1 : version ≠ "1" := by
              intro h; apply hne; rw [hv, h]
            exact ⟨invalid_version_error version, by simp [h1]⟩
  · intro config hd hc hp hv ha
    rw [ostree_repo_open_eq, ostree_repo_open_body_not_inited env objects_is_dir config_file
      objects_dir_fd tmp_dir_fd uncompressed_objects_dir _ self config hself hd hc hp]
    simp [hv, ha]
  · intro config hd hc hp hv ha hm
    rw [ostree_repo_open_eq, ostree_repo_open_body_not_inited env objects_is_dir config_file
      objects_dir_fd tmp_dir_fd uncompressed_objects_dir _ self config hself hd hc hp]
    simp only [hv, ha, hm]
    rfl

/-- Witness for C16: the configurations of version 2, with the boolean key
`archive`, and with the mode `archive`, read by a key-file reader over their text. -/
theorem ostree_repo_open_rejects_version_and_archive_key_witness :
    (∃ e, ostree_repo_open sample_config_env (sample_repo_dir version_two_config)
      (ostree_repo_new "repo") = some (.error e)) ∧
    ostree_repo_open sample_config_env (sample_repo_dir archive_key_config)
      (ostree_repo_new "repo")
      = some (.error archive_not_supported_error) ∧
    ostree_repo_open sample_config_env (sample_repo_dir archive_mode_config)
      (ostree_repo_new "repo")
      = some (.error invalid_mode_archive_error) :=
  ⟨(ostree_repo_open_rejects_version_and_archive_key sample_config_env true
      (.ok version_two_config) none none none none (ostree_repo_new "repo") rfl).1
      (fun config h => by
        have h2 : config = version_two_config := by injection h with h; exact h.symm
        subst h2; decide!),
    (ostree_repo_open_rejects_version_and_archive_key sample_config_env true
      (.ok archive_key_config) none none none none (ostree_repo_new "repo") rfl).2.1
      archive_key_config rfl rfl rfl (by decide!) (by decide!),
    (ostree_repo_open_rejects_version_and_archive_key sample_config_env true
      (.ok archive_mode_config) none none none none (ostree_repo_new "repo") rfl).2.2
      archive_mode_config rfl rfl rfl (by decide!) (by decide!) (by decide!)⟩

/-- C16 (counterexample): a configuration of version 1 with `mode=archive` and no
`archive` key makes `ostree_repo_open` fail with the generic invalid-mode
error, whose code is `FAILED`, and not with the dedicated not-supported error. -/
theorem open_archive_mode_gives_invalid_mode_error :
    ostree_repo_open sample_config_env (sample_repo_dir archive_mode_config)
      (ostree_repo_new "repo")
      = some (.error invalid_mode_archive_error) ∧
    invalid_mode_archive_error ≠ archive_not_supported_error ∧
    invalid_mode_archive_error.code = GIOErrorEnum.FAILED :=
  ⟨rfl, by decide, rfl⟩


/-! ## Static deltas: the size of a part -/

theorem part_bound_fresh (env : DeltaEnv) (max_usize_bytes : Nat)
    (part : OstreeStaticDeltaPartBuilder) (checksum : Checksum) (objtype : OstreeObjectType)
    (stream : List Nat) (size : Nat)
    (hobjs : part.objects = []) (hpay : part.payload = [])
    (hlen : stream.length = size) (hlt : size < 2 ^ 63)
    (hk : OSTREE_OBJECT_TYPE_IS_META objtype = true ∨ size ≤ max_usize_bytes) :
    PartBound max_usize_bytes (part_add_object env part checksum objtype stream size) := by
  unfold PartBound part_add_object
  simp only [hobjs, hpay, List.nil_append, hlen]
  refine ⟨?_, ?_, hlt⟩
  · rcases hk with hk | hk
    · exact Or.inr ⟨checksum, objtype, rfl, hk⟩
    · exact Or.inl hk
  · intro h
    exact absurd h (by simp)

theorem part_bound_append (env : DeltaEnv) (max_usize_bytes : Nat)
    (part : OstreeStaticDeltaPartBuilder) (checksum : Checksum) (objtype : OstreeObjectType)
    (stream : List Nat) (size : Nat)
    (hlen : stream.length = size) (hmax : max_usize_bytes < 2 ^ 63)
    (hsum : part.payload.length + size ≤ max_usize_bytes) :
    PartBound max_usize_bytes (part_add_object env part checksum objtype stream size) := by
  unfold PartBound part_add_object
  simp only [List.length_append, hlen]
  refine ⟨Or.inl hsum, ?_, by omega⟩
  intro h
  exact absurd h (by simp)

theorem process_one_object_bound (env : DeltaEnv) (repo : OstreeRepo)
    (builder b : OstreeStaticDeltaBuilder) (checksum : Checksum) (objtype : OstreeObjectType)
    (hinv : ∀ p ∈ builder.parts, PartBound builder.max_usize_bytes p)
    (hmax : builder.max_usize_bytes < 2 ^ 63)
    (hsize : ∀ stream size,
      ostree_repo_load_object_stream env repo objtype checksum = .ok (some (stream, size)) →
      stream.length = size ∧ size < 2 ^ 63 ∧
      (OSTREE_OBJECT_TYPE_IS_META objtype = true ∨ size ≤ builder.max_usize_bytes))
    (h : process_one_object env repo builder checksum objtype = some (.ok b)) :
    (∀ p ∈ b.parts, PartBound b.max_usize_bytes p) ∧
    b.max_usize_bytes = builder.max_usize_bytes := by
  unfold process_one_object at h
  split at h
  · exact absurd h (by simp)
  · exact absurd h (by simp)
  · rename_i content_stream content_size hload
    obtain ⟨hlen, hlt, hk⟩ := hsize _ _ hload
    split at h
    · exact absurd h (by simp)
    · rename_i current_part hlast
      have hcur : current_part ∈ builder.parts := List.mem_of_getLast?_eq_some hlast
      have hcb := hinv current_part hcur
      simp only at h
      by_cases hc : current_part.objects.length > 0 ∧
          (current_part.payload.length + content_size) % 2 ^ 64 > builder.max_usize_bytes
      · rw [if_pos hc] at h
        split at h
        · exact absurd h (by simp)
        · split at h
          · exact absurd h (by simp)
          · rename_i cp2 hlast2
            simp only [Option.some.injEq, Except.ok.injEq] at h
            subst h
            have hcp2 : cp2 = OstreeStaticDeltaPartBuilder.mk 0 [] [] [] := by
              have h2 : (builder.parts ++
                  [OstreeStaticDeltaPartBuilder.mk 0 [] [] []]).getLast? = some cp2 := hlast2
              rw [List.getLast?_concat] at h2
              exact (Option.some.inj h2).symm
            refine ⟨?_, rfl⟩
            intro p hp
            simp only [allocate_part, List.dropLast_concat, List.mem_append,
              List.mem_singleton] at hp
            rcases hp with hp | hp
            · exact hinv p hp
            · rw [hp, hcp2]
              exact part_bound_fresh env _ _ checksum objtype content_stream content_size
                rfl rfl hlen hlt hk
      · rw [if_neg hc] at h
        split at h
        · exact absurd h (by simp)
        · split at h
          · exact absurd h (by simp)
          · rename_i cp2 hlast2
            simp only [Option.some.injEq, Except.ok.injEq] at h
            subst h
            have hcp2 : cp2 = current_part := by
              rw [hlast] at hlast2
              exact (Option.some.inj hlast2).symm
            refine ⟨?_, rfl⟩
            intro p hp
            simp only [List.mem_append, List.mem_singleton] at hp
            rcases hp with hp | hp
            · exact hinv p (List.mem_of_mem_dropLast hp)
            · rw [hp, hcp2]
              by_cases hempty : current_part.objects = []
              · exact part_bound_fresh env _ _ checksum objtype content_stream content_size
                  hempty (hcb.2.1 hempty) hlen hlt hk
              · have hpos : current_part.objects.length > 0 :=
                  List.length_pos.2 hempty
                have hsum : ¬ (current_part.payload.length + content_size) % 2 ^ 64 >
                    builder.max_usize_bytes := fun hgt => hc ⟨hpos, hgt⟩
                have h63 := hcb.2.2
                have hmod : (current_part.payload.length + content_size) % 2 ^ 64 =
                    current_part.payload.length + content_size :=
                  Nat.mod_eq_of_lt (by omega)
                rw [hmod] at hsum
                have hle : current_part.payload.length + content_size ≤
                    builder.max_usize_bytes := by omega
                exact part_bound_append env builder.max_usize_bytes _ checksum objtype
                  content_stream content_size hlen hmax hle

theorem delta_fold_bound (env : DeltaEnv) (repo : OstreeRepo) (keys : List ObjectName) :
    ∀ (builder b : OstreeStaticDeltaBuilder),
      (∀ p ∈ builder.parts, PartBound builder.max_usize_bytes p) →
      builder.max_usize_bytes < 2 ^ 63 →
      (∀ k ∈ keys, ∀ stream size,
        ostree_repo_load_object_stream env repo k.2 k.1 = .ok (some (stream, size)) →
        stream.length = size ∧ size < 2 ^ 63 ∧
        (OSTREE_OBJECT_TYPE_IS_META k.2 = true ∨ size ≤ builder.max_usize_bytes)) →
      delta_fold (fun b k => process_one_object env repo b k.1 k.2) keys builder =
        some (.ok b) →
      (∀ p ∈ b.parts, PartBound b.max_usize_bytes p) ∧
      b.max_usize_bytes = builder.max_usize_bytes := by
  induction keys with
  | nil =>
    intro builder b hinv _ _ h
    simp only [delta_fold, Option.some.injEq, Except.ok.injEq] at h
    subst h
    exact ⟨hinv, rfl⟩
  | cons k rest ih =>
    intro builder b hinv hmax hkeys h
    simp only [delta_fold] at h
    split at h
    · exact absurd h (by simp)
    · exact absurd h (by simp)
    · rename_i b1 h1
      obtain ⟨p1, p2⟩ := process_one_object_bound env repo builder b1 k.1 k.2 hinv hmax
        (hkeys k (List.mem_cons_self _ _)) h1
      have hkeys2 : ∀ k ∈ rest, ∀ stream size,
          ostree_repo_load_object_stream env repo k.2 k.1 = .ok (some (stream, size)) →
          stream.length = size ∧ size < 2 ^ 63 ∧
          (OSTREE_OBJECT_TYPE_IS_META k.2 = true ∨ size ≤ b1.max_usize_bytes) := by
        intro k2 hk2 stream size hl
        rw [p2]
        exact hkeys k2 (List.mem_cons_of_mem _ hk2) stream size hl
      obtain ⟨q1, q2⟩ := ih b1 b p1 (by rw [p2]; exact hmax) hkeys2 h
      exact ⟨q1, by rw [q2, p2]⟩

theorem scan_for_large_objects_small (env : DeltaEnv) (repo : OstreeRepo)
    (max_usize_bytes : Nat) (keys : List ObjectName) :
    ∀ fallback, scan_for_large_objects env repo max_usize_bytes keys = some (.ok fallback) →
      ∀ k ∈ keys, k ∉ fallback → ∀ stream size,
        ostree_repo_load_object_stream env repo k.2 k.1 = .ok (some (stream, size)) →
        size ≤ max_usize_bytes := by
  induction keys with
  | nil =>
    intro fallback _ k hk
    exact absurd hk (by simp)
  | cons k0 rest ih =>
    intro fallback h k hk hnot stream size hl
    obtain ⟨checksum, objtype⟩ := k0
    simp only [scan_for_large_objects] at h
    split at h
    · exact absurd h (by simp)
    · exact absurd h (by simp)
    · rename_i s0 size0 hl0
      split at h
      · exact absurd h (by simp)
      · exact absurd h (by simp)
      · rename_i fb hfb
        split at h
        · rename_i hgt
          simp only [Option.some.injEq, Except.ok.injEq] at h
          subst h
          rcases List.mem_cons.1 hk with hk | hk
          · exact absurd (by rw [hk]; exact List.mem_cons_self _ _) hnot
          · exact ih fb hfb k hk (fun hm => hnot (List.mem_cons_of_mem _ hm)) stream size hl
        · rename_i hle
          simp only [Option.some.injEq, Except.ok.injEq] at h
          subst h
          rcases List.mem_cons.1 hk with hk | hk
          · subst hk
            simp only at hl
            rw [hl0] at hl
            simp only [Except.ok.injEq, Option.some.injEq, Prod.mk.injEq] at hl
            omega
          · exact ih fb hfb k hk hnot stream size hl

theorem max_usize_bytes_no_overflow (max_usize : Option Nat) :
    ((max_usize.getD 32) % 2 ^ 32) * 1000 * 1000 % 2 ^ 64 =
      ((max_usize.getD 32) % 2 ^ 32) * 1000000 := by
  have h : (max_usize.getD 32) % 2 ^ 32 < 2 ^ 32 := Nat.mod_lt _ (by norm_num)
  rw [Nat.mod_eq_of_lt (by omega)]
  omega

theorem generate_delta_lowlatency_bound (env : DeltaEnv) (repo : OstreeRepo)
    (from_checksum to_checksum : Checksum) (max_usize : Option Nat)
    (b : OstreeStaticDeltaBuilder) (to_reachable : List ObjectName)
    (hiter : ∀ l, (env.g_hash_table_iter l).Perm l)
    (hto : env.ostree_repo_traverse_commit repo to_checksum = .ok to_reachable)
    (hstream : ∀ x ∈ to_reachable,
      stream_size_agrees (ostree_repo_load_object_stream env repo x.2 x.1) = true)
    (h : generate_delta_lowlatency env repo from_checksum to_checksum
      (static_delta_builder_new max_usize) = some (.ok b)) :
    (∀ p ∈ b.parts, PartBound (((max_usize.getD 32) % 2 ^ 32) * 1000000) p) := by
  have hmaxeq : (static_delta_builder_new max_usize).max_usize_bytes =
      ((max_usize.getD 32) % 2 ^ 32) * 1000000 := max_usize_bytes_no_overflow max_usize
  have hmaxlt : ((max_usize.getD 32) % 2 ^ 32) * 1000000 < 2 ^ 63 := by
    have h : (max_usize.getD 32) % 2 ^ 32 < 2 ^ 32 := Nat.mod_lt _ (by norm_num)
    omega
  have hsize : ∀ x ∈ to_reachable, ∀ stream size,
      ostree_repo_load_object_stream env repo x.2 x.1 = .ok (some (stream, size)) →
      stream.length = size ∧ size < 2 ^ 63 := by
    intro x hx stream size hl
    have hs := hstream x hx
    rw [hl] at hs
    simpa [stream_size_agrees] using hs
  unfold generate_delta_lowlatency at h
  split at h
  · exact absurd h (by simp)
  · split at h
    · exact absurd h (by simp)
    · split at h
      · exact absurd h (by simp)
      · split at h
        · exact absurd h (by simp)
        · rename_i from_reachable hfrom
          split at h
          · exact absurd h (by simp)
          · rename_i to_r hto2
            have hto3 : to_r = to_reachable := by
              rw [hto] at hto2
              exact (Except.ok.inj hto2).symm
            subst hto3
            simp only at h
            split at h
            · exact absurd h (by simp)
            · exact absurd h (by simp)
            · rename_i fallback hscan
              split at h
              · exact absurd h (by simp)
              · exact absurd h (by simp)
              · rename_i b1 hfold1
                have hsmall := scan_for_large_objects_small env repo _ _ fallback hscan
                have h0 : ∀ p ∈ (allocate_part { static_delta_builder_new max_usize with
                    fallback_objects :=
                      (static_delta_builder_new max_usize).fallback_objects ++ fallback }).parts,
                    PartBound (allocate_part { static_delta_builder_new max_usize with
                      fallback_objects :=
                        (static_delta_builder_new max_usize).fallback_objects ++
                          fallback }).max_usize_bytes p := by
                  intro p hp
                  simp only [allocate_part, static_delta_builder_new, List.nil_append,
                    List.mem_singleton] at hp
                  subst hp
                  refine ⟨Or.inl (Nat.zero_le _), fun _ => rfl, ?_⟩
                  simp
                obtain ⟨p1, p2⟩ := delta_fold_bound env repo _ _ b1 h0
                  (by
                    show (static_delta_builder_new max_usize).max_usize_bytes < 2 ^ 63
                    rw [hmaxeq]; exact hmaxlt)
                  (by
                    intro k hk stream size hl
                    have hk2 := (hiter _).mem_iff.1 hk
                    unfold new_reachable_metadata at hk2
                    have hk3 := List.mem_of_mem_erase hk2
                    rw [List.mem_dedup] at hk3
                    have hk4 := (List.mem_filter.1 hk3).2
                    simp only [Bool.and_eq_true] at hk4
                    obtain ⟨a1, a2⟩ := hsize k (List.mem_filter.1 hk3).1 stream size hl
                    exact ⟨a1, a2, Or.inl hk4.2⟩)
                  hfold1
                obtain ⟨q1, q2⟩ := delta_fold_bound env repo _ _ b p1
                  (by
                    rw [p2]
                    show (static_delta_builder_new max_usize).max_usize_bytes < 2 ^ 63
                    rw [hmaxeq]; exact hmaxlt)
                  (by
                    intro k hk stream size hl
                    have hk2 := List.mem_filter.1 ((hiter _).mem_iff.1 hk)
                    have hk5 : k ∈ to_r := by
                      have hk6 := hk2.1
                      unfold new_reachable_content at hk6
                      rw [List.mem_dedup] at hk6
                      exact (List.mem_filter.1 hk6).1
                    obtain ⟨a1, a2⟩ := hsize k hk5 stream size hl
                    refine ⟨a1, a2, Or.inr ?_⟩
                    rw [p2]
                    have hk3 : k ∉ fallback := by simpa using hk2.2
                    exact hsmall k ((hiter _).mem_iff.2 hk2.1) hk3 stream size hl)
                  h
                intro p hp
                have hq := q1 p hp
                rw [q2, p2] at hq
                have hm : (allocate_part { static_delta_builder_new max_usize with
                    fallback_objects :=
                      (static_delta_builder_new max_usize).fallback_objects ++
                        fallback }).max_usize_bytes =
                    ((max_usize.getD 32) % 2 ^ 32) * 1000000 := hmaxeq
                rw [hm] at hq
                exact hq


/-- C19 (amended): `max_usize_bytes` is `M * 1000000` for the 32-bit value `M` of
`max-usize` (default 32), computed in 64 bits without overflow; and in every
delta produced by `ostree_repo_static_delta_generate` the part files and part
headers are those of the builder of `generate_delta_lowlatency`, in which the
payload of a part is at most `max_usize_bytes` long unless the part holds
exactly one object and that object is a metadata object.  The statement needs
every hash table iteration to be a permutation of the keys and the streams of
the objects reachable from `to` to have the reported size, below `2 ^ 63`. -/
theorem delta_part_payload_within_max_usize (env : DeltaEnv) (self : OstreeRepo)
    (from_checksum to_checksum : Checksum) (metadata : Option DeltaVariant)
    (max_usize : Option Nat) (now : Nat) (delta : StaticDeltaDir)
    (to_reachable : List ObjectName)
    (hgen : ostree_repo_static_delta_generate env self from_checksum to_checksum metadata
      max_usize now = some (.ok delta))
    (hiter : ∀ l, (env.g_hash_table_iter l).Perm l)
    (hto : env.ostree_repo_traverse_commit self to_checksum = .ok to_reachable)
    (hstream : ∀ x ∈ to_reachable,
      stream_size_agrees (ostree_repo_load_object_stream env self x.2 x.1) = true) :
    (static_delta_builder_new max_usize).max_usize_bytes =
      ((max_usize.getD 32) % 2 ^ 32) * 1000000 ∧
    ∃ builder, generate_delta_lowlatency env self from_checksum to_checksum
        (static_delta_builder_new max_usize) = some (.ok builder) ∧
      delta.parts = builder.parts.map (delta_part_file env) ∧
      superblock_array delta.meta 6 = builder.parts.map (delta_part_header env) ∧
      ∀ part ∈ builder.parts,
        part.payload.length ≤ ((max_usize.getD 32) % 2 ^ 32) * 1000000 ∨
        ∃ checksum objtype, part.objects = [(checksum, objtype)] ∧
          OSTREE_OBJECT_TYPE_IS_META objtype = true := by
  refine ⟨max_usize_bytes_no_overflow max_usize, ?_⟩
  unfold ostree_repo_static_delta_generate at hgen
  simp only at hgen
  split at hgen
  · exact absurd hgen (by simp)
  · split at hgen
    · exact absurd hgen (by simp)
    · exact absurd hgen (by simp)
    · rename_i builder hb
      split at hgen
      · exact absurd hgen (by simp)
      · exact absurd hgen (by simp)
      · simp only [Option.some.injEq, Except.ok.injEq] at hgen
        subst hgen
        refine ⟨builder, hb, rfl, rfl, ?_⟩
        intro part hpart
        exact (generate_delta_lowlatency_bound env self from_checksum to_checksum max_usize
          builder to_reachable hiter hto hstream hb part hpart).1

/-- Witness for C19: the sample delta generated with the default `max-usize`. -/
theorem delta_part_payload_within_max_usize_witness :
    (static_delta_builder_new none).max_usize_bytes = ((none.getD 32) % 2 ^ 32) * 1000000 ∧
    ∃ builder, generate_delta_lowlatency sample_delta_env delta_repo_a sample_commit_csum
        sample_commit_b_csum (static_delta_builder_new none) = some (.ok builder) ∧
      sample_delta_default.parts = builder.parts.map (delta_part_file sample_delta_env) ∧
      superblock_array sample_delta_default.meta 6 =
        builder.parts.map (delta_part_header sample_delta_env) ∧
      ∀ part ∈ builder.parts,
        part.payload.length ≤ ((none.getD 32) % 2 ^ 32) * 1000000 ∨
        ∃ checksum objtype, part.objects = [(checksum, objtype)] ∧
          OSTREE_OBJECT_TYPE_IS_META objtype = true :=
  delta_part_payload_within_max_usize sample_delta_env delta_repo_a sample_commit_csum
    sample_commit_b_csum none none 0 sample_delta_default sample_to_reachable
    (generation_succeeded_eq _ (by decide!)) (fun l => List.reverse_perm l) (by decide!)
    (by decide!)

/-- Counterexample to C19 as stated: with `max-usize` 0 the bound is 0 bytes, and the
only part of the sample delta holds the new tree object with a payload of two
bytes. -/
theorem delta_part_exceeds_max_usize :
    generation_succeeded
      (ostree_repo_static_delta_generate sample_delta_env delta_repo_a sample_commit_csum
        sample_commit_b_csum none (some 0) 0) = true ∧
    (static_delta_builder_new (some 0)).max_usize_bytes = 0 ∧
    sample_delta.parts = (match sample_delta_builder with
      | some (.ok builder) => builder.parts.map (delta_part_file sample_delta_env)
      | _ => []) ∧
    (match sample_delta_builder with
      | some (.ok builder) =>
        builder.parts.map (fun part => (part.objects, part.payload.length))
      | _ => []) = [([(sample_tree_b_csum, OstreeObjectType.DIR_TREE)], 2)] := by
  refine ⟨?_, ?_, ?_, ?_⟩ <;> decide!


/-! ## The synchronous fetch helper -/

/-- C20 (evaluation): in the object phase with the six counters at zero and a
synchronous fetch in flight, one idle check stops the main loop although
`fetching_sync_uri` is still set and `fetch_uri_sync_on_complete` has not run;
in the ref phase the same idle check does not stop it. -/
theorem idle_check_stops_loop_during_sync_fetch :
    sync_fetch_in_objects_phase.phase = PullPhase.FETCHING_OBJECTS ∧
    sync_fetch_in_objects_phase.fetching_sync_uri = some "deltas/from-to/meta" ∧
    current_idle sync_fetch_in_objects_phase = true ∧
    sync_fetch_in_objects_phase.loop_quit_calls = 0 ∧
    (idle_check_outstanding_requests sync_fetch_in_objects_phase).loop_quit_calls = 1 ∧
    (idle_check_outstanding_requests sync_fetch_in_objects_phase).fetching_sync_uri =
      some "deltas/from-to/meta" ∧
    (idle_check_outstanding_requests
      { sync_fetch_in_objects_phase with phase := PullPhase.FETCHING_REFS }).loop_quit_calls
      = 0 := by
  refine ⟨?_, ?_, ?_, ?_, ?_, ?_, ?_⟩ <;> decide!

/-! ## GPG verification -/

theorem gpg_check_signatures_eq (env : GpgEnv) (path : String)
    (keyringdir extra_keyring : Option String)
    (htmp : ∀ i, env.gs_file_open_in_tmpdir i = none)
    (hrep : ∀ i sig, env.g_file_replace_contents i sig = none)
    (hcheck : ∀ sig, ∃ valid,
      env._ostree_gpg_verifier_check_signature keyringdir extra_keyring path sig = .ok valid)
    (sigs : List (List Nat)) :
    ∀ i, gpg_check_signatures env path keyringdir extra_keyring i sigs =
      .ok (decide (∃ sig ∈ sigs,
        env._ostree_gpg_verifier_check_signature keyringdir extra_keyring path sig =
          .ok true)) := by
  induction sigs with
  | nil => intro i; simp [gpg_check_signatures]
  | cons sig rest ih =>
    intro i
    obtain ⟨valid, hv⟩ := hcheck sig
    simp only [gpg_check_signatures, htmp, hrep, hv, ih]
    cases valid
    · simp [hv]
    · simp [hv]

theorem gint_of_gsize_small (n : Nat) (h : n < 2 ^ 31) : (gint_of_gsize n).toNat = n := by
  unfold gint_of_gsize
  have h2 : n % 2 ^ 32 = n := Nat.mod_eq_of_lt (by omega)
  rw [h2, if_pos h]
  simp

/-- C18: with GPG support built in, and when creating the verifier, adding the
keyrings and writing the temporary signature files do not fail and the
verifier answers for every signature, `_ostree_repo_gpg_verify_file_with_metadata`
accepts the file if and only if the metadata holds `ostree.gpgsigs` and the
verifier finds one of its signatures valid; it fails with the no-signatures
error when the key is missing (or there is no metadata) and with the
none-in-trusted-keyring error when the key is present and no signature is
valid.  The array has fewer than `2 ^ 31` signatures. -/
theorem gpg_verify_accepts_iff_some_signature_valid (env : GpgEnv) (path : String)
    (metadata : Option GVariant) (keyringdir extra_keyring : Option String)
    (hgpg : env.HAVE_GPGME = true)
    (hnew : env._ostree_gpg_verifier_new = none)
    (hdir : ∀ d, keyringdir = some d → env._ostree_gpg_verifier_add_keyring_dir d = none)
    (hextra : ∀ k, extra_keyring = some k → env._ostree_gpg_verifier_add_keyring k = none)
    (htmp : ∀ i, env.gs_file_open_in_tmpdir i = none)
    (hrep : ∀ i sig, env.g_file_replace_contents i sig = none)
    (hcheck : ∀ sig, ∃ valid,
      env._ostree_gpg_verifier_check_signature keyringdir extra_keyring path sig = .ok valid)
    (hlen : ∀ sigs, metadata.bind g_variant_lookup_gpgsigs = some sigs →
      sigs.length < 2 ^ 31) :
    (_ostree_repo_gpg_verify_file_with_metadata env path metadata keyringdir extra_keyring
        = .ok () ↔
      ∃ sigs, metadata.bind g_variant_lookup_gpgsigs = some sigs ∧
        ∃ sig ∈ sigs,
          env._ostree_gpg_verifier_check_signature keyringdir extra_keyring path sig =
            .ok true) ∧
    (metadata.bind g_variant_lookup_gpgsigs = none →
      _ostree_repo_gpg_verify_file_with_metadata env path metadata keyringdir extra_keyring
        = .error no_signatures_found_error) ∧
    (∀ sigs, metadata.bind g_variant_lookup_gpgsigs = some sigs →
      (∀ sig ∈ sigs,
        env._ostree_gpg_verifier_check_signature keyringdir extra_keyring path sig ≠
          .ok true) →
      _ostree_repo_gpg_verify_file_with_metadata env path metadata keyringdir extra_keyring
        = .error none_in_trusted_keyring_error) := by
  have hd : keyringdir.bind env._ostree_gpg_verifier_add_keyring_dir = none := by
    cases hk : keyringdir with
    | none => rfl
    | some d => exact hdir d hk
  have he : extra_keyring.bind env._ostree_gpg_verifier_add_keyring = none := by
    cases hk : extra_keyring with
    | none => rfl
    | some k => exact hextra k hk
  cases hm : metadata.bind g_variant_lookup_gpgsigs with
  | none =>
    have hres : _ostree_repo_gpg_verify_file_with_metadata env path metadata keyringdir
        extra_keyring = .error no_signatures_found_error := by
      unfold _ostree_repo_gpg_verify_file_with_metadata
      simp [hgpg, hnew, hd, he, hm]
    refine ⟨?_, fun _ => hres, ?_⟩
    · rw [hres]
      simp
    · intro sigs h
      exact absurd h (by simp)
  | some sigs =>
    have hl := hlen sigs hm
    have hres : _ostree_repo_gpg_verify_file_with_metadata env path metadata keyringdir
        extra_keyring =
        if (decide (∃ sig ∈ sigs,
          env._ostree_gpg_verifier_check_signature keyringdir extra_keyring path sig =
            .ok true)) = true then .ok ()
        else .error none_in_trusted_keyring_error := by
      unfold _ostree_repo_gpg_verify_file_with_metadata
      simp only [hgpg, hnew, hd, he, hm, gint_of_gsize_small _ hl, List.take_length,
        gpg_check_signatures_eq env path keyringdir extra_keyring htmp hrep hcheck]
      by_cases hex : ∃ sig ∈ sigs,
          env._ostree_gpg_verifier_check_signature keyringdir extra_keyring path sig =
            .ok true
      · simp [hex]
      · simp [hex]
    refine ⟨?_, fun h => absurd h (by simp), ?_⟩
    · rw [hres]
      constructor
      · intro h
        by_cases hex : ∃ sig ∈ sigs,
            env._ostree_gpg_verifier_check_signature keyringdir extra_keyring path sig =
              .ok true
        · exact ⟨sigs, rfl, hex⟩
        · simp [hex] at h
      · rintro ⟨sigs2, h2, hex⟩
        have : sigs2 = sigs := (Option.some.inj h2).symm
        subst this
        simp [hex]
    · intro sigs2 h2 hnone
      have : sigs2 = sigs := (Option.some.inj h2).symm
      subst this
      rw [hres]
      have hex : ¬ ∃ sig ∈ sigs2,
          env._ostree_gpg_verifier_check_signature keyringdir extra_keyring path sig =
            .ok true := by
        rintro ⟨sig, hs, hv⟩
        exact hnone sig hs hv
      simp [hex]

/-- Witness for C18: metadata with the signatures `[1]` and `[7]`, of which the
second is valid. -/
theorem gpg_verify_accepts_iff_some_signature_valid_witness :
    _ostree_repo_gpg_verify_file_with_metadata sample_gpg_env "commit"
      (some (GVariant.detached_meta (some [[1], [7]]))) none none = .ok () :=
  (gpg_verify_accepts_iff_some_signature_valid sample_gpg_env "commit"
    (some (GVariant.detached_meta (some [[1], [7]]))) none none rfl rfl
    (fun _ h => absurd h (by simp)) (fun _ h => absurd h (by simp)) (fun _ => rfl)
    (fun _ _ => rfl) (fun sig => ⟨decide (sig = [7]), rfl⟩)
    (fun sigs h => by
      have h2 : sigs = [[1], [7]] := (Option.some.inj h).symm
      subst h2
      decide)).1.2
    ⟨[[1], [7]], rfl, [7], by decide, rfl⟩


/-! ## fsck -/

theorem ostree_repo_load_variant_ne_ok_none : ∀ (self : OstreeRepo)
    (objtype : OstreeObjectType) (sha256 : Checksum),
    ostree_repo_load_variant self objtype sha256 ≠ .ok none
  | .mk mode objects_dir none, objtype, sha256 => by
    rw [ostree_repo_load_variant_unfold]
    simp only [OstreeRepo.mode_mk, OstreeRepo.parent_repo_mk]
    cases (OstreeRepo.mk mode objects_dir none).at_path
      (_ostree_loose_path sha256 objtype mode) <;> simp
  | .mk mode objects_dir (some parent), objtype, sha256 => by
    have ih := ostree_repo_load_variant_ne_ok_none parent objtype sha256
    rw [ostree_repo_load_variant_unfold]
    simp only [OstreeRepo.mode_mk, OstreeRepo.parent_repo_mk]
    cases (OstreeRepo.mk mode objects_dir (some parent)).at_path
      (_ostree_loose_path sha256 objtype mode) <;> simp [ih]

theorem ostree_repo_load_file_unfold (parse : ObjFile → Option GError) (self : OstreeRepo)
    (checksum : Checksum) :
    ostree_repo_load_file parse self checksum =
      match self.at_path (_ostree_loose_path checksum OstreeObjectType.FILE self.mode) with
      | .err errno => .error (ot_util_set_error_from_errno errno)
      | .file f =>
        match (if self.mode = OstreeRepoMode.ARCHIVE_Z2 then parse f else none) with
        | some e => .error e
        | none => .ok f
      | .noent =>
        match self.parent_repo with
        | some parent => ostree_repo_load_file parse parent checksum
        | none => .error (file_not_found_error checksum) := by
  obtain ⟨mode, objects_dir, parent⟩ := self
  rw [ostree_repo_load_file.eq_def]
  simp only [OstreeRepo.mode_mk, OstreeRepo.parent_repo_mk]

theorem load_fsck_input_ne_none (env : FsckEnv) (repo : OstreeRepo) (checksum : Checksum)
    (objtype : OstreeObjectType) : load_fsck_input env repo checksum objtype ≠ none := by
  unfold load_fsck_input
  have h0 := ostree_repo_load_variant_ne_ok_none repo objtype checksum
  split
  · split
    · split <;> simp
    · rename_i h
      exact absurd h h0
    · dsimp only
      split <;> simp
  · split
    · split <;> simp
    · split <;> simp

theorem load_fsck_input_congr (env : FsckEnv) (repo cur : OstreeRepo) (checksum : Checksum)
    (objtype : OstreeObjectType) (hmode : cur.mode = repo.mode)
    (hparent : cur.parent_repo = repo.parent_repo)
    (hpath : cur.at_path (_ostree_loose_path checksum objtype repo.mode) =
      repo.at_path (_ostree_loose_path checksum objtype repo.mode)) :
    load_fsck_input env cur checksum objtype = load_fsck_input env repo checksum objtype := by
  unfold load_fsck_input
  have h1 : ostree_repo_load_variant cur objtype checksum =
      ostree_repo_load_variant repo objtype checksum := by
    rw [ostree_repo_load_variant_unfold cur, ostree_repo_load_variant_unfold repo, hmode,
      hparent, hpath]
  cases hk : OSTREE_OBJECT_TYPE_IS_META objtype with
  | true => simp only [if_true, h1]
  | false =>
    have hf : objtype = OstreeObjectType.FILE := by
      cases objtype <;> first | rfl | exact absurd hk (by decide)
    subst hf
    have h2 : ostree_repo_load_file env.ostree_content_stream_parse cur checksum =
        ostree_repo_load_file env.ostree_content_stream_parse repo checksum := by
      rw [ostree_repo_load_file_unfold _ cur, ostree_repo_load_file_unfold _ repo, hmode,
        hparent, hpath]
    simp only [Bool.false_eq_true, if_false, h2]

theorem lookup_filter_ne (objects_dir : List (LoosePath × LooseFile)) (p q : LoosePath)
    (h : q ≠ p) :
    (objects_dir.filter (fun e => decide (e.1 ≠ p))).lookup q = objects_dir.lookup q := by
  induction objects_dir with
  | nil => rfl
  | cons e rest ih =>
    obtain ⟨k, v⟩ := e
    by_cases hk : k = p
    · subst hk
      have hq : (q == k) = false := by simpa using h
      simp only [List.filter_cons, ne_eq, not_true_eq_false, decide_False, List.lookup_cons,
        hq, ih, Bool.false_eq_true, if_false]
    · simp only [List.filter_cons, ne_eq, hk, not_false_eq_true, decide_True, if_true,
        List.lookup_cons, ih]

theorem lookup_filter_self (objects_dir : List (LoosePath × LooseFile)) (p : LoosePath) :
    (objects_dir.filter (fun e => decide (e.1 ≠ p))).lookup p = none := by
  induction objects_dir with
  | nil => rfl
  | cons e rest ih =>
    obtain ⟨k, v⟩ := e
    by_cases hk : k = p
    · subst hk
      simp only [List.filter_cons, ne_eq, not_true_eq_false, decide_False, ih,
        Bool.false_eq_true, if_false]
    · have hq : (p == k) = false := by simpa using (fun h : p = k => hk h.symm)
      simp only [List.filter_cons, ne_eq, hk, not_false_eq_true, decide_True, if_true,
        List.lookup_cons, hq, ih]

theorem ostree_repo_delete_object_ok (repo deleted : OstreeRepo) (objtype : OstreeObjectType)
    (sha256 : Checksum)
    (h : ostree_repo_delete_object repo objtype sha256 = .ok deleted) :
    deleted.mode = repo.mode ∧ deleted.parent_repo = repo.parent_repo ∧
    deleted.at_path (_ostree_loose_path sha256 objtype repo.mode) = LooseFile.noent ∧
    ∀ q, q ≠ _ostree_loose_path sha256 objtype repo.mode →
      deleted.at_path q = repo.at_path q := by
  obtain ⟨mode, objects_dir, parent⟩ := repo
  unfold ostree_repo_delete_object at h
  simp only at h
  split at h
  · exact absurd h (by simp)
  · exact absurd h (by simp)
  · simp only [Except.ok.injEq] at h
    subst h
    refine ⟨rfl, rfl, ?_, ?_⟩
    · simp only [OstreeRepo.at_path, OstreeRepo.objects_dir_mk, OstreeRepo.mode_mk,
        lookup_filter_self]
    · intro q hq
      simp only [OstreeRepo.mode_mk] at hq
      simp only [OstreeRepo.at_path, OstreeRepo.objects_dir_mk, lookup_filter_ne _ _ _ hq]

theorem load_and_fsck_one_object_cases (env : FsckEnv) (opt_delete : Bool) (cur : OstreeRepo)
    (checksum : Checksum) (objtype : OstreeObjectType) (found : Bool) :
    ∃ ret r f, load_and_fsck_one_object env opt_delete cur checksum objtype found =
        some (ret, r, f) ∧
      (ret = FsckReturn.TRUE → f = true ∨ (f = found ∧ r = cur)) := by
  unfold load_and_fsck_one_object
  have h0 := load_fsck_input_ne_none env cur checksum objtype
  split
  · rename_i h
    exact absurd h h0
  · exact ⟨_, _, _, rfl, fun h => by simp at h⟩
  · exact ⟨_, _, _, rfl, fun _ => Or.inl rfl⟩
  · split
    · exact ⟨_, _, _, rfl, fun h => by simp at h⟩
    · split
      · split
        · split
          · exact ⟨_, _, _, rfl, fun _ => Or.inl rfl⟩
          · exact ⟨_, _, _, rfl, fun _ => Or.inl rfl⟩
        · exact ⟨_, _, _, rfl, fun h => by simp at h⟩
      · exact ⟨_, _, _, rfl, fun _ => Or.inr ⟨rfl, rfl⟩⟩

theorem load_and_fsck_one_object_intact (env : FsckEnv) (opt_delete : Bool) (cur : OstreeRepo)
    (x : ObjectName) (found : Bool) (h : fsck_object_intact env cur x = true) :
    load_and_fsck_one_object env opt_delete cur x.1 x.2 found =
      some (FsckReturn.TRUE, cur, found) := by
  unfold fsck_object_intact at h
  unfold load_and_fsck_one_object
  split at h
  · rename_i input hin
    rw [hin]
    dsimp only
    split at h
    · rename_i tmp hsum
      rw [hsum]
      have heq : x.1 = tmp := of_decide_eq_true h
      simp [heq]
    · exact absurd h (by simp)
  · exact absurd h (by simp)

theorem load_and_fsck_one_object_corrupted (env : FsckEnv) (cur : OstreeRepo)
    (x : ObjectName) (found : Bool) (h : fsck_object_corrupted env cur x = true) :
    load_and_fsck_one_object env false cur x.1 x.2 found =
      some (FsckReturn.FALSE (some (corrupted_object_error env x.1 x.2
        (fsck_actual_checksum env cur x))), cur, found) ∧
    ∃ deleted, ostree_repo_delete_object cur x.2 x.1 = .ok deleted ∧
      load_and_fsck_one_object env true cur x.1 x.2 found =
        some (FsckReturn.TRUE, deleted, true) := by
  unfold fsck_object_corrupted at h
  simp only [Bool.and_eq_true] at h
  obtain ⟨hfile, hsum⟩ := h
  have hdel : ∃ deleted, ostree_repo_delete_object cur x.2 x.1 = .ok deleted := by
    obtain ⟨mode, objects_dir, parent⟩ := cur
    unfold ostree_repo_delete_object
    simp only [OstreeRepo.mode_mk] at hfile
    dsimp only
    split at hfile
    · rename_i f hf
      rw [hf]
      exact ⟨_, rfl⟩
    · exact absurd hfile (by simp)
  obtain ⟨deleted, hdel⟩ := hdel
  unfold load_and_fsck_one_object fsck_actual_checksum
  split at hsum
  · rename_i input hin
    rw [hin]
    dsimp only
    split at hsum
    · rename_i tmp htmp
      rw [htmp]
      have hne : x.1 ≠ tmp := of_decide_eq_true hsum
      refine ⟨by simp [hne], deleted, hdel, ?_⟩
      simp [hne, hdel]
    · exact absurd hsum (by simp)
  · exact absurd hsum (by simp)

theorem fsck_objects_loop_general (env : FsckEnv) (opt_delete : Bool) (repo : OstreeRepo)
    (x : ObjectName) (hx : fsck_object_corrupted env repo x = true) (l : List ObjectName) :
    ∀ (cur : OstreeRepo) (found : Bool), (found = true ∨ (cur = repo ∧ x ∈ l)) →
      ∃ ret r f, fsck_objects_loop env opt_delete l cur found = some (ret, r, f) ∧
        (ret = FsckReturn.TRUE → f = true) := by
  induction l with
  | nil =>
    intro cur found h
    rcases h with h | h
    · exact ⟨_, _, _, rfl, fun _ => h⟩
    · exact absurd h.2 (by simp)
  | cons y rest ih =>
    intro cur found h
    obtain ⟨c, k⟩ := y
    obtain ⟨ret, r, f, hstep, hprop⟩ :=
      load_and_fsck_one_object_cases env opt_delete cur c k found
    cases ret with
    | FALSE e =>
      refine ⟨FsckReturn.FALSE e, r, f, ?_, fun h => by simp at h⟩
      simp only [fsck_objects_loop, hstep]
    | TRUE =>
      have hloop : fsck_objects_loop env opt_delete ((c, k) :: rest) cur found =
          fsck_objects_loop env opt_delete rest r f := by
        simp only [fsck_objects_loop, hstep]
      rw [hloop]
      apply ih
      rcases hprop rfl with hf | ⟨hf, hr⟩
      · exact Or.inl hf
      · rcases h with h | ⟨hcur, hmem⟩
        · exact Or.inl (by rw [hf]; exact h)
        · rcases List.mem_cons.1 hmem with hxy | hxy
          · subst hcur
            have hcor := load_and_fsck_one_object_corrupted env cur x found hx
            rw [hxy] at hcor
            cases opt_delete with
            | false =>
              rw [hcor.1] at hstep
              simp at hstep
            | true =>
              obtain ⟨deleted, _, hd⟩ := hcor.2
              rw [hd] at hstep
              simp only [Option.some.injEq, Prod.mk.injEq, true_and] at hstep
              exact Or.inl hstep.2.symm
          · exact Or.inr ⟨by rw [hr, hcur], hxy⟩

theorem fsck_objects_loop_intact (env : FsckEnv) (opt_delete : Bool) (l : List ObjectName) :
    ∀ (cur : OstreeRepo) (found : Bool),
      (∀ y ∈ l, fsck_object_intact env cur y = true) →
      fsck_objects_loop env opt_delete l cur found = some (FsckReturn.TRUE, cur, found) := by
  induction l with
  | nil => intro cur found _; rfl
  | cons y rest ih =>
    intro cur found h
    obtain ⟨c, k⟩ := y
    have hstep := load_and_fsck_one_object_intact env opt_delete cur (c, k) found
      (h (c, k) (List.mem_cons_self _ _))
    simp only at hstep
    simp only [fsck_objects_loop, hstep]
    exact ih cur found (fun y hy => h y (List.mem_cons_of_mem _ hy))

theorem fsck_objects_loop_append (env : FsckEnv) (opt_delete : Bool)
    (l1 l2 : List ObjectName) :
    ∀ (cur r : OstreeRepo) (found f : Bool),
      fsck_objects_loop env opt_delete l1 cur found = some (FsckReturn.TRUE, r, f) →
      fsck_objects_loop env opt_delete (l1 ++ l2) cur found =
        fsck_objects_loop env opt_delete l2 r f := by
  induction l1 with
  | nil =>
    intro cur r found f h
    simp only [fsck_objects_loop, Option.some.injEq, Prod.mk.injEq, true_and] at h
    rw [h.1, h.2]
    rfl
  | cons y rest ih =>
    intro cur r found f h
    obtain ⟨c, k⟩ := y
    simp only [List.cons_append, fsck_objects_loop] at h ⊢
    split at h
    · exact absurd h (by simp)
    · exact absurd h (by simp)
    · rename_i r1 f1 hstep
      exact ih r1 r f1 f h

theorem fsck_object_intact_after_delete (env : FsckEnv) (repo deleted : OstreeRepo)
    (x y : ObjectName) (hxy : y ≠ x)
    (hdel : ostree_repo_delete_object repo x.2 x.1 = .ok deleted)
    (hy : fsck_object_intact env repo y = true) :
    fsck_object_intact env deleted y = true := by
  obtain ⟨hmode, hparent, _, hother⟩ := ostree_repo_delete_object_ok repo deleted x.2 x.1 hdel
  have hpath : _ostree_loose_path y.1 y.2 repo.mode ≠ _ostree_loose_path x.1 x.2 repo.mode := by
    intro h
    obtain ⟨h1, h2⟩ := _ostree_loose_path_injective _ _ _ _ _ h
    exact hxy (Prod.ext h1 h2)
  have hload := load_fsck_input_congr env repo deleted y.1 y.2 hmode hparent
    (hother _ hpath)
  unfold fsck_object_intact at hy ⊢
  rw [hload]
  exact hy


/-- C17 (amended): let the listing of the repository succeed and the commits it
yields reach the set `reachable`, and let `x` be an object of that set whose
loose file is in the repository, loads and validates, and hashes to another
checksum than its name.  Then `ostree_builtin_fsck` returns failure, with and
without `--delete`.  When the reachable objects are distinct and all others
are intact, the failure without `--delete` is the error that names `x` as
corrupted with its actual checksum, and the repository is unchanged; with
`--delete` the loose file of `x` is deleted, the loop continues to the end and
the failure is `Repository corruption encountered`. -/
theorem fsck_fails_on_reachable_corrupted_object (env : FsckEnv) (repo : OstreeRepo)
    (objects reachable : List ObjectName) (x : ObjectName)
    (hiter : ∀ l, (env.g_hash_table_iter l).Perm l)
    (hlist : ostree_repo_list_objects repo { loose := false, packed := false, all := true } =
      .ok objects)
    (htrav : fsck_traverse_commits env repo (env.g_hash_table_iter (fsck_commits env objects))
      [] = some (.ok reachable))
    (hx : x ∈ reachable)
    (hcorrupt : fsck_object_corrupted env repo x = true) :
    (∀ opt_delete, ∃ e r,
      ostree_builtin_fsck env opt_delete repo = some (FsckReturn.FALSE e, r)) ∧
    (reachable.Nodup →
      (∀ y ∈ reachable, y ≠ x → fsck_object_intact env repo y = true) →
      ostree_builtin_fsck env false repo =
        some (FsckReturn.FALSE (some (corrupted_object_error env x.1 x.2
          (fsck_actual_checksum env repo x))), repo) ∧
      ∃ deleted, ostree_repo_delete_object repo x.2 x.1 = .ok deleted ∧
        ostree_builtin_fsck env true repo =
          some (FsckReturn.FALSE (some repository_corruption_error), deleted) ∧
        deleted.at_path (_ostree_loose_path x.1 x.2 repo.mode) = LooseFile.noent) := by
  have hxl : x ∈ env.g_hash_table_iter reachable := (hiter reachable).mem_iff.2 hx
  have hreach : ∀ opt_delete, fsck_reachable_objects_from_commits env opt_delete repo
      (fsck_commits env objects) false =
      fsck_objects_loop env opt_delete (env.g_hash_table_iter reachable) repo false := by
    intro opt_delete
    unfold fsck_reachable_objects_from_commits
    rw [htrav]
  refine ⟨?_, ?_⟩
  · intro opt_delete
    obtain ⟨ret, r, f, hloop, hf⟩ := fsck_objects_loop_general env opt_delete repo x hcorrupt
      (env.g_hash_table_iter reachable) repo false (Or.inr ⟨rfl, hxl⟩)
    unfold ostree_builtin_fsck
    rw [hlist]
    simp only [hreach, hloop]
    cases ret with
    | FALSE e => exact ⟨e, r, rfl⟩
    | TRUE =>
      have hft := hf rfl
      subst hft
      exact ⟨some repository_corruption_error, r, rfl⟩
  · intro hnodup hintact
    have hnd : (env.g_hash_table_iter reachable).Nodup :=
      (hiter reachable).nodup_iff.2 hnodup
    obtain ⟨l1, l2, hl⟩ := List.append_of_mem hxl
    rw [hl] at hnd
    have hx1 : x ∉ l1 := fun h =>
      (List.nodup_append.1 hnd).2.2 h (List.mem_cons_self _ _)
    have hx2 : x ∉ l2 := (List.nodup_cons.1 (List.nodup_append.1 hnd).2.1).1
    have hmem : ∀ y, y ∈ l1 ∨ y ∈ l2 → y ∈ reachable := by
      intro y hy
      apply (hiter reachable).mem_iff.1
      rw [hl]
      rcases hy with hy | hy
      · exact List.mem_append_left _ hy
      · exact List.mem_append_right _ (List.mem_cons_of_mem _ hy)
    have h1 : ∀ y ∈ l1, fsck_object_intact env repo y = true := fun y hy =>
      hintact y (hmem y (Or.inl hy)) (fun h => hx1 (h ▸ hy))
    have h2 : ∀ y ∈ l2, fsck_object_intact env repo y = true := fun y hy =>
      hintact y (hmem y (Or.inr hy)) (fun h => hx2 (h ▸ hy))
    have hloop1 : ∀ opt_delete,
        fsck_objects_loop env opt_delete (env.g_hash_table_iter reachable) repo false =
          fsck_objects_loop env opt_delete (x :: l2) repo false := by
      intro opt_delete
      rw [hl]
      exact fsck_objects_loop_append env opt_delete l1 (x :: l2) repo repo false false
        (fsck_objects_loop_intact env opt_delete l1 repo false h1)
    obtain ⟨hno, deleted, hdel, hyes⟩ :=
      load_and_fsck_one_object_corrupted env repo x false hcorrupt
    refine ⟨?_, deleted, hdel, ?_, (ostree_repo_delete_object_ok repo deleted x.2 x.1 hdel).2.2.1⟩
    · unfold ostree_builtin_fsck
      rw [hlist]
      simp only [hreach, hloop1, fsck_objects_loop, hno]
    · have hrest : fsck_objects_loop env true l2 deleted true =
          some (FsckReturn.TRUE, deleted, true) :=
        fsck_objects_loop_intact env true l2 deleted true (fun y hy =>
          fsck_object_intact_after_delete env repo deleted x y (fun h => hx2 (h ▸ hy)) hdel
            (h2 y hy))
      unfold ostree_builtin_fsck
      rw [hlist]
      simp only [hreach, hloop1, fsck_objects_loop, hyes, hrest, if_true]

/-- Witness for C17: the first sample commit with one byte of its content object
overwritten. -/
theorem fsck_fails_on_reachable_corrupted_object_witness :
    (∃ e r, ostree_builtin_fsck sample_fsck_env false fsck_corrupt_repo =
      some (FsckReturn.FALSE e, r)) ∧
    ostree_builtin_fsck sample_fsck_env false fsck_corrupt_repo =
      some (FsckReturn.FALSE (some (corrupted_object_error sample_fsck_env
        (sample_file_csum, OstreeObjectType.FILE).1
        (sample_file_csum, OstreeObjectType.FILE).2
        (fsck_actual_checksum sample_fsck_env fsck_corrupt_repo
          (sample_file_csum, OstreeObjectType.FILE)))), fsck_corrupt_repo) ∧
    ∃ deleted, ostree_repo_delete_object fsck_corrupt_repo
        (sample_file_csum, OstreeObjectType.FILE).2
        (sample_file_csum, OstreeObjectType.FILE).1 = .ok deleted ∧
      ostree_builtin_fsck sample_fsck_env true fsck_corrupt_repo =
        some (FsckReturn.FALSE (some repository_corruption_error), deleted) ∧
      deleted.at_path (_ostree_loose_path (sample_file_csum, OstreeObjectType.FILE).1
        (sample_file_csum, OstreeObjectType.FILE).2 fsck_corrupt_repo.mode) =
        LooseFile.noent :=
  have h := fsck_fails_on_reachable_corrupted_object sample_fsck_env fsck_corrupt_repo
    fsck_corrupt_repo_objects sample_from_reachable (sample_file_csum, OstreeObjectType.FILE)
    (fun l => List.reverse_perm l) (by decide!) (by decide!) (by decide!) (by decide!)
  ⟨h.1 false, h.2 (by decide!) (by decide!)⟩

/-- Counterexample to C17 as stated: a loose content object that no commit reaches and whose
bytes do not hash to its name; `ostree_builtin_fsck` returns success, with and
without `--delete`, and the loose file stays. -/
theorem fsck_succeeds_with_unreachable_corrupted_object :
    fsck_object_corrupted sample_fsck_env fsck_unreachable_corrupt_repo
      (sample_file_b_csum, OstreeObjectType.FILE) = true ∧
    (ostree_repo_list_objects fsck_unreachable_corrupt_repo list_objects_all).toOption.any
      (fun objects => decide ((sample_file_b_csum, OstreeObjectType.FILE) ∈ objects)) = true ∧
    (ostree_builtin_fsck sample_fsck_env false fsck_unreachable_corrupt_repo).map Prod.fst =
      some FsckReturn.TRUE ∧
    (ostree_builtin_fsck sample_fsck_env true fsck_unreachable_corrupt_repo).map
      (fun r => (r.1, r.2.at_path
        (_ostree_loose_path sample_file_b_csum OstreeObjectType.FILE OstreeRepoMode.BARE))) =
      some (FsckReturn.TRUE, LooseFile.file { bytes := [0], data := GVariant.content [0] }) := by
  refine ⟨?_, ?_, ?_, ?_⟩ <;> decide!


/-! ## Static deltas: what the applier reads -/

/-- C23 (evaluation): in the superblock that `ostree_repo_static_delta_generate`
writes for the sample delta, the part headers are field 6 (one header, naming
the new tree), while `ostree_repo_static_delta_execute_offline` takes field 3
for `headers`: the 32 bytes of the `to` checksum, which is not an array of
part headers, and the applier does not complete on it. -/
theorem execute_offline_reads_to_checksum_as_headers :
    generation_succeeded
      (ostree_repo_static_delta_generate sample_delta_env delta_repo_a sample_commit_csum
        sample_commit_b_csum none (some 0) 0) = true ∧
    (superblock_array sample_delta.meta 6).map (part_header_names sample_delta_env) =
      [[(sample_tree_b_csum, OstreeObjectType.DIR_TREE)]] ∧
    (execute_offline_headers sample_delta).bind DeltaVariant.as_bytes =
      some (sample_delta_env.ostree_checksum_to_bytes sample_commit_b_csum) ∧
    (execute_offline_headers sample_delta).map g_variant_n_children = some 32 ∧
    (superblock_array sample_delta.meta 3).length = 0 ∧
    (ostree_repo_static_delta_execute_offline sample_delta_env delta_repo_b sample_delta
      true).isSome = false := by
  refine ⟨?_, ?_, ?_, ?_, ?_, ?_⟩ <;> decide!

/-- C28 (evaluation): the delta generated from the first sample commit to itself
packs no object, yet it has one part, whose header has an empty objects array;
`_ostree_static_delta_parse_checksum_array` and
`_ostree_repo_static_delta_part_have_all_objects` reject that array. -/
theorem generated_part_header_with_no_objects :
    generation_succeeded
      (ostree_repo_static_delta_generate sample_delta_env delta_repo_a sample_commit_csum
        sample_commit_csum none none 0) = true ∧
    sample_delta_same.parts.length = 1 ∧
    (superblock_array sample_delta_same.meta 6).map part_header_objects = [some []] ∧
    _ostree_static_delta_parse_checksum_array sample_delta_env [] =
      .error (invalid_checksum_array_error 0) ∧
    _ostree_repo_static_delta_part_have_all_objects sample_delta_env delta_repo_a [] =
      .error (invalid_checksum_array_error 0) := by
  refine ⟨?_, ?_, ?_, ?_, ?_⟩ <;> decide!

/-! ## fsck: the error of a failure -/

/-- C29 (evaluation): when the loose file of a commit cannot be opened (`EACCES`),
`load_and_fsck_one_object` returns `FALSE` and leaves `*error` unset; for a
content object in the same situation it returns `FALSE` with the error set. -/
theorem load_and_fsck_metadata_failure_without_error :
    ostree_repo_load_variant fsck_eacces_commit_repo OstreeObjectType.COMMIT
      sample_commit_csum = .error (ot_util_set_error_from_errno 13) ∧
    (ot_util_set_error_from_errno 13).is_not_found = false ∧
    (load_and_fsck_one_object sample_fsck_env false fsck_eacces_commit_repo sample_commit_csum
      OstreeObjectType.COMMIT false).map (fun r => r.1) = some (FsckReturn.FALSE none) ∧
    (load_and_fsck_one_object sample_fsck_env false fsck_eacces_file_repo sample_file_csum
      OstreeObjectType.FILE false).map (fun r => r.1) =
      some (FsckReturn.FALSE (some (g_prefix_error (ot_util_set_error_from_errno 13)
        ("Loading file object " ++ sample_file_csum ++ ": ")))) := by
  refine ⟨?_, ?_, ?_, ?_⟩ <;> decide!


/-! ## The object phase of `ostree_repo_pull` -/

/-- C22 (evaluation): pulling the ref `master` of the remote `origin` into a
repository whose local branch `master` and remote-tracking ref `origin/master`
differ, the object phase resolves the bare name `master` and looks up the
static delta from the local branch, while the final step resolves
`origin/master`. -/
theorem object_phase_resolves_bare_ref_name :
    sample_resolve_rev sample_two_masters "master" = .ok (some sample_commit_csum) ∧
    sample_resolve_rev sample_two_masters "origin/master" = .ok (some sample_fe_csum) ∧
    sample_object_phase_calls =
      [ObjectPhaseCall.resolve_rev "master",
       ObjectPhaseCall.request_static_delta_superblock sample_commit_csum
         sample_commit_b_csum] ∧
    (pull_set_refs sample_resolve_rev "origin" [("master", sample_commit_b_csum)]
      sample_two_masters []).2.2 =
      [PullCall.resolve_rev "origin/master",
       PullCall.transaction_set_ref "origin" "master" sample_commit_b_csum] := by
  refine ⟨?_, ?_, ?_, ?_⟩ <;> decide!


/-! ## Static deltas: the checksum array -/

/-- C27: with `OSTREE_STATIC_DELTA_OBJTYPE_CSUM_LEN` equal to 33,
`_ostree_static_delta_parse_checksum_array` succeeds on a byte array of length
`n` if and only if `n > 0`, `n` is a multiple of 33 and `n` is at most
`(2 ^ 32 - 1) / 33`; on success it returns the array and `n / 33` as
`n_checksums`, not truncated; on failure the error is
`Invalid checksum array length n`. -/
theorem parse_checksum_array_succeeds_iff (env : DeltaEnv) (array : List Nat)
    (hlen : env.OSTREE_STATIC_DELTA_OBJTYPE_CSUM_LEN = 33) :
    ((∃ r, _ostree_static_delta_parse_checksum_array env array = .ok r) ↔
      array.length > 0 ∧ 33 ∣ array.length ∧ array.length ≤ (2 ^ 32 - 1) / 33) ∧
    (∀ r, _ostree_static_delta_parse_checksum_array env array = .ok r →
      r = (array, array.length / 33)) ∧
    (∀ e, _ostree_static_delta_parse_checksum_array env array = .error e →
      e = invalid_checksum_array_error array.length) := by
  unfold _ostree_static_delta_parse_checksum_array
  simp only [hlen]
  by_cases hbad : array.length = 0 ∨ array.length > (2 ^ 32 - 1) / 33 ∨
      (array.length / 33 % 2 ^ 32 * 33) % 2 ^ 32 ≠ array.length
  · rw [if_pos hbad]
    refine ⟨⟨fun h => ?_, fun h => ?_⟩, fun r h => ?_, fun e h => ?_⟩
    · obtain ⟨r, hr⟩ := h
      exact absurd hr (by simp)
    · exfalso
      obtain ⟨h1, h2, h3⟩ := h
      rcases hbad with hb | hb | hb
      · omega
      · omega
      · apply hb
        obtain ⟨k, hk⟩ := h2
        have h4 : (2 ^ 32 - 1) / 33 = 130150524 := by norm_num
        rw [h4] at h3
        have h5 : array.length / 33 = k := by omega
        rw [h5, Nat.mod_eq_of_lt (by omega), Nat.mod_eq_of_lt (by omega)]
        omega
    · exact absurd h (by simp)
    · simp only [Except.error.injEq] at h
      exact h.symm
  · rw [if_neg hbad]
    have h4 : (2 ^ 32 - 1) / 33 = 130150524 := by norm_num
    simp only [not_or, not_not, h4] at hbad
    obtain ⟨h1, h2, h3⟩ := hbad
    have h5 : array.length / 33 % 2 ^ 32 = array.length / 33 :=
      Nat.mod_eq_of_lt (by omega)
    rw [h5] at h3
    have h6 : array.length / 33 * 33 % 2 ^ 32 = array.length / 33 * 33 :=
      Nat.mod_eq_of_lt (by omega)
    rw [h6] at h3
    refine ⟨⟨fun _ => ⟨by omega, ⟨array.length / 33, by omega⟩, by rw [h4]; omega⟩,
      fun _ => ⟨_, rfl⟩⟩, fun r h => ?_, fun e h => ?_⟩
    · simp only [Except.ok.injEq] at h
      rw [← h, h5]
    · exact absurd h (by simp)

/-- Witness for C27: an array of one entry, with the entry length 33 of the sample
environment. -/
theorem parse_checksum_array_succeeds_iff_witness :
    ((∃ r, _ostree_static_delta_parse_checksum_array sample_delta_env (List.replicate 33 0)
        = .ok r) ↔
      (List.replicate 33 0).length > 0 ∧ 33 ∣ (List.replicate 33 0).length ∧
        (List.replicate 33 0).length ≤ (2 ^ 32 - 1) / 33) ∧
    (∀ r, _ostree_static_delta_parse_checksum_array sample_delta_env (List.replicate 33 0)
        = .ok r →
      r = (List.replicate 33 0, (List.replicate 33 0).length / 33)) ∧
    (∀ e, _ostree_static_delta_parse_checksum_array sample_delta_env (List.replicate 33 0)
        = .error e →
      e = invalid_checksum_array_error (List.replicate 33 0).length) :=
  parse_checksum_array_succeeds_iff sample_delta_env (List.replicate 33 0) rfl


/-! ## Static deltas: the operations of a part -/

theorem process_one_object_shape (env : DeltaEnv) (repo : OstreeRepo)
    (builder b : OstreeStaticDeltaBuilder) (checksum : Checksum) (objtype : OstreeObjectType)
    (h : process_one_object env repo builder checksum objtype = some (.ok b)) :
    ∃ stream size current_part base,
      ostree_repo_load_object_stream env repo objtype checksum = .ok (some (stream, size)) ∧
      (builder.parts.getLast? = some current_part ∨
        current_part = OstreeStaticDeltaPartBuilder.mk 0 [] [] []) ∧
      (∀ p ∈ base, p ∈ builder.parts) ∧
      b.parts = base ++ [part_add_object env current_part checksum objtype stream size] := by
  unfold process_one_object at h
  split at h
  · exact absurd h (by simp)
  · exact absurd h (by simp)
  · rename_i content_stream content_size hload
    split at h
    · exact absurd h (by simp)
    · rename_i current_part hlast
      simp only at h
      by_cases hc : current_part.objects.length > 0 ∧
          (current_part.payload.length + content_size) % 2 ^ 64 > builder.max_usize_bytes
      · rw [if_pos hc] at h
        split at h
        · exact absurd h (by simp)
        · split at h
          · exact absurd h (by simp)
          · rename_i cp2 hlast2
            simp only [Option.some.injEq, Except.ok.injEq] at h
            subst h
            have hcp2 : cp2 = OstreeStaticDeltaPartBuilder.mk 0 [] [] [] := by
              have h2 : (builder.parts ++
                  [OstreeStaticDeltaPartBuilder.mk 0 [] [] []]).getLast? = some cp2 := hlast2
              rw [List.getLast?_concat] at h2
              exact (Option.some.inj h2).symm
            refine ⟨content_stream, content_size, cp2, builder.parts, hload, Or.inr hcp2,
              fun p hp => hp, ?_⟩
            simp only [allocate_part, List.dropLast_concat]
      · rw [if_neg hc] at h
        split at h
        · exact absurd h (by simp)
        · split at h
          · exact absurd h (by simp)
          · rename_i cp2 hlast2
            simp only [Option.some.injEq, Except.ok.injEq] at h
            subst h
            exact ⟨content_stream, content_size, cp2, builder.parts.dropLast, hload,
              Or.inl hlast2, fun p hp => List.mem_of_mem_dropLast hp, rfl⟩

/-- C26 (amended): for every object appended by `process_one_object`, the part that
receives it is the last part of the builder or a new one; the object is added
to its objects, and the bytes added to its operations are exactly the
varuint64 of the content size followed by the encoding of one `WRITE` op
(opcode, varuint64 offset, varuint64 size) and one `CLOSE` op, where the
offset is the payload length of the part before the object. -/
theorem process_one_object_appends_size_write_close (env : DeltaEnv) (repo : OstreeRepo)
    (builder b : OstreeStaticDeltaBuilder) (checksum : Checksum) (objtype : OstreeObjectType)
    (h : process_one_object env repo builder checksum objtype = some (.ok b)) :
    ∃ stream size before after,
      ostree_repo_load_object_stream env repo objtype checksum = .ok (some (stream, size)) ∧
      (builder.parts.getLast? = some before ∨
        before = OstreeStaticDeltaPartBuilder.mk 0 [] [] []) ∧
      b.parts.getLast? = some after ∧
      after.objects = before.objects ++ [(checksum, objtype)] ∧
      after.operations = before.operations ++
        (env._ostree_write_varuint64 size ++
          write_close_ops_spec env before.payload.length size) := by
  obtain ⟨stream, size, cur, base, hload, hcur, _, hparts⟩ :=
    process_one_object_shape env repo builder b checksum objtype h
  refine ⟨stream, size, cur, part_add_object env cur checksum objtype stream size, hload, hcur,
    ?_, rfl, ?_⟩
  · rw [hparts, List.getLast?_concat]
  · simp only [part_add_object, write_close_ops_spec, List.append_assoc, List.singleton_append,
      List.cons_append, List.nil_append]


/-- Witness for C26: the first packing step of the sample delta. -/
theorem process_one_object_appends_size_write_close_witness :
    ∃ stream size before after,
      ostree_repo_load_object_stream sample_delta_env delta_repo_a OstreeObjectType.DIR_TREE
        sample_tree_b_csum = .ok (some (stream, size)) ∧
      ((allocate_part (static_delta_builder_new none)).parts.getLast? = some before ∨
        before = OstreeStaticDeltaPartBuilder.mk 0 [] [] []) ∧
      sample_first_step_builder.parts.getLast? = some after ∧
      after.objects = before.objects ++ [(sample_tree_b_csum, OstreeObjectType.DIR_TREE)] ∧
      after.operations = before.operations ++
        (sample_delta_env._ostree_write_varuint64 size ++
          write_close_ops_spec sample_delta_env before.payload.length size) :=
  process_one_object_appends_size_write_close sample_delta_env delta_repo_a
    (allocate_part (static_delta_builder_new none)) sample_first_step_builder
    sample_tree_b_csum OstreeObjectType.DIR_TREE (by decide!)

/-- Counterexample to C26 as stated: for the first object of the sample delta (two bytes at
offset 0) the operations of the part are the varuint64 of the size followed
by the `WRITE` and `CLOSE` ops; they are not the two ops alone. -/
theorem operations_start_with_content_size :
    sample_first_step_builder.parts.map (fun p => p.operations) =
      [sample_delta_env._ostree_write_varuint64 2 ++
        write_close_ops_spec sample_delta_env 0 2] ∧
    sample_delta_env._ostree_write_varuint64 2 ≠ [] ∧
    sample_first_step_builder.parts.map (fun p => p.operations) ≠
      [write_close_ops_spec sample_delta_env 0 2] := by
  refine ⟨?_, ?_, ?_⟩ <;> decide!

theorem offsets_consecutive_append (recs : List (Nat × Nat)) :
    ∀ (start offset size : Nat), offsets_consecutive start recs →
      offset = start + (recs.map Prod.snd).sum →
      offsets_consecutive start (recs ++ [(offset, size)]) := by
  induction recs with
  | nil =>
    intro start offset size _ ho
    simp only [List.map_nil, List.sum_nil, Nat.add_zero] at ho
    exact ⟨ho, trivial⟩
  | cons r rest ih =>
    intro start offset size hc ho
    obtain ⟨o, z⟩ := r
    obtain ⟨h1, h2⟩ := hc
    refine ⟨h1, ih (start + z) offset size h2 ?_⟩
    simp only [List.map_cons, List.sum_cons] at ho
    omega

theorem part_records_fresh (env : DeltaEnv) :
    PartRecords env (OstreeStaticDeltaPartBuilder.mk 0 [] [] []) [] :=
  ⟨rfl, rfl, trivial, rfl, rfl⟩

theorem part_add_object_records (env : DeltaEnv) (part : OstreeStaticDeltaPartBuilder)
    (checksum : Checksum) (objtype : OstreeObjectType) (stream : List Nat) (size : Nat)
    (recs : List (Nat × Nat)) (hR : PartRecords env part recs)
    (hlen : stream.length = size) (hno : part.payload.length + size < 2 ^ 64) :
    PartRecords env (part_add_object env part checksum objtype stream size)
      (recs ++ [(part.payload.length, size)]) := by
  have hsum : ((recs ++ [(part.payload.length, size)]).map Prod.snd).sum =
      (recs.map Prod.snd).sum + size := by
    simp
  refine ⟨?_, ?_, ?_, ?_, ?_⟩
  · simp [part_add_object, hR.count]
  · simp only [part_add_object, hR.operations, List.flatMap_append, List.flatMap_cons,
      List.flatMap_nil, List.append_nil, object_operations]
  · exact offsets_consecutive_append recs 0 _ size hR.offsets (by rw [hR.payload]; omega)
  · rw [hsum]
    simp only [part_add_object, hR.uncompressed_size]
    have := hR.payload
    exact Nat.mod_eq_of_lt (by omega)
  · rw [hsum]
    simp only [part_add_object, List.length_append, hR.payload, hlen]

theorem process_one_object_records (env : DeltaEnv) (repo : OstreeRepo)
    (builder b : OstreeStaticDeltaBuilder) (checksum : Checksum) (objtype : OstreeObjectType)
    (hR : ∀ p ∈ builder.parts, ∃ recs, PartRecords env p recs)
    (hB : ∀ p ∈ b.parts, p.payload.length < 2 ^ 63)
    (hstream : stream_size_agrees (ostree_repo_load_object_stream env repo objtype checksum)
      = true)
    (h : process_one_object env repo builder checksum objtype = some (.ok b)) :
    ∀ p ∈ b.parts, ∃ recs, PartRecords env p recs := by
  obtain ⟨stream, size, cur, base, hload, hcur, hbase, hparts⟩ :=
    process_one_object_shape env repo builder b checksum objtype h
  rw [hload] at hstream
  have hlen : stream.length = size := by
    simp only [stream_size_agrees, Bool.and_eq_true, decide_eq_true_eq] at hstream
    exact hstream.1
  have hcurR : ∃ recs, PartRecords env cur recs := by
    rcases hcur with hc | hc
    · exact hR cur (List.mem_of_getLast?_eq_some hc)
    · rw [hc]
      exact ⟨[], part_records_fresh env⟩
  obtain ⟨recs, hrecs⟩ := hcurR
  have hnew := hB (part_add_object env cur checksum objtype stream size) (by
    rw [hparts]
    simp)
  intro p hp
  rw [hparts] at hp
  rcases List.mem_append.1 hp with hp | hp
  · exact hR p (hbase p hp)
  · rw [List.mem_singleton.1 hp]
    refine ⟨_, part_add_object_records env cur checksum objtype stream size recs hrecs hlen ?_⟩
    simp only [part_add_object, List.length_append, hlen] at hnew
    omega

theorem delta_fold_records (env : DeltaEnv) (repo : OstreeRepo) (keys : List ObjectName) :
    ∀ (builder b : OstreeStaticDeltaBuilder),
      (∀ p ∈ builder.parts, PartBound builder.max_usize_bytes p) →
      (∀ p ∈ builder.parts, ∃ recs, PartRecords env p recs) →
      builder.max_usize_bytes < 2 ^ 63 →
      (∀ k ∈ keys, stream_size_agrees (ostree_repo_load_object_stream env repo k.2 k.1) = true) →
      (∀ k ∈ keys, ∀ stream size,
        ostree_repo_load_object_stream env repo k.2 k.1 = .ok (some (stream, size)) →
        stream.length = size ∧ size < 2 ^ 63 ∧
        (OSTREE_OBJECT_TYPE_IS_META k.2 = true ∨ size ≤ builder.max_usize_bytes)) →
      delta_fold (fun b k => process_one_object env repo b k.1 k.2) keys builder =
        some (.ok b) →
      (∀ p ∈ b.parts, PartBound b.max_usize_bytes p) ∧
      (∀ p ∈ b.parts, ∃ recs, PartRecords env p recs) ∧
      b.max_usize_bytes = builder.max_usize_bytes := by
  induction keys with
  | nil =>
    intro builder b hinv hR _ _ _ h
    simp only [delta_fold, Option.some.injEq, Except.ok.injEq] at h
    subst h
    exact ⟨hinv, hR, rfl⟩
  | cons k rest ih =>
    intro builder b hinv hR hmax hstream hkeys h
    simp only [delta_fold] at h
    split at h
    · exact absurd h (by simp)
    · exact absurd h (by simp)
    · rename_i b1 h1
      obtain ⟨p1, p2⟩ := process_one_object_bound env repo builder b1 k.1 k.2 hinv hmax
        (hkeys k (List.mem_cons_self _ _)) h1
      have r1 := process_one_object_records env repo builder b1 k.1 k.2 hR
        (fun p hp => (p1 p hp).2.2) (hstream k (List.mem_cons_self _ _)) h1
      have hkeys2 : ∀ k ∈ rest, ∀ stream size,
          ostree_repo_load_object_stream env repo k.2 k.1 = .ok (some (stream, size)) →
          stream.length = size ∧ size < 2 ^ 63 ∧
          (OSTREE_OBJECT_TYPE_IS_META k.2 = true ∨ size ≤ b1.max_usize_bytes) := by
        intro k2 hk2 stream size hl
        rw [p2]
        exact hkeys k2 (List.mem_cons_of_mem _ hk2) stream size hl
      obtain ⟨q1, q2, q3⟩ := ih b1 b p1 r1 (by rw [p2]; exact hmax)
        (fun k2 hk2 => hstream k2 (List.mem_cons_of_mem _ hk2)) hkeys2 h
      exact ⟨q1, q2, by rw [q3, p2]⟩


theorem generate_delta_lowlatency_records (env : DeltaEnv) (repo : OstreeRepo)
    (from_checksum to_checksum : Checksum) (max_usize : Option Nat)
    (b : OstreeStaticDeltaBuilder) (to_reachable : List ObjectName)
    (hiter : ∀ l, (env.g_hash_table_iter l).Perm l)
    (hto : env.ostree_repo_traverse_commit repo to_checksum = .ok to_reachable)
    (hstream : ∀ x ∈ to_reachable,
      stream_size_agrees (ostree_repo_load_object_stream env repo x.2 x.1) = true)
    (h : generate_delta_lowlatency env repo from_checksum to_checksum
      (static_delta_builder_new max_usize) = some (.ok b)) :
    ∀ p ∈ b.parts, ∃ recs, PartRecords env p recs := by
  have hmaxeq : (static_delta_builder_new max_usize).max_usize_bytes =
      ((max_usize.getD 32) % 2 ^ 32) * 1000000 := max_usize_bytes_no_overflow max_usize
  have hmaxlt : ((max_usize.getD 32) % 2 ^ 32) * 1000000 < 2 ^ 63 := by
    have h : (max_usize.getD 32) % 2 ^ 32 < 2 ^ 32 := Nat.mod_lt _ (by norm_num)
    omega
  have hsize : ∀ x ∈ to_reachable, ∀ stream size,
      ostree_repo_load_object_stream env repo x.2 x.1 = .ok (some (stream, size)) →
      stream.length = size ∧ size < 2 ^ 63 := by
    intro x hx stream size hl
    have hs := hstream x hx
    rw [hl] at hs
    simpa [stream_size_agrees] using hs
  unfold generate_delta_lowlatency at h
  split at h
  · exact absurd h (by simp)
  · split at h
    · exact absurd h (by simp)
    · split at h
      · exact absurd h (by simp)
      · split at h
        · exact absurd h (by simp)
        · rename_i from_reachable hfrom
          split at h
          · exact absurd h (by simp)
          · rename_i to_r hto2
            have hto3 : to_r = to_reachable := by
              rw [hto] at hto2
              exact (Except.ok.inj hto2).symm
            subst hto3
            simp only at h
            split at h
            · exact absurd h (by simp)
            · exact absurd h (by simp)
            · rename_i fallback hscan
              split at h
              · exact absurd h (by simp)
              · exact absurd h (by simp)
              · rename_i b1 hfold1
                have hsmall := scan_for_large_objects_small env repo _ _ fallback hscan
                have h0 : ∀ p ∈ (allocate_part { static_delta_builder_new max_usize with
                    fallback_objects :=
                      (static_delta_builder_new max_usize).fallback_objects ++ fallback }).parts,
                    PartBound (allocate_part { static_delta_builder_new max_usize with
                      fallback_objects :=
                        (static_delta_builder_new max_usize).fallback_objects ++
                          fallback }).max_usize_bytes p := by
                  intro p hp
                  simp only [allocate_part, static_delta_builder_new, List.nil_append,
                    List.mem_singleton] at hp
                  subst hp
                  refine ⟨Or.inl (Nat.zero_le _), fun _ => rfl, ?_⟩
                  simp
                have hr0 : ∀ p ∈ (allocate_part { static_delta_builder_new max_usize with
                    fallback_objects :=
                      (static_delta_builder_new max_usize).fallback_objects ++ fallback }).parts,
                    ∃ recs, PartRecords env p recs := by
                  intro p hp
                  simp only [allocate_part, static_delta_builder_new, List.nil_append,
                    List.mem_singleton] at hp
                  subst hp
                  exact ⟨[], part_records_fresh env⟩
                obtain ⟨p1, r1, p2⟩ := delta_fold_records env repo _ _ b1 h0 hr0
                  (by
                    show (static_delta_builder_new max_usize).max_usize_bytes < 2 ^ 63
                    rw [hmaxeq]; exact hmaxlt)
                  (by
                    intro k hk
                    have hk2 := (hiter _).mem_iff.1 hk
                    unfold new_reachable_metadata at hk2
                    have hk3 := List.mem_of_mem_erase hk2
                    rw [List.mem_dedup] at hk3
                    exact hstream k (List.mem_filter.1 hk3).1)
                  (by
                    intro k hk stream size hl
                    have hk2 := (hiter _).mem_iff.1 hk
                    unfold new_reachable_metadata at hk2
                    have hk3 := List.mem_of_mem_erase hk2
                    rw [List.mem_dedup] at hk3
                    have hk4 := (List.mem_filter.1 hk3).2
                    simp only [Bool.and_eq_true] at hk4
                    obtain ⟨a1, a2⟩ := hsize k (List.mem_filter.1 hk3).1 stream size hl
                    exact ⟨a1, a2, Or.inl hk4.2⟩)
                  hfold1
                obtain ⟨_, r2, _⟩ := delta_fold_records env repo _ _ b p1 r1
                  (by
                    rw [p2]
                    show (static_delta_builder_new max_usize).max_usize_bytes < 2 ^ 63
                    rw [hmaxeq]; exact hmaxlt)
                  (by
                    intro k hk
                    have hk2 := List.mem_filter.1 ((hiter _).mem_iff.1 hk)
                    have hk6 := hk2.1
                    unfold new_reachable_content at hk6
                    rw [List.mem_dedup] at hk6
                    exact hstream k (List.mem_filter.1 hk6).1)
                  (by
                    intro k hk stream size hl
                    have hk2 := List.mem_filter.1 ((hiter _).mem_iff.1 hk)
                    have hk5 : k ∈ to_r := by
                      have hk6 := hk2.1
                      unfold new_reachable_content at hk6
                      rw [List.mem_dedup] at hk6
                      exact (List.mem_filter.1 hk6).1
                    obtain ⟨a1, a2⟩ := hsize k hk5 stream size hl
                    refine ⟨a1, a2, Or.inr ?_⟩
                    rw [p2]
                    have hk3 : k ∉ fallback := by simpa using hk2.2
                    exact hsmall k ((hiter _).mem_iff.2 hk2.1) hk3 stream size hl)
                  h
                exact r2



/-- C25: when the stream of every object reachable from `to` has the size
`ostree_repo_load_object_stream` reports (below `2 ^ 63`), every part that
`generate_delta_lowlatency` builds with `process_one_object` has a list of
`(offset, size)` records, one per object of the part and in the same order,
such that the operations of the part are the encodings of these records, each
with one `WRITE` and one `CLOSE` op; the offsets are consecutive from 0, each
the sum of the sizes before it; and `uncompressed_size` equals the sum of the
sizes and the length of the payload. -/
theorem delta_part_records_are_consecutive (env : DeltaEnv) (repo : OstreeRepo)
    (from_checksum to_checksum : Checksum) (max_usize : Option Nat)
    (b : OstreeStaticDeltaBuilder) (to_reachable : List ObjectName)
    (hiter : ∀ l, (env.g_hash_table_iter l).Perm l)
    (hto : env.ostree_repo_traverse_commit repo to_checksum = .ok to_reachable)
    (hstream : ∀ x ∈ to_reachable,
      stream_size_agrees (ostree_repo_load_object_stream env repo x.2 x.1) = true)
    (h : generate_delta_lowlatency env repo from_checksum to_checksum
      (static_delta_builder_new max_usize) = some (.ok b)) :
    ∀ part ∈ b.parts, ∃ recs : List (Nat × Nat),
      recs.length = part.objects.length ∧
      part.operations = recs.flatMap (fun r =>
        env._ostree_write_varuint64 r.2 ++ write_close_ops_spec env r.1 r.2) ∧
      offsets_consecutive 0 recs ∧
      part.uncompressed_size = (recs.map Prod.snd).sum ∧
      part.payload.length = (recs.map Prod.snd).sum := by
  intro part hpart
  obtain ⟨recs, hrecs⟩ := generate_delta_lowlatency_records env repo from_checksum to_checksum
    max_usize b to_reachable hiter hto hstream h part hpart
  refine ⟨recs, hrecs.count, ?_, hrecs.offsets, hrecs.uncompressed_size, hrecs.payload⟩
  rw [hrecs.operations]
  congr 1
  funext r
  simp only [object_operations, write_close_ops_spec, List.append_assoc, List.singleton_append,
    List.cons_append, List.nil_append]

/-- Witness for C25: the first part of the sample delta generated with the default
`max-usize`. -/
theorem delta_part_records_are_consecutive_witness :
    ∃ recs : List (Nat × Nat),
      recs.length = sample_delta_default_part.objects.length ∧
      sample_delta_default_part.operations = recs.flatMap (fun r =>
        sample_delta_env._ostree_write_varuint64 r.2 ++
          write_close_ops_spec sample_delta_env r.1 r.2) ∧
      offsets_consecutive 0 recs ∧
      sample_delta_default_part.uncompressed_size = (recs.map Prod.snd).sum ∧
      sample_delta_default_part.payload.length = (recs.map Prod.snd).sum :=
  delta_part_records_are_consecutive sample_delta_env delta_repo_a sample_commit_csum
    sample_commit_b_csum none sample_delta_default_builder sample_to_reachable
    (fun l => List.reverse_perm l) (by decide!) (by decide!) (by decide!)
    sample_delta_default_part (by decide!)

/-! ## Static deltas: the partition of the new objects -/

theorem scan_for_large_objects_eq_filter (env : DeltaEnv) (repo : OstreeRepo)
    (max_usize_bytes : Nat) (keys : List ObjectName) :
    ∀ fallback, scan_for_large_objects env repo max_usize_bytes keys = some (.ok fallback) →
      fallback = keys.filter (object_is_large env repo max_usize_bytes) := by
  induction keys with
  | nil =>
    intro fallback h
    simp only [scan_for_large_objects, Option.some.injEq, Except.ok.injEq] at h
    subst h
    rfl
  | cons k0 rest ih =>
    intro fallback h
    obtain ⟨checksum, objtype⟩ := k0
    simp only [scan_for_large_objects] at h
    split at h
    · exact absurd h (by simp)
    · exact absurd h (by simp)
    · rename_i s0 size0 hl0
      split at h
      · exact absurd h (by simp)
      · exact absurd h (by simp)
      · rename_i fb hfb
        have hrest := ih fb hfb
        have hlarge : object_is_large env repo max_usize_bytes (checksum, objtype) =
            decide (size0 > max_usize_bytes) := by
          simp only [object_is_large, hl0]
        split at h
        · rename_i hgt
          simp only [Option.some.injEq, Except.ok.injEq] at h
          rw [← h, List.filter_cons, hlarge, hrest]
          simp [hgt]
        · rename_i hle
          simp only [Option.some.injEq, Except.ok.injEq] at h
          rw [← h, List.filter_cons, hlarge, hrest]
          simp [hle]

theorem generate_delta_lowlatency_objects (env : DeltaEnv) (repo : OstreeRepo)
    (from_checksum to_checksum : Checksum) (max_usize_bytes : Nat)
    (b : OstreeStaticDeltaBuilder) (from_reachable to_reachable : List ObjectName)
    (hfrom : env.ostree_repo_traverse_commit repo from_checksum = .ok from_reachable)
    (hto : env.ostree_repo_traverse_commit repo to_checksum = .ok to_reachable)
    (h : generate_delta_lowlatency env repo from_checksum to_checksum
      { parts := [], fallback_objects := [], loose_compressed_size := 0,
        max_usize_bytes := max_usize_bytes } = some (.ok b)) :
    b.fallback_objects =
      (env.g_hash_table_iter (new_reachable_content from_reachable to_reachable)).filter
        (object_is_large env repo max_usize_bytes) ∧
    builder_objects b =
      env.g_hash_table_iter (new_reachable_metadata to_checksum from_reachable to_reachable) ++
      env.g_hash_table_iter
        ((new_reachable_content from_reachable to_reachable).filter
          (fun k => !decide (k ∈ b.fallback_objects))) := by
  unfold generate_delta_lowlatency at h
  rw [hfrom, hto] at h
  simp only at h
  split at h
  · exact absurd h (by simp)
  · split at h
    · exact absurd h (by simp)
    · split at h
      · exact absurd h (by simp)
      · split at h
        · exact absurd h (by simp)
        · exact absurd h (by simp)
        · rename_i fallback hscan
          have hfb := scan_for_large_objects_eq_filter env repo _ _ fallback hscan
          split at h
          · exact absurd h (by simp)
          · exact absurd h (by simp)
          · rename_i b1 hfold1
            obtain ⟨p1, p2⟩ := delta_fold_objects env repo _ _ _ hfold1
            obtain ⟨q1, q2⟩ := delta_fold_objects env repo _ _ _ h
            rw [builder_objects_allocate_part] at p1
            have hfall : b.fallback_objects = fallback := by
              rw [q2, p2]
              simp [allocate_part]
            refine ⟨by rw [hfall, hfb], ?_⟩
            rw [q1, p1, hfall]
            simp [builder_objects]

/-- C24: for every successful run of `generate_delta_lowlatency (from, to)` that
starts with an empty builder, the objects of the parts together with the
fallback list hold no object twice; an object is among them if and only if it
is reachable from `to`, not reachable from `from`, and not the `to` commit;
and such an object is in the fallback list if and only if it is a content
(`FILE`) object whose uncompressed size, as `ostree_repo_load_object_stream`
reports it, is greater than `max_usize_bytes`.  Hash tables iterate over a
permutation of their keys. -/
theorem generate_delta_lowlatency_partitions_new_objects (env : DeltaEnv) (repo : OstreeRepo)
    (from_checksum to_checksum : Checksum) (max_usize_bytes : Nat)
    (b : OstreeStaticDeltaBuilder) (from_reachable to_reachable : List ObjectName)
    (hiter : ∀ l, (env.g_hash_table_iter l).Perm l)
    (hfrom : env.ostree_repo_traverse_commit repo from_checksum = .ok from_reachable)
    (hto : env.ostree_repo_traverse_commit repo to_checksum = .ok to_reachable)
    (h : generate_delta_lowlatency env repo from_checksum to_checksum
      { parts := [], fallback_objects := [], loose_compressed_size := 0,
        max_usize_bytes := max_usize_bytes } = some (.ok b)) :
    (builder_objects b ++ b.fallback_objects).Nodup ∧
    (∀ x, x ∈ builder_objects b ++ b.fallback_objects ↔
      x ∈ to_reachable ∧ x ∉ from_reachable ∧ x ≠ (to_checksum, OstreeObjectType.COMMIT)) ∧
    (∀ x, x ∈ b.fallback_objects ↔
      (x ∈ to_reachable ∧ x ∉ from_reachable ∧
        x ≠ (to_checksum, OstreeObjectType.COMMIT)) ∧
      x.2 = OstreeObjectType.FILE ∧
      ∃ stream size,
        ostree_repo_load_object_stream env repo x.2 x.1 = .ok (some (stream, size)) ∧
        size > max_usize_bytes) := by
  obtain ⟨hfall, hobjs⟩ := generate_delta_lowlatency_objects env repo from_checksum to_checksum
    max_usize_bytes b from_reachable to_reachable hfrom hto h
  have hmeta_nodup : (new_reachable_metadata to_checksum from_reachable to_reachable).Nodup :=
    (List.nodup_dedup _).erase _
  have hcont_nodup : (new_reachable_content from_reachable to_reachable).Nodup :=
    List.nodup_dedup _
  have hmeta_mem : ∀ x, x ∈ new_reachable_metadata to_checksum from_reachable to_reachable ↔
      x ≠ (to_checksum, OstreeObjectType.COMMIT) ∧ x ∈ to_reachable ∧ x ∉ from_reachable ∧
        OSTREE_OBJECT_TYPE_IS_META x.2 = true := by
    intro x
    unfold new_reachable_metadata
    rw [(List.nodup_dedup _).mem_erase_iff, List.mem_dedup, List.mem_filter]
    simp
  have hcont_mem : ∀ x, x ∈ new_reachable_content from_reachable to_reachable ↔
      x ∈ to_reachable ∧ x ∉ from_reachable ∧ OSTREE_OBJECT_TYPE_IS_META x.2 = false := by
    intro x
    unfold new_reachable_content
    rw [List.mem_dedup, List.mem_filter]
    simp
  have hfb_mem : ∀ x, x ∈ b.fallback_objects ↔
      x ∈ new_reachable_content from_reachable to_reachable ∧
        object_is_large env repo max_usize_bytes x = true := by
    intro x
    rw [hfall, List.mem_filter, (hiter _).mem_iff]
  have hlarge : ∀ x, object_is_large env repo max_usize_bytes x = true ↔
      ∃ stream size,
        ostree_repo_load_object_stream env repo x.2 x.1 = .ok (some (stream, size)) ∧
        size > max_usize_bytes := by
    intro x
    unfold object_is_large
    constructor
    · intro hx
      split at hx
      · rename_i stream size hl
        exact ⟨stream, size, hl, of_decide_eq_true hx⟩
      · exact absurd hx (by simp)
    · rintro ⟨stream, size, hl, hgt⟩
      rw [hl]
      exact decide_eq_true hgt
  have hnot_commit : ∀ x : ObjectName, OSTREE_OBJECT_TYPE_IS_META x.2 = false →
      x ≠ (to_checksum, OstreeObjectType.COMMIT) := by
    intro x hx heq
    rw [heq] at hx
    have hc : OSTREE_OBJECT_TYPE_IS_META OstreeObjectType.COMMIT = true := by decide
    exact absurd (hc.symm.trans hx) (by decide)
  have hA_mem : ∀ x, x ∈ env.g_hash_table_iter
      (new_reachable_metadata to_checksum from_reachable to_reachable) ↔
      x ≠ (to_checksum, OstreeObjectType.COMMIT) ∧ x ∈ to_reachable ∧ x ∉ from_reachable ∧
        OSTREE_OBJECT_TYPE_IS_META x.2 = true := by
    intro x
    rw [(hiter _).mem_iff, hmeta_mem]
  have hB_mem : ∀ x, x ∈ env.g_hash_table_iter
      ((new_reachable_content from_reachable to_reachable).filter
        (fun k => !decide (k ∈ b.fallback_objects))) ↔
      x ∈ new_reachable_content from_reachable to_reachable ∧ x ∉ b.fallback_objects := by
    intro x
    rw [(hiter _).mem_iff, List.mem_filter]
    simp
  refine ⟨?_, ?_, ?_⟩
  · rw [hobjs, List.nodup_append]
    refine ⟨?_, ?_, ?_⟩
    · rw [List.nodup_append]
      refine ⟨(hiter _).nodup_iff.2 hmeta_nodup,
        (hiter _).nodup_iff.2 (hcont_nodup.filter _), ?_⟩
      intro x hxa hxb
      have h1 := ((hA_mem x).1 hxa).2.2.2
      have h2 := ((hcont_mem x).1 ((hB_mem x).1 hxb).1).2.2
      rw [h1] at h2
      exact absurd h2 (by simp)
    · rw [hfall]
      exact ((hiter _).nodup_iff.2 hcont_nodup).filter _
    · intro x hx hxf
      rcases List.mem_append.1 hx with hxa | hxb
      · have h1 := ((hA_mem x).1 hxa).2.2.2
        have h2 := ((hcont_mem x).1 ((hfb_mem x).1 hxf).1).2.2
        rw [h1] at h2
        exact absurd h2 (by simp)
      · exact ((hB_mem x).1 hxb).2 hxf
  · intro x
    rw [hobjs, List.mem_append, List.mem_append, hA_mem, hB_mem, hfb_mem, hcont_mem]
    constructor
    · rintro ((⟨h1, h2, h3, _⟩ | ⟨⟨h2, h3, h4⟩, _⟩) | ⟨⟨h2, h3, h4⟩, _⟩)
      · exact ⟨h2, h3, h1⟩
      · exact ⟨h2, h3, hnot_commit x h4⟩
      · exact ⟨h2, h3, hnot_commit x h4⟩
    · rintro ⟨h2, h3, h1⟩
      cases hm : OSTREE_OBJECT_TYPE_IS_META x.2 with
      | true => exact Or.inl (Or.inl ⟨h1, h2, h3, rfl⟩)
      | false =>
        by_cases hl : object_is_large env repo max_usize_bytes x = true
        · exact Or.inr ⟨⟨h2, h3, rfl⟩, hl⟩
        · refine Or.inl (Or.inr ⟨⟨h2, h3, rfl⟩, ?_⟩)
          intro hc
          exact hl hc.2
  · intro x
    rw [hfb_mem, hcont_mem, hlarge, is_meta_false_iff]
    constructor
    · rintro ⟨⟨h2, h3, h4⟩, hl⟩
      exact ⟨⟨h2, h3, hnot_commit x ((is_meta_false_iff x.2).2 h4)⟩, h4, hl⟩
    · rintro ⟨⟨h2, h3, _⟩, h4, hl⟩
      exact ⟨⟨h2, h3, h4⟩, hl⟩

/-- Witness for C24: the sample delta generated with `max-usize` 0, in which the
new tree is in a part and the new content object in the fallback list. -/
theorem generate_delta_lowlatency_partitions_new_objects_witness :
    (builder_objects sample_delta_zero_builder ++
      sample_delta_zero_builder.fallback_objects).Nodup ∧
    (∀ x, x ∈ builder_objects sample_delta_zero_builder ++
        sample_delta_zero_builder.fallback_objects ↔
      x ∈ sample_to_reachable ∧ x ∉ sample_from_reachable ∧
        x ≠ (sample_commit_b_csum, OstreeObjectType.COMMIT)) ∧
    (∀ x, x ∈ sample_delta_zero_builder.fallback_objects ↔
      (x ∈ sample_to_reachable ∧ x ∉ sample_from_reachable ∧
        x ≠ (sample_commit_b_csum, OstreeObjectType.COMMIT)) ∧
      x.2 = OstreeObjectType.FILE ∧
      ∃ stream size,
        ostree_repo_load_object_stream sample_delta_env delta_repo_a x.2 x.1 =
          .ok (some (stream, size)) ∧
        size > 0) :=
  generate_delta_lowlatency_partitions_new_objects sample_delta_env delta_repo_a
    sample_commit_csum sample_commit_b_csum 0 sample_delta_zero_builder sample_from_reachable
    sample_to_reachable (fun l => List.reverse_perm l) (by decide!) (by decide!) (by decide!)


/-! ## Scanning metadata: the case analysis and the unfolding -/

/-- C21: when `ostree_repo_has_object` answers for the object,
`scan_one_metadata_object_c (csum, kind)` equals the case analysis
`scan_one_metadata_object_c_cases`: (1) for an object in `scanned_metadata` it
succeeds and changes nothing; (2) for an object that is not stored and whose
checksum is not in `requested_metadata` it succeeds, adds the checksum to
`requested_metadata`, hands exactly one request to the fetcher, with
`is_detached_meta` set exactly for a commit, and leaves `scanned_metadata`
unchanged; (3) for a stored object it recurses exactly when
`transaction_resuming` holds or the checksum is in `requested_metadata`, and
on success adds the object to `scanned_metadata` and increments
`n_scanned_metadata`; (4) for an object that is not stored and already
requested it succeeds and changes nothing. -/
theorem scan_one_metadata_object_c_case_analysis (env : PullEnv) (pull_data : OtPullData)
    (csum : Checksum) (kind : OstreeObjectType) (recursion_depth : Nat) (is_stored : Bool)
    (hstored : ostree_repo_has_object pull_data.repo kind csum = .ok is_stored) :
    scan_one_metadata_object_c env pull_data csum kind recursion_depth =
      scan_one_metadata_object_c_cases env pull_data csum kind recursion_depth ∧
    ((csum, kind) ∈ pull_data.scanned_metadata →
      scan_one_metadata_object_c env pull_data csum kind recursion_depth = (pull_data, none)) ∧
    ((csum, kind) ∉ pull_data.scanned_metadata → is_stored = false →
      csum ∉ pull_data.requested_metadata →
      (scan_one_metadata_object_c env pull_data csum kind recursion_depth).2 = none ∧
      (scan_one_metadata_object_c env pull_data csum kind
        recursion_depth).1.requested_metadata = csum :: pull_data.requested_metadata ∧
      (scan_one_metadata_object_c env pull_data csum kind recursion_depth).1.fetch_requests =
        pull_data.fetch_requests ++
          [{ checksum := csum, objtype := kind,
             is_detached_meta := decide (kind = OstreeObjectType.COMMIT) }] ∧
      (scan_one_metadata_object_c env pull_data csum kind
        recursion_depth).1.scanned_metadata = pull_data.scanned_metadata) ∧
    ((csum, kind) ∉ pull_data.scanned_metadata → is_stored = false →
      csum ∈ pull_data.requested_metadata →
      scan_one_metadata_object_c env pull_data csum kind recursion_depth =
        (pull_data, none)) := by
  have heq : scan_one_metadata_object_c env pull_data csum kind recursion_depth =
      scan_one_metadata_object_c_cases env pull_data csum kind recursion_depth := by
    rw [scan_one_metadata_object_c_eq]
    unfold scan_one_metadata_object_c_body scan_one_metadata_object_c_cases scan_stored_object
    rw [hstored]
    by_cases hs : (csum, kind) ∈ pull_data.scanned_metadata
    · simp only [hs, if_true]
    · simp only [hs, if_false]
      cases is_stored with
      | false =>
        by_cases hr : csum ∈ pull_data.requested_metadata
        · simp [hr]
        · simp [hr, ghash_insert]
      | true =>
        simp only [Bool.not_true, Bool.false_and, Bool.false_eq_true, if_false, decide_True,
          if_true]
        cases kind <;> rfl
  refine ⟨heq, ?_, ?_, ?_⟩
  · intro hs
    rw [heq]
    unfold scan_one_metadata_object_c_cases
    simp only [hs, if_true]
  · intro hs hf hr
    subst hf
    rw [heq]
    unfold scan_one_metadata_object_c_cases
    rw [hstored]
    simp only [hs, if_false, hr, decide_False, Bool.not_false, Bool.and_self, if_true]
    have hne : ¬ ((Except.ok false : Except GError Bool) = Except.ok true) := by simp
    simp only [hne, decide_False, Bool.not_false, Bool.and_self, if_true]
    refine ⟨trivial, ?_, ?_, ?_⟩
    · exact (enqueue_one_object_request_meta_sets _ _ _ _).2.1
    · unfold enqueue_one_object_request
      split <;> rfl
    · exact (enqueue_one_object_request_meta_sets _ _ _ _).1
  · intro hs hf hr
    subst hf
    rw [heq]
    unfold scan_one_metadata_object_c_cases
    rw [hstored]
    simp [hs, hr]

/-- Witness for C21: the sample commit scanned in the empty repository, where it is neither
stored nor requested. -/
theorem scan_one_metadata_object_c_case_analysis_witness :
    scan_one_metadata_object_c sample_env (OtPullData.init empty_repo false false)
        sample_commit_csum OstreeObjectType.COMMIT 0 =
      scan_one_metadata_object_c_cases sample_env (OtPullData.init empty_repo false false)
        sample_commit_csum OstreeObjectType.COMMIT 0 ∧
    (scan_one_metadata_object_c sample_env (OtPullData.init empty_repo false false)
        sample_commit_csum OstreeObjectType.COMMIT 0).1.fetch_requests =
      (OtPullData.init empty_repo false false).fetch_requests ++
        [{ checksum := sample_commit_csum, objtype := OstreeObjectType.COMMIT,
           is_detached_meta := decide (OstreeObjectType.COMMIT = OstreeObjectType.COMMIT) }] :=
  have h := scan_one_metadata_object_c_case_analysis sample_env
    (OtPullData.init empty_repo false false) sample_commit_csum OstreeObjectType.COMMIT 0 false
    (by decide!)
  ⟨h.1, (h.2.2.1 (by decide) rfl (by decide)).2.2.1⟩

theorem scan_iterate_eq (env : PullEnv) (bottom : ScanFn) :
    ∀ (fuel recursion_depth : Nat), env.OSTREE_MAX_RECURSION + 1 - recursion_depth ≤ fuel →
      ∀ (pull_data : OtPullData) (csum : Checksum) (objtype : OstreeObjectType),
        scan_iterate env bottom (fuel + 1) pull_data csum objtype recursion_depth =
          scan_one_metadata_object_c env pull_data csum objtype recursion_depth := by
  intro fuel
  induction fuel with
  | zero =>
    intro recursion_depth hfuel pull_data csum objtype
    rw [scan_one_metadata_object_c_eq]
    simp only [scan_iterate]
    apply scan_one_metadata_object_c_body_congr
    intro hle
    omega
  | succ n ih =>
    intro recursion_depth hfuel pull_data csum objtype
    rw [scan_one_metadata_object_c_eq]
    rw [scan_iterate]
    apply scan_one_metadata_object_c_body_congr
    intro hle pd c k
    exact ih (recursion_depth + 1) (by omega) pd c k

/-- C30: `scan_one_metadata_object_c` returns for every object store and every pull
state, cyclic directory trees and a resumed transaction included: unfolding
its body `OSTREE_MAX_RECURSION + 2 - recursion_depth` times or more gives its
result whatever stands below the last unfolding, so no call is nested deeper;
for `scan_commit_object` and `scan_dirtree_object` refuse to proceed once
`recursion_depth` exceeds `OSTREE_MAX_RECURSION`, and the body makes its
nested calls with `recursion_depth + 1` only. -/
theorem scan_one_metadata_object_c_terminates (env : PullEnv) (bottom : ScanFn)
    (fuel : Nat) (pull_data : OtPullData) (csum : Checksum) (objtype : OstreeObjectType)
    (recursion_depth : Nat)
    (hfuel : env.OSTREE_MAX_RECURSION + 1 - recursion_depth ≤ fuel) :
    scan_iterate env bottom (fuel + 1) pull_data csum objtype recursion_depth =
      scan_one_metadata_object_c env pull_data csum objtype recursion_depth ∧
    (recursion_depth > env.OSTREE_MAX_RECURSION →
      scan_commit_object env bottom pull_data csum recursion_depth =
        (pull_data, some recursion_error) ∧
      scan_dirtree_object env bottom pull_data csum recursion_depth =
        (pull_data, some recursion_error)) ∧
    (∀ r1 r2 : ScanFn,
      (∀ pd c k, r1 pd c k (recursion_depth + 1) = r2 pd c k (recursion_depth + 1)) →
      scan_one_metadata_object_c_body env r1 pull_data csum objtype recursion_depth =
        scan_one_metadata_object_c_body env r2 pull_data csum objtype recursion_depth) := by
  refine ⟨scan_iterate_eq env bottom fuel recursion_depth hfuel pull_data csum objtype, ?_, ?_⟩
  · intro hd
    unfold scan_commit_object scan_dirtree_object
    simp [hd]
  · intro r1 r2 h
    exact scan_one_metadata_object_c_body_congr env r1 r2 recursion_depth (fun _ => h)
      pull_data csum objtype

/-- Witness for C30: the stored tree that contains itself, scanned while a
transaction is resumed, with 258 unfoldings over a function that never fails. -/
theorem scan_one_metadata_object_c_terminates_witness :
    scan_iterate sample_env (fun pd _ _ _ => (pd, none)) (257 + 1) self_tree_state
        sample_tree_csum OstreeObjectType.DIR_TREE 0 =
      scan_one_metadata_object_c sample_env self_tree_state sample_tree_csum
        OstreeObjectType.DIR_TREE 0 :=
  (scan_one_metadata_object_c_terminates sample_env (fun pd _ _ _ => (pd, none)) 257
    self_tree_state sample_tree_csum OstreeObjectType.DIR_TREE 0 (by decide)).1


end Ostree
